import Mathlib

/-!
# CoAP transaction engine (`src/core/coap/coap.cpp`)

A shallow embedding of `ot::Coap::CoapBase`, `ot::Coap::ResponsesQueue` and
`ot::Coap::TxParameters`, followed by theorems about them.

Conventions of the embedding.

* A message buffer is a record of its parsed parts (header fields, token, option
  list, payload) together with the block-wise help data that the `Message` object
  carries.  The `Metadata` trailer that the code appends to a stored copy is kept
  in a companion record next to the stored message.
* The pending-request queue is a list in queue order.  A `Message *` into the
  queue is a position in that list.
* Machine integers are naturals, reduced modulo `2^w` where the code can wrap.
  Times are naturals, in milliseconds of a monotonic clock.
* A message is well formed: iterating over its options does not fail.
* Collaborators that live outside `coap.cpp` (clock, random source, buffer pool,
  transport, application callbacks) are read from an `Env` record, one per call of
  the engine.  Every call of the transport or of an application callback is
  appended to `CoapBase.mTrace`.  Callbacks do not call back into the engine.
* The embedding is of a build with `OPENTHREAD_CONFIG_COAP_OBSERVE_API_ENABLE`,
  `OPENTHREAD_CONFIG_COAP_BLOCKWISE_TRANSFER_ENABLE` and
  `OPENTHREAD_CONFIG_BACKBONE_ROUTER_ENABLE` set.
-/

namespace Coap

/-! ## Errors, message types, codes and option numbers -/

/-- The values of `otError` that `coap.cpp` produces or inspects;
`kErrorFailed` also stands for any other failure reported by a callback. -/
inductive Error
  | kErrorNone
  | kErrorFailed
  | kErrorDrop
  | kErrorNoBufs
  | kErrorBusy
  | kErrorParse
  | kErrorInvalidArgs
  | kErrorAbort
  | kErrorInvalidState
  | kErrorNotFound
  | kErrorResponseTimeout
  | kErrorNoFrameReceived
  deriving DecidableEq, Repr

/-- The CoAP message type (`ot::Coap::Type`). -/
inductive CoapType
  | kTypeConfirmable
  | kTypeNonConfirmable
  | kTypeAck
  | kTypeReset
  deriving DecidableEq, Repr

/-- Modelled from the spec: the block direction `Message::BlockType`, declared in
`coap_message.hpp` outside src/ (Block1 is the upload, Block2 the download). -/
inductive BlockType
  | kBlockType1
  | kBlockType2
  deriving DecidableEq, Repr

/-! The message codes, option numbers and the block length limit are declared
outside src/ (`coap_message.hpp`, `coap.h`); they are the numbers of RFC 7252,
RFC 7641 and RFC 7959. -/

/-- Modelled from the spec: the empty code 0.00. -/
def kCodeEmpty : Nat := 0
/-- Modelled from the spec: the request code GET, 0.01. -/
def kCodeGet : Nat := 1
/-- Modelled from the spec: the request code POST, 0.02. -/
def kCodePost : Nat := 2
/-- Modelled from the spec: the request code DELETE, 0.04, the last request code. -/
def kCodeDelete : Nat := 4
/-- Modelled from the spec: the smallest response code, 2.00. -/
def kCodeResponseMin : Nat := 64
/-- Modelled from the spec: the response code Changed, 2.04. -/
def kCodeChanged : Nat := 68
/-- Modelled from the spec: the response code Content, 2.05. -/
def kCodeContent : Nat := 69
/-- Modelled from the spec: the response code Continue, 2.31. -/
def kCodeContinue : Nat := 95
/-- Modelled from the spec: the response code Bad Request, 4.00. -/
def kCodeBadRequest : Nat := 128
/-- Modelled from the spec: the response code Not Found, 4.04. -/
def kCodeNotFound : Nat := 132
/-- Modelled from the spec: the response code Request Entity Incomplete, 4.08. -/
def kCodeRequestIncomplete : Nat := 136
/-- Modelled from the spec: the response code Request Entity Too Large, 4.13. -/
def kCodeRequestTooLarge : Nat := 141
/-- Modelled from the spec: the response code Internal Server Error, 5.00. -/
def kCodeInternalError : Nat := 160

/-- Modelled from the spec: the number of the Observe option. -/
def kOptionObserve : Nat := 6
/-- Modelled from the spec: the number of the Uri-Path option. -/
def kOptionUriPath : Nat := 11
/-- Modelled from the spec: the number of the Block2 option. -/
def kOptionBlock2 : Nat := 23
/-- Modelled from the spec: the number of the Block1 option. -/
def kOptionBlock1 : Nat := 27
/-- Modelled from the spec: the number of the Size2 option. -/
def kOptionSize2 : Nat := 28
/-- Modelled from the spec: the number of the Size1 option. -/
def kOptionSize1 : Nat := 60

/-- Modelled from the spec: the largest block, 1024 bytes. -/
def kMaxBlockLength : Nat := 1024

/-- Modelled from the spec: `Message::kMaxReceivedUriPath` (declared in
`coap_message.hpp`, outside src/), the longest URI path of a received request. -/
def kMaxReceivedUriPath : Nat := 32

/-! ## Time, addresses and message info -/

/-- Modelled from the spec: `TimeMilli` is declared outside src/; the spec gives
the engine a monotonic millisecond clock, so a time is a number of milliseconds
and an earlier time is a smaller number.  Durations are 32-bit numbers. -/
abbrev TimeMilli := Nat

/-- Modelled from the spec: `Ip6::Address` is declared outside src/; an address is
its 128-bit value, most significant byte first. -/
abbrev Address := Nat

/-- Modelled from the spec: a multicast IPv6 address has first byte `0xff`. -/
def Address.IsMulticast (a : Address) : Bool :=
  a / 2 ^ 120 % 256 == 255

/-- Modelled from the spec: the interface identifier (low 64 bits) is an anycast
locator when it reads `0000:00ff:fe00:fcXX`. -/
def Address.IsAnycastLocator (a : Address) : Bool :=
  a % 2 ^ 64 / 256 == 0x000000fffe00fc

/-- Modelled from the spec: the fields of `Ip6::MessageInfo` that `coap.cpp`
reads or writes. -/
structure MessageInfo where
  mSockAddr : Address
  mPeerAddr : Address
  mSockPort : Nat
  mPeerPort : Nat
  mHopLimit : Nat
  mMulticastLoop : Bool
  mIsHostInterface : Bool
  deriving DecidableEq, Repr

/-- Modelled from the spec: a default-constructed `Ip6::MessageInfo`, all fields zero. -/
def MessageInfo.clear : MessageInfo :=
  { mSockAddr := 0, mPeerAddr := 0, mSockPort := 0, mPeerPort := 0, mHopLimit := 0,
    mMulticastLoop := false, mIsHostInterface := false }

/-- Modelled from the spec: `MessageInfo::HasSamePeerAddrAndPort` (declared outside
src/). -/
def MessageInfo.HasSamePeerAddrAndPort (a b : MessageInfo) : Bool :=
  a.mPeerAddr == b.mPeerAddr && a.mPeerPort == b.mPeerPort

/-! ## Messages -/

/-- Modelled from the spec: one CoAP option (`Coap::Option`, declared outside src/), its
number and its value bytes. -/
structure CoapOption where
  mNumber : Nat
  mValue : List Nat
  deriving DecidableEq, Repr

/-- The length of the option value. -/
def CoapOption.GetLength (o : CoapOption) : Nat := o.mValue.length

/-- Modelled from the spec: a `Coap::Message` (declared in `coap_message.hpp`,
outside src/) as its parsed parts: header fields, token, options in the order
they are serialised, payload, and the block-wise help data. -/
structure Message where
  mType : CoapType
  mCode : Nat
  mMessageId : Nat
  mToken : List Nat
  mOptions : List CoapOption
  mPayload : List Nat
  mBlockWiseBlockNumber : Nat
  mMoreBlocksFlag : Bool
  mBlockWiseBlockSize : Nat
  deriving DecidableEq, Repr

namespace Message

/-- Modelled from the spec: the effect of `Message::Init(aType, aCode)` (declared
outside src/) on a fresh buffer: the header is set, there is no token, no option
and no payload. -/
def Init (aType : CoapType) (aCode : Nat) : Message :=
  { mType := aType, mCode := aCode, mMessageId := 0, mToken := [], mOptions := [],
    mPayload := [], mBlockWiseBlockNumber := 0, mMoreBlocksFlag := false,
    mBlockWiseBlockSize := 0 }

/-- Modelled from the spec: `Message::IsConfirmable` (declared outside src/). -/
def IsConfirmable (m : Message) : Bool := m.mType == CoapType.kTypeConfirmable
/-- Modelled from the spec: `Message::IsNonConfirmable` (declared outside src/). -/
def IsNonConfirmable (m : Message) : Bool := m.mType == CoapType.kTypeNonConfirmable
/-- Modelled from the spec: `Message::IsEmpty` (declared outside src/): the code is 0.00. -/
def IsEmpty (m : Message) : Bool := m.mCode == kCodeEmpty
/-- Modelled from the spec: `Message::IsRequest` (declared outside src/): the code is
one of GET, POST, PUT, DELETE. -/
def IsRequest (m : Message) : Bool := decide (kCodeGet ≤ m.mCode) && decide (m.mCode ≤ kCodeDelete)
/-- Modelled from the spec: `Message::IsGetRequest` (declared outside src/). -/
def IsGetRequest (m : Message) : Bool := m.mCode == kCodeGet
/-- Modelled from the spec: `Message::IsResponse` (declared outside src/): the code is
2.00 or above. -/
def IsResponse (m : Message) : Bool := decide (kCodeResponseMin ≤ m.mCode)
/-- Modelled from the spec: `Message::IsTokenEqual` (declared outside src/): same
token length and same token bytes. -/
def IsTokenEqual (m other : Message) : Bool := m.mToken == other.mToken

/-- Modelled from the spec: the option that `Option::Iterator::Init(aMessage,
aNumber)` (declared outside src/) stops at, the first option with that number. -/
def findOption (m : Message) (aNumber : Nat) : Option CoapOption :=
  m.mOptions.find? (fun o => o.mNumber == aNumber)

end Message

/-- Big-endian value of a byte list. -/
def readUint (bytes : List Nat) : Nat :=
  bytes.foldl (fun acc b => acc * 256 + b) 0

/-- Modelled from the spec: `Option::Iterator::ReadOptionValue(uint64_t &)`
(declared outside src/) reads an option of at most eight bytes as a big-endian
number and fails with `kErrorNoBufs` on a longer one. -/
def ReadOptionValueUint (o : CoapOption) : Except Error Nat :=
  if o.GetLength ≤ 8 then .ok (readUint o.mValue) else .error Error.kErrorNoBufs

/-- Modelled from the spec: `otCoapBlockSizeFromExponent` (declared outside src/);
the size exponents 0 to 6 stand for 16 to 1024 bytes. -/
def otCoapBlockSizeFromExponent (aSize : Nat) : Nat := 2 ^ (aSize + 4)

/-! ## Block option codec -/

/-- Modelled from the spec: the minimal big-endian encoding of a number that
`Message::AppendUintOption` (declared outside src/) writes: no leading zero byte,
and no byte at all for zero. -/
def encodeUint (fuel v : Nat) : List Nat :=
  match fuel with
  | 0 => []
  | fuel + 1 => if v = 0 then [] else encodeUint fuel (v / 256) ++ [v % 256]

namespace Message

/-- Modelled from the spec: `Message::ReadBlockOptionValues` (declared outside
src/) finds the block option of the given number and unpacks its one to three
value bytes into block number (upper bits), more-flag (bit 3) and size exponent
(low three bits).  It fails with `kErrorNotFound` when the option is absent and
with `kErrorInvalidArgs` when the value is longer than three bytes. -/
def ReadBlockOptionValues (m : Message) (aBlockType : Nat) : Error × Message :=
  if aBlockType ≠ kOptionBlock1 ∧ aBlockType ≠ kOptionBlock2 then
    (Error.kErrorInvalidArgs, m)
  else
    match m.findOption aBlockType with
    | none => (Error.kErrorNotFound, m)
    | some o =>
      if o.GetLength ≤ 3 then
        let v := readUint o.mValue
        (Error.kErrorNone,
          { m with mBlockWiseBlockNumber := v / 16,
                   mMoreBlocksFlag := v / 8 % 2 == 1,
                   mBlockWiseBlockSize := v % 8 })
      else
        (Error.kErrorInvalidArgs, { m with mBlockWiseBlockNumber := 0, mMoreBlocksFlag := false })

/-- Modelled from the spec: the number of the last option appended (`mOptionLast`
of the help data), zero when there is none. -/
def optionLast (m : Message) : Nat :=
  match m.mOptions.getLast? with
  | some o => o.mNumber
  | none => 0

/-- Modelled from the spec: `Message::AppendOption` (declared outside src/).
Options are delta-encoded, so an option whose number is below the last one is
refused with `kErrorInvalidArgs`; `aRoom` tells whether the buffer could grow,
and `kErrorNoBufs` is the result when it could not. -/
def AppendOption (m : Message) (aRoom : Bool) (aNumber : Nat) (aValue : List Nat) : Error × Message :=
  if aNumber < m.optionLast then (Error.kErrorInvalidArgs, m)
  else if !aRoom then (Error.kErrorNoBufs, m)
  else (Error.kErrorNone, { m with mOptions := m.mOptions ++ [{ mNumber := aNumber, mValue := aValue }] })

/-- Modelled from the spec: `Message::AppendBlockOption` (declared outside src/)
packs size exponent, more-flag and block number into one number and appends it
as a minimal-length uint option; a size exponent above 6 or a block number of
`0xFFFFF` or more is refused with `kErrorInvalidArgs`. -/
def AppendBlockOption (m : Message) (aRoom : Bool) (aType : BlockType) (aNum : Nat) (aMore : Bool)
    (aSize : Nat) : Error × Message :=
  if 6 < aSize then (Error.kErrorInvalidArgs, m)
  else if 0xFFFFF ≤ aNum then (Error.kErrorInvalidArgs, m)
  else
    m.AppendOption aRoom (if aType = BlockType.kBlockType1 then kOptionBlock1 else kOptionBlock2)
      (encodeUint 4 (aSize + (if aMore then 8 else 0) + aNum * 16))

end Message

/-! ## Transmission parameters -/

/-- Constants that `coap.cpp` uses and that are declared outside src/ (in
`coap.hpp` and in the public `coap.h`); the theorems hold for every value of them
unless they say otherwise. -/
structure Config where
  OT_COAP_MIN_ACK_TIMEOUT : Nat
  OT_COAP_MAX_RETRANSMIT : Nat
  kDefaultMaxLatency : Nat
  kMaxCachedResponses : Nat
  kDefaultAckTimeout : Nat
  kDefaultAckRandomFactorNumerator : Nat
  kDefaultAckRandomFactorDenominator : Nat
  kDefaultMaxRetransmit : Nat

/-- The values these constants have in OpenThread. -/
def Config.openthread : Config :=
  { OT_COAP_MIN_ACK_TIMEOUT := 1000, OT_COAP_MAX_RETRANSMIT := 20, kDefaultMaxLatency := 100000,
    kMaxCachedResponses := 10, kDefaultAckTimeout := 2000, kDefaultAckRandomFactorNumerator := 3,
    kDefaultAckRandomFactorDenominator := 2, kDefaultMaxRetransmit := 4 }

/-- The record `otCoapTxParameters`: a 32-bit timeout and three 8-bit fields. -/
structure TxParameters where
  mAckTimeout : Nat
  mAckRandomFactorNumerator : Nat
  mAckRandomFactorDenominator : Nat
  mMaxRetransmit : Nat
  deriving DecidableEq, Repr

/-- The field ranges of `otCoapTxParameters`. -/
def TxParameters.InRange (p : TxParameters) : Prop :=
  p.mAckTimeout < 2 ^ 32 ∧ p.mAckRandomFactorNumerator < 256 ∧
    p.mAckRandomFactorDenominator < 256 ∧ p.mMaxRetransmit < 256

instance (p : TxParameters) : Decidable p.InRange := by
  unfold TxParameters.InRange; infer_instance

/-- Return product of `aValueA` and `aValueB` if no overflow otherwise 0. -/
def Multiply (aValueA aValueB : Nat) : Nat :=
  if aValueA = 0 then 0
  else
    let result := aValueA * aValueB % 2 ^ 32
    if result / aValueA = aValueB then result else 0

/-- The 32-bit value of `(1U << n) - 1`, for `n < 32` (the shift is undefined in
C beyond that). -/
def shiftMask (n : Nat) : Nat := (2 ^ n % 2 ^ 32 + 2 ^ 32 - 1) % 2 ^ 32

namespace TxParameters

def GetDefault (cfg : Config) : TxParameters :=
  { mAckTimeout := cfg.kDefaultAckTimeout,
    mAckRandomFactorNumerator := cfg.kDefaultAckRandomFactorNumerator,
    mAckRandomFactorDenominator := cfg.kDefaultAckRandomFactorDenominator,
    mMaxRetransmit := cfg.kDefaultMaxRetransmit }

def IsValid (cfg : Config) (p : TxParameters) : Bool :=
  if 0 < p.mAckRandomFactorDenominator ∧ p.mAckRandomFactorDenominator ≤ p.mAckRandomFactorNumerator ∧
      cfg.OT_COAP_MIN_ACK_TIMEOUT ≤ p.mAckTimeout ∧ p.mMaxRetransmit ≤ cfg.OT_COAP_MAX_RETRANSMIT then
    let tmp := Multiply p.mAckTimeout (shiftMask (p.mMaxRetransmit + 1))
    let tmp := Multiply tmp p.mAckRandomFactorNumerator
    let tmp := tmp / p.mAckRandomFactorDenominator
    decide (tmp ≠ 0) && decide (tmp < (tmp + p.mAckTimeout + 2 * cfg.kDefaultMaxLatency) % 2 ^ 32)
  else false

def CalculateSpan (p : TxParameters) (aMaxRetx : Nat) : Nat :=
  p.mAckTimeout * shiftMask aMaxRetx % 2 ^ 32 / p.mAckRandomFactorDenominator *
    p.mAckRandomFactorNumerator % 2 ^ 32

def CalculateExchangeLifetime (cfg : Config) (p : TxParameters) : Nat :=
  (p.CalculateSpan p.mMaxRetransmit + 2 * cfg.kDefaultMaxLatency + p.mAckTimeout) % 2 ^ 32

def CalculateMaxTransmitWait (p : TxParameters) : Nat :=
  p.CalculateSpan ((p.mMaxRetransmit + 1) % 256)

/-- Modelled from the spec: `Random::NonCrypto::GetUint32InRange(aMin, aMax)`
(declared outside src/) draws from `[aMin, aMax)`; `aRandom` is the 32-bit value
the generator produced. -/
def GetUint32InRange (aRandom aMin aMax : Nat) : Nat :=
  (aMin + aRandom % ((aMax + 2 ^ 32 - aMin) % 2 ^ 32)) % 2 ^ 32

def CalculateInitialRetransmissionTimeout (p : TxParameters) (aRandom : Nat) : Nat :=
  GetUint32InRange aRandom p.mAckTimeout
    ((p.mAckTimeout * p.mAckRandomFactorNumerator % 2 ^ 32 / p.mAckRandomFactorDenominator + 1) % 2 ^ 32)

end TxParameters

/-! ## Engine state -/

/-- The record `CoapBase::Metadata` kept with every stored request copy.  A
callback is named by a number, `none` being the null pointer. -/
structure Metadata where
  mSourceAddress : Address
  mDestinationAddress : Address
  mDestinationPort : Nat
  mResponseHandler : Option Nat
  mResponseContext : Nat
  mNextTimerShot : TimeMilli
  mRetransmissionTimeout : Nat
  mRetransmissionsRemaining : Nat
  mHopLimit : Nat
  mAcknowledged : Bool
  mConfirmable : Bool
  mMulticastLoop : Bool
  mIsHostInterface : Bool
  mObserve : Bool
  mBlockwiseReceiveHook : Option Nat
  mBlockwiseTransmitHook : Option Nat
  deriving DecidableEq, Repr

/-- One element of `mPendingRequests`: the stored copy and its trailer. -/
structure PendingRequest where
  mMessage : Message
  mMetadata : Metadata
  deriving DecidableEq, Repr

/-- The record `ResponsesQueue::ResponseMetadata`. -/
structure ResponseMetadata where
  mDequeueTime : TimeMilli
  mMessageInfo : MessageInfo
  deriving DecidableEq, Repr

/-- One element of the responses queue: the cached response and its trailer. -/
structure CachedResponse where
  mMessage : Message
  mMetadata : ResponseMetadata
  deriving DecidableEq, Repr

/-- The class `ResponsesQueue`; a timer is `none` when stopped and `some t` when
armed to fire at `t`. -/
structure ResponsesQueue where
  mQueue : List CachedResponse
  mTimer : Option TimeMilli
  deriving DecidableEq, Repr

/-- A `Resource`: URI path, handler and context. -/
structure Resource where
  mUriPath : String
  mHandler : Option Nat
  mContext : Nat
  deriving DecidableEq, Repr

/-- A `ResourceBlockWise`: a resource with its two block-wise hooks. -/
structure ResourceBlockWise where
  mUriPath : String
  mHandler : Option Nat
  mContext : Nat
  mReceiveHook : Option Nat
  mTransmitHook : Option Nat
  deriving DecidableEq, Repr

/-- A call that leaves the engine: to the transport or to an application callback. -/
inductive Event
  | send (aMessage : Message) (aMessageInfo : MessageInfo)
  | responseHandler (aHandler aContext : Nat) (aMessage : Option Message)
      (aMessageInfo : Option MessageInfo) (aResult : Error)
  | transmitHook (aHook aContext aPosition aBlockLength : Nat)
  | receiveHook (aHook aContext : Nat) (aBlock : List Nat) (aPosition : Nat) (aMore : Bool)
      (aTotalLength : Nat)
  | interceptor (aMessage : Message) (aMessageInfo : MessageInfo)
  | resourceHandler (aUriPath : String) (aMessage : Message) (aMessageInfo : MessageInfo)
  | requestHandler (aHandler aContext : Nat) (aMessage : Message) (aMessageInfo : MessageInfo)
  | defaultHandler (aMessage : Message) (aMessageInfo : MessageInfo)
  deriving DecidableEq, Repr

/-- What the collaborators outside `coap.cpp` answer during one call of the engine. -/
structure Env where
  /-- The value of `TimerMilli::GetNow()`, in milliseconds. -/
  mNow : TimeMilli
  /-- The 32-bit value drawn by the random source. -/
  mRandom : Nat
  /-- Whether `NewMessage()` returns a buffer. -/
  mNewMessage : Bool
  /-- Whether `Clone` of the given message returns a buffer. -/
  mClone : Message → Bool
  /-- Whether the buffer of the given message can grow (`AppendBytes`, `AppendTo`). -/
  mAppend : Message → Bool
  /-- The result of the transport `mSender`. -/
  mSender : Message → MessageInfo → Error
  /-- The block-wise transmit hook `(hook, context, position, block length)`: its
  result, the bytes it wrote and its more-flag. -/
  mTransmitHook : Nat → Nat → Nat → Nat → Error × List Nat × Bool
  /-- The result of the block-wise receive hook
  `(hook, context, block, position, more, total length)`. -/
  mReceiveHook : Nat → Nat → List Nat → Nat → Bool → Nat → Error
  /-- The result of the interceptor for a received message. -/
  mInterceptor : Message → MessageInfo → Error
  /-- Whether the catch-all resource handler `mResourceHandler` takes the request
  with the given URI path. -/
  mResourceHandler : String → Message → MessageInfo → Bool
  /-- The bytes, each below 256, that `Metadata::AppendTo` writes behind a stored
  copy for the given record (`Message::FooterData` and the layout of `Metadata`
  are declared outside src/). -/
  mFooter : Metadata → List Nat

/-- The class `CoapBase`, with the trace of the calls that left the engine. -/
structure CoapBase where
  mMessageId : Nat
  mPendingRequests : List PendingRequest
  mRetransmissionTimer : Option TimeMilli
  mResponsesQueue : ResponsesQueue
  mLastResponse : Option Message
  mResourceHandler : Option Nat
  mResources : List Resource
  mBlockWiseResources : List ResourceBlockWise
  mInterceptor : Option Nat
  mDefaultHandler : Option Nat
  mTrace : List Event
  deriving DecidableEq, Repr

/-- The state the constructor `CoapBase::CoapBase` leaves, with message-ID
counter `aMessageId` (the constructor draws it at random). -/
def CoapBase.init (aMessageId : Nat) : CoapBase :=
  { mMessageId := aMessageId, mPendingRequests := [], mRetransmissionTimer := none,
    mResponsesQueue := { mQueue := [], mTimer := none }, mLastResponse := none,
    mResourceHandler := none, mResources := [], mBlockWiseResources := [],
    mInterceptor := none, mDefaultHandler := none, mTrace := [] }

/-! ## Timers -/

/-- Modelled from the spec: `NextFireTime` (declared outside src/) collects the
earliest of the times given to it, none of them taken earlier than the time at
which it was created; it is unset until the first update. -/
structure NextFireTime where
  mNow : TimeMilli
  mNextTime : Option TimeMilli
  deriving DecidableEq, Repr

def NextFireTime.UpdateIfEarlier (n : NextFireTime) (aTime : TimeMilli) : NextFireTime :=
  { n with mNextTime := some (match n.mNextTime with
                              | none => max n.mNow aTime
                              | some t => min t (max n.mNow aTime)) }

/-- Modelled from the spec: `Timer::FireAt(NextFireTime)` (declared outside src/)
arms the timer at the collected time and stops it when none was collected. -/
def FireAt (n : NextFireTime) : Option TimeMilli := n.mNextTime

/-- Modelled from the spec: `Timer::FireAtIfEarlier` (declared outside src/) arms
the timer at the given time unless it is already armed for an earlier one. -/
def FireAtIfEarlier (aTimer : Option TimeMilli) (aTime : TimeMilli) : Option TimeMilli :=
  match aTimer with
  | none => some aTime
  | some t => some (min t aTime)

/-! ## Responses queue -/

namespace ResponsesQueue

def FindMatchedResponse (q : ResponsesQueue) (aRequest : Message) (aMessageInfo : MessageInfo) :
    Option CachedResponse :=
  q.mQueue.find? (fun r =>
    r.mMessage.mMessageId == aRequest.mMessageId &&
      r.mMetadata.mMessageInfo.HasSamePeerAddrAndPort aMessageInfo)

/-- The loop of `UpdateQueue`: `aIndex` is the position of the next entry and
`aEarliest` the position and dequeue time of `earliestMsg`, `none` while it is
null.  An entry replaces `earliestMsg` only when its time is strictly earlier. -/
def earliestLoop : List CachedResponse → Nat → Option (Nat × Nat) → Option (Nat × Nat)
  | [], _, aEarliest => aEarliest
  | r :: rs, aIndex, aEarliest =>
    earliestLoop rs (aIndex + 1)
      (match aEarliest with
       | none => some (aIndex, r.mMetadata.mDequeueTime)
       | some (i, t) =>
         if r.mMetadata.mDequeueTime < t then some (aIndex, r.mMetadata.mDequeueTime)
         else some (i, t))

def UpdateQueue (cfg : Config) (q : ResponsesQueue) : ResponsesQueue :=
  if cfg.kMaxCachedResponses ≤ q.mQueue.length then
    match earliestLoop q.mQueue 0 none with
    | some (i, _) => { q with mQueue := q.mQueue.eraseIdx i }
    | none => q
  else q

def EnqueueResponse (cfg : Config) (env : Env) (q : ResponsesQueue) (aMessage : Message)
    (aMessageInfo : MessageInfo) (aTxParameters : TxParameters) : ResponsesQueue :=
  let metadata : ResponseMetadata :=
    { mDequeueTime := env.mNow + aTxParameters.CalculateExchangeLifetime cfg,
      mMessageInfo := aMessageInfo }
  if (q.FindMatchedResponse aMessage aMessageInfo).isSome then q
  else
    let q1 := q.UpdateQueue cfg
    if !env.mClone aMessage then q1
    else if !env.mAppend aMessage then q1
    else
      { mQueue := q1.mQueue ++ [{ mMessage := aMessage, mMetadata := metadata }],
        mTimer := FireAtIfEarlier q1.mTimer metadata.mDequeueTime }

def DequeueAllResponses (_q : ResponsesQueue) : ResponsesQueue :=
  { mQueue := [], mTimer := none }

/-- The call `GetMatchedResponseCopy`: the error and `*aResponse`.  The copy is
the cached message without its `ResponseMetadata` trailer; the queue is only
read. -/
def GetMatchedResponseCopy (env : Env) (q : ResponsesQueue) (aRequest : Message)
    (aMessageInfo : MessageInfo) : Error × Option Message :=
  match q.FindMatchedResponse aRequest aMessageInfo with
  | none => (Error.kErrorNotFound, none)
  | some cacheResponse =>
    if env.mClone cacheResponse.mMessage then (Error.kErrorNone, some cacheResponse.mMessage)
    else (Error.kErrorNoBufs, none)

/-- The call `ResponsesQueue::HandleTimer`: every entry whose dequeue time has
come is removed, and the timer is armed for the earliest of the others. -/
def HandleTimer (env : Env) (q : ResponsesQueue) : ResponsesQueue :=
  let kept := q.mQueue.filter (fun r => !decide (r.mMetadata.mDequeueTime ≤ env.mNow))
  { mQueue := kept,
    mTimer := FireAt (kept.foldl (fun n r => n.UpdateIfEarlier r.mMetadata.mDequeueTime)
      { mNow := env.mNow, mNextTime := none }) }

end ResponsesQueue

/-! ## Pending requests -/

/-- The test `message.IsRequest() && metadata.mObserve && metadata.mAcknowledged`:
an RFC 7641 subscription that is already acknowledged. -/
def PendingRequest.isAckedSubscription (r : PendingRequest) : Bool :=
  r.mMessage.IsRequest && r.mMetadata.mObserve && r.mMetadata.mAcknowledged

/-- The loop of `ScheduleRetransmissionTimer`. -/
def nextRetransmissionTime (aNow : TimeMilli) (aQueue : List PendingRequest) : NextFireTime :=
  aQueue.foldl
    (fun n r => if r.isAckedSubscription then n else n.UpdateIfEarlier r.mMetadata.mNextTimerShot)
    { mNow := aNow, mNextTime := none }

/-- The calls of a response handler that `FinalizeCoapTransaction` makes: one
when the handler is set, none when it is null. -/
def handlerCall (aMetadata : Metadata) (aResponse : Option Message)
    (aMessageInfo : Option MessageInfo) (aResult : Error) : List Event :=
  match aMetadata.mResponseHandler with
  | some h => [Event.responseHandler h aMetadata.mResponseContext aResponse aMessageInfo aResult]
  | none => []

/-- Modelled from the spec: the clone of the first `GetOptionStart()` bytes of a
message (`Message::Clone(aLength)`, declared outside src/): header and token. -/
def Message.headerOnly (m : Message) : Message :=
  { m with mOptions := [], mPayload := [] }

/-- The position in the pending queue of the request that `FindRelatedRequest`
returns. -/
def findRelated (aResponse : Message) (aMessageInfo : MessageInfo) :
    List PendingRequest → Option Nat
  | [] => none
  | r :: rs =>
    if ((r.mMetadata.mDestinationAddress == aMessageInfo.mPeerAddr &&
          r.mMetadata.mDestinationPort == aMessageInfo.mPeerPort) ||
        r.mMetadata.mDestinationAddress.IsMulticast ||
        r.mMetadata.mDestinationAddress.IsAnycastLocator) &&
        (match aResponse.mType with
         | CoapType.kTypeReset => aResponse.mMessageId == r.mMessage.mMessageId
         | CoapType.kTypeAck => aResponse.mMessageId == r.mMessage.mMessageId
         | CoapType.kTypeConfirmable => aResponse.IsTokenEqual r.mMessage
         | CoapType.kTypeNonConfirmable => aResponse.IsTokenEqual r.mMessage) then
      some 0
    else (findRelated aResponse aMessageInfo rs).map (· + 1)

namespace CoapBase

/-- Append calls to the trace. -/
def emit (s : CoapBase) (aEvents : List Event) : CoapBase :=
  { s with mTrace := s.mTrace ++ aEvents }

/-- The call `Send`: hand the message to the transport `mSender`. -/
def Send (env : Env) (s : CoapBase) (aMessage : Message) (aMessageInfo : MessageInfo) :
    Error × CoapBase :=
  (env.mSender aMessage aMessageInfo, s.emit [Event.send aMessage aMessageInfo])

def ScheduleRetransmissionTimer (env : Env) (s : CoapBase) : CoapBase :=
  { s with mRetransmissionTimer := FireAt (nextRetransmissionTime env.mNow s.mPendingRequests) }

/-- The call `CopyAndEnqueueMessage`; `aCopy` is the part of the message that
`aCopyLength` selects.  The result is `none` for a null pointer; otherwise the
stored copy is the last element of the queue. -/
def CopyAndEnqueueMessage (env : Env) (s : CoapBase) (aCopy : Message) (aMetadata : Metadata) :
    Option CoapBase :=
  if !env.mClone aCopy then none
  else if !env.mAppend aCopy then none
  else
    some (ScheduleRetransmissionTimer env
      { s with mPendingRequests := s.mPendingRequests ++ [{ mMessage := aCopy, mMetadata := aMetadata }] })

/-- The call `DequeueMessage` on the stored copy at position `aRequest`. -/
def DequeueMessage (env : Env) (s : CoapBase) (aRequest : Nat) : CoapBase :=
  ScheduleRetransmissionTimer env { s with mPendingRequests := s.mPendingRequests.eraseIdx aRequest }

def FinalizeCoapTransaction (env : Env) (s : CoapBase) (aRequest : Nat) (aMetadata : Metadata)
    (aResponse : Option Message) (aMessageInfo : Option MessageInfo) (aResult : Error) : CoapBase :=
  (DequeueMessage env s aRequest).emit (handlerCall aMetadata aResponse aMessageInfo aResult)

/-- The call `FindRelatedRequest`: the position of the request and the metadata
read from it. -/
def FindRelatedRequest (s : CoapBase) (aResponse : Message) (aMessageInfo : MessageInfo) :
    Option (Nat × PendingRequest) :=
  match findRelated aResponse aMessageInfo s.mPendingRequests with
  | none => none
  | some i =>
    match s.mPendingRequests.get? i with
    | some r => some (i, r)
    | none => none

def FreeLastBlockResponse (s : CoapBase) : CoapBase :=
  { s with mLastResponse := none }

def CacheLastBlockResponse (env : Env) (s : CoapBase) (aResponse : Message) : Error × CoapBase :=
  let s1 := FreeLastBlockResponse s
  if env.mClone aResponse then (Error.kErrorNone, { s1 with mLastResponse := some aResponse })
  else (Error.kErrorNoBufs, s1)

end CoapBase

/-! ## Sending -/

/-- The step "Check for block-wise transfer" of `SendMessage`: when a transmit
hook is given and the message carries the block option `aBlockOption` with block
number 0, the hook supplies the payload of the first block.  The result is the
error, the message as the step leaves it, the hook calls made, and whether the
payload was set. -/
def firstBlock (env : Env) (aMessage : Message) (aContext : Nat) (aTransmitHook : Option Nat)
    (aBlockOption : Nat) : Error × Message × List Event × Bool :=
  match aTransmitHook with
  | none => (Error.kErrorNone, aMessage, [], false)
  | some hook =>
    let r := aMessage.ReadBlockOptionValues aBlockOption
    if r.1 ≠ Error.kErrorNone then (Error.kErrorNone, r.2, [], false)
    else if r.2.mBlockWiseBlockNumber ≠ 0 then (Error.kErrorNone, r.2, [], false)
    else
      let bufLen := otCoapBlockSizeFromExponent r.2.mBlockWiseBlockSize
      if kMaxBlockLength < bufLen then (Error.kErrorNoBufs, r.2, [], false)
      else
        let position := r.2.mBlockWiseBlockNumber * bufLen
        let h := env.mTransmitHook hook aContext position bufLen
        let calls := [Event.transmitHook hook aContext position bufLen]
        if h.1 ≠ Error.kErrorNone then (h.1, r.2, calls, false)
        else if !env.mAppend r.2 then (Error.kErrorNoBufs, r.2, calls, false)
        else (Error.kErrorNone, { r.2 with mPayload := r.2.mPayload ++ h.2.1 }, calls, true)

/-- The "Observe" step of `SendMessage` (lines 278 to 309): the value of
`observe`, and the state after a subscription found for a cancellation (a GET
with Observe = 1) has been finalized. -/
def observeStep (env : Env) (s : CoapBase) (aMessage : Message) (aMessageInfo : MessageInfo) :
    Except Error (Bool × CoapBase) :=
  match aMessage.findOption kOptionObserve with
  | none => .ok (false, s)
  | some o =>
    if aMessage.IsGetRequest then
      match ReadOptionValueUint o with
      | .error e => .error e
      | .ok observeVal =>
        if observeVal = 1 then
          match s.FindRelatedRequest aMessage aMessageInfo with
          | some (origRequest, r) =>
            .ok (false, s.FinalizeCoapTransaction env origRequest r.mMetadata none none Error.kErrorNone)
          | none => .ok (false, s)
        else .ok (true, s)
    else .ok (true, s)

/-- The metadata that `SendMessage` fills in (lines 311 to 334). -/
def newMetadata (env : Env) (aMessage : Message) (aMessageInfo : MessageInfo)
    (aTxParameters : TxParameters) (aHandler : Option Nat) (aContext : Nat)
    (aTransmitHook aReceiveHook : Option Nat) (aObserve : Bool) : Metadata :=
  let timeout := aTxParameters.CalculateInitialRetransmissionTimeout env.mRandom
  { mSourceAddress := aMessageInfo.mSockAddr
    mDestinationPort := aMessageInfo.mPeerPort
    mDestinationAddress := aMessageInfo.mPeerAddr
    mMulticastLoop := aMessageInfo.mMulticastLoop
    mResponseHandler := aHandler
    mResponseContext := aContext
    mRetransmissionsRemaining := aTxParameters.mMaxRetransmit
    mRetransmissionTimeout := timeout
    mAcknowledged := false
    mConfirmable := aMessage.IsConfirmable
    mHopLimit := aMessageInfo.mHopLimit
    mIsHostInterface := aMessageInfo.mIsHostInterface
    mBlockwiseReceiveHook := aReceiveHook
    mBlockwiseTransmitHook := aTransmitHook
    mObserve := aObserve
    mNextTimerShot :=
      env.mNow + (if aMessage.IsConfirmable then timeout else aTxParameters.CalculateMaxTransmitWait) }

namespace CoapBase

/-- The part of `SendMessage` after the switch on the message type (lines 261
to 350): store a copy when a response is awaited, send, and take the copy back
out when the send fails. -/
def sendAndStore (env : Env) (s : CoapBase) (aMessage : Message) (aMessageInfo : MessageInfo)
    (aTxParameters : TxParameters) (aHandler : Option Nat) (aContext : Nat)
    (aTransmitHook aReceiveHook : Option Nat) : Error × CoapBase :=
  let copy : Option Message :=
    if aMessage.IsConfirmable then some aMessage
    else if aMessage.IsNonConfirmable && aHandler.isSome then some aMessage.headerOnly
    else none
  match copy with
  | none => s.Send env aMessage aMessageInfo
  | some c =>
    match observeStep env s aMessage aMessageInfo with
    | .error e => (e, s)
    | .ok (observe, s1) =>
      let metadata := newMetadata env aMessage aMessageInfo aTxParameters aHandler aContext
        aTransmitHook aReceiveHook observe
      match s1.CopyAndEnqueueMessage env c metadata with
      | none => (Error.kErrorNoBufs, s1)
      | some s2 =>
        let storedCopy := s1.mPendingRequests.length
        let r := s2.Send env aMessage aMessageInfo
        if r.1 ≠ Error.kErrorNone then (r.1, r.2.DequeueMessage env storedCopy) else r

/-- The call `SendMessage` with all seven arguments; the overloads with fewer
arguments pass null pointers and the default transmission parameters.  The
result is the error and the engine after the call; the message as the call
leaves it is the one recorded in the trace.  The assertion that a Reset has the
empty code is not part of the model. -/
def SendMessage (cfg : Config) (env : Env) (s : CoapBase) (aMessage : Message)
    (aMessageInfo : MessageInfo) (aTxParameters : TxParameters) (aHandler : Option Nat)
    (aContext : Nat) (aTransmitHook aReceiveHook : Option Nat) : Error × CoapBase :=
  match aMessage.mType with
  | CoapType.kTypeAck =>
    let b := firstBlock env aMessage aContext aTransmitHook kOptionBlock2
    let s1 := s.emit b.2.2.1
    if b.1 ≠ Error.kErrorNone then (b.1, s1)
    else
      let c := if b.2.2.2 then s1.CacheLastBlockResponse env b.2.1 else (Error.kErrorNone, s1)
      if c.1 ≠ Error.kErrorNone then c
      else
        sendAndStore env
          { c.2 with mResponsesQueue :=
              c.2.mResponsesQueue.EnqueueResponse cfg env b.2.1 aMessageInfo aTxParameters }
          b.2.1 aMessageInfo aTxParameters aHandler aContext aTransmitHook aReceiveHook
  | CoapType.kTypeReset =>
    sendAndStore env s aMessage aMessageInfo aTxParameters aHandler aContext aTransmitHook
      aReceiveHook
  | _ =>
    let b := firstBlock env aMessage aContext aTransmitHook kOptionBlock1
    let s1 := s.emit b.2.2.1
    if b.1 ≠ Error.kErrorNone then (b.1, s1)
    else
      let m1 : Message :=
        if b.2.2.2 && b.2.1.IsNonConfirmable then { b.2.1 with mType := CoapType.kTypeConfirmable }
        else b.2.1
      sendAndStore env { s1 with mMessageId := (s1.mMessageId + 1) % 65536 }
        { m1 with mMessageId := s1.mMessageId } aMessageInfo aTxParameters aHandler aContext
        aTransmitHook aReceiveHook

/-- The call `SendEmptyMessage`, behind `SendReset` and `SendAck`. -/
def SendEmptyMessage (env : Env) (s : CoapBase) (aType : CoapType) (aRequest : Message)
    (aMessageInfo : MessageInfo) : Error × CoapBase :=
  if !aRequest.IsConfirmable then (Error.kErrorInvalidArgs, s)
  else if !env.mNewMessage then (Error.kErrorNoBufs, s)
  else
    s.Send env { Message.Init aType kCodeEmpty with mMessageId := aRequest.mMessageId } aMessageInfo

def SendReset (env : Env) (s : CoapBase) (aRequest : Message) (aMessageInfo : MessageInfo) :
    Error × CoapBase :=
  SendEmptyMessage env s CoapType.kTypeReset aRequest aMessageInfo

def SendAck (env : Env) (s : CoapBase) (aRequest : Message) (aMessageInfo : MessageInfo) :
    Error × CoapBase :=
  SendEmptyMessage env s CoapType.kTypeAck aRequest aMessageInfo

/-- The call `SendCopy`: the calls it makes (it reports no error). -/
def SendCopy (env : Env) (aMessage : Message) (aMessageInfo : MessageInfo) : List Event :=
  if env.mClone aMessage then [Event.send aMessage aMessageInfo] else []

end CoapBase

/-! ## Retransmission, abort and clear -/

/-- The message info that `HandleRetransmissionTimer` rebuilds from the metadata. -/
def Metadata.messageInfo (aMetadata : Metadata) : MessageInfo :=
  { MessageInfo.clear with
    mPeerAddr := aMetadata.mDestinationAddress
    mPeerPort := aMetadata.mDestinationPort
    mSockAddr := aMetadata.mSourceAddress
    mHopLimit := aMetadata.mHopLimit
    mIsHostInterface := aMetadata.mIsHostInterface
    mMulticastLoop := aMetadata.mMulticastLoop }

/-- The body of the loop of `HandleRetransmissionTimer` for one stored request:
what is left of it in the queue (`none` when it was finalized) and the calls made. -/
def retransmit (env : Env) (r : PendingRequest) : Option PendingRequest × List Event :=
  if r.mMetadata.mNextTimerShot ≤ env.mNow then
    if r.isAckedSubscription then (some r, [])
    else if !r.mMetadata.mConfirmable || r.mMetadata.mRetransmissionsRemaining == 0 then
      (none, handlerCall r.mMetadata none none Error.kErrorResponseTimeout)
    else
      let timeout := r.mMetadata.mRetransmissionTimeout * 2 % 2 ^ 32
      let metadata : Metadata :=
        { r.mMetadata with
          mRetransmissionsRemaining := r.mMetadata.mRetransmissionsRemaining - 1
          mRetransmissionTimeout := timeout
          mNextTimerShot := env.mNow + timeout }
      (some { r with mMetadata := metadata },
        if !metadata.mAcknowledged then CoapBase.SendCopy env r.mMessage metadata.messageInfo else [])
  else (some r, [])

/-- The loop of `HandleRetransmissionTimer` over the queue: the queue it leaves
and the calls made, in order. -/
def retransmitLoop (env : Env) : List PendingRequest → List PendingRequest × List Event
  | [] => ([], [])
  | r :: rs =>
    ((retransmit env r).1.toList ++ (retransmitLoop env rs).1,
      (retransmit env r).2 ++ (retransmitLoop env rs).2)

/-- A loop that finalizes with `kErrorAbort` every stored request selected by
`aSelect` (the loops of `AbortTransaction` and `ClearRequests`): the queue it
leaves and the calls made, in order. -/
def abortLoop (aSelect : Metadata → Bool) : List PendingRequest → List PendingRequest × List Event
  | [] => ([], [])
  | r :: rs =>
    if aSelect r.mMetadata then
      ((abortLoop aSelect rs).1,
        handlerCall r.mMetadata none none Error.kErrorAbort ++ (abortLoop aSelect rs).2)
    else (r :: (abortLoop aSelect rs).1, (abortLoop aSelect rs).2)

namespace CoapBase

def HandleRetransmissionTimer (env : Env) (s : CoapBase) : CoapBase :=
  let l := retransmitLoop env s.mPendingRequests
  ScheduleRetransmissionTimer env ({ s with mPendingRequests := l.1 }.emit l.2)

/-- The state after a loop that finalized the requests selected by `aSelect`:
every `FinalizeCoapTransaction` dequeues and so reschedules the timer, hence the
timer is rescheduled when at least one request was selected. -/
def finalizeSelected (env : Env) (s : CoapBase) (aSelect : Metadata → Bool) : CoapBase :=
  let l := abortLoop aSelect s.mPendingRequests
  let s1 := { s with mPendingRequests := l.1 }.emit l.2
  if s.mPendingRequests.any (fun r => aSelect r.mMetadata) then ScheduleRetransmissionTimer env s1
  else s1

def AbortTransaction (env : Env) (s : CoapBase) (aHandler : Option Nat) (aContext : Nat) :
    Error × CoapBase :=
  let select := fun (m : Metadata) => m.mResponseHandler == aHandler && m.mResponseContext == aContext
  (if s.mPendingRequests.any (fun r => select r.mMetadata) then Error.kErrorNone
    else Error.kErrorNotFound,
   finalizeSelected env s select)

/-- The call `ClearRequests(const Ip6::Address *aAddress)`, `none` being the null
pointer; `ClearRequests(const Ip6::Address &aAddress)` is `ClearRequests (some aAddress)`. -/
def ClearRequests (env : Env) (s : CoapBase) (aAddress : Option Address) : CoapBase :=
  finalizeSelected env s (fun m =>
    match aAddress with
    | none => true
    | some a => m.mSourceAddress == a)

def ClearAllRequestsAndResponses (env : Env) (s : CoapBase) : CoapBase :=
  let s1 := ClearRequests env s none
  { s1 with mResponsesQueue := s1.mResponsesQueue.DequeueAllResponses, mRetransmissionTimer := none }

end CoapBase

/-! ## Block-wise transfer, client side -/

/-- The "Write Block option to next message" step of `PrepareNextBlockRequest`. -/
def writeBlockOption (env : Env) (aType : BlockType) (aMoreBlocks : Bool) (aRequest aMessage : Message) :
    Error × Message :=
  let a := aRequest.AppendBlockOption (env.mAppend aRequest) aType (aMessage.mBlockWiseBlockNumber + 1)
    aMoreBlocks aMessage.mBlockWiseBlockSize
  if a.1 ≠ Error.kErrorNone then a
  else
    (Error.kErrorNone,
      { a.2 with mBlockWiseBlockNumber := (aMessage.mBlockWiseBlockNumber + 1) % 2 ^ 32
                 mBlockWiseBlockSize := aMessage.mBlockWiseBlockSize
                 mMoreBlocksFlag := aMoreBlocks })

/-- Modelled from the spec: `Option::Iterator::ReadExtendedOptionField` (declared
outside src/).  A delta or length nibble below 13 stands for itself, 13 is
followed by one byte (the value minus 13), 14 by two bytes (the value minus 269,
most significant byte first, the sum taken in 16 bits), and 15 is a format
error.  The result is the value and the bytes that follow it; `none` is
`kErrorParse`, also when an extension byte is missing. -/
def readExtendedOptionField (aValue : Nat) (aBytes : List Nat) : Option (Nat × List Nat) :=
  if aValue < 13 then some (aValue, aBytes)
  else if aValue = 13 then
    match aBytes with
    | b :: bs => some (b + 13, bs)
    | [] => none
  else if aValue = 14 then
    match aBytes with
    | b1 :: b2 :: bs => some ((b1 * 256 + b2 + 269) % 65536, bs)
    | _ => none
  else none

/-- Modelled from the spec: the options that `Option::Iterator::Advance`
(declared outside src/), called again and again, reads from the raw bytes that
end a buffer, `aNumber` being the number of the option before them, and the
result of the `Advance` that ended them.  A header byte holds the delta of the
option number in its upper four bits and the length of the value in its lower
four.  The iterator is done with `kErrorNone` at the end of the bytes and at a
payload marker `0xFF` that bytes follow; it fails with `kErrorParse` at a
payload marker that nothing follows, at a nibble of 15, at a missing extension
byte and at a length above the number of bytes left.  `aFuel` bounds the number
of options read; the number of bytes is enough. -/
def readOptions : Nat → Nat → List Nat → List CoapOption × Error
  | 0, _, _ => ([], Error.kErrorNone)
  | _ + 1, _, [] => ([], Error.kErrorNone)
  | aFuel + 1, aNumber, b :: bs =>
    if b = 255 then ([], if bs = [] then Error.kErrorParse else Error.kErrorNone)
    else
      match readExtendedOptionField (b / 16) bs with
      | none => ([], Error.kErrorParse)
      | some (delta, bs1) =>
        match readExtendedOptionField (b % 16) bs1 with
        | none => ([], Error.kErrorParse)
        | some (length, bs2) =>
          if bs2.length < length then ([], Error.kErrorParse)
          else
            ({ mNumber := (aNumber + delta) % 65536, mValue := bs2.take length } ::
                (readOptions aFuel ((aNumber + delta) % 65536) (bs2.drop length)).1,
              (readOptions aFuel ((aNumber + delta) % 65536) (bs2.drop length)).2)

/-- The options that the iterator of `PrepareNextBlockRequest` presents for a
stored copy (`iterator.Init(aRequestOld)` and the calls of `Advance`), with the
result of the `Advance` that ended them.  `CopyAndEnqueueMessage` appended the
`Metadata` trailer to the copy and the iterator reads to the end of the buffer:
behind the options of the request it finds the payload marker when the copy has
a payload, and otherwise the bytes of the trailer, which it reads as options. -/
def storedOptions (env : Env) (aStored : PendingRequest) : List CoapOption × Error :=
  if aStored.mMessage.mPayload ≠ [] then (aStored.mMessage.mOptions, Error.kErrorNone)
  else
    (aStored.mMessage.mOptions ++
        (readOptions (env.mFooter aStored.mMetadata).length aStored.mMessage.optionLast
          (env.mFooter aStored.mMetadata)).1,
      (readOptions (env.mFooter aStored.mMetadata).length aStored.mMessage.optionLast
        (env.mFooter aStored.mMetadata)).2)

/-- The loop of `PrepareNextBlockRequest` over the options that the iterator
still presents: the error, the request built so far and `isOptionSet`.  The
error is that of a `SuccessOrExit` in the body.  The loop ends at the first
option of length zero. -/
def copyOptions (env : Env) (aType : BlockType) (aMoreBlocks : Bool) (aMessage : Message) :
    List CoapOption → Message → Bool → Error × Message × Bool
  | [], aRequest, isOptionSet => (Error.kErrorNone, aRequest, isOptionSet)
  | o :: os, aRequest, isOptionSet =>
    if o.GetLength = 0 then (Error.kErrorNone, aRequest, isOptionSet)
    else if (if aType = BlockType.kBlockType1 then kOptionBlock1 else kOptionBlock2) ≤ o.mNumber ∧
        isOptionSet = false then
      let w := writeBlockOption env aType aMoreBlocks aRequest aMessage
      if w.1 ≠ Error.kErrorNone then (w.1, w.2, isOptionSet)
      else if o.mNumber = kOptionBlock1 ∨ o.mNumber = kOptionBlock2 then
        copyOptions env aType aMoreBlocks aMessage os w.2 true
      else
        let c := w.2.AppendOption (env.mAppend w.2) o.mNumber o.mValue
        if c.1 ≠ Error.kErrorNone then (c.1, c.2, true)
        else copyOptions env aType aMoreBlocks aMessage os c.2 true
    else
      let c := aRequest.AppendOption (env.mAppend aRequest) o.mNumber o.mValue
      if c.1 ≠ Error.kErrorNone then (c.1, c.2, isOptionSet)
      else copyOptions env aType aMoreBlocks aMessage os c.2 isOptionSet

/-- The value of `error` when the copy loop of `PrepareNextBlockRequest` ends by
its condition, which is the result of the last `Advance`: `kErrorNone` when the
loop ends at an option of length zero, and `aEnd`, the result of the `Advance`
after the last option, when the iterator is done. -/
def loopEnd (aEnd : Error) : List CoapOption → Error
  | [] => aEnd
  | o :: os => if o.GetLength = 0 then Error.kErrorNone else loopEnd aEnd os

/-- The call `PrepareNextBlockRequest`: the error and the request built
(`aRequest` of the source, which starts as a fresh buffer).  `aRequestOld` is
the stored copy that both callers pass, with its trailer.  When the first
`Advance`, inside `iterator.Init`, fails, the call ends there; when a later one
fails the loop ends with that error, which the block option written after the
loop replaces by its own result. -/
def PrepareNextBlockRequest (env : Env) (aType : BlockType) (aMoreBlocks : Bool)
    (aRequestOld : PendingRequest) (aMessage : Message) : Error × Message :=
  let it := storedOptions env aRequestOld
  if it.1 = [] ∧ it.2 ≠ Error.kErrorNone then
    (it.2, Message.Init CoapType.kTypeConfirmable aRequestOld.mMessage.mCode)
  else
    let l := copyOptions env aType aMoreBlocks aMessage it.1
      (Message.Init CoapType.kTypeConfirmable aRequestOld.mMessage.mCode) false
    if l.1 ≠ Error.kErrorNone then (l.1, l.2.1)
    else if l.2.2 = false then writeBlockOption env aType aMoreBlocks l.2.1 aMessage
    else (loopEnd it.2 it.1, l.2.1)

namespace CoapBase

/-- The call `SendNextBlock1Request`; `aRequest` is the position of the stored
request, `aStored` the stored copy with its trailer and `aHook` the (non-null)
transmit hook of `aCoapMetadata`.  The result carries the received message as
the call leaves it. -/
def SendNextBlock1Request (cfg : Config) (env : Env) (s : CoapBase) (aRequest : Nat)
    (aStored : PendingRequest) (aMessage : Message) (aMessageInfo : MessageInfo)
    (aCoapMetadata : Metadata) (aHook : Nat) : Error × CoapBase × Message :=
  let rq := aStored.mMessage.ReadBlockOptionValues kOptionBlock1
  if rq.1 ≠ Error.kErrorNone then (rq.1, s, aMessage)
  else
    let ms := aMessage.ReadBlockOptionValues kOptionBlock1
    if ms.1 ≠ Error.kErrorNone then (ms.1, s, ms.2)
    else if !rq.2.mMoreBlocksFlag then
      (Error.kErrorNone,
        s.FinalizeCoapTransaction env aRequest aCoapMetadata (some ms.2) (some aMessageInfo)
          Error.kErrorNone, ms.2)
    else
      let bufLen := otCoapBlockSizeFromExponent ms.2.mBlockWiseBlockSize
      if kMaxBlockLength < bufLen then (Error.kErrorNoBufs, s, ms.2)
      else
        let position := bufLen * (ms.2.mBlockWiseBlockNumber + 1) % 2 ^ 32
        let h := env.mTransmitHook aHook aCoapMetadata.mResponseContext position bufLen
        let s1 := s.emit [Event.transmitHook aHook aCoapMetadata.mResponseContext position bufLen]
        if h.1 ≠ Error.kErrorNone then (h.1, s1, ms.2)
        else if bufLen < h.2.1.length then (Error.kErrorInvalidArgs, s1, ms.2)
        else if !env.mNewMessage then (Error.kErrorNoBufs, s1, ms.2)
        else
          let p := PrepareNextBlockRequest env BlockType.kBlockType1 h.2.2
            { aStored with mMessage := rq.2 } ms.2
          if p.1 ≠ Error.kErrorNone then (p.1, s1, ms.2)
          else if !env.mAppend p.2 then (Error.kErrorNoBufs, s1, ms.2)
          else
            let r := SendMessage cfg env (s1.DequeueMessage env aRequest)
              { p.2 with mPayload := h.2.1 } aMessageInfo (TxParameters.GetDefault cfg)
              aCoapMetadata.mResponseHandler aCoapMetadata.mResponseContext
              aCoapMetadata.mBlockwiseTransmitHook aCoapMetadata.mBlockwiseReceiveHook
            (r.1, r.2, ms.2)

/-- The call `SendNextBlock2Request`; `aRequest` is the position of the stored
request, `aStored` the stored copy with its trailer and `aHook` the (non-null)
receive hook of `aCoapMetadata`.  The result carries the received message as the
call leaves it. -/
def SendNextBlock2Request (cfg : Config) (env : Env) (s : CoapBase) (aRequest : Nat)
    (aStored : PendingRequest) (aMessage : Message) (aMessageInfo : MessageInfo)
    (aCoapMetadata : Metadata) (aHook : Nat) (aTotalLength : Nat) (aBeginBlock1Transfer : Bool) :
    Error × CoapBase × Message :=
  let ms := aMessage.ReadBlockOptionValues kOptionBlock2
  if ms.1 ≠ Error.kErrorNone then (ms.1, s, ms.2)
  else if otCoapBlockSizeFromExponent ms.2.mBlockWiseBlockSize < ms.2.mPayload.length ∨
      kMaxBlockLength < ms.2.mPayload.length then (Error.kErrorNoBufs, s, ms.2)
  else
    let position := otCoapBlockSizeFromExponent ms.2.mBlockWiseBlockSize * ms.2.mBlockWiseBlockNumber % 2 ^ 32
    let h := env.mReceiveHook aHook aCoapMetadata.mResponseContext ms.2.mPayload position
      ms.2.mMoreBlocksFlag aTotalLength
    let s1 := s.emit [Event.receiveHook aHook aCoapMetadata.mResponseContext ms.2.mPayload position
      ms.2.mMoreBlocksFlag aTotalLength]
    if h ≠ Error.kErrorNone then (h, s1, ms.2)
    else if !ms.2.mMoreBlocksFlag then
      (Error.kErrorNone,
        s1.FinalizeCoapTransaction env aRequest aCoapMetadata (some ms.2) (some aMessageInfo)
          Error.kErrorNone, ms.2)
    else if !env.mNewMessage then (Error.kErrorNoBufs, s1, ms.2)
    else
      let p := PrepareNextBlockRequest env BlockType.kBlockType2 ms.2.mMoreBlocksFlag aStored ms.2
      if p.1 ≠ Error.kErrorNone then (p.1, s1, ms.2)
      else
        let s2 := if aBeginBlock1Transfer then s1 else s1.DequeueMessage env aRequest
        let r := SendMessage cfg env s2 p.2 aMessageInfo (TxParameters.GetDefault cfg)
          aCoapMetadata.mResponseHandler aCoapMetadata.mResponseContext none
          aCoapMetadata.mBlockwiseReceiveHook
        (r.1, r.2, ms.2)

end CoapBase

/-! ## Receiving a response -/

/-- The value of `blockOptionType` after the option scan of
`ProcessReceivedResponse`: 1 for every Block1 option plus 2 for every Block2
option, in 8 bits. -/
def blockOptionType (aMessage : Message) : Nat :=
  (aMessage.mOptions.foldl
    (fun n o =>
      if o.mNumber = kOptionBlock1 then n + 1 else if o.mNumber = kOptionBlock2 then n + 2 else n)
    0) % 256

namespace CoapBase

/-- The treatment of a piggybacked response that is not an RFC 7641 notification
(lines 1171 to 1247 of `ProcessReceivedResponse`). -/
def piggybacked (cfg : Config) (env : Env) (s : CoapBase) (request : Nat) (r : PendingRequest)
    (aMessage : Message) (aMessageInfo : MessageInfo) : CoapBase :=
  let metadata := r.mMetadata
  let type :=
    if metadata.mBlockwiseTransmitHook.isSome || metadata.mBlockwiseReceiveHook.isSome then
      blockOptionType aMessage
    else 0
  match type with
  | 0 =>
    s.FinalizeCoapTransaction env request metadata (some aMessage) (some aMessageInfo)
      Error.kErrorNone
  | 1 =>
    match metadata.mBlockwiseTransmitHook with
    | some hook =>
      if aMessage.mCode = kCodeContinue then
        let n := s.SendNextBlock1Request cfg env request r aMessage aMessageInfo metadata hook
        if n.1 ≠ Error.kErrorNone then
          n.2.1.FinalizeCoapTransaction env request metadata (some n.2.2) (some aMessageInfo) n.1
        else n.2.1
      else
        s.FinalizeCoapTransaction env request metadata (some aMessage) (some aMessageInfo)
          Error.kErrorNone
    | none =>
      s.FinalizeCoapTransaction env request metadata (some aMessage) (some aMessageInfo)
        Error.kErrorNone
  | 2 =>
    match metadata.mBlockwiseReceiveHook with
    | some hook =>
      if aMessage.mCode < kCodeBadRequest then
        let n := s.SendNextBlock2Request cfg env request r aMessage aMessageInfo metadata
          hook 0 false
        if n.1 ≠ Error.kErrorNone then
          n.2.1.FinalizeCoapTransaction env request metadata (some n.2.2) (some aMessageInfo) n.1
        else n.2.1
      else
        s.FinalizeCoapTransaction env request metadata (some aMessage) (some aMessageInfo)
          Error.kErrorNone
    | none =>
      s.FinalizeCoapTransaction env request metadata (some aMessage) (some aMessageInfo)
        Error.kErrorNone
  | 3 =>
    match metadata.mBlockwiseReceiveHook with
    | some hook =>
      if aMessage.mCode < kCodeBadRequest then
        let n := s.SendNextBlock2Request cfg env request r aMessage aMessageInfo metadata
          hook 0 true
        n.2.1.FinalizeCoapTransaction env request metadata (some n.2.2) (some aMessageInfo) n.1
      else
        s.FinalizeCoapTransaction env request metadata (some aMessage) (some aMessageInfo)
          Error.kErrorNone
    | none =>
      s.FinalizeCoapTransaction env request metadata (some aMessage) (some aMessageInfo)
        Error.kErrorNone
  | _ =>
    s.FinalizeCoapTransaction env request metadata (some aMessage) (some aMessageInfo)
      Error.kErrorAbort

/-- The treatment of a separate response, after the empty ACK (lines 1265 to
1283 of `ProcessReceivedResponse`). -/
def separate (env : Env) (s : CoapBase) (request : Nat) (metadata : Metadata)
    (responseObserve : Bool) (aMessage : Message) (aMessageInfo : MessageInfo) : CoapBase :=
  if metadata.mResponseHandler.isSome &&
      (metadata.mDestinationAddress.IsMulticast || (metadata.mObserve && responseObserve)) then
    s.emit (handlerCall metadata (some aMessage) (some aMessageInfo) Error.kErrorNone)
  else
    s.FinalizeCoapTransaction env request metadata (some aMessage) (some aMessageInfo)
      Error.kErrorNone

/-- The write `metadata.UpdateIn(*request)` into the stored request `r` at
position `request`. -/
def UpdateIn (s : CoapBase) (request : Nat) (r : PendingRequest) (metadata : Metadata) : CoapBase :=
  { s with mPendingRequests := s.mPendingRequests.set request { r with mMetadata := metadata } }

def ProcessReceivedResponse (cfg : Config) (env : Env) (s : CoapBase) (aMessage : Message)
    (aMessageInfo : MessageInfo) : CoapBase :=
  match s.FindRelatedRequest aMessage aMessageInfo with
  | none =>
    if aMessage.IsConfirmable || aMessage.IsNonConfirmable then
      (s.SendReset env aMessage aMessageInfo).2
    else s
  | some (request, r) =>
    let metadata := r.mMetadata
    let responseObserve :=
      metadata.mObserve && r.mMessage.IsRequest && (aMessage.findOption kOptionObserve).isSome
    match aMessage.mType with
    | CoapType.kTypeReset =>
      if aMessage.IsEmpty then
        s.FinalizeCoapTransaction env request metadata none none Error.kErrorAbort
      else s
    | CoapType.kTypeAck =>
      if aMessage.IsEmpty then
        if metadata.mObserve && !r.mMessage.IsRequest then
          s.FinalizeCoapTransaction env request metadata (some aMessage) (some aMessageInfo)
            Error.kErrorNone
        else
          let s1 :=
            if metadata.mConfirmable then s.UpdateIn request r { metadata with mAcknowledged := true }
            else s
          if metadata.mResponseHandler.isNone then s1.DequeueMessage env request else s1
      else if aMessage.IsResponse && aMessage.IsTokenEqual r.mMessage then
        if metadata.mObserve && responseObserve && metadata.mResponseHandler.isSome then
          (s.emit (handlerCall metadata (some aMessage) (some aMessageInfo) Error.kErrorNone)).UpdateIn
            request r { metadata with mAcknowledged := true }
        else piggybacked cfg env s request r aMessage aMessageInfo
      else s
    | CoapType.kTypeConfirmable =>
      separate env (s.SendAck env aMessage aMessageInfo).2 request metadata responseObserve aMessage
        aMessageInfo
    | CoapType.kTypeNonConfirmable =>
      separate env s request metadata responseObserve aMessage aMessageInfo

end CoapBase

/-! ## Receiving a request -/

/-- Modelled from the spec: `Resource::HandleRequest` (declared in `coap.hpp`,
outside src/) calls the handler of the resource with its context. -/
def Resource.HandleRequest (r : Resource) (aMessage : Message) (aMessageInfo : MessageInfo) :
    List Event :=
  match r.mHandler with
  | some h => [Event.requestHandler h r.mContext aMessage aMessageInfo]
  | none => []

/-- Modelled from the spec: `ResourceBlockWise::HandleRequest` (declared in
`coap.hpp`, outside src/) calls the handler of the resource with its context. -/
def ResourceBlockWise.HandleRequest (r : ResourceBlockWise) (aMessage : Message)
    (aMessageInfo : MessageInfo) : List Event :=
  match r.mHandler with
  | some h => [Event.requestHandler h r.mContext aMessage aMessageInfo]
  | none => []

/-- The URI path that the option scan of `ProcessReceivedRequest` writes into
`uriPath`: the values of the Uri-Path options, a `'/'` before each one but the
first written, as long as they fit; `aPath` is what is written so far. -/
def uriPathLoop : List CoapOption → List Nat → Except Error (List Nat)
  | [], aPath => .ok aPath
  | o :: os, aPath =>
    if o.mNumber = kOptionUriPath then
      let path1 := if aPath ≠ [] then aPath ++ [47] else aPath
      if path1.length + o.GetLength < kMaxReceivedUriPath + 1 then uriPathLoop os (path1 ++ o.mValue)
      else .error Error.kErrorParse
    else uriPathLoop os aPath

/-- The C string in a character array: the characters before the first NUL. -/
def cString (aBytes : List Nat) : String :=
  String.mk ((aBytes.takeWhile (fun b => b ≠ 0)).map Char.ofNat)

/-- Modelled from the spec: the block-size exponent for a block of the given
length (`OT_COAP_OPTION_BLOCK_SZX_16` to `OT_COAP_OPTION_BLOCK_SZX_1024`, declared
in `coap.h` outside src/), as the switch of `ProcessBlock2Request` selects it. -/
def blockSzxOfLength (aLength : Nat) : Option Nat :=
  if aLength = 1024 then some 6
  else if aLength = 512 then some 5
  else if aLength = 256 then some 4
  else if aLength = 128 then some 3
  else if aLength = 64 then some 2
  else if aLength = 32 then some 1
  else if aLength = 16 then some 0
  else none

/-- The loop "Copy options from last response" of `ProcessBlock2Request`: a
Block2 option is written anew from the help data of the response, a Block1
option is copied, every other option is passed over. -/
def copyBlockOptions (env : Env) : List CoapOption → Message → Error × Message
  | [], aResponse => (Error.kErrorNone, aResponse)
  | o :: os, aResponse =>
    if o.mNumber = kOptionBlock2 then
      let a := aResponse.AppendBlockOption (env.mAppend aResponse) BlockType.kBlockType2
        aResponse.mBlockWiseBlockNumber aResponse.mMoreBlocksFlag aResponse.mBlockWiseBlockSize
      if a.1 ≠ Error.kErrorNone then a else copyBlockOptions env os a.2
    else if o.mNumber = kOptionBlock1 then
      let a := aResponse.AppendOption (env.mAppend aResponse) o.mNumber o.mValue
      if a.1 ≠ Error.kErrorNone then a else copyBlockOptions env os a.2
    else copyBlockOptions env os aResponse

/-- The header of the response that `ProcessBlock2Request` sets up (lines 890
and 891): a 2.05 ACK with the message-ID of the request. -/
def block2Header (aMessage : Message) : Message :=
  { Message.Init CoapType.kTypeAck kCodeContent with mMessageId := aMessage.mMessageId }

/-- The size exponent of the block that `ProcessBlock2Request` answers with
(lines 902 to 940): with more blocks to follow the length the hook reported must
be one of the block sizes; for the last block it must not exceed the size asked
for, which is kept.  `none` stands for `kErrorInvalidArgs`. -/
def block2Size (aMessage : Message) (aLength : Nat) (aMore : Bool) : Option Nat :=
  if aMore then blockSzxOfLength aLength
  else if aLength ≤ otCoapBlockSizeFromExponent aMessage.mBlockWiseBlockSize then
    some aMessage.mBlockWiseBlockSize
  else none

/-- The response of `ProcessBlock2Request` before the options are copied: the
header with the token of the request and the block help data of the response. -/
def block2Response (aMessage : Message) (aMore : Bool) (aSzx aPosition : Nat) : Message :=
  { block2Header aMessage with
    mToken := aMessage.mToken
    mMoreBlocksFlag := aMore
    mBlockWiseBlockSize := aSzx
    mBlockWiseBlockNumber := aPosition / otCoapBlockSizeFromExponent aSzx }

/-- The response that `ProcessBlock1Request` sets up (lines 828 to 834) before it
appends the block option: a 2.31 ACK with the message-ID of the request, its
token when the token could be written (the result of `SetToken` is ignored), and
the block help data of the request. -/
def block1Response (env : Env) (aMessage : Message) : Message :=
  let header : Message :=
    { Message.Init CoapType.kTypeAck kCodeContinue with mMessageId := aMessage.mMessageId }
  { (if env.mAppend header then { header with mToken := aMessage.mToken } else header) with
    mBlockWiseBlockNumber := aMessage.mBlockWiseBlockNumber
    mMoreBlocksFlag := aMessage.mMoreBlocksFlag
    mBlockWiseBlockSize := aMessage.mBlockWiseBlockSize }

namespace CoapBase

/-- The call `SendHeaderResponse`; the response goes out through `SendMessage`
with the default transmission parameters and no handler. -/
def SendHeaderResponse (cfg : Config) (env : Env) (s : CoapBase) (aCode : Nat) (aRequest : Message)
    (aMessageInfo : MessageInfo) : Error × CoapBase :=
  if !aRequest.IsRequest then (Error.kErrorInvalidArgs, s)
  else if !env.mNewMessage then (Error.kErrorNoBufs, s)
  else
    let header : Option Message :=
      match aRequest.mType with
      | CoapType.kTypeConfirmable =>
        some { Message.Init CoapType.kTypeAck aCode with mMessageId := aRequest.mMessageId }
      | CoapType.kTypeNonConfirmable => some (Message.Init CoapType.kTypeNonConfirmable aCode)
      | _ => none
    match header with
    | none => (Error.kErrorInvalidArgs, s)
    | some message =>
      if !env.mAppend message then (Error.kErrorNoBufs, s)
      else
        SendMessage cfg env s { message with mToken := aRequest.mToken } aMessageInfo
          (TxParameters.GetDefault cfg) none 0 none none

def SendNotFound (cfg : Config) (env : Env) (s : CoapBase) (aRequest : Message)
    (aMessageInfo : MessageInfo) : Error × CoapBase :=
  SendHeaderResponse cfg env s kCodeNotFound aRequest aMessageInfo

/-- The call `ProcessBlock1Request`; `aHook` is the (non-null) receive hook of
the resource.  The result carries the request as the call leaves it. -/
def ProcessBlock1Request (cfg : Config) (env : Env) (s : CoapBase) (aMessage : Message)
    (aMessageInfo : MessageInfo) (aResource : ResourceBlockWise) (aHook : Nat)
    (aTotalLength : Nat) : Error × CoapBase × Message :=
  let ms := aMessage.ReadBlockOptionValues kOptionBlock1
  if ms.1 ≠ Error.kErrorNone then (ms.1, s, ms.2)
  else if kMaxBlockLength < ms.2.mPayload.length then (Error.kErrorNoBufs, s, ms.2)
  else
    let position :=
      otCoapBlockSizeFromExponent ms.2.mBlockWiseBlockSize * ms.2.mBlockWiseBlockNumber % 2 ^ 32
    let h := env.mReceiveHook aHook aResource.mContext ms.2.mPayload position ms.2.mMoreBlocksFlag
      aTotalLength
    let s1 := s.emit [Event.receiveHook aHook aResource.mContext ms.2.mPayload position
      ms.2.mMoreBlocksFlag aTotalLength]
    if h ≠ Error.kErrorNone then (h, s1, ms.2)
    else if ms.2.mMoreBlocksFlag then
      if !env.mNewMessage then (Error.kErrorFailed, s1, ms.2)
      else
        let response := block1Response env ms.2
        let a := response.AppendBlockOption (env.mAppend response) BlockType.kBlockType1
          response.mBlockWiseBlockNumber response.mMoreBlocksFlag response.mBlockWiseBlockSize
        if a.1 ≠ Error.kErrorNone then (a.1, s1, ms.2)
        else
          let c := s1.CacheLastBlockResponse env a.2
          if c.1 ≠ Error.kErrorNone then (c.1, c.2, ms.2)
          else
            let r := SendMessage cfg env c.2 a.2 aMessageInfo (TxParameters.GetDefault cfg) none 0
              none none
            if r.1 ≠ Error.kErrorNone then (r.1, r.2, ms.2) else (Error.kErrorBusy, r.2, ms.2)
    else (Error.kErrorNone, s1.FreeLastBlockResponse, ms.2)

/-- The last part of `ProcessBlock2Request` (lines 946 to 984): the block options
of the last response are copied into the response, the payload is appended, the
response is cached when more blocks follow, and it is sent. -/
def sendBlock2Response (cfg : Config) (env : Env) (s : CoapBase) (aMessageInfo : MessageInfo)
    (aResponse aLast : Message) (aPayload : List Nat) : Error × CoapBase :=
  let c := copyBlockOptions env aLast.mOptions aResponse
  if c.1 ≠ Error.kErrorNone then (c.1, s)
  else if !env.mAppend c.2 then (Error.kErrorNoBufs, s)
  else
    let full : Message := { c.2 with mPayload := aPayload }
    let k := if full.mMoreBlocksFlag then s.CacheLastBlockResponse env full
      else (Error.kErrorNone, s.FreeLastBlockResponse)
    if k.1 ≠ Error.kErrorNone then k
    else
      SendMessage cfg env k.2 full aMessageInfo (TxParameters.GetDefault cfg) none 0 none none

/-- The call `ProcessBlock2Request`; `aHook` is the (non-null) transmit hook of
the resource.  The result carries the request as the call leaves it.  Where the
code reads the options of `*mLastResponse` while `mLastResponse` is null (a
request for a block other than the first with no block response cached), the
model reports `kErrorFailed`. -/
def ProcessBlock2Request (cfg : Config) (env : Env) (s : CoapBase) (aMessage : Message)
    (aMessageInfo : MessageInfo) (aResource : ResourceBlockWise) (aHook : Nat) :
    Error × CoapBase × Message :=
  let ms := aMessage.ReadBlockOptionValues kOptionBlock2
  if ms.1 ≠ Error.kErrorNone then (ms.1, s, ms.2)
  else if ms.2.mBlockWiseBlockNumber = 0 then
    (Error.kErrorNone, s.emit (aResource.HandleRequest ms.2 aMessageInfo), ms.2)
  else if !env.mNewMessage then (Error.kErrorNoBufs, s, ms.2)
  else if !env.mAppend (block2Header ms.2) then (Error.kErrorNoBufs, s, ms.2)
  else
    let bufLen := otCoapBlockSizeFromExponent ms.2.mBlockWiseBlockSize
    if kMaxBlockLength < bufLen then (Error.kErrorNoBufs, s, ms.2)
    else
      let position := bufLen * ms.2.mBlockWiseBlockNumber % 2 ^ 32
      let h := env.mTransmitHook aHook aResource.mContext position bufLen
      let s1 := s.emit [Event.transmitHook aHook aResource.mContext position bufLen]
      if h.1 ≠ Error.kErrorNone then (h.1, s1, ms.2)
      else
        match block2Size ms.2 h.2.1.length h.2.2 with
        | none => (Error.kErrorInvalidArgs, s1, ms.2)
        | some szx =>
          match s1.mLastResponse with
          | none => (Error.kErrorFailed, s1, ms.2)
          | some last =>
            let r := s1.sendBlock2Response cfg env aMessageInfo
              (block2Response ms.2 h.2.2 szx position) last h.2.1
            (r.1, r.2, ms.2)

/-- The part of `ProcessReceivedRequest` for the first block-wise resource whose
URI path matches (lines 1380 to 1428): the value of `error` and the engine. -/
def blockWiseRequest (cfg : Config) (env : Env) (s : CoapBase) (aMessage : Message)
    (aMessageInfo : MessageInfo) (resource : ResourceBlockWise) : Error × CoapBase :=
  if (resource.mReceiveHook.isSome || resource.mTransmitHook.isSome) &&
      blockOptionType aMessage != 0 then
    match blockOptionType aMessage with
    | 1 =>
      match resource.mReceiveHook with
      | some hook =>
        let p := s.ProcessBlock1Request cfg env aMessage aMessageInfo resource hook 0
        match p.1 with
        | Error.kErrorNone =>
          (Error.kErrorNone, p.2.1.emit (resource.HandleRequest p.2.2 aMessageInfo))
        | Error.kErrorBusy => (Error.kErrorNone, p.2.1)
        | Error.kErrorNoBufs =>
          (Error.kErrorDrop,
            (p.2.1.SendHeaderResponse cfg env kCodeRequestTooLarge p.2.2 aMessageInfo).2)
        | Error.kErrorNoFrameReceived =>
          (Error.kErrorDrop,
            (p.2.1.SendHeaderResponse cfg env kCodeRequestIncomplete p.2.2 aMessageInfo).2)
        | _ =>
          (Error.kErrorDrop,
            (p.2.1.SendHeaderResponse cfg env kCodeInternalError p.2.2 aMessageInfo).2)
      | none => (Error.kErrorNone, s)
    | 2 =>
      match resource.mTransmitHook with
      | some hook =>
        let p := s.ProcessBlock2Request cfg env aMessage aMessageInfo resource hook
        if p.1 ≠ Error.kErrorNone then
          (Error.kErrorDrop,
            (p.2.1.SendHeaderResponse cfg env kCodeInternalError p.2.2 aMessageInfo).2)
        else (Error.kErrorNone, p.2.1)
      | none => (Error.kErrorNone, s)
    | _ => (Error.kErrorNone, s)
  else (Error.kErrorNone, s.emit (resource.HandleRequest aMessage aMessageInfo))

/-- The part of `ProcessReceivedRequest` after the block-wise resources (lines
1434 to 1457): the catch-all handler, the resources, the default handler. -/
def plainRequest (env : Env) (s : CoapBase) (uriPath : String) (aMessage : Message)
    (aMessageInfo : MessageInfo) : Error × CoapBase :=
  let c : Bool × CoapBase :=
    match s.mResourceHandler with
    | some _ =>
      (env.mResourceHandler uriPath aMessage aMessageInfo,
        s.emit [Event.resourceHandler uriPath aMessage aMessageInfo])
    | none => (false, s)
  if c.1 then (Error.kErrorNone, c.2)
  else
    match s.mResources.find? (fun resource => resource.mUriPath == uriPath) with
    | some resource => (Error.kErrorNone, c.2.emit (resource.HandleRequest aMessage aMessageInfo))
    | none =>
      match s.mDefaultHandler with
      | some _ => (Error.kErrorNone, c.2.emit [Event.defaultHandler aMessage aMessageInfo])
      | none => (Error.kErrorNotFound, c.2)

/-- The body of `ProcessReceivedRequest` up to the label `exit`: the value of
`error` there and the engine. -/
def dispatchRequest (cfg : Config) (env : Env) (s : CoapBase) (aMessage : Message)
    (aMessageInfo : MessageInfo) : Error × CoapBase :=
  let i : Error × CoapBase :=
    match s.mInterceptor with
    | some _ =>
      (env.mInterceptor aMessage aMessageInfo, s.emit [Event.interceptor aMessage aMessageInfo])
    | none => (Error.kErrorNone, s)
  if i.1 ≠ Error.kErrorNone then i
  else
    match i.2.mResponsesQueue.GetMatchedResponseCopy env aMessage aMessageInfo with
    | (Error.kErrorNone, some cachedResponse) => i.2.Send env cachedResponse aMessageInfo
    | (Error.kErrorNoBufs, _) => (Error.kErrorNoBufs, i.2)
    | _ =>
      match uriPathLoop aMessage.mOptions [] with
      | .error e => (e, i.2)
      | .ok path =>
        match i.2.mBlockWiseResources.find? (fun resource => resource.mUriPath == cString path) with
        | some resource => i.2.blockWiseRequest cfg env aMessage aMessageInfo resource
        | none => i.2.plainRequest env (cString path) aMessage aMessageInfo

def ProcessReceivedRequest (cfg : Config) (env : Env) (s : CoapBase) (aMessage : Message)
    (aMessageInfo : MessageInfo) : CoapBase :=
  let d := s.dispatchRequest cfg env aMessage aMessageInfo
  if d.1 = Error.kErrorNotFound ∧ aMessageInfo.mSockAddr.IsMulticast = false then
    (d.2.SendNotFound cfg env aMessage aMessageInfo).2
  else d.2

/-- The call `Receive`; `aHeaderOk` tells whether `ParseHeader` succeeds on the
datagram, and `aMessage` is the message as far as it could be read. -/
def Receive (cfg : Config) (env : Env) (s : CoapBase) (aHeaderOk : Bool) (aMessage : Message)
    (aMessageInfo : MessageInfo) : CoapBase :=
  if !aHeaderOk then
    if !aMessageInfo.mSockAddr.IsMulticast && aMessage.IsConfirmable then
      (s.SendReset env aMessage aMessageInfo).2
    else s
  else if aMessage.IsRequest then s.ProcessReceivedRequest cfg env aMessage aMessageInfo
  else s.ProcessReceivedResponse cfg env aMessage aMessageInfo

end CoapBase

/-! ## Runs of the retransmission timer -/

/-- The stored request `r` after `k` successive passes of the loop body of
`HandleRetransmissionTimer`, pass number `j` (from 0) being made in the
environment `envAt j`; `none` once the request has been finalized. -/
def retransmitN (envAt : Nat → Env) (r : PendingRequest) : Nat → Option PendingRequest
  | 0 => some r
  | k + 1 => (retransmitN envAt r k).bind (fun r1 => (retransmit (envAt k) r1).1)

/-- The engine after `k` successive calls of `HandleRetransmissionTimer`, call
number `j` (from 0) being made in the environment `envAt j`. -/
def timerRuns (envAt : Nat → Env) (s : CoapBase) : Nat → CoapBase
  | 0 => s
  | k + 1 => (timerRuns envAt s k).HandleRetransmissionTimer (envAt k)


/-! ## Predicates used by the theorems -/

/-- Two messages that agree on everything but the payload and the block-wise
help data. -/
def SameHeader (a b : Message) : Prop :=
  a.mType = b.mType ∧ a.mCode = b.mCode ∧ a.mMessageId = b.mMessageId ∧ a.mToken = b.mToken ∧
    a.mOptions = b.mOptions

/-- The state of a stored request that is being retransmitted: still unacknowledged
and confirmable, with `k` retransmissions left. -/
def Retransmitting (m1 : Message) (info : MessageInfo) (h ctx k : Nat) (r : PendingRequest) : Prop :=
  r.mMessage = m1 ∧ r.mMetadata.mAcknowledged = false ∧ r.mMetadata.mConfirmable = true ∧
    r.mMetadata.mRetransmissionsRemaining = k ∧ r.mMetadata.mResponseHandler = some h ∧
    r.mMetadata.mResponseContext = ctx ∧ r.mMetadata.messageInfo = info

/-! ## Concrete inputs used by the examples -/

/-- The bytes of a number in `aCount` bytes, least significant first. -/
def littleEndian : Nat → Nat → List Nat
  | 0, _ => []
  | aCount + 1, aValue => aValue % 256 :: littleEndian aCount (aValue / 256)

/-- The sixteen bytes of an address, most significant first. -/
def Address.bytes (a : Address) : List Nat :=
  (littleEndian 16 a).reverse

/-- The four bytes of a pointer: zero for the null pointer, and for a callback
the number that names it. -/
def pointerBytes (aPointer : Option Nat) : List Nat :=
  littleEndian 4 (aPointer.getD 0)

/-- An example of the bytes of a stored `Metadata` record, for the example
environments: the record as a 32-bit little-endian target lays it out, with the
source address first, the fields in the order of the record, two padding bytes
behind the port and one behind the flags.  The layout is declared outside src/;
the theorems hold for every layout unless they name an example environment. -/
def Metadata.bytes (aMetadata : Metadata) : List Nat :=
  aMetadata.mSourceAddress.bytes ++ aMetadata.mDestinationAddress.bytes ++
    littleEndian 2 aMetadata.mDestinationPort ++ [0, 0] ++
    pointerBytes aMetadata.mResponseHandler ++ littleEndian 4 aMetadata.mResponseContext ++
    littleEndian 4 aMetadata.mNextTimerShot ++ littleEndian 4 aMetadata.mRetransmissionTimeout ++
    littleEndian 1 aMetadata.mRetransmissionsRemaining ++ littleEndian 1 aMetadata.mHopLimit ++
    [(if aMetadata.mAcknowledged then 1 else 0) + (if aMetadata.mConfirmable then 2 else 0) +
      (if aMetadata.mMulticastLoop then 4 else 0) + (if aMetadata.mIsHostInterface then 8 else 0) +
      (if aMetadata.mObserve then 16 else 0), 0] ++
    pointerBytes aMetadata.mBlockwiseReceiveHook ++ pointerBytes aMetadata.mBlockwiseTransmitHook

/-- An environment at time `aNow` in which every allocation and every send
succeeds, the random source yields `aRandom`, the hooks report no data, and a
stored `Metadata` record has the bytes `Metadata.bytes`. -/
def Env.allOk (aNow aRandom : Nat) : Env :=
  { mNow := aNow, mRandom := aRandom, mNewMessage := true, mClone := fun _ => true,
    mAppend := fun _ => true, mSender := fun _ _ => Error.kErrorNone,
    mTransmitHook := fun _ _ _ _ => (Error.kErrorNone, [], false),
    mReceiveHook := fun _ _ _ _ _ _ => Error.kErrorNone,
    mInterceptor := fun _ _ => Error.kErrorNone,
    mResourceHandler := fun _ _ _ => false,
    mFooter := Metadata.bytes }

/-- A confirmable GET with token `[1, 2]`. -/
def exampleRequest : Message :=
  { Message.Init CoapType.kTypeConfirmable kCodeGet with mToken := [1, 2] }

/-- A peer at address 5, port 5683. -/
def examplePeer : MessageInfo :=
  { MessageInfo.clear with mPeerAddr := 5, mPeerPort := 5683 }

/-- The metadata of a confirmable request to `examplePeer` with handler 1 and
context 9, initial timeout 2500 ms, four retransmissions, first deadline 2600. -/
def exampleMetadata : Metadata :=
  { mSourceAddress := 0, mDestinationAddress := 5, mDestinationPort := 5683,
    mResponseHandler := some 1, mResponseContext := 9, mNextTimerShot := 2600,
    mRetransmissionTimeout := 2500, mRetransmissionsRemaining := 4, mHopLimit := 0,
    mAcknowledged := false, mConfirmable := true, mMulticastLoop := false,
    mIsHostInterface := false, mObserve := false, mBlockwiseReceiveHook := none,
    mBlockwiseTransmitHook := none }

/-- The stored copy of `exampleRequest` with message-ID 7. -/
def examplePending : PendingRequest :=
  { mMessage := { exampleRequest with mMessageId := 7 }, mMetadata := exampleMetadata }

/-- Whether sending the message cancels an Observe subscription: a GET whose
first Observe option has value 1 (lines 286 to 293 of `SendMessage`). -/
def isObserveCancellation (aMessage : Message) : Bool :=
  match aMessage.findOption kOptionObserve with
  | none => false
  | some o =>
    aMessage.IsGetRequest &&
      (match ReadOptionValueUint o with
       | .ok v => v == 1
       | .error _ => false)

/-- The copy of a message that `SendMessage` stores: the whole message when it is
confirmable, header and token otherwise. -/
def storedCopy (aMessage : Message) : Message :=
  if aMessage.IsConfirmable then aMessage else aMessage.headerOnly

/-- The default transmission parameters of OpenThread with a single retransmission. -/
def exampleTx : TxParameters :=
  { TxParameters.GetDefault Config.openthread with mMaxRetransmit := 1 }

/-- Timer runs at 100 s, 200 s, ... in which everything succeeds. -/
def exampleRuns (j : Nat) : Env := Env.allOk (100000 * (j + 1)) 0

/-- The engine after `exampleRequest` has been sent to `examplePeer` at time 100
with handler 1 and context 9, from the initial state with message-ID counter 7. -/
def exampleSent : CoapBase :=
  (CoapBase.SendMessage Config.openthread (Env.allOk 100 0) (CoapBase.init 7) exampleRequest
    examplePeer exampleTx (some 1) 9 none none).2

/-- An environment at time `aNow` in which allocations succeed and the transport
refuses every message with `kErrorNoBufs`. -/
def Env.sendFails (aNow aRandom : Nat) : Env :=
  { Env.allOk aNow aRandom with mSender := fun _ _ => Error.kErrorNoBufs }

/-- The request that `exampleSent` holds: `exampleRequest` with message-ID 7,
deadline 2100, timeout 2000 and one retransmission left. -/
def exampleStored : PendingRequest :=
  { mMessage := { exampleRequest with mMessageId := 7 },
    mMetadata := { exampleMetadata with
      mNextTimerShot := 2100, mRetransmissionTimeout := 2000, mRetransmissionsRemaining := 1 } }

/-- A piggybacked 2.05 response to `exampleStored`: an ACK with message-ID 7 and
token `[1, 2]`. -/
def examplePiggybacked : Message :=
  { Message.Init CoapType.kTypeAck kCodeContent with mMessageId := 7, mToken := [1, 2] }

/-- An empty ACK with message-ID 7. -/
def exampleEmptyAck : Message :=
  { Message.Init CoapType.kTypeAck kCodeEmpty with mMessageId := 7 }

/-- A peer at address 6, port 5683. -/
def exampleOtherPeer : MessageInfo :=
  { MessageInfo.clear with mPeerAddr := 6, mPeerPort := 5683 }

/-- A non-confirmable 2.05 response with message-ID 40 and token `[9]`. -/
def exampleStrayResponse : Message :=
  { Message.Init CoapType.kTypeNonConfirmable kCodeContent with mMessageId := 40, mToken := [9] }

/-- A confirmable 2.05 response with message-ID 99 and token `[1, 2]`. -/
def exampleSeparate : Message :=
  { Message.Init CoapType.kTypeConfirmable kCodeContent with mMessageId := 99, mToken := [1, 2] }

/-- The empty message of the given type that answers `aRequest`
(`SendEmptyMessage`): code 0.00, no token, the message-ID of `aRequest`. -/
def emptyMessage (aType : CoapType) (aRequest : Message) : Message :=
  { Message.Init aType kCodeEmpty with mMessageId := aRequest.mMessageId }

/-- The engine `exampleSent` after it has also sent the ACK `examplePiggybacked`
to `examplePeer` at time 200, which caches that response. -/
def exampleServed : CoapBase :=
  (CoapBase.SendMessage Config.openthread (Env.allOk 200 0) exampleSent examplePiggybacked
    examplePeer exampleTx none 0 none none).2

/-- A non-confirmable POST that starts a block-wise upload: a Block1 option with
block number 0, more-flag set and size exponent 0. -/
def exampleUpload : Message :=
  { Message.Init CoapType.kTypeNonConfirmable kCodePost with
    mOptions := [{ mNumber := kOptionBlock1, mValue := [8] }] }

/-! ## Derived durations over unbounded integers -/

/-- The exchange lifetime computed over unbounded integers:
`ackTimeout * (2^maxRetransmit - 1) / denominator * numerator + 2 * kDefaultMaxLatency + ackTimeout`. -/
def exchangeLifetimeUnbounded (cfg : Config) (p : TxParameters) : Nat :=
  p.mAckTimeout * (2 ^ p.mMaxRetransmit - 1) / p.mAckRandomFactorDenominator *
    p.mAckRandomFactorNumerator + 2 * cfg.kDefaultMaxLatency + p.mAckTimeout

/-- The maximum transmit wait computed over unbounded integers:
`ackTimeout * (2^(maxRetransmit+1) - 1) / denominator * numerator`. -/
def maxTransmitWaitUnbounded (p : TxParameters) : Nat :=
  p.mAckTimeout * (2 ^ (p.mMaxRetransmit + 1) - 1) / p.mAckRandomFactorDenominator *
    p.mAckRandomFactorNumerator

/-- Transmission parameters with an acknowledgement timeout of `2^32 - 150000`
milliseconds, random factor 1/1 and no retransmission. -/
def exampleLongTimeout : TxParameters :=
  { mAckTimeout := 4294817296, mAckRandomFactorNumerator := 1, mAckRandomFactorDenominator := 1,
    mMaxRetransmit := 0 }

/-! ## An acknowledged Observe subscription -/

/-- The stored request `examplePending` as an acknowledged RFC 7641
subscription: `mObserve` and `mAcknowledged` are set. -/
def exampleSubscription : PendingRequest :=
  { examplePending with
    mMetadata := { exampleMetadata with mObserve := true, mAcknowledged := true } }

/-- An engine holding `examplePending` followed by `exampleSubscription`. -/
def exampleWatching : CoapBase :=
  { CoapBase.init 8 with mPendingRequests := [examplePending, exampleSubscription] }

/-! ## Sequences of calls on the responses queue -/

/-- One call on the responses queue, with the environment it is made in. -/
inductive ResponsesQueue.Call
  | enqueueResponse (env : Env) (aMessage : Message) (aMessageInfo : MessageInfo)
      (aTxParameters : TxParameters)
  | handleTimer (env : Env)
  | dequeueAllResponses

/-- The queue after one call. -/
def ResponsesQueue.call (cfg : Config) (q : ResponsesQueue) : ResponsesQueue.Call → ResponsesQueue
  | .enqueueResponse env aMessage aMessageInfo aTxParameters =>
    q.EnqueueResponse cfg env aMessage aMessageInfo aTxParameters
  | .handleTimer env => q.HandleTimer env
  | .dequeueAllResponses => q.DequeueAllResponses

/-- The queue after a sequence of calls, made in order. -/
def ResponsesQueue.calls (cfg : Config) (q : ResponsesQueue) (aCalls : List ResponsesQueue.Call) :
    ResponsesQueue :=
  aCalls.foldl (ResponsesQueue.call cfg) q

/-- The empty responses queue with its timer stopped, as the constructor leaves it. -/
def ResponsesQueue.empty : ResponsesQueue := { mQueue := [], mTimer := none }

/-- A 2.05 ACK with message-ID `aId`. -/
def exampleResponse (aId : Nat) : Message :=
  { Message.Init CoapType.kTypeAck kCodeContent with mMessageId := aId }

/-- The constants of OpenThread with room for two cached responses only. -/
def exampleSmallCache : Config := { Config.openthread with kMaxCachedResponses := 2 }

/-- Three responses enqueued for `examplePeer` at times 300, 100 and 200, then a
timer run at time 150, with a cache of two. -/
def exampleCalls : List ResponsesQueue.Call :=
  [.enqueueResponse (Env.allOk 300 0) (exampleResponse 1) examplePeer exampleTx,
   .enqueueResponse (Env.allOk 100 0) (exampleResponse 2) examplePeer exampleTx,
   .enqueueResponse (Env.allOk 200 0) (exampleResponse 3) examplePeer exampleTx,
   .handleTimer (Env.allOk 150 0)]

/-- A full cache of two: responses 1 and 2 for `examplePeer`, to be dequeued at
times 900 and 700. -/
def exampleFullQueue : ResponsesQueue :=
  { mQueue :=
      [{ mMessage := exampleResponse 1,
         mMetadata := { mDequeueTime := 900, mMessageInfo := examplePeer } },
       { mMessage := exampleResponse 2,
         mMetadata := { mDequeueTime := 700, mMessageInfo := examplePeer } }],
    mTimer := some 700 }

/-- Whether a cached response answers the request: same message-ID, same peer
address and port (the test of `FindMatchedResponse`). -/
def CachedResponse.Matches (r : CachedResponse) (aRequest : Message) (aMessageInfo : MessageInfo) :
    Bool :=
  r.mMessage.mMessageId == aRequest.mMessageId &&
    r.mMetadata.mMessageInfo.HasSamePeerAddrAndPort aMessageInfo

/-- The entry that `EnqueueResponse` makes for a message. -/
def cachedEntry (cfg : Config) (env : Env) (aMessage : Message) (aMessageInfo : MessageInfo)
    (aTxParameters : TxParameters) : CachedResponse :=
  { mMessage := aMessage,
    mMetadata := { mDequeueTime := env.mNow + aTxParameters.CalculateExchangeLifetime cfg,
                   mMessageInfo := aMessageInfo } }

/-- The same peer as `examplePeer`, reached on another local socket. -/
def examplePeerAgain : MessageInfo :=
  { examplePeer with mSockAddr := 3, mSockPort := 61631, mHopLimit := 64 }

/-- An environment in which no buffer can be cloned. -/
def Env.cloneFails (aNow aRandom : Nat) : Env :=
  { Env.allOk aNow aRandom with mClone := fun _ => false }

/-- The request `exampleRequest` as it arrives with message-ID `aId`. -/
def exampleArrived (aId : Nat) : Message :=
  { exampleRequest with mMessageId := aId }

/-! ## Calls made while a request is dispatched -/

/-- The call of the interceptor that `ProcessReceivedRequest` makes: one when an
interceptor is set, none otherwise. -/
def interceptorCalls (s : CoapBase) (aMessage : Message) (aMessageInfo : MessageInfo) : List Event :=
  match s.mInterceptor with
  | some _ => [Event.interceptor aMessage aMessageInfo]
  | none => []

/-- The call of the catch-all handler `mResourceHandler` that
`ProcessReceivedRequest` makes: one when it is set, none otherwise. -/
def catchAllCalls (s : CoapBase) (aUriPath : String) (aMessage : Message)
    (aMessageInfo : MessageInfo) : List Event :=
  match s.mResourceHandler with
  | some _ => [Event.resourceHandler aUriPath aMessage aMessageInfo]
  | none => []

/-- Whether the catch-all handler is set and takes the request. -/
def catchAllTakes (env : Env) (s : CoapBase) (aUriPath : String) (aMessage : Message)
    (aMessageInfo : MessageInfo) : Bool :=
  s.mResourceHandler.isSome && env.mResourceHandler aUriPath aMessage aMessageInfo

/-- The header response with code `aCode` that `SendHeaderResponse` builds for a
confirmable request: an ACK with the message-ID and the token of the request. -/
def ackResponse (aCode : Nat) (aRequest : Message) : Message :=
  { Message.Init CoapType.kTypeAck aCode with
    mMessageId := aRequest.mMessageId, mToken := aRequest.mToken }

/-- The header response with code `aCode` that `SendHeaderResponse` builds for a
non-confirmable request and `SendMessage` sends with the message-ID `aId`: a
non-confirmable message with the token of the request. -/
def nonResponse (aCode : Nat) (aRequest : Message) (aId : Nat) : Message :=
  { Message.Init CoapType.kTypeNonConfirmable aCode with
    mMessageId := aId, mToken := aRequest.mToken }

/-! ## Example requests and servers -/

/-- The cached response that `exampleServed` holds: `examplePiggybacked` for
`examplePeer`, to be dequeued at time 205200. -/
def exampleCached : CachedResponse :=
  { mMessage := examplePiggybacked,
    mMetadata := { mDequeueTime := 205200, mMessageInfo := examplePeer } }

/-- An environment in which `NewMessage()` returns no buffer. -/
def Env.noBuffers (aNow aRandom : Nat) : Env :=
  { Env.allOk aNow aRandom with mNewMessage := false }

/-- A confirmable GET for the URI path `a/b`, with message-ID 50 and token `[1, 2]`. -/
def exampleGet : Message :=
  { exampleArrived 50 with
    mOptions := [{ mNumber := kOptionUriPath, mValue := [97] },
                 { mNumber := kOptionUriPath, mValue := [98] }] }

/-- A server with a catch-all handler, a resource `a/b` (handler 3, context 30)
and a default handler. -/
def exampleServer : CoapBase :=
  { CoapBase.init 20 with
    mResourceHandler := some 2,
    mResources := [{ mUriPath := "x", mHandler := some 4, mContext := 40 },
                   { mUriPath := "a/b", mHandler := some 3, mContext := 30 }],
    mDefaultHandler := some 5 }

/-- A server with a catch-all handler only. -/
def exampleBareServer : CoapBase :=
  { CoapBase.init 20 with mResourceHandler := some 2 }

/-- The request `exampleGet` sent with type ACK: its code still is GET. -/
def exampleAckGet : Message := { exampleGet with mType := CoapType.kTypeAck }

/-! ## The next request of a block-wise transfer -/

/-- The option number for a block direction: Block1 for uploads, Block2 for
downloads. -/
def blockOptionNumber (aType : BlockType) : Nat :=
  if aType = BlockType.kBlockType1 then kOptionBlock1 else kOptionBlock2

/-- The block option that `AppendBlockOption` writes. -/
def blockOption (aType : BlockType) (aNum : Nat) (aMore : Bool) (aSize : Nat) : CoapOption :=
  { mNumber := blockOptionNumber aType,
    mValue := encodeUint 4 (aSize + (if aMore then 8 else 0) + aNum * 16) }

/-- The options of the request that `PrepareNextBlockRequest` builds from the
options of the old request when nothing fails: the options up to the first one
of length zero are copied, the new block option `aNew` is put before the first
option whose number is `aBlockOption` or more, and that option is left out when
it is a Block1 or Block2 option. -/
def nextBlockOptions (aBlockOption : Nat) (aNew : CoapOption) : List CoapOption → List CoapOption
  | [] => [aNew]
  | o :: os =>
    if o.GetLength = 0 then [aNew]
    else if aBlockOption ≤ o.mNumber then
      aNew :: ((if o.mNumber = kOptionBlock1 ∨ o.mNumber = kOptionBlock2 then [] else [o]) ++
        os.takeWhile (fun x => x.GetLength != 0))
    else o :: nextBlockOptions aBlockOption aNew os

/-- Options in the order in which a message can carry them: the numbers do not
decrease. -/
def OptionsOrdered (aOptions : List CoapOption) : Prop :=
  aOptions.Pairwise (fun a b => a.mNumber ≤ b.mNumber)

instance (aOptions : List CoapOption) : Decidable (OptionsOrdered aOptions) := by
  unfold OptionsOrdered; infer_instance

/-- The block number that a block option value carries (the bits above the low four). -/
def blockNumberOf (o : CoapOption) : Nat := readUint o.mValue / 16

/-- The more-flag that a block option value carries (bit 3). -/
def blockMoreOf (o : CoapOption) : Bool := readUint o.mValue / 8 % 2 == 1

/-- The size exponent that a block option value carries (the low three bits). -/
def blockSizeOf (o : CoapOption) : Nat := readUint o.mValue % 8

/-- A message after `ReadBlockOptionValues` has unpacked the block option `o`
into its help data. -/
def withBlockValues (m : Message) (o : CoapOption) : Message :=
  { m with mBlockWiseBlockNumber := blockNumberOf o,
           mMoreBlocksFlag := blockMoreOf o,
           mBlockWiseBlockSize := blockSizeOf o }

/-- The request for the next block of a download, as `SendNextBlock2Request`
builds it from the stored request `aOld` and the Block2 option `o` of the
response, and as `SendMessage` sends it with message-ID `aId`: confirmable, the
code of the old request, no token, the options of the old request with a Block2
option for block `N + 1` of the same size. -/
def nextBlock2Request (aOld : Message) (o : CoapOption) (aId : Nat) : Message :=
  { Message.Init CoapType.kTypeConfirmable aOld.mCode with
    mMessageId := aId
    mOptions := nextBlockOptions kOptionBlock2
      (blockOption BlockType.kBlockType2 (blockNumberOf o + 1) true (blockSizeOf o)) aOld.mOptions
    mBlockWiseBlockNumber := (blockNumberOf o + 1) % 2 ^ 32
    mBlockWiseBlockSize := blockSizeOf o
    mMoreBlocksFlag := true }

/-- The request that `PrepareNextBlockRequest` builds when nothing fails, from
the old request and the block help data of the received message. -/
def nextBlockRequest (aType : BlockType) (aMoreBlocks : Bool) (aRequestOld aMessage : Message) :
    Message :=
  { Message.Init CoapType.kTypeConfirmable aRequestOld.mCode with
    mOptions := nextBlockOptions (blockOptionNumber aType)
      (blockOption aType (aMessage.mBlockWiseBlockNumber + 1) aMoreBlocks
        aMessage.mBlockWiseBlockSize) aRequestOld.mOptions
    mBlockWiseBlockNumber := (aMessage.mBlockWiseBlockNumber + 1) % 2 ^ 32
    mBlockWiseBlockSize := aMessage.mBlockWiseBlockSize
    mMoreBlocksFlag := aMoreBlocks }

/-- Whether the bytes `aBytes` behind the options of a stored copy end the copy
loop of `PrepareNextBlockRequest` at once: the first `Advance` on them is done
without error (a payload marker), or it presents an option of length zero, at
which the loop ends.  A first byte 0, as of an unspecified source address,
reads as an option of length zero. -/
def trailerStops (aNumber : Nat) (aBytes : List Nat) : Bool :=
  match readOptions aBytes.length aNumber aBytes with
  | ([], aEnd) => aEnd == Error.kErrorNone
  | (o :: _, _) => o.GetLength == 0

/-- The copy loop of `PrepareNextBlockRequest` reads no option from the trailer
of the stored copy: the copy has a payload, whose marker ends the options, or
the bytes of the trailer end the loop at once. -/
def IteratorStops (env : Env) (aStored : PendingRequest) : Prop :=
  aStored.mMessage.mPayload ≠ [] ∨
    trailerStops aStored.mMessage.optionLast (env.mFooter aStored.mMetadata) = true

instance (env : Env) (aStored : PendingRequest) : Decidable (IteratorStops env aStored) := by
  unfold IteratorStops; infer_instance

/-! ## A block-wise download -/

/-- A stored confirmable GET for the path `a`, with message-ID `aId`, token
`aToken`, handler 1, context 9 and the block-wise receive hook 6. -/
def exampleDownload (aId : Nat) (aToken : List Nat) (aOptions : List CoapOption) : PendingRequest :=
  { mMessage := { Message.Init CoapType.kTypeConfirmable kCodeGet with
      mMessageId := aId, mToken := aToken, mOptions := aOptions },
    mMetadata := { exampleMetadata with mBlockwiseReceiveHook := some 6 } }

/-- An engine with message-ID counter 8 whose only pending request is the
download with message-ID 7 and token `[1, 2]`. -/
def exampleDownloading : CoapBase :=
  { CoapBase.init 8 with
    mPendingRequests := [exampleDownload 7 [1, 2] [{ mNumber := kOptionUriPath, mValue := [97] }]] }

/-- A piggybacked 2.05 response with message-ID `aId`, token `aToken`, one
Block2 option with value `aValue`, and the given payload. -/
def exampleBlock (aId : Nat) (aToken : List Nat) (aValue : List Nat) (aPayload : List Nat) :
    Message :=
  { Message.Init CoapType.kTypeAck kCodeContent with
    mMessageId := aId, mToken := aToken,
    mOptions := [{ mNumber := kOptionBlock2, mValue := aValue }],
    mPayload := aPayload }

/-- The positions, block lengths and more-flags of the receive-hook calls in a trace. -/
def receiveHookCalls : List Event → List (Nat × Nat × Bool)
  | [] => []
  | Event.receiveHook _ _ aBlock aPosition aMore _ :: es =>
    (aPosition, aBlock.length, aMore) :: receiveHookCalls es
  | _ :: es => receiveHookCalls es

/-- The messages handed to the transport in a trace. -/
def sentMessages : List Event → List Message
  | [] => []
  | Event.send aMessage _ :: es => aMessage :: sentMessages es
  | _ :: es => sentMessages es

/-- The results given to response handlers in a trace. -/
def handlerResults : List Event → List Error
  | [] => []
  | Event.responseHandler _ _ _ _ aResult :: es => aResult :: handlerResults es
  | _ :: es => handlerResults es

/-- The download of a 3000-byte resource in blocks of 1024 bytes: the engine
`exampleDownloading` receives block 0 (more-flag set) in answer to its request
with message-ID 7, then block 1 (more-flag set) in answer to the request it
sent with message-ID 8, then block 2 (952 bytes, more-flag clear) in answer to
the request it sent with message-ID 9. -/
def exampleTransfer : CoapBase :=
  ((exampleDownloading.ProcessReceivedResponse Config.openthread (Env.allOk 300 0)
      (exampleBlock 7 [1, 2] [14] (List.replicate 1024 0)) examplePeer).ProcessReceivedResponse
      Config.openthread (Env.allOk 400 0)
      (exampleBlock 8 [] [30] (List.replicate 1024 0)) examplePeer).ProcessReceivedResponse
    Config.openthread (Env.allOk 500 0) (exampleBlock 9 [] [38] (List.replicate 952 0)) examplePeer

/-- The message info of a message from `examplePeer` that arrives on the local
address `aLocal`. -/
def exampleReceivedOn (aLocal : Address) : MessageInfo :=
  { examplePeer with mSockAddr := aLocal }

/-- The download of `exampleTransfer` when the three responses arrive on the
local address `aLocal`, which `SendMessage` stores as the source address of the
two follow-up requests. -/
def exampleTransferOn (aLocal : Address) : CoapBase :=
  ((exampleDownloading.ProcessReceivedResponse Config.openthread (Env.allOk 300 0)
      (exampleBlock 7 [1, 2] [14] (List.replicate 1024 0))
      (exampleReceivedOn aLocal)).ProcessReceivedResponse
      Config.openthread (Env.allOk 400 0)
      (exampleBlock 8 [] [30] (List.replicate 1024 0))
      (exampleReceivedOn aLocal)).ProcessReceivedResponse
    Config.openthread (Env.allOk 500 0) (exampleBlock 9 [] [38] (List.replicate 952 0))
    (exampleReceivedOn aLocal)

/-! ## Sequences of calls on the engine -/

/-- The (token, peer address, peer port) of a stored request that is
confirmable; `none` for a stored request that is not. -/
def exchangeKey (r : PendingRequest) : Option (List Nat × Address × Nat) :=
  if r.mMetadata.mConfirmable then
    some (r.mMessage.mToken, r.mMetadata.mDestinationAddress, r.mMetadata.mDestinationPort)
  else none

/-- At most one pending confirmable request for each (token, peer address, peer
port). -/
def UniqueExchanges (s : CoapBase) : Prop :=
  (s.mPendingRequests.filterMap exchangeKey).Nodup

instance (s : CoapBase) : Decidable (UniqueExchanges s) := by
  unfold UniqueExchanges; infer_instance

/-- One call on the engine, with the environment it is made in. -/
inductive CoapBase.Call
  | sendMessage (env : Env) (aMessage : Message) (aMessageInfo : MessageInfo)
      (aTxParameters : TxParameters) (aHandler : Option Nat) (aContext : Nat)
      (aTransmitHook aReceiveHook : Option Nat)
  | receive (env : Env) (aHeaderOk : Bool) (aMessage : Message) (aMessageInfo : MessageInfo)
  | handleRetransmissionTimer (env : Env)
  | abortTransaction (env : Env) (aHandler : Option Nat) (aContext : Nat)
  | clearRequests (env : Env) (aAddress : Option Address)

/-- The engine after one call. -/
def CoapBase.call (cfg : Config) (s : CoapBase) : CoapBase.Call → CoapBase
  | .sendMessage env aMessage aMessageInfo aTxParameters aHandler aContext aTransmitHook
      aReceiveHook =>
    (s.SendMessage cfg env aMessage aMessageInfo aTxParameters aHandler aContext aTransmitHook
      aReceiveHook).2
  | .receive env aHeaderOk aMessage aMessageInfo => s.Receive cfg env aHeaderOk aMessage aMessageInfo
  | .handleRetransmissionTimer env => s.HandleRetransmissionTimer env
  | .abortTransaction env aHandler aContext => (s.AbortTransaction env aHandler aContext).2
  | .clearRequests env aAddress => s.ClearRequests env aAddress

/-- The engine after a sequence of calls, made in order. -/
def CoapBase.calls (cfg : Config) (s : CoapBase) (aCalls : List CoapBase.Call) : CoapBase :=
  aCalls.foldl (CoapBase.call cfg) s

/-- A call that does not reuse a pending exchange: a `SendMessage` with no
block-wise hook whose message, when confirmable, has a (token, peer address,
peer port) that no pending confirmable request has.  Every other call qualifies. -/
def CoapBase.Call.Fresh (s : CoapBase) : CoapBase.Call → Prop
  | .sendMessage _ aMessage aMessageInfo _ _ _ aTransmitHook aReceiveHook =>
    aTransmitHook = none ∧ aReceiveHook = none ∧
      (aMessage.IsConfirmable = true →
        (aMessage.mToken, aMessageInfo.mPeerAddr, aMessageInfo.mPeerPort) ∉
          s.mPendingRequests.filterMap exchangeKey)
  | _ => True

/-- Every call of the sequence is `Fresh` in the state in which it is made. -/
def CoapBase.AllFresh (cfg : Config) : CoapBase → List CoapBase.Call → Prop
  | _, [] => True
  | s, c :: cs => c.Fresh s ∧ CoapBase.AllFresh cfg (s.call cfg c) cs

/-- No stored request has a block-wise hook. -/
def NoBlockHooks (l : List PendingRequest) : Prop :=
  ∀ r ∈ l, r.mMetadata.mBlockwiseReceiveHook = none ∧ r.mMetadata.mBlockwiseTransmitHook = none

/-- The request `exampleRequest` sent twice to `examplePeer`, at times 100 and 150. -/
def exampleTwoSends : List CoapBase.Call :=
  [.sendMessage (Env.allOk 100 0) exampleRequest examplePeer exampleTx (some 1) 9 none none,
   .sendMessage (Env.allOk 150 0) exampleRequest examplePeer exampleTx (some 1) 9 none none]

/-- A request sent, acknowledged by an empty ACK, swept by the timer, another
request with a new token sent, and the first one aborted. -/
def exampleSession : List CoapBase.Call :=
  [.sendMessage (Env.allOk 100 0) exampleRequest examplePeer exampleTx (some 1) 9 none none,
   .receive (Env.allOk 200 0) true exampleEmptyAck examplePeer,
   .handleRetransmissionTimer (Env.allOk 2200 0),
   .sendMessage (Env.allOk 2300 0) { exampleRequest with mToken := [3] } examplePeer exampleTx
     (some 1) 10 none none,
   .abortTransaction (Env.allOk 2400 0) (some 1) 9]

/-- The stored request `r` with its `mAcknowledged` flag set. -/
def PendingRequest.acknowledged (r : PendingRequest) : PendingRequest :=
  { r with mMetadata := { r.mMetadata with mAcknowledged := true } }

/-- The queue `l2` holds no exchange that `l1` does not hold: its confirmable
(token, peer) pairs are, in order, among those of `l1`, and it has no block-wise
hook when `l1` has none. -/
def Thinned (l2 l1 : List PendingRequest) : Prop :=
  (l2.filterMap exchangeKey).Sublist (l1.filterMap exchangeKey) ∧
    (NoBlockHooks l1 → NoBlockHooks l2)

/-! ## The transmission span -/

/-- The span with the product by the numerator taken before the division, over
unbounded integers: `ackTimeout * (2^n - 1) * numerator / denominator`. -/
def spanProductFirst (p : TxParameters) (n : Nat) : Nat :=
  p.mAckTimeout * (2 ^ n - 1) * p.mAckRandomFactorNumerator / p.mAckRandomFactorDenominator

/-- The span with the division taken before the product by the numerator, over
unbounded integers: `ackTimeout * (2^n - 1) / denominator * numerator`. -/
def spanQuotientFirst (p : TxParameters) (n : Nat) : Nat :=
  p.mAckTimeout * (2 ^ n - 1) / p.mAckRandomFactorDenominator * p.mAckRandomFactorNumerator

/-- Transmission parameters with an acknowledgement timeout of 1001
milliseconds, random factor 3/2 and four retransmissions. -/
def exampleOddTimeout : TxParameters :=
  { mAckTimeout := 1001, mAckRandomFactorNumerator := 3, mAckRandomFactorDenominator := 2,
    mMaxRetransmit := 4 }

/-! ## The request related to a received message -/

/-- The rule for a stored request to be related to a received message: (a) its
destination address and port are the peer address and port of the message info,
or its destination address is multicast, or the interface identifier of its
destination address is an anycast locator; and (b) the message is an ACK or a
Reset with the message-ID of the request, or it is confirmable or
non-confirmable with the token of the request. -/
def PendingRequest.RelatedTo (r : PendingRequest) (aResponse : Message) (aMessageInfo : MessageInfo) :
    Bool :=
  ((r.mMetadata.mDestinationAddress == aMessageInfo.mPeerAddr &&
      r.mMetadata.mDestinationPort == aMessageInfo.mPeerPort) ||
    r.mMetadata.mDestinationAddress.IsMulticast ||
    r.mMetadata.mDestinationAddress.IsAnycastLocator) &&
  (((aResponse.mType == CoapType.kTypeAck || aResponse.mType == CoapType.kTypeReset) &&
      aResponse.mMessageId == r.mMessage.mMessageId) ||
    ((aResponse.mType == CoapType.kTypeConfirmable ||
        aResponse.mType == CoapType.kTypeNonConfirmable) &&
      aResponse.mToken == r.mMessage.mToken))

/-! ## The earliest deadline -/

/-- The earliest of a list of times, `none` for the empty list. -/
def earliestTime : List TimeMilli → Option TimeMilli
  | [] => none
  | t :: ts => some (ts.foldl min t)

/-- The minimum of the dequeue deadlines of the cached responses, `none` when
there is no cached response. -/
def earliestDequeueTime (aQueue : List CachedResponse) : Option TimeMilli :=
  earliestTime (aQueue.map (fun r => r.mMetadata.mDequeueTime))

/-- The minimum of `mNextTimerShot` over the stored requests that are not
acknowledged Observe subscriptions, taken not earlier than the current time;
`none` when there is no such request. -/
def earliestDeadline (aNow : TimeMilli) (aQueue : List PendingRequest) : Option TimeMilli :=
  (earliestTime ((aQueue.filter (fun r => !r.isAckedSubscription)).map
    (fun r => r.mMetadata.mNextTimerShot))).map (max aNow)

/-- The retransmission timer is stopped when no stored request other than
acknowledged Observe subscriptions is left, and armed at the earliest deadline
of the others otherwise. -/
def TimerScheduled (aNow : TimeMilli) (s : CoapBase) : Prop :=
  s.mRetransmissionTimer = earliestDeadline aNow s.mPendingRequests

instance (aNow : TimeMilli) (s : CoapBase) : Decidable (TimerScheduled aNow s) := by
  unfold TimerScheduled; infer_instance

/-- A cache of three responses for `examplePeer`, to be dequeued at times 900,
400 and 700, with the timer armed at 400. -/
def exampleExpiring : ResponsesQueue :=
  { mQueue :=
      [{ mMessage := exampleResponse 1,
         mMetadata := { mDequeueTime := 900, mMessageInfo := examplePeer } },
       { mMessage := exampleResponse 2,
         mMetadata := { mDequeueTime := 400, mMessageInfo := examplePeer } },
       { mMessage := exampleResponse 3,
         mMetadata := { mDequeueTime := 700, mMessageInfo := examplePeer } }],
    mTimer := some 400 }

/-- An engine holding `examplePending` (deadline 2600), `exampleSubscription`
(an acknowledged subscription) and `exampleStored` (deadline 2100). -/
def exampleThree : CoapBase :=
  { CoapBase.init 8 with mPendingRequests := [examplePending, exampleSubscription, exampleStored] }

/-! ## An ACK that the transport refuses -/

/-- The ACK as `SendMessage` hands it to the transport: with the payload of the
first block when a transmit hook supplies it, as given otherwise. -/
def ackAsSent (env : Env) (aMessage : Message) (aContext : Nat) (aTransmitHook : Option Nat) :
    Message :=
  (firstBlock env aMessage aContext aTransmitHook kOptionBlock2).2.1

/-- Whether `SendMessage` for an ACK gets as far as the transport: the
first-block step, if any, succeeds, and so does caching the block response. -/
def ackReachesTransport (env : Env) (aMessage : Message) (aContext : Nat)
    (aTransmitHook : Option Nat) : Bool :=
  (firstBlock env aMessage aContext aTransmitHook kOptionBlock2).1 == Error.kErrorNone &&
    (!(firstBlock env aMessage aContext aTransmitHook kOptionBlock2).2.2.2 ||
      env.mClone (ackAsSent env aMessage aContext aTransmitHook))

/-! ## The options of the next block request -/

/-- The part of `PrepareNextBlockRequest` after the copy loop (lines 671 to
682), given what the loop returned, when the `Advance` that ended the loop
reported no error. -/
def afterCopy (env : Env) (aType : BlockType) (aMoreBlocks : Bool) (aMessage : Message)
    (l : Error × Message × Bool) : Error × Message :=
  if l.1 ≠ Error.kErrorNone then (l.1, l.2.1)
  else if l.2.2 = false then writeBlockOption env aType aMoreBlocks l.2.1 aMessage
  else (Error.kErrorNone, l.2.1)

/-- The options of a follow-up request in words: the options of the old request
in order, with the new block option put before the first option whose number is
`aBlockOption` or more, that option being left out when it is a Block1 or a
Block2 option. -/
def insertBlockOption (aBlockOption : Nat) (aNew : CoapOption) (aOptions : List CoapOption) :
    List CoapOption :=
  aOptions.takeWhile (fun o => decide (o.mNumber < aBlockOption)) ++
    aNew ::
      (match aOptions.dropWhile (fun o => decide (o.mNumber < aBlockOption)) with
       | [] => []
       | o :: os => if o.mNumber = kOptionBlock1 ∨ o.mNumber = kOptionBlock2 then os else o :: os)

/-- An upload request for the path `a`: a confirmable POST with a Uri-Path option
and a Block1 option (block 1, more-flag clear, size exponent 2). -/
def exampleUploadRequest : Message :=
  { Message.Init CoapType.kTypeConfirmable kCodePost with
    mMessageId := 7, mToken := [1, 2],
    mOptions := [{ mNumber := kOptionUriPath, mValue := [97] },
                 { mNumber := kOptionBlock1, mValue := [18] }] }

/-- A response whose Block2 option has been read: block 0, more-flag set, size
exponent 2. -/
def exampleFirstBlock : Message :=
  { Message.Init CoapType.kTypeAck kCodeContent with
    mMessageId := 7, mToken := [1, 2],
    mOptions := [{ mNumber := kOptionBlock2, mValue := [10] }],
    mBlockWiseBlockNumber := 0, mMoreBlocksFlag := true, mBlockWiseBlockSize := 2 }

/-- A subscription request for the path `a`: a confirmable GET with an Observe
option of value 0, which has length zero, and a Uri-Path option. -/
def exampleObserveGet : Message :=
  { Message.Init CoapType.kTypeConfirmable kCodeGet with
    mMessageId := 7, mToken := [1, 2],
    mOptions := [{ mNumber := kOptionObserve, mValue := [] },
                 { mNumber := kOptionUriPath, mValue := [97] }] }

/-- A download request for the path `a/b` that already asks for block 1 with
size exponent 2, followed by a Size1 option. -/
def exampleDownloadRequest : Message :=
  { Message.Init CoapType.kTypeConfirmable kCodeGet with
    mMessageId := 7, mToken := [1, 2],
    mOptions := [{ mNumber := kOptionUriPath, mValue := [97] },
                 { mNumber := kOptionUriPath, mValue := [98] },
                 { mNumber := kOptionBlock2, mValue := [18] },
                 { mNumber := kOptionSize1, mValue := [1, 0] }] }

/-- The address `2001:db8::1`; its first byte reads as an option of length zero. -/
def exampleGlobalAddress : Address := 0x20010db8000000000000000000000001

/-- The address `fd00::1`; the upper nibble of its first byte is 15. -/
def exampleLocalAddress : Address := 0xfd000000000000000000000000000001

/-- The stored copy of a request sent from the address `aSource` to `examplePeer`
with handler 1, context 9 and the block-wise receive hook 6: the message and its
trailer. -/
def exampleStoredFrom (aSource : Address) (aMessage : Message) : PendingRequest :=
  { mMessage := aMessage,
    mMetadata := { exampleMetadata with
      mSourceAddress := aSource, mBlockwiseReceiveHook := some 6 } }

/-! ## Answering a request for a later block -/

/-- The options that `ProcessBlock2Request` writes into its response, read off
the options of the last response: for every Block2 option the new Block2 option,
every Block1 option as it is, and no other option. -/
def blockResponseOptions (aNew : CoapOption) (aLast : List CoapOption) : List CoapOption :=
  aLast.filterMap (fun o =>
    if o.mNumber = kOptionBlock2 then some aNew
    else if o.mNumber = kOptionBlock1 then some o
    else none)

/-- The response that `ProcessBlock2Request` sends for a chunk: a 2.05 ACK with
the message-ID and the token of the request, the block options read off the
last response, the chunk as payload, and in its help data the block number, the
more-flag and the size exponent of the block. -/
def block2Answer (aRequest aLast : Message) (aChunk : List Nat) (aMore : Bool)
    (aSzx aNumber : Nat) : Message :=
  { Message.Init CoapType.kTypeAck kCodeContent with
    mMessageId := aRequest.mMessageId
    mToken := aRequest.mToken
    mOptions := blockResponseOptions (blockOption BlockType.kBlockType2 aNumber aMore aSzx)
      aLast.mOptions
    mPayload := aChunk
    mBlockWiseBlockNumber := aNumber
    mMoreBlocksFlag := aMore
    mBlockWiseBlockSize := aSzx }

/-- An environment in which everything succeeds and the transmit hook returns
the given chunk and more-flag. -/
def Env.chunk (aNow : Nat) (aChunk : List Nat) (aMore : Bool) : Env :=
  { Env.allOk aNow 0 with mTransmitHook := fun _ _ _ _ => (Error.kErrorNone, aChunk, aMore) }

/-- A block-wise resource `a` with handler 3, context 30 and transmit hook 8. -/
def exampleBlockResource : ResourceBlockWise :=
  { mUriPath := "a", mHandler := some 3, mContext := 30, mReceiveHook := none,
    mTransmitHook := some 8 }

/-- A server with the resource `exampleBlockResource` that has answered block 0
(64 bytes, more blocks to follow) of a download and holds that response. -/
def exampleBlockServer : CoapBase :=
  { CoapBase.init 20 with
    mBlockWiseResources := [exampleBlockResource],
    mLastResponse := some (exampleBlock 50 [1, 2] [10] (List.replicate 64 0)) }

/-- A confirmable GET for the path `a` that asks for block 1 with size exponent
2 (64 bytes), with message-ID 51 and token `[1, 2]`. -/
def exampleBlockRequest : Message :=
  { Message.Init CoapType.kTypeConfirmable kCodeGet with
    mMessageId := 51, mToken := [1, 2],
    mOptions := [{ mNumber := kOptionUriPath, mValue := [97] },
                 { mNumber := kOptionBlock2, mValue := [18] }] }

/-- The response to a request whose Block2 option is `o`, for a chunk answered
with size exponent `aSzx`: the block number is the byte offset asked for,
`2^(s+4) * N`, divided by the block size `2^(aSzx+4)`. -/
def block2AnswerFor (aRequest aLast : Message) (o : CoapOption) (aChunk : List Nat) (aMore : Bool)
    (aSzx : Nat) : Message :=
  block2Answer aRequest aLast aChunk aMore aSzx
    (2 ^ (blockSizeOf o + 4) * blockNumberOf o / 2 ^ (aSzx + 4))

/-! ## A request that is acknowledged and waits for its separate response -/

/-- The stored request after a pass of `HandleRetransmissionTimer` that counts a
retransmission (lines 509 to 512): one retransmission less remaining, the
timeout doubled in 32 bits, the deadline set to now plus the new timeout. -/
def PendingRequest.backedOff (env : Env) (r : PendingRequest) : PendingRequest :=
  { r with mMetadata :=
      { r.mMetadata with
        mRetransmissionsRemaining := r.mMetadata.mRetransmissionsRemaining - 1
        mRetransmissionTimeout := r.mMetadata.mRetransmissionTimeout * 2 % 2 ^ 32
        mNextTimerShot := env.mNow + r.mMetadata.mRetransmissionTimeout * 2 % 2 ^ 32 } }

/-- The stored request `exampleStored` (one retransmission left, deadline 2100)
after the empty ACK for it has been processed. -/
def exampleAcknowledged : PendingRequest := exampleStored.acknowledged

/-- An engine whose pending requests are `examplePending` (deadline 2600) and
`exampleAcknowledged` (deadline 2100). -/
def exampleWaiting : CoapBase :=
  { CoapBase.init 8 with mPendingRequests := [examplePending, exampleAcknowledged] }

/-! ## A response that carries both block options -/

/-- The handler, context and result of the response-handler calls in a trace. -/
def handlerCalls : List Event → List (Nat × Nat × Error)
  | [] => []
  | Event.responseHandler aHandler aContext _ _ aResult :: es =>
    (aHandler, aContext, aResult) :: handlerCalls es
  | _ :: es => handlerCalls es

/-- A stored confirmable GET to `examplePeer` with message-ID 5, token `[3]`,
handler 2 and context 20. -/
def exampleOther : PendingRequest :=
  { mMessage := { exampleRequest with mMessageId := 5, mToken := [3] },
    mMetadata := { exampleMetadata with mResponseHandler := some 2, mResponseContext := 20 } }

/-- An engine with two pending requests: the download with message-ID 7, token
`[1, 2]`, handler 1, context 9 and receive hook 6, and `exampleOther`. -/
def exampleBusy : CoapBase :=
  { CoapBase.init 8 with
    mPendingRequests :=
      [exampleDownload 7 [1, 2] [{ mNumber := kOptionUriPath, mValue := [97] }], exampleOther] }

/-- A piggybacked 2.05 response with message-ID 7 and token `[1, 2]` that
carries a Block2 option (block 0, more-flag clear, size exponent 2) and a Block1
option, and ten bytes of payload. -/
def exampleBothBlocks : Message :=
  { Message.Init CoapType.kTypeAck kCodeContent with
    mMessageId := 7, mToken := [1, 2],
    mOptions := [{ mNumber := kOptionBlock2, mValue := [2] },
                 { mNumber := kOptionBlock1, mValue := [2] }],
    mPayload := List.replicate 10 0 }

/-- A piggybacked 2.05 response with message-ID 7 and token `[1, 2]` that
carries a Block2 option (block 0, more-flag set, size exponent 2) and 64 bytes of
payload. -/
def exampleMoreBlocks : Message := exampleBlock 7 [1, 2] [10] (List.replicate 64 0)

/-! ## A handler that calls back into the engine

The embedding above takes callbacks that do not call back into the engine.  What
follows models the one place of `ProcessReceivedResponse` that uses a stored
request after a handler call (lines 1162 to 1166) for a handler that does call
back.  A `Message *` is the address of a message buffer, and a queue is a list of
buffers with their addresses. -/

/-- A stored request with the address of its message buffer. -/
structure StoredRequest where
  mAddress : Nat
  mRequest : PendingRequest
  deriving DecidableEq, Repr

/-- The queue after `AbortTransaction(aHandler, aContext)`: every request with
that handler and context is dequeued and its buffer freed. -/
def abortStored (aHandler : Option Nat) (aContext : Nat) (aQueue : List StoredRequest) :
    List StoredRequest :=
  aQueue.filter (fun b =>
    !(b.mRequest.mMetadata.mResponseHandler == aHandler &&
      b.mRequest.mMetadata.mResponseContext == aContext))

/-- The write `metadata.UpdateIn(*request)` through the pointer `request`: the
buffer at that address gets the metadata.  The result is `none` when no buffer of
the queue is at that address: the write then goes to a buffer that has been
freed. -/
def updateInAt (aQueue : List StoredRequest) (request : Nat) (metadata : Metadata) :
    Option (List StoredRequest) :=
  if aQueue.any (fun b => b.mAddress == request) then
    some (aQueue.map (fun b =>
      if b.mAddress == request then { b with mRequest := { b.mRequest with mMetadata := metadata } }
      else b))
  else none

/-- Lines 1162 to 1166 of `ProcessReceivedResponse`: the handler is called,
`aHandlerCalls` being what its calls into the engine do to the queue; then
`mAcknowledged` is set in the local metadata, which is written to `*request`.
The code does not look whether `request` is still queued. -/
def notifyAndUpdate (aQueue : List StoredRequest) (request : Nat) (metadata : Metadata)
    (aHandlerCalls : List StoredRequest → List StoredRequest) : Option (List StoredRequest) :=
  updateInAt (aHandlerCalls aQueue) request { metadata with mAcknowledged := true }

/-- A stored Observe subscription: a confirmable GET with an Observe option,
message-ID 7 and token `[1, 2]`, with handler 1 and context 9. -/
def exampleObserved : PendingRequest :=
  { mMessage := { exampleObserveGet with mMessageId := 7 },
    mMetadata := { exampleMetadata with mObserve := true } }

/-- An engine whose only pending request is `exampleObserved`. -/
def exampleObserving : CoapBase :=
  { CoapBase.init 8 with mPendingRequests := [exampleObserved] }

/-- A piggybacked notification for `exampleObserved`: a 2.05 ACK with message-ID
7, token `[1, 2]` and an Observe option. -/
def exampleNotification : Message :=
  { Message.Init CoapType.kTypeAck kCodeContent with
    mMessageId := 7, mToken := [1, 2],
    mOptions := [{ mNumber := kOptionObserve, mValue := [5] }] }

/-! ## The requests that `ClearRequests` finalizes -/

/-- The test of `ClearRequests` on a stored request:
`(aAddress == nullptr) || (metadata.mSourceAddress == *aAddress)`. -/
def clearSelects (aAddress : Option Address) (aMetadata : Metadata) : Bool :=
  match aAddress with
  | none => true
  | some a => aMetadata.mSourceAddress == a

/-- The calls made when every request of `aQueue` is finalized with
`kErrorAbort`, in the order of the queue: one call of the handler of each
request that has one, with a null response and a null message info. -/
def abortCalls (aQueue : List PendingRequest) : List Event :=
  (aQueue.map (fun r => handlerCall r.mMetadata none none Error.kErrorAbort)).flatten

/-! ## Requests that get no Not Found response -/

/-- An environment in which everything succeeds but the transport, which answers
`kErrorNotFound` to every message. -/
def Env.transportNotFound (aNow aRandom : Nat) : Env :=
  { Env.allOk aNow aRandom with mSender := fun _ _ => Error.kErrorNotFound }

/-- An environment in which everything succeeds but the interceptor, which
answers `kErrorDrop`. -/
def Env.intercepted (aNow aRandom : Nat) : Env :=
  { Env.allOk aNow aRandom with mInterceptor := fun _ _ => Error.kErrorDrop }

/-- An engine without any handler, with an interceptor. -/
def exampleGuarded : CoapBase :=
  { CoapBase.init 20 with mInterceptor := some 1 }

/-- A confirmable GET with message-ID 50 and token `[1, 2]` whose single
Uri-Path option has 33 bytes, one more than `kMaxReceivedUriPath`. -/
def exampleLongPath : Message :=
  { exampleArrived 50 with
    mOptions := [{ mNumber := kOptionUriPath, mValue := List.replicate 33 97 }] }


/-! # Theorems -/

/-! ## Transmission parameters -/

theorem Multiply_ne_zero {a b : Nat} (h : Multiply a b ≠ 0) :
    a ≠ 0 ∧ a * b < 2 ^ 32 ∧ Multiply a b = a * b := by
  unfold Multiply at h ⊢
  by_cases ha : a = 0
  · simp [ha] at h
  · simp only [ha, if_false] at h ⊢
    by_cases hd : a * b % 2 ^ 32 / a = b
    · have hlt : a * b < 2 ^ 32 := by
        by_contra hge
        have h1 : a * b % 2 ^ 32 < a * b :=
          lt_of_lt_of_le (Nat.mod_lt _ (by norm_num)) (not_lt.mp hge)
        have h2 : a * b % 2 ^ 32 / a < b := by
          rw [Nat.div_lt_iff_lt_mul (Nat.pos_of_ne_zero ha)]
          rwa [Nat.mul_comm b a]
        omega
      refine ⟨ha, hlt, ?_⟩
      simp only [hd, if_true]
      exact Nat.mod_eq_of_lt hlt
    · rw [if_neg hd] at h
      exact absurd rfl h

theorem shiftMask_eq {n : Nat} (h : n < 32) : shiftMask n = 2 ^ n - 1 := by
  unfold shiftMask
  have h1 : 2 ^ n < 2 ^ 32 := Nat.pow_lt_pow_right (by norm_num) h
  have h2 : 0 < 2 ^ n := Nat.two_pow_pos n
  rw [Nat.mod_eq_of_lt h1]
  have : 2 ^ n + 2 ^ 32 - 1 = (2 ^ n - 1) + 2 ^ 32 := by omega
  rw [this, Nat.add_mod_right]
  exact Nat.mod_eq_of_lt (by omega)

/-- What `IsValid` establishes: the field constraints, and that the product
`ackTimeout * (2^(maxRetransmit+1) - 1) * numerator` fits in 32 bits. -/
theorem IsValid_bound {cfg : Config} {p : TxParameters} (hcfg : cfg.OT_COAP_MAX_RETRANSMIT < 31)
    (hv : p.IsValid cfg = true) :
    0 < p.mAckRandomFactorDenominator ∧
      p.mAckRandomFactorDenominator ≤ p.mAckRandomFactorNumerator ∧
      p.mMaxRetransmit ≤ cfg.OT_COAP_MAX_RETRANSMIT ∧
      cfg.OT_COAP_MIN_ACK_TIMEOUT ≤ p.mAckTimeout ∧
      p.mAckTimeout * (2 ^ (p.mMaxRetransmit + 1) - 1) * p.mAckRandomFactorNumerator < 2 ^ 32 := by
  unfold TxParameters.IsValid at hv
  split at hv
  · rename_i hc
    obtain ⟨h1, h2, h3, h4⟩ := hc
    simp only [Bool.and_eq_true, decide_eq_true_eq] at hv
    obtain ⟨hne, _⟩ := hv
    have hm : shiftMask (p.mMaxRetransmit + 1) = 2 ^ (p.mMaxRetransmit + 1) - 1 :=
      shiftMask_eq (by omega)
    have h5 : Multiply (Multiply p.mAckTimeout (shiftMask (p.mMaxRetransmit + 1)))
        p.mAckRandomFactorNumerator ≠ 0 := by
      intro h0
      rw [h0] at hne
      simp at hne
    obtain ⟨h6, h7, _⟩ := Multiply_ne_zero h5
    obtain ⟨_, _, h9⟩ := Multiply_ne_zero h6
    rw [h9, hm] at h7
    exact ⟨h1, h2, h4, h3, h7⟩
  · simp at hv

/-! ## Retransmission back-off -/

/-- One due pass of the loop body over a confirmable request with retransmissions
left and no wrap of the doubling. -/
theorem retransmit_due {env : Env} {r : PendingRequest}
    (hdue : r.mMetadata.mNextTimerShot ≤ env.mNow) (hsub : r.isAckedSubscription = false)
    (hconf : r.mMetadata.mConfirmable = true) (hrem : r.mMetadata.mRetransmissionsRemaining ≠ 0)
    (hlt : r.mMetadata.mRetransmissionTimeout * 2 < 2 ^ 32) :
    (retransmit env r).1 = some { r with mMetadata := { r.mMetadata with
        mRetransmissionsRemaining := r.mMetadata.mRetransmissionsRemaining - 1
        mRetransmissionTimeout := r.mMetadata.mRetransmissionTimeout * 2
        mNextTimerShot := env.mNow + r.mMetadata.mRetransmissionTimeout * 2 } } := by
  unfold retransmit
  rw [if_pos hdue]
  rw [Nat.mod_eq_of_lt hlt]
  simp [hsub, hconf, hrem]

theorem retransmitN_doubles (envAt : Nat → Env) (r : PendingRequest) (t rem : Nat)
    (hconf : r.mMetadata.mConfirmable = true) (hsub : r.isAckedSubscription = false)
    (ht : r.mMetadata.mRetransmissionTimeout = t)
    (hrem : r.mMetadata.mRetransmissionsRemaining = rem) :
    ∀ k, k ≤ rem → t * 2 ^ k < 2 ^ 32 →
      (∀ j < k, ∀ r1, retransmitN envAt r j = some r1 →
        r1.mMetadata.mNextTimerShot ≤ (envAt j).mNow) →
      ∃ shot, (k = 0 ∨ shot = (envAt (k - 1)).mNow + t * 2 ^ k) ∧
        retransmitN envAt r k = some { r with mMetadata := { r.mMetadata with
          mRetransmissionsRemaining := rem - k
          mRetransmissionTimeout := t * 2 ^ k
          mNextTimerShot := shot } } := by
  intro k
  induction k with
  | zero =>
    intro _ _ _
    refine ⟨r.mMetadata.mNextTimerShot, Or.inl rfl, ?_⟩
    subst ht hrem
    simp [retransmitN]
  | succ k ih =>
    intro hk hb hdue
    have hb1 : t * 2 ^ k < 2 ^ 32 := by
      have : t * 2 ^ k ≤ t * 2 ^ (k + 1) :=
        Nat.mul_le_mul_left t (Nat.pow_le_pow_right (by norm_num) (Nat.le_succ k))
      omega
    obtain ⟨shot, _, hrun⟩ := ih (by omega) hb1 (fun j hj => hdue j (by omega))
    have hd := hdue k (by omega) _ hrun
    refine ⟨(envAt k).mNow + t * 2 ^ (k + 1), Or.inr (by simp), ?_⟩
    have hpow : t * 2 ^ k * 2 = t * 2 ^ (k + 1) := by rw [pow_succ, Nat.mul_assoc]
    simp only [retransmitN, hrun, Option.some_bind]
    rw [retransmit_due hd]
    · simp only [hpow]
      congr 3
    · simpa [PendingRequest.isAckedSubscription] using hsub
    · exact hconf
    · simp only
      omega
    · simp only [hpow]
      exact hb

/-- C2. A pending confirmable request created with initial retransmission
timeout `T0`, drawn between `ackTimeout` and `ackTimeout * numerator /
denominator` for valid transmission parameters `p`, and with
`mRetransmissionsRemaining = p.mMaxRetransmit`: after the `k`-th retransmission
pass of `HandleRetransmissionTimer` over it (`1 ≤ k ≤ mMaxRetransmit`, every pass
made when the deadline has passed) the 32-bit doubling has not wrapped, the stored
timeout is `T0 * 2^k`, the retransmissions remaining are `mMaxRetransmit - k`, the
next timer shot is that pass' `now` plus `T0 * 2^k`, and nothing else in the
stored request has changed. -/
theorem retransmission_timeout_doubles (cfg : Config) (p : TxParameters) (T0 : Nat)
    (envAt : Nat → Env) (r : PendingRequest) (k : Nat)
    (hcfg : cfg.OT_COAP_MAX_RETRANSMIT < 31)
    (hv : p.IsValid cfg = true)
    (_hlo : p.mAckTimeout ≤ T0)
    (hhi : T0 ≤ p.mAckTimeout * p.mAckRandomFactorNumerator / p.mAckRandomFactorDenominator)
    (hconf : r.mMetadata.mConfirmable = true)
    (hsub : r.isAckedSubscription = false)
    (ht : r.mMetadata.mRetransmissionTimeout = T0)
    (hrem : r.mMetadata.mRetransmissionsRemaining = p.mMaxRetransmit)
    (hk1 : 1 ≤ k) (hk : k ≤ p.mMaxRetransmit)
    (hdue : ∀ j < k, ∀ r1, retransmitN envAt r j = some r1 →
      r1.mMetadata.mNextTimerShot ≤ (envAt j).mNow) :
    T0 * 2 ^ k < 2 ^ 32 ∧
      retransmitN envAt r k = some { r with mMetadata := { r.mMetadata with
        mRetransmissionsRemaining := p.mMaxRetransmit - k
        mRetransmissionTimeout := T0 * 2 ^ k
        mNextTimerShot := (envAt (k - 1)).mNow + T0 * 2 ^ k } } := by
  obtain ⟨hden, _, _, _, hbound⟩ := IsValid_bound hcfg hv
  have h1 : T0 ≤ p.mAckTimeout * p.mAckRandomFactorNumerator :=
    le_trans hhi (Nat.div_le_self _ _)
  have h2 : 2 ^ k ≤ 2 ^ (p.mMaxRetransmit + 1) - 1 := by
    have h3 : 2 ^ k ≤ 2 ^ p.mMaxRetransmit := Nat.pow_le_pow_right (by norm_num) hk
    have h4 : 2 ^ (p.mMaxRetransmit + 1) = 2 ^ p.mMaxRetransmit * 2 := pow_succ 2 _
    have h5 : 0 < 2 ^ p.mMaxRetransmit := Nat.two_pow_pos _
    omega
  have hb : T0 * 2 ^ k < 2 ^ 32 := by
    calc T0 * 2 ^ k ≤ p.mAckTimeout * p.mAckRandomFactorNumerator * (2 ^ (p.mMaxRetransmit + 1) - 1) :=
          Nat.mul_le_mul h1 h2
      _ = p.mAckTimeout * (2 ^ (p.mMaxRetransmit + 1) - 1) * p.mAckRandomFactorNumerator := by ring
      _ < 2 ^ 32 := hbound
  obtain ⟨shot, hs, hrun⟩ := retransmitN_doubles envAt r T0 p.mMaxRetransmit hconf hsub ht hrem k hk hb hdue
  refine ⟨hb, ?_⟩
  rcases hs with h0 | hs
  · omega
  · rw [hrun, hs]

theorem retransmission_timeout_doubles_witness :
    2500 * 2 ^ 2 < 2 ^ 32 ∧
      retransmitN (fun j => Env.allOk (10000 * (j + 1)) 0) examplePending 2 =
        some { examplePending with mMetadata := { exampleMetadata with
          mRetransmissionsRemaining := 2
          mRetransmissionTimeout := 10000
          mNextTimerShot := 30000 } } :=
  retransmission_timeout_doubles Config.openthread (TxParameters.GetDefault Config.openthread) 2500
    (fun j => Env.allOk (10000 * (j + 1)) 0) examplePending 2 (by decide) (by decide) (by decide)
    (by decide) rfl rfl rfl rfl (by decide) (by decide)
    (by
      intro j hj r1 h
      interval_cases j
      · simp only [retransmitN, Option.some.injEq] at h
        subst h
        decide
      · simp only [retransmitN, Option.some_bind] at h
        have h2 : (retransmit (Env.allOk (10000 * (0 + 1)) 0) examplePending).1 =
            some { examplePending with mMetadata := { exampleMetadata with
              mRetransmissionsRemaining := 3
              mRetransmissionTimeout := 5000
              mNextTimerShot := 15000 } } := by decide
        rw [h2] at h
        simp only [Option.some.injEq] at h
        subst h
        decide)

/-! ## Sending -/

theorem observeStep_no_cancel {env : Env} {s : CoapBase} {m : Message} {info : MessageInfo}
    (hc : isObserveCancellation m = false) {obs : Bool} {s1 : CoapBase}
    (h : observeStep env s m info = .ok (obs, s1)) :
    s1 = s ∧ obs = (m.findOption kOptionObserve).isSome := by
  unfold observeStep at h
  unfold isObserveCancellation at hc
  split at h
  · rename_i ho
    simp only [Except.ok.injEq, Prod.mk.injEq] at h
    simp [ho, h.1.symm, h.2.symm]
  · rename_i o ho
    rw [ho] at hc
    simp only at hc
    split at h
    · rename_i hget
      simp only [hget, Bool.true_and] at hc
      split at h
      · simp at h
      · rename_i v hv
        rw [hv] at hc
        simp only [beq_iff_eq] at hc
        have hv1 : ¬ v = 1 := by simpa using hc
        rw [if_neg hv1] at h
        simp only [Except.ok.injEq, Prod.mk.injEq] at h
        simp [ho, h.1.symm, h.2.symm]
    · simp only [Except.ok.injEq, Prod.mk.injEq] at h
      simp [ho, h.1.symm, h.2.symm]

theorem observeStep_empty {env : Env} {s : CoapBase} {m : Message} {info : MessageInfo}
    (hs : s.mPendingRequests = []) {obs : Bool} {s1 : CoapBase}
    (h : observeStep env s m info = .ok (obs, s1)) : s1 = s := by
  unfold observeStep at h
  have hf : s.FindRelatedRequest m info = none := by
    simp [CoapBase.FindRelatedRequest, hs, findRelated]
  rw [hf] at h
  split at h
  · simp only [Except.ok.injEq, Prod.mk.injEq] at h
    exact h.2.symm
  · split at h
    · split at h
      · simp at h
      · split at h <;> simp only [Except.ok.injEq, Prod.mk.injEq] at h <;> exact h.2.symm
    · simp only [Except.ok.injEq, Prod.mk.injEq] at h
      exact h.2.symm

theorem observeStep_error {env : Env} {s : CoapBase} {m : Message} {info : MessageInfo} {e : Error}
    (h : observeStep env s m info = .error e) : e = Error.kErrorNoBufs := by
  unfold observeStep at h
  split at h
  · simp at h
  · rename_i o _
    split at h
    · unfold ReadOptionValueUint at h
      split at h
      · rename_i e1 he
        split at he
        · simp at he
        · simp only [Except.error.injEq] at he h
          rw [← h, ← he]
      · split at h
        · split at h <;> simp at h
        · simp at h
    · simp at h

/-- The outcome of lines 261 to 350 of `SendMessage` when they report no error. -/
theorem sendAndStore_ok {env : Env} {s : CoapBase} {m : Message} {info : MessageInfo}
    {tx : TxParameters} {hd : Option Nat} {ctx : Nat} {th rh : Option Nat}
    (h : (CoapBase.sendAndStore env s m info tx hd ctx th rh).1 = Error.kErrorNone) :
    (m.IsConfirmable = false ∧ (m.IsNonConfirmable && hd.isSome) = false ∧
        (CoapBase.sendAndStore env s m info tx hd ctx th rh).2 = s.emit [Event.send m info]) ∨
      ((m.IsConfirmable = true ∨ (m.IsNonConfirmable && hd.isSome) = true) ∧
        ∃ obs s1, observeStep env s m info = .ok (obs, s1) ∧
          (CoapBase.sendAndStore env s m info tx hd ctx th rh).2 =
            (CoapBase.ScheduleRetransmissionTimer env
              { s1 with mPendingRequests := s1.mPendingRequests ++
                  [{ mMessage := storedCopy m,
                     mMetadata := newMetadata env m info tx hd ctx th rh obs }] }).emit
              [Event.send m info]) := by
  have key : ∀ c : Message, c = storedCopy m →
      ((match observeStep env s m info with
        | .error e => (e, s)
        | .ok (observe, s1) =>
          match s1.CopyAndEnqueueMessage env c (newMetadata env m info tx hd ctx th rh observe) with
          | none => (Error.kErrorNoBufs, s1)
          | some s2 =>
            if (s2.Send env m info).1 ≠ Error.kErrorNone then
              ((s2.Send env m info).1, (s2.Send env m info).2.DequeueMessage env s1.mPendingRequests.length)
            else s2.Send env m info) : Error × CoapBase).1 = Error.kErrorNone →
      ∃ obs s1, observeStep env s m info = .ok (obs, s1) ∧
        ((match observeStep env s m info with
        | .error e => (e, s)
        | .ok (observe, s1) =>
          match s1.CopyAndEnqueueMessage env c (newMetadata env m info tx hd ctx th rh observe) with
          | none => (Error.kErrorNoBufs, s1)
          | some s2 =>
            if (s2.Send env m info).1 ≠ Error.kErrorNone then
              ((s2.Send env m info).1, (s2.Send env m info).2.DequeueMessage env s1.mPendingRequests.length)
            else s2.Send env m info) : Error × CoapBase).2 =
          (CoapBase.ScheduleRetransmissionTimer env
              { s1 with mPendingRequests := s1.mPendingRequests ++
                  [{ mMessage := storedCopy m,
                     mMetadata := newMetadata env m info tx hd ctx th rh obs }] }).emit
              [Event.send m info] := by
    intro c hcopy hk
    cases ho : observeStep env s m info with
    | error e =>
      have := observeStep_error ho
      rw [ho] at hk
      simp only at hk
      rw [hk] at this
      exact absurd this (by decide)
    | ok p =>
      obtain ⟨obs, s1⟩ := p
      refine ⟨obs, s1, rfl, ?_⟩
      rw [ho] at hk
      simp only at hk ⊢
      unfold CoapBase.CopyAndEnqueueMessage at hk ⊢
      by_cases h1 : env.mClone c = true
      · by_cases h2 : env.mAppend c = true
        · simp only [h1, h2, Bool.not_true, Bool.false_eq_true, if_false] at hk ⊢
          by_cases h3 : (env.mSender m info) = Error.kErrorNone
          · simp [CoapBase.Send, h3, hcopy]
          · simp [CoapBase.Send, h3] at hk
        · simp [h1, h2] at hk
      · simp [h1] at hk
  unfold CoapBase.sendAndStore at h ⊢
  by_cases hc : m.IsConfirmable = true
  · simp only [hc, if_true] at h ⊢
    right
    refine ⟨Or.inl trivial, ?_⟩
    exact key m (by simp [storedCopy, hc]) h
  · by_cases hn : (m.IsNonConfirmable && hd.isSome) = true
    · simp only [hc, hn, if_true, if_false] at h ⊢
      right
      refine ⟨Or.inr trivial, ?_⟩
      exact key m.headerOnly (by simp [storedCopy, hc]) h
    · left
      simp only [hc, hn, if_false] at h ⊢
      simp only [Bool.not_eq_true] at hc hn
      exact ⟨trivial, trivial, rfl⟩

theorem ReadBlockOptionValues_header (m : Message) (t : Nat) :
    SameHeader (m.ReadBlockOptionValues t).2 m := by
  unfold Message.ReadBlockOptionValues SameHeader
  split
  · simp
  · split
    · simp
    · split <;> simp

theorem firstBlock_header (env : Env) (m : Message) (ctx : Nat) (th : Option Nat) (opt : Nat) :
    SameHeader (firstBlock env m ctx th opt).2.1 m ∧
      ∀ e ∈ (firstBlock env m ctx th opt).2.2.1, ∃ a b c d, e = Event.transmitHook a b c d := by
  have hr := ReadBlockOptionValues_header m opt
  unfold SameHeader at hr ⊢
  cases th with
  | none => simp [firstBlock]
  | some hook =>
    simp only [firstBlock]
    split_ifs <;> simp [hr]

/-- The shape of `SendMessage`: either the block-wise first-block step fails,
before anything is stored, or the call continues at line 261 with the message
`m1` that the switch on the type has prepared. -/
theorem SendMessage_cases (cfg : Config) (env : Env) (s : CoapBase) (m : Message)
    (info : MessageInfo) (tx : TxParameters) (hd : Option Nat) (ctx : Nat) (th rh : Option Nat) :
    (∃ e s1, e ≠ Error.kErrorNone ∧
        CoapBase.SendMessage cfg env s m info tx hd ctx th rh = (e, s1) ∧
        s1.mPendingRequests = s.mPendingRequests) ∨
      (∃ m1 s1 calls,
        CoapBase.SendMessage cfg env s m info tx hd ctx th rh =
          CoapBase.sendAndStore env s1 m1 info tx hd ctx th rh ∧
        s1.mPendingRequests = s.mPendingRequests ∧
        s1.mTrace = s.mTrace ++ calls ∧
        (∀ e ∈ calls, ∃ a b c d, e = Event.transmitHook a b c d) ∧
        m1.mCode = m.mCode ∧ m1.mToken = m.mToken ∧ m1.mOptions = m.mOptions ∧
        (m1.mType = m.mType ∨
          (m.mType = CoapType.kTypeNonConfirmable ∧ m1.mType = CoapType.kTypeConfirmable ∧
            th.isSome = true))) := by
  unfold CoapBase.SendMessage
  split
  · -- kTypeAck
    rename_i hty
    obtain ⟨⟨h1, h2, h3, h4, h5⟩, hcalls⟩ := firstBlock_header env m ctx th kOptionBlock2
    by_cases hb : (firstBlock env m ctx th kOptionBlock2).1 = Error.kErrorNone
    · simp only [hb, ne_eq, not_true_eq_false, if_false]
      by_cases hcache : (firstBlock env m ctx th kOptionBlock2).2.2.2 = true
      · simp only [hcache, if_true]
        unfold CoapBase.CacheLastBlockResponse
        by_cases hcl : env.mClone (firstBlock env m ctx th kOptionBlock2).2.1 = true
        · simp only [hcl, if_true, not_true_eq_false, if_false]
          right
          exact ⟨_, _, _, rfl, rfl, rfl, hcalls, h2, h4, h5, Or.inl h1⟩
        · simp only [hcl, Bool.false_eq_true, if_false]
          left
          exact ⟨Error.kErrorNoBufs,
            (s.emit (firstBlock env m ctx th kOptionBlock2).2.2.1).FreeLastBlockResponse,
            by decide, by simp, rfl⟩
      · simp only [hcache, Bool.false_eq_true, if_false, not_true_eq_false]
        right
        exact ⟨_, _, _, rfl, rfl, rfl, hcalls, h2, h4, h5, Or.inl h1⟩
    · simp only [hb, ne_eq, not_false_eq_true, if_true]
      left
      exact ⟨_, _, hb, rfl, rfl⟩
  · right
    exact ⟨m, s, [], rfl, rfl, by simp, by simp, rfl, rfl, rfl, Or.inl rfl⟩
  · rename_i hty1 hty2
    obtain ⟨⟨h1, h2, h3, h4, h5⟩, hcalls⟩ := firstBlock_header env m ctx th kOptionBlock1
    by_cases hb : (firstBlock env m ctx th kOptionBlock1).1 = Error.kErrorNone
    · simp only [hb, ne_eq, not_true_eq_false, if_false]
      right
      refine ⟨_, _, _, rfl, rfl, rfl, hcalls, ?_, ?_, ?_, ?_⟩
      · split <;> simp [h2]
      · split <;> simp [h4]
      · split <;> simp [h5]
      · split
        · rename_i hp
          simp only [Bool.and_eq_true] at hp
          right
          refine ⟨?_, rfl, ?_⟩
          · have := hp.2
            simp only [Message.IsNonConfirmable, beq_iff_eq] at this
            rw [← h1]; exact this
          · cases th with
            | none => simp [firstBlock] at hp
            | some _ => rfl
        · left
          simpa using h1
    · simp only [hb, ne_eq, not_false_eq_true, if_true]
      left
      exact ⟨_, _, hb, rfl, rfl⟩

theorem isObserveCancellation_congr {a b : Message} (hc : a.mCode = b.mCode)
    (ho : a.mOptions = b.mOptions) : isObserveCancellation a = isObserveCancellation b := by
  simp [isObserveCancellation, Message.findOption, Message.IsGetRequest, hc, ho]

/-- C4, counterexample. A non-confirmable message with a null handler is stored
in the pending-request queue when a transmit hook is given and the message
carries a Block1 option with block number 0: the block-wise first-block step of
`SendMessage` turns it into a confirmable message. -/
theorem SendMessage_promotes_block_upload :
    exampleUpload.mType = CoapType.kTypeNonConfirmable ∧
      isObserveCancellation exampleUpload = false ∧
      (CoapBase.init 7).mPendingRequests = [] ∧
      (CoapBase.SendMessage Config.openthread (Env.allOk 100 0) (CoapBase.init 7) exampleUpload
        examplePeer exampleTx none 0 (some 3) none).1 = Error.kErrorNone ∧
      (CoapBase.SendMessage Config.openthread (Env.allOk 100 0) (CoapBase.init 7) exampleUpload
        examplePeer exampleTx none 0 (some 3) none).2.mPendingRequests.length = 1 := by
  decide

/-- C4, as amended. Every call of `SendMessage` that returns `kErrorNone` and is
not an Observe cancellation hands one message `m1` to the transport, after the
calls of the transmit hook if any; `m1` has the type of the message given, except
that the block-wise first-block step may have turned a non-confirmable message
into a confirmable one (only when a transmit hook is given).  The
pending-request queue gains exactly one entry, appended at the end, if `m1` is
confirmable, or is non-confirmable and the handler is non-null, and is unchanged
otherwise (ACK, Reset, or non-confirmable with a null handler).  The metadata of
the added entry records the handler and context given, the peer address and
port, `mRetransmissionsRemaining = mMaxRetransmit`, `mAcknowledged = false`,
`mConfirmable = (m1 is confirmable)`, and `mNextTimerShot = now +
mRetransmissionTimeout` when confirmable and `now + CalculateMaxTransmitWait()`
when not. -/
theorem SendMessage_stores_request (cfg : Config) (env : Env) (s : CoapBase) (m : Message)
    (info : MessageInfo) (tx : TxParameters) (hd : Option Nat) (ctx : Nat) (th rh : Option Nat)
    (hok : (CoapBase.SendMessage cfg env s m info tx hd ctx th rh).1 = Error.kErrorNone)
    (hcancel : isObserveCancellation m = false) :
    ∃ m1 calls,
      (CoapBase.SendMessage cfg env s m info tx hd ctx th rh).2.mTrace =
          s.mTrace ++ calls ++ [Event.send m1 info] ∧
        (∀ e ∈ calls, ∃ a b c d, e = Event.transmitHook a b c d) ∧
        (m1.mType = m.mType ∨
          (m.mType = CoapType.kTypeNonConfirmable ∧ m1.mType = CoapType.kTypeConfirmable ∧
            th.isSome = true)) ∧
        ((m1.mType = CoapType.kTypeConfirmable ∨
            (m1.mType = CoapType.kTypeNonConfirmable ∧ hd ≠ none)) →
          ∃ r, (CoapBase.SendMessage cfg env s m info tx hd ctx th rh).2.mPendingRequests =
              s.mPendingRequests ++ [r] ∧
            r.mMessage = storedCopy m1 ∧
            r.mMetadata.mResponseHandler = hd ∧ r.mMetadata.mResponseContext = ctx ∧
            r.mMetadata.mDestinationAddress = info.mPeerAddr ∧
            r.mMetadata.mDestinationPort = info.mPeerPort ∧
            r.mMetadata.mRetransmissionsRemaining = tx.mMaxRetransmit ∧
            r.mMetadata.mAcknowledged = false ∧
            r.mMetadata.mConfirmable = m1.IsConfirmable ∧
            r.mMetadata.mNextTimerShot =
              env.mNow + (if m1.mType = CoapType.kTypeConfirmable then r.mMetadata.mRetransmissionTimeout
                else tx.CalculateMaxTransmitWait)) ∧
        (¬ (m1.mType = CoapType.kTypeConfirmable ∨
            (m1.mType = CoapType.kTypeNonConfirmable ∧ hd ≠ none)) →
          (CoapBase.SendMessage cfg env s m info tx hd ctx th rh).2.mPendingRequests =
            s.mPendingRequests) := by
  rcases SendMessage_cases cfg env s m info tx hd ctx th rh with
    ⟨e, s1, he, heq, _⟩ | ⟨m1, s1, calls, heq, hp, htr, hcalls, hcode, _, hopt, hty⟩
  · rw [heq] at hok
    exact absurd hok he
  · rw [heq] at hok ⊢
    have hcancel1 : isObserveCancellation m1 = false := by
      rw [isObserveCancellation_congr hcode hopt]; exact hcancel
    have hconf : (m1.mType = CoapType.kTypeConfirmable) ↔ m1.IsConfirmable = true := by
      simp [Message.IsConfirmable]
    have hnon : (m1.mType = CoapType.kTypeNonConfirmable ∧ hd ≠ none) ↔
        (m1.IsNonConfirmable && hd.isSome) = true := by
      cases hd <;> simp [Message.IsNonConfirmable]
    refine ⟨m1, calls, ?_, hcalls, hty, ?_, ?_⟩
    · rcases sendAndStore_ok hok with ⟨_, _, hres⟩ | ⟨_, obs, s2, hobs, hres⟩
      · rw [hres]
        simp [CoapBase.emit, htr]
      · obtain ⟨hs2, _⟩ := observeStep_no_cancel hcancel1 hobs
        rw [hres, hs2]
        simp [CoapBase.emit, CoapBase.ScheduleRetransmissionTimer, htr]
    · intro hstore
      rw [hconf, hnon] at hstore
      rcases sendAndStore_ok hok with ⟨h1, h2, _⟩ | ⟨_, obs, s2, hobs, hres⟩
      · rcases hstore with h | h
        · rw [h] at h1; exact absurd h1 (by decide)
        · rw [h] at h2; exact absurd h2 (by decide)
      · obtain ⟨hs2, _⟩ := observeStep_no_cancel hcancel1 hobs
        rw [hres, hs2]
        refine ⟨⟨storedCopy m1, newMetadata env m1 info tx hd ctx th rh obs⟩, ?_, rfl, rfl, rfl, rfl,
          rfl, rfl, rfl, rfl, ?_⟩
        · simp [CoapBase.emit, CoapBase.ScheduleRetransmissionTimer, hp]
        · simp only [newMetadata, hconf]
    · intro hstore
      rw [hconf, hnon] at hstore
      rcases sendAndStore_ok hok with ⟨_, _, hres⟩ | ⟨h1, _⟩
      · rw [hres]
        simp [CoapBase.emit, hp]
      · exact absurd h1 hstore

theorem SendMessage_stores_request_witness :
    ∃ m1 calls,
      (CoapBase.SendMessage Config.openthread (Env.allOk 100 0) (CoapBase.init 7) exampleRequest
          examplePeer (TxParameters.GetDefault Config.openthread) (some 1) 9 none none).2.mTrace =
          (CoapBase.init 7).mTrace ++ calls ++ [Event.send m1 examplePeer] ∧
        (∀ e ∈ calls, ∃ a b c d, e = Event.transmitHook a b c d) ∧
        (m1.mType = exampleRequest.mType ∨
          (exampleRequest.mType = CoapType.kTypeNonConfirmable ∧
            m1.mType = CoapType.kTypeConfirmable ∧ (none : Option Nat).isSome = true)) ∧
        ((m1.mType = CoapType.kTypeConfirmable ∨
            (m1.mType = CoapType.kTypeNonConfirmable ∧ (some 1 : Option Nat) ≠ none)) →
          ∃ r, (CoapBase.SendMessage Config.openthread (Env.allOk 100 0) (CoapBase.init 7)
              exampleRequest examplePeer (TxParameters.GetDefault Config.openthread) (some 1) 9 none
              none).2.mPendingRequests = (CoapBase.init 7).mPendingRequests ++ [r] ∧
            r.mMessage = storedCopy m1 ∧
            r.mMetadata.mResponseHandler = some 1 ∧ r.mMetadata.mResponseContext = 9 ∧
            r.mMetadata.mDestinationAddress = examplePeer.mPeerAddr ∧
            r.mMetadata.mDestinationPort = examplePeer.mPeerPort ∧
            r.mMetadata.mRetransmissionsRemaining =
              (TxParameters.GetDefault Config.openthread).mMaxRetransmit ∧
            r.mMetadata.mAcknowledged = false ∧
            r.mMetadata.mConfirmable = m1.IsConfirmable ∧
            r.mMetadata.mNextTimerShot =
              (Env.allOk 100 0).mNow +
                (if m1.mType = CoapType.kTypeConfirmable then r.mMetadata.mRetransmissionTimeout
                else (TxParameters.GetDefault Config.openthread).CalculateMaxTransmitWait)) ∧
        (¬ (m1.mType = CoapType.kTypeConfirmable ∨
            (m1.mType = CoapType.kTypeNonConfirmable ∧ (some 1 : Option Nat) ≠ none)) →
          (CoapBase.SendMessage Config.openthread (Env.allOk 100 0) (CoapBase.init 7) exampleRequest
            examplePeer (TxParameters.GetDefault Config.openthread) (some 1) 9 none
            none).2.mPendingRequests = (CoapBase.init 7).mPendingRequests) :=
  SendMessage_stores_request Config.openthread (Env.allOk 100 0) (CoapBase.init 7) exampleRequest
    examplePeer (TxParameters.GetDefault Config.openthread) (some 1) 9 none none (by decide)
    (by decide)

/-! ## Retransmission until time-out -/

theorem retransmitLoop_append (env : Env) (a b : List PendingRequest) :
    retransmitLoop env (a ++ b) =
      ((retransmitLoop env a).1 ++ (retransmitLoop env b).1,
        (retransmitLoop env a).2 ++ (retransmitLoop env b).2) := by
  induction a with
  | nil => simp [retransmitLoop]
  | cons r rs ih => simp [retransmitLoop, ih, List.append_assoc]

theorem HandleRetransmissionTimer_pending (env : Env) (s : CoapBase) :
    (s.HandleRetransmissionTimer env).mPendingRequests = (retransmitLoop env s.mPendingRequests).1 := by
  simp [CoapBase.HandleRetransmissionTimer, CoapBase.ScheduleRetransmissionTimer, CoapBase.emit]

theorem HandleRetransmissionTimer_trace (env : Env) (s : CoapBase) :
    (s.HandleRetransmissionTimer env).mTrace = s.mTrace ++ (retransmitLoop env s.mPendingRequests).2 := by
  simp [CoapBase.HandleRetransmissionTimer, CoapBase.ScheduleRetransmissionTimer, CoapBase.emit]

/-- The message info with which a stored request to `info` is retransmitted. -/
theorem newMetadata_messageInfo (env : Env) (m : Message) (info : MessageInfo) (tx : TxParameters)
    (hd : Option Nat) (ctx : Nat) (th rh : Option Nat) (obs : Bool) :
    (newMetadata env m info tx hd ctx th rh obs).messageInfo = { info with mSockPort := 0 } := by
  simp [newMetadata, Metadata.messageInfo, MessageInfo.clear]

/-- One due pass over an unacknowledged confirmable request: a retransmission
while retransmissions remain, the time-out after that. -/
theorem retransmit_unacked {env : Env} {r : PendingRequest}
    (hdue : r.mMetadata.mNextTimerShot ≤ env.mNow) (hack : r.mMetadata.mAcknowledged = false)
    (hconf : r.mMetadata.mConfirmable = true) (hclone : env.mClone r.mMessage = true) :
    (r.mMetadata.mRetransmissionsRemaining ≠ 0 →
      ∃ r1, retransmit env r = (some r1, [Event.send r.mMessage r.mMetadata.messageInfo]) ∧
        r1.mMessage = r.mMessage ∧ r1.mMetadata.mAcknowledged = false ∧
        r1.mMetadata.mConfirmable = true ∧
        r1.mMetadata.mRetransmissionsRemaining = r.mMetadata.mRetransmissionsRemaining - 1 ∧
        r1.mMetadata.mResponseHandler = r.mMetadata.mResponseHandler ∧
        r1.mMetadata.mResponseContext = r.mMetadata.mResponseContext ∧
        r1.mMetadata.messageInfo = r.mMetadata.messageInfo) ∧
      (r.mMetadata.mRetransmissionsRemaining = 0 →
        retransmit env r = (none, handlerCall r.mMetadata none none Error.kErrorResponseTimeout)) := by
  have hsub : r.isAckedSubscription = false := by
    simp [PendingRequest.isAckedSubscription, hack]
  constructor
  · intro hrem
    refine ⟨{ r with mMetadata := { r.mMetadata with
        mRetransmissionsRemaining := r.mMetadata.mRetransmissionsRemaining - 1
        mRetransmissionTimeout := r.mMetadata.mRetransmissionTimeout * 2 % 2 ^ 32
        mNextTimerShot := env.mNow + r.mMetadata.mRetransmissionTimeout * 2 % 2 ^ 32 } },
      ?_, rfl, hack, hconf, rfl, rfl, rfl, ?_⟩
    · unfold retransmit
      rw [if_pos hdue]
      simp [hsub, hconf, hrem, hack, CoapBase.SendCopy, hclone, Metadata.messageInfo]
    · simp [Metadata.messageInfo]
  · intro hrem
    unfold retransmit
    rw [if_pos hdue]
    simp [hsub, hrem]

/-- One call of `HandleRetransmissionTimer` on a queue whose last request is due
and being retransmitted. -/
theorem HandleRetransmissionTimer_last (env : Env) {s : CoapBase} {T : List PendingRequest}
    {r : PendingRequest} {m1 : Message} {info : MessageInfo} {h ctx k : Nat}
    (hp : s.mPendingRequests = T ++ [r]) (hr : Retransmitting m1 info h ctx k r)
    (hdue : r.mMetadata.mNextTimerShot ≤ env.mNow) (hclone : env.mClone m1 = true) :
    (k ≠ 0 →
      (∃ r1, (s.HandleRetransmissionTimer env).mPendingRequests = (retransmitLoop env T).1 ++ [r1] ∧
        Retransmitting m1 info h ctx (k - 1) r1) ∧
      (s.HandleRetransmissionTimer env).mTrace =
        s.mTrace ++ (retransmitLoop env T).2 ++ [Event.send m1 info]) ∧
    (k = 0 →
      (s.HandleRetransmissionTimer env).mPendingRequests = (retransmitLoop env T).1 ∧
      (s.HandleRetransmissionTimer env).mTrace =
        s.mTrace ++ (retransmitLoop env T).2 ++
          [Event.responseHandler h ctx none none Error.kErrorResponseTimeout]) := by
  obtain ⟨hm, hack, hconf, hrem, hh, hc, hi⟩ := hr
  have hcl : env.mClone r.mMessage = true := by rw [hm]; exact hclone
  obtain ⟨hstep, hlast⟩ := retransmit_unacked hdue hack hconf hcl
  rw [HandleRetransmissionTimer_pending, HandleRetransmissionTimer_trace, hp, retransmitLoop_append]
  constructor
  · intro hk
    obtain ⟨r1, hr1, h1, h2, h3, h4, h5, h6, h7⟩ := hstep (by rw [hrem]; exact hk)
    refine ⟨⟨r1, ?_, ?_⟩, ?_⟩
    · simp [retransmitLoop, hr1]
    · exact ⟨by rw [h1, hm], h2, h3, by rw [h4, hrem], by rw [h5, hh], by rw [h6, hc],
        by rw [h7, hi]⟩
    · simp [retransmitLoop, hr1, hm, hi]
  · intro hk
    have hr0 := hlast (by rw [hrem]; exact hk)
    constructor
    · simp [retransmitLoop, hr0]
    · simp [retransmitLoop, hr0, handlerCall, hh, hc]

theorem timerRuns_retransmitting (envAt : Nat → Env) (s : CoapBase) (m1 : Message)
    (info : MessageInfo) (h ctx n : Nat) (T0 : List PendingRequest) (r0 : PendingRequest)
    (hp : s.mPendingRequests = T0 ++ [r0]) (hr : Retransmitting m1 info h ctx n r0)
    (hclone : ∀ j c, (envAt j).mClone c = true)
    (hdue : ∀ j ≤ n, ∀ r, (timerRuns envAt s j).mPendingRequests.getLast? = some r →
      r.mMetadata.mNextTimerShot ≤ (envAt j).mNow) :
    ∀ j ≤ n, ∃ T r, (timerRuns envAt s j).mPendingRequests = T ++ [r] ∧
      Retransmitting m1 info h ctx (n - j) r := by
  intro j
  induction j with
  | zero => intro _; exact ⟨T0, r0, hp, hr⟩
  | succ j ih =>
    intro hj
    obtain ⟨T, r, hpj, hrj⟩ := ih (by omega)
    have hd := hdue j (by omega) r (by simp [hpj])
    obtain ⟨hstep, _⟩ := HandleRetransmissionTimer_last (envAt j) hpj hrj hd (hclone j m1)
    obtain ⟨⟨r1, hp1, hr1⟩, _⟩ := hstep (by omega)
    refine ⟨(retransmitLoop (envAt j) T).1, r1, ?_, ?_⟩
    · simpa [timerRuns] using hp1
    · have : n - j - 1 = n - (j + 1) := by omega
      rw [← this]; exact hr1

theorem timerRuns_alone (envAt : Nat → Env) (s : CoapBase) (m1 : Message) (info : MessageInfo)
    (h ctx n : Nat) (r0 : PendingRequest)
    (hp : s.mPendingRequests = [r0]) (hr : Retransmitting m1 info h ctx n r0)
    (hclone : ∀ j c, (envAt j).mClone c = true)
    (hdue : ∀ j ≤ n, ∀ r, (timerRuns envAt s j).mPendingRequests.getLast? = some r →
      r.mMetadata.mNextTimerShot ≤ (envAt j).mNow) :
    ∀ j ≤ n, (∃ r, (timerRuns envAt s j).mPendingRequests = [r] ∧
        Retransmitting m1 info h ctx (n - j) r) ∧
      (timerRuns envAt s j).mTrace = s.mTrace ++ List.replicate j (Event.send m1 info) := by
  intro j
  induction j with
  | zero => intro _; exact ⟨⟨r0, hp, hr⟩, by simp [timerRuns]⟩
  | succ j ih =>
    intro hj
    obtain ⟨⟨r, hpj, hrj⟩, htj⟩ := ih (by omega)
    have hpj1 : (timerRuns envAt s j).mPendingRequests = [] ++ [r] := by simpa using hpj
    have hd := hdue j (by omega) r (by simp [hpj])
    obtain ⟨hstep, _⟩ := HandleRetransmissionTimer_last (envAt j) hpj1 hrj hd (hclone j m1)
    obtain ⟨⟨r1, hp1, hr1⟩, ht1⟩ := hstep (by omega)
    refine ⟨⟨r1, ?_, ?_⟩, ?_⟩
    · simpa [timerRuns, retransmitLoop] using hp1
    · have : n - j - 1 = n - (j + 1) := by omega
      rw [← this]; exact hr1
    · simp only [timerRuns, ht1, htj, retransmitLoop, List.append_nil, List.append_assoc,
        List.replicate_succ']

/-- C1. A confirmable message sent by `SendMessage` with `mMaxRetransmit = n`
and a non-null handler `h`, when the call succeeds, every later clone for a
retransmission succeeds, no response is processed, and
`HandleRetransmissionTimer` runs `n + 1` times, each time after the deadline of
the stored request has passed.  `SendMessage` ends by handing the message `m1` to
the transport and storing it last in the queue.  In each of the first `n` runs
the stored request stays last in the queue, with one retransmission less
remaining, and the run hands exactly one copy of `m1` to the transport, after
whatever the other stored requests `T` cause; in run `n + 1` the stored request
is removed from the queue and the only call made for it is the handler, with a
null response, a null message info and `kErrorResponseTimeout`.  So `m1` is handed
to the transport `n + 1` times in total and the handler is invoked once: when no
other request was pending, the calls made from the send to the end of run
`n + 1` are exactly the send of `m1`, `n` sends of its copy and the handler call,
and the queue is empty again. -/
theorem retransmit_until_timeout (cfg : Config) (env0 : Env) (envAt : Nat → Env) (s : CoapBase)
    (m : Message) (info : MessageInfo) (tx : TxParameters) (h ctx : Nat) (th rh : Option Nat)
    (hcon : m.mType = CoapType.kTypeConfirmable)
    (hsent : (CoapBase.SendMessage cfg env0 s m info tx (some h) ctx th rh).1 = Error.kErrorNone)
    (hclone : ∀ j c, (envAt j).mClone c = true)
    (hdue : ∀ j ≤ tx.mMaxRetransmit, ∀ r,
      (timerRuns envAt (CoapBase.SendMessage cfg env0 s m info tx (some h) ctx th rh).2
        j).mPendingRequests.getLast? = some r → r.mMetadata.mNextTimerShot ≤ (envAt j).mNow) :
    ∃ m1 before,
      m1.mType = CoapType.kTypeConfirmable ∧ m1.mToken = m.mToken ∧
      (CoapBase.SendMessage cfg env0 s m info tx (some h) ctx th rh).2.mTrace =
        before ++ [Event.send m1 info] ∧
      (∀ j ≤ tx.mMaxRetransmit, ∃ T r,
        (timerRuns envAt (CoapBase.SendMessage cfg env0 s m info tx (some h) ctx th rh).2
          j).mPendingRequests = T ++ [r] ∧
        r.mMessage = m1 ∧ r.mMetadata.mRetransmissionsRemaining = tx.mMaxRetransmit - j ∧
        (timerRuns envAt (CoapBase.SendMessage cfg env0 s m info tx (some h) ctx th rh).2
          (j + 1)).mTrace =
          (timerRuns envAt (CoapBase.SendMessage cfg env0 s m info tx (some h) ctx th rh).2
            j).mTrace ++ (retransmitLoop (envAt j) T).2 ++
            (if j < tx.mMaxRetransmit then [Event.send m1 { info with mSockPort := 0 }]
              else [Event.responseHandler h ctx none none Error.kErrorResponseTimeout]) ∧
        (if j < tx.mMaxRetransmit then
          ∃ r1, (timerRuns envAt (CoapBase.SendMessage cfg env0 s m info tx (some h) ctx th rh).2
            (j + 1)).mPendingRequests = (retransmitLoop (envAt j) T).1 ++ [r1] ∧ r1.mMessage = m1
          else
            (timerRuns envAt (CoapBase.SendMessage cfg env0 s m info tx (some h) ctx th rh).2
              (j + 1)).mPendingRequests = (retransmitLoop (envAt j) T).1)) ∧
      (s.mPendingRequests = [] →
        (timerRuns envAt (CoapBase.SendMessage cfg env0 s m info tx (some h) ctx th rh).2
          (tx.mMaxRetransmit + 1)).mPendingRequests = [] ∧
        (timerRuns envAt (CoapBase.SendMessage cfg env0 s m info tx (some h) ctx th rh).2
          (tx.mMaxRetransmit + 1)).mTrace =
          before ++ [Event.send m1 info] ++
            List.replicate tx.mMaxRetransmit (Event.send m1 { info with mSockPort := 0 }) ++
            [Event.responseHandler h ctx none none Error.kErrorResponseTimeout]) := by
  rcases SendMessage_cases cfg env0 s m info tx (some h) ctx th rh with
    ⟨e, s1, he, heq, _⟩ | ⟨m1, s1, calls, heq, hs1p, _, _, _, htok, _, hty⟩
  · rw [heq] at hsent
    exact absurd hsent he
  · have hm1 : m1.mType = CoapType.kTypeConfirmable := by
      rcases hty with h1 | ⟨h1, _, _⟩
      · rw [h1]; exact hcon
      · rw [hcon] at h1; exact absurd h1 (by decide)
    have hc1 : m1.IsConfirmable = true := by simp [Message.IsConfirmable, hm1]
    rw [heq] at hsent hdue ⊢
    rcases sendAndStore_ok hsent with ⟨h1, _⟩ | ⟨_, obs, s2, hobs, hres⟩
    · rw [hc1] at h1; exact absurd h1 (by decide)
    · rw [hres] at hdue ⊢
      have hp0 : ((CoapBase.ScheduleRetransmissionTimer env0
          { s2 with mPendingRequests := s2.mPendingRequests ++
              [{ mMessage := storedCopy m1,
                 mMetadata := newMetadata env0 m1 info tx (some h) ctx th rh obs }] }).emit
          [Event.send m1 info]).mPendingRequests = s2.mPendingRequests ++
            [{ mMessage := storedCopy m1,
               mMetadata := newMetadata env0 m1 info tx (some h) ctx th rh obs }] := by
        simp [CoapBase.emit, CoapBase.ScheduleRetransmissionTimer]
      have hr0 : Retransmitting m1 { info with mSockPort := 0 } h ctx tx.mMaxRetransmit
          { mMessage := storedCopy m1,
            mMetadata := newMetadata env0 m1 info tx (some h) ctx th rh obs } := by
        refine ⟨by simp [storedCopy, hc1], rfl, ?_, rfl, rfl, rfl, newMetadata_messageInfo ..⟩
        simp [newMetadata, hc1]
      have hinv := timerRuns_retransmitting envAt _ m1 { info with mSockPort := 0 } h ctx
        tx.mMaxRetransmit _ _ hp0 hr0 hclone hdue
      refine ⟨m1, s2.mTrace, hm1, htok, ?_, ?_, ?_⟩
      · simp [CoapBase.emit, CoapBase.ScheduleRetransmissionTimer]
      rotate_left
      · intro hs
        have hs2 : s2.mPendingRequests = [] := by
          rw [observeStep_empty (hs1p.trans hs) hobs]; exact hs1p.trans hs
        have hp1 : ((CoapBase.ScheduleRetransmissionTimer env0
            { s2 with mPendingRequests := s2.mPendingRequests ++
                [{ mMessage := storedCopy m1,
                   mMetadata := newMetadata env0 m1 info tx (some h) ctx th rh obs }] }).emit
            [Event.send m1 info]).mPendingRequests =
              [{ mMessage := storedCopy m1,
                 mMetadata := newMetadata env0 m1 info tx (some h) ctx th rh obs }] := by
          rw [hp0, hs2, List.nil_append]
        obtain ⟨⟨r, hpr, hrr⟩, htr⟩ := timerRuns_alone envAt _ m1 { info with mSockPort := 0 } h ctx
          tx.mMaxRetransmit _ hp1 hr0 hclone hdue tx.mMaxRetransmit le_rfl
        have hpr1 : (timerRuns envAt ((CoapBase.ScheduleRetransmissionTimer env0
            { s2 with mPendingRequests := s2.mPendingRequests ++
                [{ mMessage := storedCopy m1,
                   mMetadata := newMetadata env0 m1 info tx (some h) ctx th rh obs }] }).emit
            [Event.send m1 info]) tx.mMaxRetransmit).mPendingRequests = [] ++ [r] := by
          simpa using hpr
        have hd := hdue tx.mMaxRetransmit le_rfl r (by simp [hpr])
        obtain ⟨_, hlast⟩ :=
          HandleRetransmissionTimer_last (envAt tx.mMaxRetransmit) hpr1 hrr hd
            (hclone tx.mMaxRetransmit m1)
        obtain ⟨hpf, htf⟩ := hlast (by omega)
        constructor
        · simpa [timerRuns, retransmitLoop] using hpf
        · simp only [timerRuns, htf, htr, retransmitLoop, List.append_nil]
          simp [CoapBase.emit, CoapBase.ScheduleRetransmissionTimer]
      · intro j hj
        obtain ⟨T, r, hpj, hrj⟩ := hinv j hj
        have hd := hdue j hj r (by simp [hpj])
        obtain ⟨hstep, hlast⟩ :=
          HandleRetransmissionTimer_last (envAt j) hpj hrj hd (hclone j m1)
        refine ⟨T, r, hpj, hrj.1, hrj.2.2.2.1, ?_, ?_⟩
        · by_cases hlt : j < tx.mMaxRetransmit
          · rw [if_pos hlt]
            exact (hstep (by omega)).2
          · rw [if_neg hlt]
            exact (hlast (by omega)).2
        · by_cases hlt : j < tx.mMaxRetransmit
          · rw [if_pos hlt]
            obtain ⟨⟨r1, hp1, hr1⟩, _⟩ := hstep (by omega)
            exact ⟨r1, hp1, hr1.1⟩
          · rw [if_neg hlt]
            exact (hlast (by omega)).1

theorem retransmit_until_timeout_witness :
    ∃ m1 before,
      m1.mType = CoapType.kTypeConfirmable ∧ m1.mToken = exampleRequest.mToken ∧
      exampleSent.mTrace = before ++ [Event.send m1 examplePeer] ∧
      (∀ j ≤ exampleTx.mMaxRetransmit, ∃ T r,
        (timerRuns exampleRuns exampleSent j).mPendingRequests = T ++ [r] ∧
        r.mMessage = m1 ∧ r.mMetadata.mRetransmissionsRemaining = exampleTx.mMaxRetransmit - j ∧
        (timerRuns exampleRuns exampleSent (j + 1)).mTrace =
          (timerRuns exampleRuns exampleSent j).mTrace ++ (retransmitLoop (exampleRuns j) T).2 ++
            (if j < exampleTx.mMaxRetransmit then [Event.send m1 { examplePeer with mSockPort := 0 }]
              else [Event.responseHandler 1 9 none none Error.kErrorResponseTimeout]) ∧
        (if j < exampleTx.mMaxRetransmit then
          ∃ r1, (timerRuns exampleRuns exampleSent (j + 1)).mPendingRequests =
            (retransmitLoop (exampleRuns j) T).1 ++ [r1] ∧ r1.mMessage = m1
          else
            (timerRuns exampleRuns exampleSent (j + 1)).mPendingRequests =
              (retransmitLoop (exampleRuns j) T).1)) ∧
      ((CoapBase.init 7).mPendingRequests = [] →
        (timerRuns exampleRuns exampleSent (exampleTx.mMaxRetransmit + 1)).mPendingRequests = [] ∧
        (timerRuns exampleRuns exampleSent (exampleTx.mMaxRetransmit + 1)).mTrace =
          before ++ [Event.send m1 examplePeer] ++
            List.replicate exampleTx.mMaxRetransmit
              (Event.send m1 { examplePeer with mSockPort := 0 }) ++
            [Event.responseHandler 1 9 none none Error.kErrorResponseTimeout]) :=
  retransmit_until_timeout Config.openthread (Env.allOk 100 0) exampleRuns (CoapBase.init 7)
    exampleRequest examplePeer exampleTx 1 9 none none rfl (by decide) (fun _ _ => rfl)
    (by
      intro j hj r hr
      have hj1 : j ≤ 1 := hj
      interval_cases j
      · have hq : (timerRuns exampleRuns exampleSent 0).mPendingRequests.getLast?.map
            (fun r => r.mMetadata.mNextTimerShot) = some 2100 := by decide
        rw [show (CoapBase.SendMessage Config.openthread (Env.allOk 100 0) (CoapBase.init 7)
          exampleRequest examplePeer exampleTx (some 1) 9 none none).2 = exampleSent from rfl] at hr
        rw [hr] at hq
        simp only [Option.map_some', Option.some.injEq] at hq
        rw [hq]
        decide
      · have hq : (timerRuns exampleRuns exampleSent 1).mPendingRequests.getLast?.map
            (fun r => r.mMetadata.mNextTimerShot) = some 104000 := by decide
        rw [show (CoapBase.SendMessage Config.openthread (Env.allOk 100 0) (CoapBase.init 7)
          exampleRequest examplePeer exampleTx (some 1) 9 none none).2 = exampleSent from rfl] at hr
        rw [hr] at hq
        simp only [Option.map_some', Option.some.injEq] at hq
        rw [hq]
        decide)

/-! ## A failed send leaves no stored copy -/

theorem eraseIdx_length_append {α : Type} (l : List α) (a : α) :
    (l ++ [a]).eraseIdx l.length = l := by
  induction l with
  | nil => rfl
  | cons x xs ih => simp [List.eraseIdx, ih]

/-- The outcome of lines 261 to 350 of `SendMessage` when they report an error
and no subscription is cancelled. -/
theorem sendAndStore_error (env : Env) (s : CoapBase) {m : Message} (info : MessageInfo)
    (tx : TxParameters) (hd : Option Nat) (ctx : Nat) (th rh : Option Nat)
    (hcancel : isObserveCancellation m = false) :
    (CoapBase.sendAndStore env s m info tx hd ctx th rh).2.mPendingRequests = s.mPendingRequests ∨
      (CoapBase.sendAndStore env s m info tx hd ctx th rh).1 = Error.kErrorNone := by
  have key : ∀ c : Message,
      ((match observeStep env s m info with
        | .error e => (e, s)
        | .ok (observe, s1) =>
          match s1.CopyAndEnqueueMessage env c (newMetadata env m info tx hd ctx th rh observe) with
          | none => (Error.kErrorNoBufs, s1)
          | some s2 =>
            if (s2.Send env m info).1 ≠ Error.kErrorNone then
              ((s2.Send env m info).1, (s2.Send env m info).2.DequeueMessage env s1.mPendingRequests.length)
            else s2.Send env m info) : Error × CoapBase).2.mPendingRequests = s.mPendingRequests ∨
      ((match observeStep env s m info with
        | .error e => (e, s)
        | .ok (observe, s1) =>
          match s1.CopyAndEnqueueMessage env c (newMetadata env m info tx hd ctx th rh observe) with
          | none => (Error.kErrorNoBufs, s1)
          | some s2 =>
            if (s2.Send env m info).1 ≠ Error.kErrorNone then
              ((s2.Send env m info).1, (s2.Send env m info).2.DequeueMessage env s1.mPendingRequests.length)
            else s2.Send env m info) : Error × CoapBase).1 = Error.kErrorNone := by
    intro c
    cases ho : observeStep env s m info with
    | error e => left; rfl
    | ok p =>
      obtain ⟨obs, s1⟩ := p
      obtain ⟨hs1, _⟩ := observeStep_no_cancel hcancel ho
      subst hs1
      simp only
      unfold CoapBase.CopyAndEnqueueMessage
      by_cases h1 : env.mClone c = true
      · by_cases h2 : env.mAppend c = true
        · simp only [h1, h2, Bool.not_true, Bool.false_eq_true, if_false]
          by_cases h3 : (env.mSender m info) = Error.kErrorNone
          · right
            simp [CoapBase.Send, h3]
          · left
            simp [CoapBase.Send, h3, CoapBase.DequeueMessage, CoapBase.ScheduleRetransmissionTimer,
              CoapBase.emit, eraseIdx_length_append]
        · left; simp [h1, h2]
      · left; simp [h1]
  unfold CoapBase.sendAndStore
  by_cases hc : m.IsConfirmable = true
  · simp only [hc, if_true]
    exact key m
  · by_cases hn : (m.IsNonConfirmable && hd.isSome) = true
    · simp only [hc, hn, if_true, if_false]
      exact key m.headerOnly
    · left
      simp [hc, hn, CoapBase.Send, CoapBase.emit]

/-- C5. Every call of `SendMessage` that returns an error and is not an Observe
cancellation (the block-wise first-block step failed, the stored copy could not
be allocated, or the transport refused the message) leaves the pending-request
queue exactly as it was: the same entries, in the same order, with the same
metadata. -/
theorem SendMessage_error_keeps_queue (cfg : Config) (env : Env) (s : CoapBase) (m : Message)
    (info : MessageInfo) (tx : TxParameters) (hd : Option Nat) (ctx : Nat) (th rh : Option Nat)
    (herr : (CoapBase.SendMessage cfg env s m info tx hd ctx th rh).1 ≠ Error.kErrorNone)
    (hcancel : isObserveCancellation m = false) :
    (CoapBase.SendMessage cfg env s m info tx hd ctx th rh).2.mPendingRequests =
      s.mPendingRequests := by
  rcases SendMessage_cases cfg env s m info tx hd ctx th rh with
    ⟨e, s1, _, heq, hp⟩ | ⟨m1, s1, calls, heq, hp, _, _, hcode, _, hopt, _⟩
  · rw [heq]; exact hp
  · rw [heq] at herr ⊢
    have hcancel1 : isObserveCancellation m1 = false := by
      rw [isObserveCancellation_congr hcode hopt]; exact hcancel
    rcases sendAndStore_error env s1 info tx hd ctx th rh hcancel1 with h | h
    · rw [h, hp]
    · exact absurd h herr

theorem SendMessage_error_keeps_queue_witness :
    (CoapBase.SendMessage Config.openthread (Env.sendFails 5000 0) exampleSent
        { exampleRequest with mToken := [3] } examplePeer exampleTx (some 2) 0 none
        none).2.mPendingRequests = exampleSent.mPendingRequests :=
  SendMessage_error_keeps_queue Config.openthread (Env.sendFails 5000 0) exampleSent
    { exampleRequest with mToken := [3] } examplePeer exampleTx (some 2) 0 none none (by decide)
    (by decide)

/-! ## Receiving a response -/

theorem FindRelatedRequest_get {s : CoapBase} {m : Message} {info : MessageInfo} {i : Nat}
    {r : PendingRequest} (h : s.FindRelatedRequest m info = some (i, r)) :
    s.mPendingRequests.get? i = some r := by
  unfold CoapBase.FindRelatedRequest at h
  split at h
  · simp at h
  · rename_i j hj
    split at h
    · rename_i r1 hr1
      simp only [Option.some.injEq, Prod.mk.injEq] at h
      rw [← h.1, ← h.2]; exact hr1
    · simp at h

theorem eraseIdx_set {α : Type} (l : List α) (i : Nat) (a : α) :
    (l.set i a).eraseIdx i = l.eraseIdx i := by
  induction l generalizing i with
  | nil => simp
  | cons x xs ih =>
    cases i with
    | zero => simp
    | succ i => simp [ih]

theorem FinalizeCoapTransaction_pending (env : Env) (s : CoapBase) (i : Nat) (md : Metadata)
    (resp : Option Message) (info : Option MessageInfo) (e : Error) :
    (s.FinalizeCoapTransaction env i md resp info e).mPendingRequests = s.mPendingRequests.eraseIdx i := by
  simp [CoapBase.FinalizeCoapTransaction, CoapBase.DequeueMessage,
    CoapBase.ScheduleRetransmissionTimer, CoapBase.emit]

theorem FinalizeCoapTransaction_trace (env : Env) (s : CoapBase) (i : Nat) (md : Metadata)
    (resp : Option Message) (info : Option MessageInfo) (e : Error) :
    (s.FinalizeCoapTransaction env i md resp info e).mTrace = s.mTrace ++ handlerCall md resp info e := by
  simp [CoapBase.FinalizeCoapTransaction, CoapBase.DequeueMessage,
    CoapBase.ScheduleRetransmissionTimer, CoapBase.emit]

/-- C3. A received ACK that `FindRelatedRequest` relates to the stored request
`r` at position `i` (the first in queue order whose message-ID and peer match),
where `r` has no Observe handling and no block-wise hooks.  If the ACK carries a
response code and its token equals the token of `r`, `ProcessReceivedResponse`
removes `r` from the queue and invokes the response handler of `r` exactly once,
with the received message, its message info and `kErrorNone` (and makes no call
when `r` has a null handler).  If the ACK carries a request code, or a response
code with a token different from that of `r`, the engine is left as it was: the
queue is unchanged and no handler is invoked. -/
theorem piggybacked_response_finalizes (cfg : Config) (env : Env) (s : CoapBase) (m : Message)
    (info : MessageInfo) (i : Nat) (r : PendingRequest)
    (hfind : s.FindRelatedRequest m info = some (i, r))
    (hack : m.mType = CoapType.kTypeAck)
    (hobs : r.mMetadata.mObserve = false)
    (hth : r.mMetadata.mBlockwiseTransmitHook = none)
    (hrh : r.mMetadata.mBlockwiseReceiveHook = none) :
    (m.IsResponse = true → m.IsTokenEqual r.mMessage = true →
      (s.ProcessReceivedResponse cfg env m info).mPendingRequests = s.mPendingRequests.eraseIdx i ∧
      (∀ h, r.mMetadata.mResponseHandler = some h →
        (s.ProcessReceivedResponse cfg env m info).mTrace =
          s.mTrace ++ [Event.responseHandler h r.mMetadata.mResponseContext (some m) (some info)
            Error.kErrorNone]) ∧
      (r.mMetadata.mResponseHandler = none →
        (s.ProcessReceivedResponse cfg env m info).mTrace = s.mTrace)) ∧
    (m.IsRequest = true → s.ProcessReceivedResponse cfg env m info = s) ∧
    (m.IsResponse = true → m.IsTokenEqual r.mMessage = false →
      s.ProcessReceivedResponse cfg env m info = s) := by
  have hne : ∀ {c : Nat}, kCodeResponseMin ≤ c → (c == kCodeEmpty) = false := by
    intro c hc
    simp only [kCodeResponseMin, kCodeEmpty] at *
    simp only [beq_eq_false_iff_ne, ne_eq]
    omega
  refine ⟨?_, ?_, ?_⟩
  · intro hresp htok
    have hempty : m.IsEmpty = false := by
      simp only [Message.IsResponse, decide_eq_true_eq] at hresp
      exact hne hresp
    have hres : s.ProcessReceivedResponse cfg env m info =
        s.FinalizeCoapTransaction env i r.mMetadata (some m) (some info) Error.kErrorNone := by
      unfold CoapBase.ProcessReceivedResponse
      simp [hfind, hack, hempty, hresp, htok, hobs, CoapBase.piggybacked, hth, hrh]
    rw [hres, FinalizeCoapTransaction_pending, FinalizeCoapTransaction_trace]
    refine ⟨rfl, ?_, ?_⟩
    · intro h hh
      simp [handlerCall, hh]
    · intro hh
      simp [handlerCall, hh]
  · intro hreq
    have hempty : m.IsEmpty = false := by
      simp only [Message.IsRequest, Bool.and_eq_true, decide_eq_true_eq, kCodeGet] at hreq
      simp only [Message.IsEmpty, kCodeEmpty, beq_eq_false_iff_ne, ne_eq]
      omega
    have hresp : m.IsResponse = false := by
      simp only [Message.IsRequest, Bool.and_eq_true, decide_eq_true_eq, kCodeDelete] at hreq
      simp only [Message.IsResponse, kCodeResponseMin, decide_eq_false_iff_not]
      omega
    unfold CoapBase.ProcessReceivedResponse
    simp [hfind, hack, hempty, hresp]
  · intro hresp htok
    have hempty : m.IsEmpty = false := by
      simp only [Message.IsResponse, decide_eq_true_eq] at hresp
      exact hne hresp
    unfold CoapBase.ProcessReceivedResponse
    simp [hfind, hack, hempty, htok]

theorem piggybacked_response_finalizes_witness :
    (examplePiggybacked.IsResponse = true →
      examplePiggybacked.IsTokenEqual exampleStored.mMessage = true →
      (exampleSent.ProcessReceivedResponse Config.openthread (Env.allOk 500 0) examplePiggybacked
          examplePeer).mPendingRequests = exampleSent.mPendingRequests.eraseIdx 0 ∧
      (∀ h, exampleStored.mMetadata.mResponseHandler = some h →
        (exampleSent.ProcessReceivedResponse Config.openthread (Env.allOk 500 0) examplePiggybacked
          examplePeer).mTrace =
          exampleSent.mTrace ++ [Event.responseHandler h exampleStored.mMetadata.mResponseContext
            (some examplePiggybacked) (some examplePeer) Error.kErrorNone]) ∧
      (exampleStored.mMetadata.mResponseHandler = none →
        (exampleSent.ProcessReceivedResponse Config.openthread (Env.allOk 500 0) examplePiggybacked
          examplePeer).mTrace = exampleSent.mTrace)) ∧
    (examplePiggybacked.IsRequest = true →
      exampleSent.ProcessReceivedResponse Config.openthread (Env.allOk 500 0) examplePiggybacked
        examplePeer = exampleSent) ∧
    (examplePiggybacked.IsResponse = true →
      examplePiggybacked.IsTokenEqual exampleStored.mMessage = false →
      exampleSent.ProcessReceivedResponse Config.openthread (Env.allOk 500 0) examplePiggybacked
        examplePeer = exampleSent) :=
  piggybacked_response_finalizes Config.openthread (Env.allOk 500 0) exampleSent examplePiggybacked
    examplePeer 0 exampleStored (by decide) rfl rfl rfl rfl

/-- C7. A received empty ACK that `FindRelatedRequest` relates to the stored
request `r` at position `i` (the first in queue order whose message-ID and peer
match), where `r` is not an outgoing Observe notification.  No handler is
invoked and nothing is transmitted.  If the response handler of `r` is null, `r`
is removed from the queue.  Otherwise `r` stays in its place: when `r` is
confirmable its `mAcknowledged` flag becomes true and nothing else in it changes
(the other metadata fields and the stored message are the same), and when `r` is
not confirmable the queue is unchanged. -/
theorem empty_ack_acknowledges (cfg : Config) (env : Env) (s : CoapBase) (m : Message)
    (info : MessageInfo) (i : Nat) (r : PendingRequest)
    (hfind : s.FindRelatedRequest m info = some (i, r))
    (hack : m.mType = CoapType.kTypeAck)
    (hempty : m.IsEmpty = true)
    (hnotif : (r.mMetadata.mObserve && !r.mMessage.IsRequest) = false) :
    (s.ProcessReceivedResponse cfg env m info).mTrace = s.mTrace ∧
    (r.mMetadata.mResponseHandler = none →
      (s.ProcessReceivedResponse cfg env m info).mPendingRequests = s.mPendingRequests.eraseIdx i) ∧
    (r.mMetadata.mResponseHandler ≠ none → r.mMetadata.mConfirmable = true →
      (s.ProcessReceivedResponse cfg env m info).mPendingRequests =
        s.mPendingRequests.set i { r with mMetadata := { r.mMetadata with mAcknowledged := true } }) ∧
    (r.mMetadata.mResponseHandler ≠ none → r.mMetadata.mConfirmable = false →
      (s.ProcessReceivedResponse cfg env m info).mPendingRequests = s.mPendingRequests) := by
  have hres : s.ProcessReceivedResponse cfg env m info =
      (if r.mMetadata.mResponseHandler.isNone then
        (if r.mMetadata.mConfirmable then
          s.UpdateIn i r { r.mMetadata with mAcknowledged := true } else s).DequeueMessage env i
       else
        (if r.mMetadata.mConfirmable then
          s.UpdateIn i r { r.mMetadata with mAcknowledged := true } else s)) := by
    unfold CoapBase.ProcessReceivedResponse
    simp only [hfind, hack, hempty, if_true]
    simp only [Bool.and_eq_false_imp, Bool.not_eq_eq_eq_not, Bool.not_false] at hnotif
    by_cases ho : r.mMetadata.mObserve = true
    · simp [ho, hnotif ho]
    · simp [ho]
  rw [hres]
  refine ⟨?_, ?_, ?_, ?_⟩
  · by_cases hh : r.mMetadata.mResponseHandler.isNone = true <;>
      by_cases hc : r.mMetadata.mConfirmable = true <;>
      simp [hh, hc, CoapBase.DequeueMessage, CoapBase.UpdateIn, CoapBase.ScheduleRetransmissionTimer]
  · intro hh
    by_cases hc : r.mMetadata.mConfirmable = true <;>
      simp [hh, hc, CoapBase.DequeueMessage, CoapBase.UpdateIn,
        CoapBase.ScheduleRetransmissionTimer, eraseIdx_set]
  · intro hh hc
    have : r.mMetadata.mResponseHandler.isNone = false := by
      cases hr : r.mMetadata.mResponseHandler with
      | none => exact absurd hr hh
      | some _ => rfl
    simp [this, hc, CoapBase.UpdateIn]
  · intro hh hc
    have : r.mMetadata.mResponseHandler.isNone = false := by
      cases hr : r.mMetadata.mResponseHandler with
      | none => exact absurd hr hh
      | some _ => rfl
    simp [this, hc]

theorem empty_ack_acknowledges_witness :
    (exampleSent.ProcessReceivedResponse Config.openthread (Env.allOk 500 0) exampleEmptyAck
        examplePeer).mTrace = exampleSent.mTrace ∧
    (exampleStored.mMetadata.mResponseHandler = none →
      (exampleSent.ProcessReceivedResponse Config.openthread (Env.allOk 500 0) exampleEmptyAck
        examplePeer).mPendingRequests = exampleSent.mPendingRequests.eraseIdx 0) ∧
    (exampleStored.mMetadata.mResponseHandler ≠ none →
      exampleStored.mMetadata.mConfirmable = true →
      (exampleSent.ProcessReceivedResponse Config.openthread (Env.allOk 500 0) exampleEmptyAck
        examplePeer).mPendingRequests =
        exampleSent.mPendingRequests.set 0
          { exampleStored with mMetadata := { exampleStored.mMetadata with mAcknowledged := true } }) ∧
    (exampleStored.mMetadata.mResponseHandler ≠ none →
      exampleStored.mMetadata.mConfirmable = false →
      (exampleSent.ProcessReceivedResponse Config.openthread (Env.allOk 500 0) exampleEmptyAck
        examplePeer).mPendingRequests = exampleSent.mPendingRequests) :=
  empty_ack_acknowledges Config.openthread (Env.allOk 500 0) exampleSent exampleEmptyAck examplePeer
    0 exampleStored (by decide) rfl rfl rfl

/-- C6, counterexample. A non-confirmable response that matches no stored
request is dropped without a Reset: `SendEmptyMessage` refuses a message that is
not confirmable. -/
theorem unmatched_nonconfirmable_no_reset :
    exampleSent.FindRelatedRequest exampleStrayResponse examplePeer = none ∧
      exampleStrayResponse.mType = CoapType.kTypeNonConfirmable ∧
      exampleStrayResponse.IsRequest = false ∧
      (exampleSent.ProcessReceivedResponse Config.openthread (Env.allOk 500 0) exampleStrayResponse
        examplePeer).mTrace = exampleSent.mTrace := by
  decide

/-- C6, as amended. A received message for which `FindRelatedRequest` finds no
stored request: if it is confirmable and a buffer can be allocated,
`ProcessReceivedResponse` hands the transport exactly one message, a Reset with
empty code carrying the message-ID of the received message, and changes nothing
else; if it is non-confirmable, or no buffer can be allocated, the engine is left
as it was and nothing is handed to the transport. -/
theorem unmatched_response_reset (cfg : Config) (env : Env) (s : CoapBase) (m : Message)
    (info : MessageInfo) (hfind : s.FindRelatedRequest m info = none) :
    (m.mType = CoapType.kTypeConfirmable → env.mNewMessage = true →
      s.ProcessReceivedResponse cfg env m info =
        s.emit [Event.send (emptyMessage CoapType.kTypeReset m) info]) ∧
    (m.mType = CoapType.kTypeConfirmable → env.mNewMessage = false →
      s.ProcessReceivedResponse cfg env m info = s) ∧
    (m.mType = CoapType.kTypeNonConfirmable → s.ProcessReceivedResponse cfg env m info = s) := by
  refine ⟨?_, ?_, ?_⟩
  · intro hty hnew
    unfold CoapBase.ProcessReceivedResponse
    simp [hfind, Message.IsConfirmable, hty, CoapBase.SendReset, CoapBase.SendEmptyMessage, hnew,
      CoapBase.Send, emptyMessage]
  · intro hty hnew
    unfold CoapBase.ProcessReceivedResponse
    simp [hfind, Message.IsConfirmable, hty, CoapBase.SendReset, CoapBase.SendEmptyMessage, hnew]
  · intro hty
    unfold CoapBase.ProcessReceivedResponse
    simp [hfind, Message.IsConfirmable, Message.IsNonConfirmable, hty, CoapBase.SendReset,
      CoapBase.SendEmptyMessage]

theorem unmatched_response_reset_witness :
    (exampleSeparate.mType = CoapType.kTypeConfirmable → (Env.allOk 500 0).mNewMessage = true →
      exampleSent.ProcessReceivedResponse Config.openthread (Env.allOk 500 0) exampleSeparate
          exampleOtherPeer =
        exampleSent.emit [Event.send (emptyMessage CoapType.kTypeReset exampleSeparate)
          exampleOtherPeer]) ∧
    (exampleSeparate.mType = CoapType.kTypeConfirmable → (Env.allOk 500 0).mNewMessage = false →
      exampleSent.ProcessReceivedResponse Config.openthread (Env.allOk 500 0) exampleSeparate
        exampleOtherPeer = exampleSent) ∧
    (exampleSeparate.mType = CoapType.kTypeNonConfirmable →
      exampleSent.ProcessReceivedResponse Config.openthread (Env.allOk 500 0) exampleSeparate
        exampleOtherPeer = exampleSent) :=
  unmatched_response_reset Config.openthread (Env.allOk 500 0) exampleSent exampleSeparate
    exampleOtherPeer (by decide)

/-- C8, counterexample. A confirmable response that carries the token of the
stored request but comes from another peer is not related to it: the engine
answers with a Reset, not with an empty ACK, leaves the stored request in the
queue and invokes no handler. -/
theorem separate_response_other_peer :
    exampleSent.mPendingRequests = [exampleStored] ∧
      exampleSeparate.mType = CoapType.kTypeConfirmable ∧
      exampleSeparate.IsTokenEqual exampleStored.mMessage = true ∧
      exampleStored.mMetadata.mObserve = false ∧
      (exampleSent.ProcessReceivedResponse Config.openthread (Env.allOk 500 0) exampleSeparate
        exampleOtherPeer).mPendingRequests = [exampleStored] ∧
      (exampleSent.ProcessReceivedResponse Config.openthread (Env.allOk 500 0) exampleSeparate
        exampleOtherPeer).mTrace =
        exampleSent.mTrace ++
          [Event.send (emptyMessage CoapType.kTypeReset exampleSeparate) exampleOtherPeer] := by
  decide

/-- C8, as amended. A received confirmable or non-confirmable response that
`FindRelatedRequest` relates to the stored request `r` at position `i` (the
first in queue order whose token equals the token of the response and whose
stored destination is the peer, or is multicast, or is an anycast locator),
Observe not involved.  An empty ACK carrying the message-ID of the response is
handed to the transport if and only if the response is confirmable and a buffer
for the ACK can be allocated; after it, the handler of `r`, if non-null, is
invoked once with the response, its message info and `kErrorNone`, and nothing
else is called.  If the handler is non-null and the stored destination address
is multicast, the queue is unchanged (`r` remains, with the same metadata); in
every other case `r` is removed from the queue. -/
theorem separate_response_handled (cfg : Config) (env : Env) (s : CoapBase) (m : Message)
    (info : MessageInfo) (i : Nat) (r : PendingRequest)
    (hfind : s.FindRelatedRequest m info = some (i, r))
    (hty : m.mType = CoapType.kTypeConfirmable ∨ m.mType = CoapType.kTypeNonConfirmable)
    (hobs : r.mMetadata.mObserve = false) :
    (s.ProcessReceivedResponse cfg env m info).mTrace =
        s.mTrace ++
          (if m.mType = CoapType.kTypeConfirmable ∧ env.mNewMessage = true then
            [Event.send (emptyMessage CoapType.kTypeAck m) info] else []) ++
          handlerCall r.mMetadata (some m) (some info) Error.kErrorNone ∧
      (s.ProcessReceivedResponse cfg env m info).mPendingRequests =
        (if r.mMetadata.mResponseHandler ≠ none ∧ r.mMetadata.mDestinationAddress.IsMulticast = true
          then s.mPendingRequests else s.mPendingRequests.eraseIdx i) := by
  have hsep : ∀ s1 : CoapBase, s1.mPendingRequests = s.mPendingRequests →
      (CoapBase.separate env s1 i r.mMetadata false m info).mTrace =
          s1.mTrace ++ handlerCall r.mMetadata (some m) (some info) Error.kErrorNone ∧
        (CoapBase.separate env s1 i r.mMetadata false m info).mPendingRequests =
          (if r.mMetadata.mResponseHandler ≠ none ∧
              r.mMetadata.mDestinationAddress.IsMulticast = true
            then s.mPendingRequests else s.mPendingRequests.eraseIdx i) := by
    intro s1 hs1
    unfold CoapBase.separate
    cases hh : r.mMetadata.mResponseHandler with
    | none =>
      simp [hobs, FinalizeCoapTransaction_pending, FinalizeCoapTransaction_trace, hs1]
    | some f =>
      by_cases hm : r.mMetadata.mDestinationAddress.IsMulticast = true
      · simp [hobs, hm, CoapBase.emit, hs1]
      · simp [hobs, hm, FinalizeCoapTransaction_pending, FinalizeCoapTransaction_trace, hs1]
  rcases hty with hty | hty
  · have hres : s.ProcessReceivedResponse cfg env m info =
        CoapBase.separate env (s.SendAck env m info).2 i r.mMetadata false m info := by
      unfold CoapBase.ProcessReceivedResponse
      simp [hfind, hty, hobs]
    rw [hres]
    by_cases hnew : env.mNewMessage = true
    · have hack : (s.SendAck env m info).2 =
          s.emit [Event.send (emptyMessage CoapType.kTypeAck m) info] := by
        simp [CoapBase.SendAck, CoapBase.SendEmptyMessage, Message.IsConfirmable, hty, hnew,
          CoapBase.Send, emptyMessage]
      rw [hack]
      obtain ⟨h1, h2⟩ := hsep (s.emit [Event.send (emptyMessage CoapType.kTypeAck m) info]) rfl
      rw [h1, h2]
      simp [hty, hnew, CoapBase.emit]
    · have hack : (s.SendAck env m info).2 = s := by
        simp [CoapBase.SendAck, CoapBase.SendEmptyMessage, Message.IsConfirmable, hty, hnew]
      rw [hack]
      obtain ⟨h1, h2⟩ := hsep s rfl
      rw [h1, h2]
      simp [hnew]
  · have hres : s.ProcessReceivedResponse cfg env m info =
        CoapBase.separate env s i r.mMetadata false m info := by
      unfold CoapBase.ProcessReceivedResponse
      simp [hfind, hty, hobs]
    rw [hres]
    obtain ⟨h1, h2⟩ := hsep s rfl
    rw [h1, h2]
    simp [hty]

theorem separate_response_handled_witness :
    (exampleSent.ProcessReceivedResponse Config.openthread (Env.allOk 500 0) exampleSeparate
        examplePeer).mTrace =
        exampleSent.mTrace ++
          (if exampleSeparate.mType = CoapType.kTypeConfirmable ∧
              (Env.allOk 500 0).mNewMessage = true then
            [Event.send (emptyMessage CoapType.kTypeAck exampleSeparate) examplePeer] else []) ++
          handlerCall exampleStored.mMetadata (some exampleSeparate) (some examplePeer)
            Error.kErrorNone ∧
      (exampleSent.ProcessReceivedResponse Config.openthread (Env.allOk 500 0) exampleSeparate
        examplePeer).mPendingRequests =
        (if exampleStored.mMetadata.mResponseHandler ≠ none ∧
            exampleStored.mMetadata.mDestinationAddress.IsMulticast = true
          then exampleSent.mPendingRequests else exampleSent.mPendingRequests.eraseIdx 0) :=
  separate_response_handled Config.openthread (Env.allOk 500 0) exampleSent exampleSeparate
    examplePeer 0 exampleStored (by decide) (Or.inl rfl) rfl

/-! ## Abort and clear -/

theorem abortLoop_pending (sel : Metadata → Bool) (l : List PendingRequest) :
    (abortLoop sel l).1 = l.filter (fun r => !sel r.mMetadata) := by
  induction l with
  | nil => rfl
  | cons r rs ih =>
    by_cases h : sel r.mMetadata = true
    · simp [abortLoop, h, ih]
    · simp [abortLoop, h, ih]

theorem abortLoop_calls (h : Option Nat) (c : Nat) (l : List PendingRequest) :
    (abortLoop (fun md => md.mResponseHandler == h && md.mResponseContext == c) l).2 =
      match h with
      | some f =>
        List.replicate
          (l.countP (fun r => r.mMetadata.mResponseHandler == h && r.mMetadata.mResponseContext == c))
          (Event.responseHandler f c none none Error.kErrorAbort)
      | none => [] := by
  induction l with
  | nil => cases h <;> rfl
  | cons r rs ih =>
    by_cases hs : (r.mMetadata.mResponseHandler == h && r.mMetadata.mResponseContext == c) = true
    · have hs1 := hs
      simp only [Bool.and_eq_true, beq_iff_eq] at hs1
      cases h with
      | none =>
        simp only [abortLoop, hs, if_true, ih]
        simp [handlerCall, hs1.1]
      | some f =>
        simp only [abortLoop, hs, if_true, ih]
        simp [handlerCall, hs1.1, hs1.2, List.countP_cons, hs, List.replicate_succ']
        rw [← List.replicate_succ, List.replicate_succ']
    · cases h with
      | none => simp only [abortLoop, hs, Bool.false_eq_true, if_false, ih]
      | some f =>
        simp only [abortLoop, hs, Bool.false_eq_true, if_false, ih]
        simp [List.countP_cons, hs]

theorem finalizeSelected_pending (env : Env) (s : CoapBase) (sel : Metadata → Bool) :
    (s.finalizeSelected env sel).mPendingRequests = (abortLoop sel s.mPendingRequests).1 := by
  unfold CoapBase.finalizeSelected
  split <;> simp [CoapBase.ScheduleRetransmissionTimer, CoapBase.emit]

theorem finalizeSelected_trace (env : Env) (s : CoapBase) (sel : Metadata → Bool) :
    (s.finalizeSelected env sel).mTrace = s.mTrace ++ (abortLoop sel s.mPendingRequests).2 := by
  unfold CoapBase.finalizeSelected
  split <;> simp [CoapBase.ScheduleRetransmissionTimer, CoapBase.emit]

theorem finalizeSelected_responses (env : Env) (s : CoapBase) (sel : Metadata → Bool) :
    (s.finalizeSelected env sel).mResponsesQueue = s.mResponsesQueue := by
  unfold CoapBase.finalizeSelected
  split <;> simp [CoapBase.ScheduleRetransmissionTimer, CoapBase.emit]

/-- C9. For every handler `h`, context `c` and pending-request queue, with
handlers that do not call back into the engine: `AbortTransaction(h, c)` returns
`kErrorNone` if and only if some stored request has `mResponseHandler = h` and
`mResponseContext = c`, and `kErrorNotFound` otherwise.  After the call the queue
holds exactly the stored requests that do not have that pair, unchanged and in
their original order.  The calls made are one invocation of `h` per removed
request, each with a null response, a null message info and `kErrorAbort` (none
at all when `h` is the null pointer). -/
theorem AbortTransaction_aborts_matching (env : Env) (s : CoapBase) (h : Option Nat) (c : Nat) :
    ((s.AbortTransaction env h c).1 = Error.kErrorNone ↔
        ∃ r ∈ s.mPendingRequests, r.mMetadata.mResponseHandler = h ∧
          r.mMetadata.mResponseContext = c) ∧
      ((s.AbortTransaction env h c).1 ≠ Error.kErrorNone →
        (s.AbortTransaction env h c).1 = Error.kErrorNotFound) ∧
      (s.AbortTransaction env h c).2.mPendingRequests =
        s.mPendingRequests.filter
          (fun r => !(r.mMetadata.mResponseHandler == h && r.mMetadata.mResponseContext == c)) ∧
      (s.AbortTransaction env h c).2.mTrace =
        s.mTrace ++
          (match h with
           | some f =>
             List.replicate
               (s.mPendingRequests.countP
                 (fun r => r.mMetadata.mResponseHandler == h && r.mMetadata.mResponseContext == c))
               (Event.responseHandler f c none none Error.kErrorAbort)
           | none => []) := by
  refine ⟨?_, ?_, ?_, ?_⟩
  · unfold CoapBase.AbortTransaction
    by_cases ha : s.mPendingRequests.any
        (fun r => r.mMetadata.mResponseHandler == h && r.mMetadata.mResponseContext == c) = true
    · simp only [ha, if_true, true_iff]
      simpa using ha
    · simp only [ha, Bool.false_eq_true, if_false]
      constructor
      · intro hc; exact absurd hc (by decide)
      · intro hex
        exfalso
        apply ha
        simpa using hex
  · simp only [CoapBase.AbortTransaction]
    split_ifs <;> simp
  · simp only [CoapBase.AbortTransaction, finalizeSelected_pending, abortLoop_pending]
  · simp only [CoapBase.AbortTransaction, finalizeSelected_trace, abortLoop_calls]

/-- C10, counterexample. `ClearRequests` with an address filter empties neither
the responses queue nor, when a request from another source remains, stops the
retransmission timer; with a filter that selects the only stored request the
responses queue still keeps its entry. -/
theorem ClearRequests_keeps_responses :
    (exampleServed.ClearRequests (Env.allOk 300 0) (some 77)).mResponsesQueue.mQueue.length = 1 ∧
      (exampleServed.ClearRequests (Env.allOk 300 0) (some 77)).mRetransmissionTimer = some 2100 ∧
      (exampleServed.ClearRequests (Env.allOk 300 0) (some 0)).mPendingRequests = [] ∧
      (exampleServed.ClearRequests (Env.allOk 300 0) (some 0)).mResponsesQueue.mQueue.length = 1 := by
  decide

/-- The calls of a loop that finalizes the selected requests with `kErrorAbort`:
those of the selected requests, in the order of the queue. -/
theorem abortLoop_trace (sel : Metadata → Bool) (l : List PendingRequest) :
    (abortLoop sel l).2 = abortCalls (l.filter (fun r => sel r.mMetadata)) := by
  induction l with
  | nil => rfl
  | cons r rs ih =>
    by_cases h : sel r.mMetadata = true
    · simp [abortLoop, h, ih, abortCalls]
    · simp [abortLoop, h, ih, abortCalls]

theorem finalizeSelected_timer (env : Env) (s : CoapBase) (sel : Metadata → Bool) :
    (s.finalizeSelected env sel).mRetransmissionTimer =
      if s.mPendingRequests.any (fun r => sel r.mMetadata) then
        FireAt (nextRetransmissionTime env.mNow (abortLoop sel s.mPendingRequests).1)
      else s.mRetransmissionTimer := by
  unfold CoapBase.finalizeSelected
  split <;> simp [CoapBase.ScheduleRetransmissionTimer, CoapBase.emit]

/-- C10, as amended. When `ClearAllRequestsAndResponses` returns, the responses
queue is empty, its timer and the retransmission timer are stopped, no request
is pending, and every request that was pending has been finalized with
`kErrorAbort`: its handler, if it has one, was called once with a null response,
a null message info and `kErrorAbort`, in the order of the queue.  `ClearRequests`
alone, with an address filter (`some a`) or without one (`none`), finalizes the
selected requests in that way and keeps the others, unchanged and in order; it
leaves the responses queue and its timer as they were, and it leaves the
retransmission timer armed for the earliest deadline of the requests it keeps
(untouched when it selected none). -/
theorem ClearAllRequestsAndResponses_clears (env : Env) (s : CoapBase) :
    (s.ClearAllRequestsAndResponses env).mResponsesQueue = { mQueue := [], mTimer := none } ∧
      (s.ClearAllRequestsAndResponses env).mRetransmissionTimer = none ∧
      (s.ClearAllRequestsAndResponses env).mPendingRequests = [] ∧
      (s.ClearAllRequestsAndResponses env).mTrace = s.mTrace ++ abortCalls s.mPendingRequests ∧
      ∀ a, (s.ClearRequests env a).mResponsesQueue = s.mResponsesQueue ∧
        (s.ClearRequests env a).mPendingRequests =
          s.mPendingRequests.filter (fun r => !clearSelects a r.mMetadata) ∧
        (s.ClearRequests env a).mTrace =
          s.mTrace ++
            abortCalls (s.mPendingRequests.filter (fun r => clearSelects a r.mMetadata)) ∧
        (s.ClearRequests env a).mRetransmissionTimer =
          if s.mPendingRequests.any (fun r => clearSelects a r.mMetadata) then
            FireAt (nextRetransmissionTime env.mNow
              (s.mPendingRequests.filter (fun r => !clearSelects a r.mMetadata)))
          else s.mRetransmissionTimer := by
  have hsel : ∀ a : Option Address,
      (fun (m : Metadata) =>
        match a with
        | none => true
        | some x => m.mSourceAddress == x) = clearSelects a := by
    intro a
    funext m
    rfl
  refine ⟨rfl, rfl, ?_, ?_, ?_⟩
  · simp only [CoapBase.ClearAllRequestsAndResponses, CoapBase.ClearRequests,
      finalizeSelected_pending, abortLoop_pending]
    simp
  · show (s.ClearRequests env none).mTrace = _
    simp only [CoapBase.ClearRequests, finalizeSelected_trace, abortLoop_trace]
    simp
  · intro a
    refine ⟨?_, ?_, ?_, ?_⟩
    · simp only [CoapBase.ClearRequests, finalizeSelected_responses]
    · simp only [CoapBase.ClearRequests, hsel, finalizeSelected_pending, abortLoop_pending]
    · simp only [CoapBase.ClearRequests, hsel, finalizeSelected_trace, abortLoop_trace]
    · simp only [CoapBase.ClearRequests, hsel, finalizeSelected_timer, abortLoop_pending]

/-! ## Derived durations and 32-bit arithmetic -/

/-- The last test of `IsValid`, on the unwrapped product: the 32-bit sum
`tmp + ackTimeout + 2 * kDefaultMaxLatency` is above `tmp`. -/
theorem IsValid_sum {cfg : Config} {p : TxParameters} (hcfg : cfg.OT_COAP_MAX_RETRANSMIT < 31)
    (hv : p.IsValid cfg = true) :
    p.mAckTimeout * (2 ^ (p.mMaxRetransmit + 1) - 1) * p.mAckRandomFactorNumerator /
        p.mAckRandomFactorDenominator <
      (p.mAckTimeout * (2 ^ (p.mMaxRetransmit + 1) - 1) * p.mAckRandomFactorNumerator /
        p.mAckRandomFactorDenominator + p.mAckTimeout + 2 * cfg.kDefaultMaxLatency) % 2 ^ 32 := by
  unfold TxParameters.IsValid at hv
  split at hv
  · rename_i hc
    obtain ⟨h1, h2, h3, h4⟩ := hc
    simp only [Bool.and_eq_true, decide_eq_true_eq] at hv
    obtain ⟨hne, hlt⟩ := hv
    have hm : shiftMask (p.mMaxRetransmit + 1) = 2 ^ (p.mMaxRetransmit + 1) - 1 :=
      shiftMask_eq (by omega)
    have h5 : Multiply (Multiply p.mAckTimeout (shiftMask (p.mMaxRetransmit + 1)))
        p.mAckRandomFactorNumerator ≠ 0 := by
      intro h0
      rw [h0] at hne
      simp at hne
    obtain ⟨h6, _, h8⟩ := Multiply_ne_zero h5
    obtain ⟨_, _, h9⟩ := Multiply_ne_zero h6
    rw [h8, h9, hm] at hlt
    exact hlt
  · simp at hv

/-- Dividing before multiplying gives no more than multiplying before dividing. -/
theorem div_mul_le_mul_div (a n d : Nat) : a / d * n ≤ a * n / d := by
  rcases Nat.eq_zero_or_pos d with hd | hd
  · subst hd; simp
  · rw [Nat.le_div_iff_mul_le hd]
    calc a / d * n * d = a / d * d * n := by ring
      _ ≤ a * n := Nat.mul_le_mul_right n (Nat.div_mul_le_self a d)

/-- For valid parameters `CalculateMaxTransmitWait` returns its unwrapped value. -/
theorem CalculateMaxTransmitWait_unwrapped {cfg : Config} {p : TxParameters}
    (hcfg : cfg.OT_COAP_MAX_RETRANSMIT < 31) (hv : p.IsValid cfg = true) :
    p.CalculateMaxTransmitWait = maxTransmitWaitUnbounded p ∧ maxTransmitWaitUnbounded p < 2 ^ 32 := by
  obtain ⟨hd, hdn, hm, _, hb⟩ := IsValid_bound hcfg hv
  have hA : p.mAckTimeout * (2 ^ (p.mMaxRetransmit + 1) - 1) < 2 ^ 32 := by
    have : p.mAckTimeout * (2 ^ (p.mMaxRetransmit + 1) - 1) * 1 ≤
        p.mAckTimeout * (2 ^ (p.mMaxRetransmit + 1) - 1) * p.mAckRandomFactorNumerator :=
      Nat.mul_le_mul_left _ (by omega)
    omega
  have hB : maxTransmitWaitUnbounded p < 2 ^ 32 := by
    unfold maxTransmitWaitUnbounded
    have h1 := div_mul_le_mul_div (p.mAckTimeout * (2 ^ (p.mMaxRetransmit + 1) - 1))
      p.mAckRandomFactorNumerator p.mAckRandomFactorDenominator
    have h2 := Nat.div_le_self
      (p.mAckTimeout * (2 ^ (p.mMaxRetransmit + 1) - 1) * p.mAckRandomFactorNumerator)
      p.mAckRandomFactorDenominator
    omega
  refine ⟨?_, hB⟩
  unfold TxParameters.CalculateMaxTransmitWait TxParameters.CalculateSpan
  have h256 : (p.mMaxRetransmit + 1) % 256 = p.mMaxRetransmit + 1 := Nat.mod_eq_of_lt (by omega)
  rw [h256, shiftMask_eq (by omega), Nat.mod_eq_of_lt hA]
  exact Nat.mod_eq_of_lt hB

/-- For valid parameters whose acknowledgement timeout is below
`2^32 - 2 * kDefaultMaxLatency`, `CalculateExchangeLifetime` returns its
unwrapped value. -/
theorem CalculateExchangeLifetime_unwrapped {cfg : Config} {p : TxParameters}
    (hcfg : cfg.OT_COAP_MAX_RETRANSMIT < 31) (hv : p.IsValid cfg = true)
    (hack : p.mAckTimeout + 2 * cfg.kDefaultMaxLatency < 2 ^ 32) :
    p.CalculateExchangeLifetime cfg = exchangeLifetimeUnbounded cfg p ∧
      exchangeLifetimeUnbounded cfg p < 2 ^ 32 := by
  obtain ⟨hd, hdn, hm, _, hb⟩ := IsValid_bound hcfg hv
  have hs := IsValid_sum hcfg hv
  have hpow : 2 ^ p.mMaxRetransmit - 1 ≤ 2 ^ (p.mMaxRetransmit + 1) - 1 := by
    have : 2 ^ p.mMaxRetransmit ≤ 2 ^ (p.mMaxRetransmit + 1) :=
      Nat.pow_le_pow_right (by norm_num) (Nat.le_succ _)
    omega
  have hAB : p.mAckTimeout * (2 ^ p.mMaxRetransmit - 1) ≤
      p.mAckTimeout * (2 ^ (p.mMaxRetransmit + 1) - 1) := Nat.mul_le_mul_left _ hpow
  have hA1 : p.mAckTimeout * (2 ^ (p.mMaxRetransmit + 1) - 1) * 1 ≤
      p.mAckTimeout * (2 ^ (p.mMaxRetransmit + 1) - 1) * p.mAckRandomFactorNumerator :=
    Nat.mul_le_mul_left _ (by omega)
  have hspan : p.mAckTimeout * (2 ^ p.mMaxRetransmit - 1) / p.mAckRandomFactorDenominator *
      p.mAckRandomFactorNumerator ≤
      p.mAckTimeout * (2 ^ (p.mMaxRetransmit + 1) - 1) * p.mAckRandomFactorNumerator /
        p.mAckRandomFactorDenominator := by
    refine le_trans (div_mul_le_mul_div _ _ _) (Nat.div_le_div_right ?_)
    exact Nat.mul_le_mul_right _ hAB
  have htmp := Nat.div_le_self
    (p.mAckTimeout * (2 ^ (p.mMaxRetransmit + 1) - 1) * p.mAckRandomFactorNumerator)
    p.mAckRandomFactorDenominator
  have hsum : p.mAckTimeout * (2 ^ (p.mMaxRetransmit + 1) - 1) * p.mAckRandomFactorNumerator /
      p.mAckRandomFactorDenominator + p.mAckTimeout + 2 * cfg.kDefaultMaxLatency < 2 ^ 32 := by
    by_contra hge
    have hmod : (p.mAckTimeout * (2 ^ (p.mMaxRetransmit + 1) - 1) * p.mAckRandomFactorNumerator /
        p.mAckRandomFactorDenominator + p.mAckTimeout + 2 * cfg.kDefaultMaxLatency) % 2 ^ 32 =
        p.mAckTimeout * (2 ^ (p.mMaxRetransmit + 1) - 1) * p.mAckRandomFactorNumerator /
        p.mAckRandomFactorDenominator + p.mAckTimeout + 2 * cfg.kDefaultMaxLatency - 2 ^ 32 := by
      rw [Nat.mod_eq_sub_mod (not_lt.mp hge)]
      exact Nat.mod_eq_of_lt (by omega)
    omega
  have hB : exchangeLifetimeUnbounded cfg p < 2 ^ 32 := by
    unfold exchangeLifetimeUnbounded
    omega
  refine ⟨?_, hB⟩
  unfold exchangeLifetimeUnbounded at hB
  unfold TxParameters.CalculateExchangeLifetime TxParameters.CalculateSpan exchangeLifetimeUnbounded
  rw [shiftMask_eq (by omega), Nat.mod_eq_of_lt (by omega : p.mAckTimeout * (2 ^ p.mMaxRetransmit - 1) < 2 ^ 32),
    Nat.mod_eq_of_lt (by omega : p.mAckTimeout * (2 ^ p.mMaxRetransmit - 1) /
      p.mAckRandomFactorDenominator * p.mAckRandomFactorNumerator < 2 ^ 32)]
  exact Nat.mod_eq_of_lt hB

/-- C17. `IsValid` accepts the parameters `exampleLongTimeout` (acknowledgement
timeout `2^32 - 150000` ms, factor 1/1, no retransmission, every field within
its range) although their exchange lifetime does not fit in 32 bits: over
unbounded integers it is 4295017296, which is above `2^32`, and
`CalculateExchangeLifetime` returns the wrapped value 50000. -/
theorem IsValid_accepts_wrapping_lifetime :
    exampleLongTimeout.InRange ∧
      exampleLongTimeout.IsValid Config.openthread = true ∧
      exchangeLifetimeUnbounded Config.openthread exampleLongTimeout = 4295017296 ∧
      2 ^ 32 ≤ exchangeLifetimeUnbounded Config.openthread exampleLongTimeout ∧
      exampleLongTimeout.CalculateExchangeLifetime Config.openthread = 50000 ∧
      exampleLongTimeout.CalculateExchangeLifetime Config.openthread ≠
        exchangeLifetimeUnbounded Config.openthread exampleLongTimeout := by
  decide

/-- The same holds whatever the value of `kDefaultMaxLatency` is, from 2 ms up:
the parameters with acknowledgement timeout `2^32 + 1 - 2 * kDefaultMaxLatency`,
factor 1/1 and no retransmission are accepted by `IsValid`, their exchange
lifetime is `2^32 + 1`, and `CalculateExchangeLifetime` returns 1. -/
theorem IsValid_wraps_for_any_latency (cfg : Config) (hl : 2 ≤ cfg.kDefaultMaxLatency)
    (hmin : cfg.OT_COAP_MIN_ACK_TIMEOUT + 2 * cfg.kDefaultMaxLatency ≤ 2 ^ 32 + 1) :
    TxParameters.IsValid cfg
        { mAckTimeout := 2 ^ 32 + 1 - 2 * cfg.kDefaultMaxLatency, mAckRandomFactorNumerator := 1,
          mAckRandomFactorDenominator := 1, mMaxRetransmit := 0 } = true ∧
      exchangeLifetimeUnbounded cfg
        { mAckTimeout := 2 ^ 32 + 1 - 2 * cfg.kDefaultMaxLatency, mAckRandomFactorNumerator := 1,
          mAckRandomFactorDenominator := 1, mMaxRetransmit := 0 } = 2 ^ 32 + 1 ∧
      TxParameters.CalculateExchangeLifetime cfg
        { mAckTimeout := 2 ^ 32 + 1 - 2 * cfg.kDefaultMaxLatency, mAckRandomFactorNumerator := 1,
          mAckRandomFactorDenominator := 1, mMaxRetransmit := 0 } = 1 := by
  have hs : shiftMask 1 = 1 := by decide
  have hs0 : shiftMask 0 = 0 := by decide
  have hM : ∀ a, 0 < a → a < 2 ^ 32 → Multiply a 1 = a := by
    intro a h0 h1
    unfold Multiply
    rw [if_neg (by omega)]
    simp only [Nat.mul_one, Nat.mod_eq_of_lt h1, Nat.div_self h0, if_true]
  have ha0 : 0 < 2 ^ 32 + 1 - 2 * cfg.kDefaultMaxLatency := by omega
  have ha1 : 2 ^ 32 + 1 - 2 * cfg.kDefaultMaxLatency < 2 ^ 32 := by omega
  refine ⟨?_, ?_, ?_⟩
  · unfold TxParameters.IsValid
    simp only [hs, Nat.zero_add, hM _ ha0 ha1, Nat.div_one]
    rw [if_pos ⟨by norm_num, le_refl _, by omega, Nat.zero_le _⟩]
    have hmod : (2 ^ 32 + 1 - 2 * cfg.kDefaultMaxLatency + (2 ^ 32 + 1 - 2 * cfg.kDefaultMaxLatency) +
        2 * cfg.kDefaultMaxLatency) % 2 ^ 32 = 2 ^ 32 + 2 - 2 * cfg.kDefaultMaxLatency := by
      have : 2 ^ 32 + 1 - 2 * cfg.kDefaultMaxLatency + (2 ^ 32 + 1 - 2 * cfg.kDefaultMaxLatency) +
          2 * cfg.kDefaultMaxLatency = (2 ^ 32 + 2 - 2 * cfg.kDefaultMaxLatency) + 2 ^ 32 := by omega
      rw [this, Nat.add_mod_right]
      exact Nat.mod_eq_of_lt (by omega)
    rw [hmod]
    simp only [Bool.and_eq_true, decide_eq_true_eq]
    omega
  · unfold exchangeLifetimeUnbounded
    simp only [pow_zero, Nat.sub_self, Nat.mul_zero, Nat.zero_div, Nat.zero_mul, Nat.zero_add]
    omega
  · unfold TxParameters.CalculateExchangeLifetime TxParameters.CalculateSpan
    simp only [hs0, Nat.mul_zero, Nat.zero_mod, Nat.zero_div, Nat.zero_mul, Nat.zero_add]
    have : 2 * cfg.kDefaultMaxLatency + (2 ^ 32 + 1 - 2 * cfg.kDefaultMaxLatency) = 1 + 2 ^ 32 := by
      omega
    rw [this, Nat.add_mod_right]
    rfl

/-! ## Acknowledged Observe subscriptions and the retransmission sweep -/

theorem retransmit_acked (env : Env) {r : PendingRequest} (h : r.isAckedSubscription = true) :
    retransmit env r = (some r, []) := by
  unfold retransmit
  split_ifs <;> rfl

theorem nextRetransmissionTime_skip (aNow : TimeMilli) (pre post : List PendingRequest)
    {r : PendingRequest} (h : r.isAckedSubscription = true) :
    nextRetransmissionTime aNow (pre ++ r :: post) = nextRetransmissionTime aNow (pre ++ post) := by
  unfold nextRetransmissionTime
  rw [List.foldl_append, List.foldl_append, List.foldl_cons, if_pos h]

/-- C19. A stored request `r` whose message is a request and whose metadata has
`mObserve` and `mAcknowledged` set, anywhere in the pending queue
(`pre ++ r :: post`), at any time `env.mNow` and whatever its deadline: the loop
body of `HandleRetransmissionTimer` leaves `r` as it is and makes no call for it.
After `HandleRetransmissionTimer` the entry is still in its place, unchanged,
between what the sweep leaves of `pre` and of `post`; the trace of transport and
handler calls and the retransmission timer are exactly those of the same sweep
over the queue without `r`.  `ScheduleRetransmissionTimer` arms the timer as it
would for the queue without `r`: the deadline of `r` plays no part. -/
theorem acked_subscription_not_swept (env : Env) (s : CoapBase) (pre post : List PendingRequest)
    (r : PendingRequest) (hreq : r.mMessage.IsRequest = true) (hobs : r.mMetadata.mObserve = true)
    (hack : r.mMetadata.mAcknowledged = true) (hs : s.mPendingRequests = pre ++ r :: post) :
    retransmit env r = (some r, []) ∧
    (s.HandleRetransmissionTimer env).mPendingRequests =
      (retransmitLoop env pre).1 ++ r :: (retransmitLoop env post).1 ∧
    (CoapBase.HandleRetransmissionTimer env { s with mPendingRequests := pre ++ post }).mPendingRequests =
      (retransmitLoop env pre).1 ++ (retransmitLoop env post).1 ∧
    (s.HandleRetransmissionTimer env).mTrace =
      (CoapBase.HandleRetransmissionTimer env { s with mPendingRequests := pre ++ post }).mTrace ∧
    (s.HandleRetransmissionTimer env).mRetransmissionTimer =
      (CoapBase.HandleRetransmissionTimer env
        { s with mPendingRequests := pre ++ post }).mRetransmissionTimer ∧
    (s.ScheduleRetransmissionTimer env).mRetransmissionTimer =
      (CoapBase.ScheduleRetransmissionTimer env
        { s with mPendingRequests := pre ++ post }).mRetransmissionTimer := by
  have hsub : r.isAckedSubscription = true := by
    simp [PendingRequest.isAckedSubscription, hreq, hobs, hack]
  have hr := retransmit_acked env hsub
  have hloop : retransmitLoop env (pre ++ r :: post) =
      ((retransmitLoop env pre).1 ++ r :: (retransmitLoop env post).1,
        (retransmitLoop env pre).2 ++ (retransmitLoop env post).2) := by
    rw [retransmitLoop_append]
    simp [retransmitLoop, hr]
  refine ⟨hr, ?_, ?_, ?_, ?_, ?_⟩
  · rw [HandleRetransmissionTimer_pending, hs, hloop]
  · rw [HandleRetransmissionTimer_pending, retransmitLoop_append]
  · rw [HandleRetransmissionTimer_trace, HandleRetransmissionTimer_trace, hs, hloop,
      retransmitLoop_append]
  · simp only [CoapBase.HandleRetransmissionTimer, CoapBase.ScheduleRetransmissionTimer,
      CoapBase.emit, hs, hloop, retransmitLoop_append]
    rw [nextRetransmissionTime_skip _ _ _ hsub]
  · simp only [CoapBase.ScheduleRetransmissionTimer, hs]
    rw [nextRetransmissionTime_skip _ _ _ hsub]

theorem acked_subscription_not_swept_witness :
    retransmit (Env.allOk 5000 0) exampleSubscription = (some exampleSubscription, []) ∧
    (exampleWatching.HandleRetransmissionTimer (Env.allOk 5000 0)).mPendingRequests =
      (retransmitLoop (Env.allOk 5000 0) [examplePending]).1 ++
        exampleSubscription :: (retransmitLoop (Env.allOk 5000 0) []).1 ∧
    (CoapBase.HandleRetransmissionTimer (Env.allOk 5000 0)
        { exampleWatching with mPendingRequests := [examplePending] ++ [] }).mPendingRequests =
      (retransmitLoop (Env.allOk 5000 0) [examplePending]).1 ++
        (retransmitLoop (Env.allOk 5000 0) []).1 ∧
    (exampleWatching.HandleRetransmissionTimer (Env.allOk 5000 0)).mTrace =
      (CoapBase.HandleRetransmissionTimer (Env.allOk 5000 0)
        { exampleWatching with mPendingRequests := [examplePending] ++ [] }).mTrace ∧
    (exampleWatching.HandleRetransmissionTimer (Env.allOk 5000 0)).mRetransmissionTimer =
      (CoapBase.HandleRetransmissionTimer (Env.allOk 5000 0)
        { exampleWatching with mPendingRequests := [examplePending] ++ [] }).mRetransmissionTimer ∧
    (exampleWatching.ScheduleRetransmissionTimer (Env.allOk 5000 0)).mRetransmissionTimer =
      (CoapBase.ScheduleRetransmissionTimer (Env.allOk 5000 0)
        { exampleWatching with mPendingRequests := [examplePending] ++ [] }).mRetransmissionTimer :=
  acked_subscription_not_swept (Env.allOk 5000 0) exampleWatching [examplePending] []
    exampleSubscription (by decide) rfl rfl rfl

/-! ## The responses queue -/

/-- The loop of `UpdateQueue` started with a candidate: it either keeps the
candidate, which is then no later than every entry, or ends on the first entry
with the smallest dequeue time, which is strictly earlier than the candidate. -/
theorem earliestLoop_some (l : List CachedResponse) :
    ∀ (k i0 t0 : Nat),
      (ResponsesQueue.earliestLoop l k (some (i0, t0)) = some (i0, t0) ∧
          ∀ x ∈ l, t0 ≤ x.mMetadata.mDequeueTime) ∨
        (∃ i r, l.get? i = some r ∧
          ResponsesQueue.earliestLoop l k (some (i0, t0)) = some (k + i, r.mMetadata.mDequeueTime) ∧
          r.mMetadata.mDequeueTime < t0 ∧
          (∀ x ∈ l, r.mMetadata.mDequeueTime ≤ x.mMetadata.mDequeueTime) ∧
          ∀ x ∈ l.take i, r.mMetadata.mDequeueTime < x.mMetadata.mDequeueTime) := by
  induction l with
  | nil =>
    intro k i0 t0
    left
    simp [ResponsesQueue.earliestLoop]
  | cons a rs ih =>
    intro k i0 t0
    by_cases hlt : a.mMetadata.mDequeueTime < t0
    · have hstep : ResponsesQueue.earliestLoop (a :: rs) k (some (i0, t0)) =
          ResponsesQueue.earliestLoop rs (k + 1) (some (k, a.mMetadata.mDequeueTime)) := by
        simp [ResponsesQueue.earliestLoop, hlt]
      rw [hstep]
      right
      rcases ih (k + 1) k a.mMetadata.mDequeueTime with ⟨he, hall⟩ | ⟨i, r, hget, he, hr, hall, hfirst⟩
      · refine ⟨0, a, rfl, by simpa using he, hlt, ?_, by simp⟩
        intro x hx
        rcases List.mem_cons.mp hx with hxa | hx
        · rw [hxa]
        · exact hall x hx
      · refine ⟨i + 1, r, by simpa using hget, ?_, lt_trans hr hlt, ?_, ?_⟩
        · rw [he, Nat.add_assoc, Nat.add_comm 1 i]
        · intro x hx
          rcases List.mem_cons.mp hx with hxa | hx
          · rw [hxa]; exact le_of_lt hr
          · exact hall x hx
        · intro x hx
          rw [List.take_succ_cons] at hx
          rcases List.mem_cons.mp hx with hxa | hx
          · rw [hxa]; exact hr
          · exact hfirst x hx
    · have hstep : ResponsesQueue.earliestLoop (a :: rs) k (some (i0, t0)) =
          ResponsesQueue.earliestLoop rs (k + 1) (some (i0, t0)) := by
        simp [ResponsesQueue.earliestLoop, hlt]
      rw [hstep]
      rcases ih (k + 1) i0 t0 with ⟨he, hall⟩ | ⟨i, r, hget, he, hr, hall, hfirst⟩
      · left
        refine ⟨he, ?_⟩
        intro x hx
        rcases List.mem_cons.mp hx with hxa | hx
        · rw [hxa]; exact not_lt.mp hlt
        · exact hall x hx
      · right
        refine ⟨i + 1, r, by simpa using hget, ?_, hr, ?_, ?_⟩
        · rw [he, Nat.add_assoc, Nat.add_comm 1 i]
        · intro x hx
          rcases List.mem_cons.mp hx with hxa | hx
          · rw [hxa]; exact le_of_lt (lt_of_lt_of_le hr (not_lt.mp hlt))
          · exact hall x hx
        · intro x hx
          rw [List.take_succ_cons] at hx
          rcases List.mem_cons.mp hx with hxa | hx
          · rw [hxa]; exact lt_of_lt_of_le hr (not_lt.mp hlt)
          · exact hfirst x hx

/-- On a queue that is not empty the loop of `UpdateQueue` ends on the first
entry, in queue order, whose dequeue time is the smallest. -/
theorem earliestLoop_first {l : List CachedResponse} (hl : l ≠ []) :
    ∃ i r, l.get? i = some r ∧
      ResponsesQueue.earliestLoop l 0 none = some (i, r.mMetadata.mDequeueTime) ∧
      (∀ x ∈ l, r.mMetadata.mDequeueTime ≤ x.mMetadata.mDequeueTime) ∧
      ∀ x ∈ l.take i, r.mMetadata.mDequeueTime < x.mMetadata.mDequeueTime := by
  cases l with
  | nil => exact absurd rfl hl
  | cons a rs =>
    have hstep : ResponsesQueue.earliestLoop (a :: rs) 0 none =
        ResponsesQueue.earliestLoop rs 1 (some (0, a.mMetadata.mDequeueTime)) := by
      simp [ResponsesQueue.earliestLoop]
    rw [hstep]
    rcases earliestLoop_some rs 1 0 a.mMetadata.mDequeueTime with
      ⟨he, hall⟩ | ⟨i, r, hget, he, hr, hall, hfirst⟩
    · refine ⟨0, a, rfl, he, ?_, by simp⟩
      intro x hx
      rcases List.mem_cons.mp hx with hxa | hx
      · rw [hxa]
      · exact hall x hx
    · refine ⟨i + 1, r, by simpa using hget, ?_, ?_, ?_⟩
      · rw [he, Nat.add_comm 1 i]
      · intro x hx
        rcases List.mem_cons.mp hx with hxa | hx
        · rw [hxa]; exact le_of_lt hr
        · exact hall x hx
      · intro x hx
        rw [List.take_succ_cons] at hx
        rcases List.mem_cons.mp hx with hxa | hx
        · rw [hxa]; exact hr
        · exact hfirst x hx

/-- What `UpdateQueue` does to a full queue: it removes the first entry with the
smallest dequeue time. -/
theorem UpdateQueue_full {cfg : Config} {q : ResponsesQueue}
    (hfull : cfg.kMaxCachedResponses ≤ q.mQueue.length) (hne : q.mQueue ≠ []) :
    ∃ i r, q.mQueue.get? i = some r ∧
      (∀ x ∈ q.mQueue, r.mMetadata.mDequeueTime ≤ x.mMetadata.mDequeueTime) ∧
      (∀ x ∈ q.mQueue.take i, r.mMetadata.mDequeueTime < x.mMetadata.mDequeueTime) ∧
      q.UpdateQueue cfg = { q with mQueue := q.mQueue.eraseIdx i } := by
  obtain ⟨i, r, hget, he, hall, hfirst⟩ := earliestLoop_first hne
  refine ⟨i, r, hget, hall, hfirst, ?_⟩
  unfold ResponsesQueue.UpdateQueue
  rw [if_pos hfull, he]

theorem UpdateQueue_room {cfg : Config} {q : ResponsesQueue}
    (hroom : q.mQueue.length < cfg.kMaxCachedResponses) : q.UpdateQueue cfg = q := by
  unfold ResponsesQueue.UpdateQueue
  rw [if_neg (by omega)]

/-- The queue that `EnqueueResponse` leaves when no stored entry matches: the
queue after `UpdateQueue`, followed by the new entry when the clone and the
trailer could be allocated. -/
theorem EnqueueResponse_queue {cfg : Config} {env : Env} {q : ResponsesQueue} {m : Message}
    {info : MessageInfo} {tx : TxParameters} (hnone : q.FindMatchedResponse m info = none) :
    (q.EnqueueResponse cfg env m info tx).mQueue =
      (q.UpdateQueue cfg).mQueue ++
        (if env.mClone m = true ∧ env.mAppend m = true then
          [{ mMessage := m,
             mMetadata := { mDequeueTime := env.mNow + tx.CalculateExchangeLifetime cfg,
                            mMessageInfo := info } }]
         else []) := by
  unfold ResponsesQueue.EnqueueResponse
  simp only [hnone, Option.isSome_none, Bool.false_eq_true, if_false]
  by_cases hc : env.mClone m = true <;> by_cases ha : env.mAppend m = true <;> simp [hc, ha]

theorem UpdateQueue_length (cfg : Config) (q : ResponsesQueue) (hk : 1 ≤ cfg.kMaxCachedResponses)
    (hq : q.mQueue.length ≤ cfg.kMaxCachedResponses) :
    (q.UpdateQueue cfg).mQueue.length < cfg.kMaxCachedResponses := by
  by_cases hfull : cfg.kMaxCachedResponses ≤ q.mQueue.length
  · have hne : q.mQueue ≠ [] := by
      intro h0
      rw [h0] at hfull
      simp at hfull
      omega
    obtain ⟨i, r, hget, _, _, hu⟩ := UpdateQueue_full hfull hne
    rw [hu]
    have hi : i < q.mQueue.length := by
      rw [List.get?_eq_some] at hget
      exact hget.1
    simp only [List.length_eraseIdx, hi, if_true]
    omega
  · rw [UpdateQueue_room (by omega)]
    omega

/-- Every call keeps the number of cached responses within `kMaxCachedResponses`. -/
theorem call_length (cfg : Config) (q : ResponsesQueue) (c : ResponsesQueue.Call)
    (hk : 1 ≤ cfg.kMaxCachedResponses) (hq : q.mQueue.length ≤ cfg.kMaxCachedResponses) :
    (q.call cfg c).mQueue.length ≤ cfg.kMaxCachedResponses := by
  cases c with
  | enqueueResponse env m info tx =>
    simp only [ResponsesQueue.call]
    cases hf : q.FindMatchedResponse m info with
    | some r =>
      unfold ResponsesQueue.EnqueueResponse
      simp [hf]
      exact hq
    | none =>
      rw [EnqueueResponse_queue hf]
      have := UpdateQueue_length cfg q hk hq
      split_ifs
      · simp only [List.length_append, List.length_singleton]
        omega
      · simp only [List.append_nil]
        omega
  | handleTimer env =>
    simp only [ResponsesQueue.call, ResponsesQueue.HandleTimer]
    exact le_trans (List.length_filter_le _ _) hq
  | dequeueAllResponses =>
    simp [ResponsesQueue.call, ResponsesQueue.DequeueAllResponses]

/-- C11. With `kMaxCachedResponses` at least 1, after any sequence of calls of
`EnqueueResponse`, `ResponsesQueue::HandleTimer` and `DequeueAllResponses` on the
empty queue, each made at any time and with the clone and the trailer allocation
succeeding or failing, the queue holds at most `kMaxCachedResponses` responses. -/
theorem responses_queue_bounded (cfg : Config) (hk : 1 ≤ cfg.kMaxCachedResponses)
    (l : List ResponsesQueue.Call) :
    (ResponsesQueue.empty.calls cfg l).mQueue.length ≤ cfg.kMaxCachedResponses := by
  have hgen : ∀ (l : List ResponsesQueue.Call) (q : ResponsesQueue),
      q.mQueue.length ≤ cfg.kMaxCachedResponses →
      (q.calls cfg l).mQueue.length ≤ cfg.kMaxCachedResponses := by
    intro l
    induction l with
    | nil => intro q hq; exact hq
    | cons c cs ih =>
      intro q hq
      simp only [ResponsesQueue.calls, List.foldl_cons]
      exact ih _ (call_length cfg q c hk hq)
  exact hgen l _ (by simp [ResponsesQueue.empty])

theorem responses_queue_bounded_witness :
    (ResponsesQueue.empty.calls exampleSmallCache exampleCalls).mQueue.length ≤
      exampleSmallCache.kMaxCachedResponses :=
  responses_queue_bounded exampleSmallCache (by decide) exampleCalls

theorem FindMatchedResponse_none {q : ResponsesQueue} {m : Message} {info : MessageInfo} :
    q.FindMatchedResponse m info = none ↔ ∀ x ∈ q.mQueue, x.Matches m info = false := by
  unfold ResponsesQueue.FindMatchedResponse CachedResponse.Matches
  rw [List.find?_eq_none]
  constructor
  · intro h x hx
    simpa using h x hx
  · intro h x hx
    simpa using h x hx

theorem FindMatchedResponse_some {q : ResponsesQueue} {m : Message} {info : MessageInfo}
    {r : CachedResponse} (h : q.FindMatchedResponse m info = some r) :
    r ∈ q.mQueue ∧ r.Matches m info = true := by
  unfold ResponsesQueue.FindMatchedResponse at h
  exact ⟨List.mem_of_find?_eq_some h, by simpa [CachedResponse.Matches] using List.find?_some h⟩

/-- C12. With `kMaxCachedResponses` at least 1 and no stored entry matching the
message-ID and peer of the new message: when the queue holds exactly
`kMaxCachedResponses` entries, `EnqueueResponse` removes the entry `r` at one
position `i`; the dequeue time of `r` is no later than that of any stored entry
and strictly earlier than that of every entry before position `i`; the other
entries stay, unchanged and in order, followed by the new entry when its clone
and trailer could be allocated.  When the queue holds fewer entries none is
removed. -/
theorem EnqueueResponse_evicts_earliest (cfg : Config) (env : Env) (q : ResponsesQueue)
    (m : Message) (info : MessageInfo) (tx : TxParameters) (hk : 1 ≤ cfg.kMaxCachedResponses)
    (hnone : ∀ x ∈ q.mQueue, x.Matches m info = false) :
    (q.mQueue.length = cfg.kMaxCachedResponses →
      ∃ i r, q.mQueue.get? i = some r ∧
        (∀ x ∈ q.mQueue, r.mMetadata.mDequeueTime ≤ x.mMetadata.mDequeueTime) ∧
        (∀ x ∈ q.mQueue.take i, r.mMetadata.mDequeueTime < x.mMetadata.mDequeueTime) ∧
        (q.EnqueueResponse cfg env m info tx).mQueue =
          q.mQueue.eraseIdx i ++
            (if env.mClone m = true ∧ env.mAppend m = true then [cachedEntry cfg env m info tx]
             else [])) ∧
    (q.mQueue.length < cfg.kMaxCachedResponses →
      (q.EnqueueResponse cfg env m info tx).mQueue =
        q.mQueue ++
          (if env.mClone m = true ∧ env.mAppend m = true then [cachedEntry cfg env m info tx]
           else [])) := by
  have hf := FindMatchedResponse_none.mpr hnone
  constructor
  · intro hlen
    have hne : q.mQueue ≠ [] := by
      intro h0
      rw [h0] at hlen
      simp at hlen
      omega
    obtain ⟨i, r, hget, hall, hfirst, hu⟩ := UpdateQueue_full (le_of_eq hlen.symm) hne
    refine ⟨i, r, hget, hall, hfirst, ?_⟩
    rw [EnqueueResponse_queue hf, hu]
    rfl
  · intro hlen
    rw [EnqueueResponse_queue hf, UpdateQueue_room hlen]
    rfl

theorem EnqueueResponse_evicts_earliest_witness :
    (exampleFullQueue.mQueue.length = exampleSmallCache.kMaxCachedResponses →
      ∃ i r, exampleFullQueue.mQueue.get? i = some r ∧
        (∀ x ∈ exampleFullQueue.mQueue, r.mMetadata.mDequeueTime ≤ x.mMetadata.mDequeueTime) ∧
        (∀ x ∈ exampleFullQueue.mQueue.take i,
          r.mMetadata.mDequeueTime < x.mMetadata.mDequeueTime) ∧
        (exampleFullQueue.EnqueueResponse exampleSmallCache (Env.allOk 400 0) (exampleResponse 3)
            examplePeer exampleTx).mQueue =
          exampleFullQueue.mQueue.eraseIdx i ++
            (if (Env.allOk 400 0).mClone (exampleResponse 3) = true ∧
                (Env.allOk 400 0).mAppend (exampleResponse 3) = true then
              [cachedEntry exampleSmallCache (Env.allOk 400 0) (exampleResponse 3) examplePeer
                exampleTx]
             else [])) ∧
    (exampleFullQueue.mQueue.length < exampleSmallCache.kMaxCachedResponses →
      (exampleFullQueue.EnqueueResponse exampleSmallCache (Env.allOk 400 0) (exampleResponse 3)
          examplePeer exampleTx).mQueue =
        exampleFullQueue.mQueue ++
          (if (Env.allOk 400 0).mClone (exampleResponse 3) = true ∧
              (Env.allOk 400 0).mAppend (exampleResponse 3) = true then
            [cachedEntry exampleSmallCache (Env.allOk 400 0) (exampleResponse 3) examplePeer
              exampleTx]
           else [])) :=
  EnqueueResponse_evicts_earliest exampleSmallCache (Env.allOk 400 0) exampleFullQueue
    (exampleResponse 3) examplePeer exampleTx (by decide) (by decide)

/-- C13. Let no stored entry match the message-ID of `m` and the peer `info`,
and let `EnqueueResponse(m, info, tx)` succeed (the clone and its trailer are
allocated).  Then a lookup with a request of the same message-ID, from a peer
with the same address and port, finds the new entry: it returns `kErrorNone`
and a copy equal to `m` as it was enqueued, or `kErrorNoBufs` and nothing when
the copy cannot be allocated.  For any queue `q1`, request and peer:
`GetMatchedResponseCopy` returns `kErrorNotFound` exactly when no stored entry
has the message-ID of the request and the address and port of the peer;
`kErrorNoBufs` exactly when there is such an entry and the clone of the first of
them fails; and `kErrorNone` with the message of that first entry otherwise.
The lookup only reads the queue. -/
theorem GetMatchedResponseCopy_roundtrip (cfg : Config) (env env1 : Env) (q q1 : ResponsesQueue)
    (m request rq : Message) (info info1 i1 : MessageInfo) (tx : TxParameters)
    (hnone : ∀ x ∈ q.mQueue, x.Matches m info = false)
    (hclone : env.mClone m = true) (happend : env.mAppend m = true)
    (hid : request.mMessageId = m.mMessageId)
    (haddr : info1.mPeerAddr = info.mPeerAddr) (hport : info1.mPeerPort = info.mPeerPort) :
    (q.EnqueueResponse cfg env m info tx).GetMatchedResponseCopy env1 request info1 =
        (if env1.mClone m then (Error.kErrorNone, some m) else (Error.kErrorNoBufs, none)) ∧
    ((q1.GetMatchedResponseCopy env1 rq i1).1 = Error.kErrorNotFound ↔
        ∀ x ∈ q1.mQueue, ¬(x.mMessage.mMessageId = rq.mMessageId ∧
          x.mMetadata.mMessageInfo.mPeerAddr = i1.mPeerAddr ∧
          x.mMetadata.mMessageInfo.mPeerPort = i1.mPeerPort)) ∧
    ((q1.GetMatchedResponseCopy env1 rq i1).1 = Error.kErrorNoBufs ↔
        ∃ x, q1.FindMatchedResponse rq i1 = some x ∧ x ∈ q1.mQueue ∧ x.Matches rq i1 = true ∧
          env1.mClone x.mMessage = false) ∧
    ((q1.GetMatchedResponseCopy env1 rq i1).1 = Error.kErrorNone ↔
        ∃ x, q1.FindMatchedResponse rq i1 = some x ∧ x ∈ q1.mQueue ∧ x.Matches rq i1 = true ∧
          env1.mClone x.mMessage = true ∧
          (q1.GetMatchedResponseCopy env1 rq i1).2 = some x.mMessage) := by
  refine ⟨?_, ?_, ?_, ?_⟩
  · have hf := FindMatchedResponse_none.mpr hnone
    have hq : (q.EnqueueResponse cfg env m info tx).mQueue =
        (q.UpdateQueue cfg).mQueue ++ [cachedEntry cfg env m info tx] := by
      rw [EnqueueResponse_queue hf, if_pos ⟨hclone, happend⟩]
      rfl
    have hsub : ∀ x ∈ (q.UpdateQueue cfg).mQueue, x ∈ q.mQueue := by
      intro x hx
      unfold ResponsesQueue.UpdateQueue at hx
      split at hx
      · split at hx
        · exact List.mem_of_mem_eraseIdx hx
        · exact hx
      · exact hx
    have hfind : (q.EnqueueResponse cfg env m info tx).FindMatchedResponse request info1 =
        some (cachedEntry cfg env m info tx) := by
      unfold ResponsesQueue.FindMatchedResponse
      rw [hq, List.find?_append]
      have h1 : List.find? (fun r => r.mMessage.mMessageId == request.mMessageId &&
          r.mMetadata.mMessageInfo.HasSamePeerAddrAndPort info1) (q.UpdateQueue cfg).mQueue = none := by
        rw [List.find?_eq_none]
        intro x hx
        have := hnone x (hsub x hx)
        simpa [CachedResponse.Matches, MessageInfo.HasSamePeerAddrAndPort, hid, haddr, hport]
          using this
      rw [h1]
      simp [cachedEntry, MessageInfo.HasSamePeerAddrAndPort, hid, haddr, hport]
    unfold ResponsesQueue.GetMatchedResponseCopy
    rw [hfind]
    simp only [cachedEntry]
  · unfold ResponsesQueue.GetMatchedResponseCopy
    cases hf : q1.FindMatchedResponse rq i1 with
    | none =>
      simp only [true_iff]
      intro x hx
      have := FindMatchedResponse_none.mp hf x hx
      simpa [CachedResponse.Matches, MessageInfo.HasSamePeerAddrAndPort] using this
    | some r =>
      obtain ⟨hmem, hm⟩ := FindMatchedResponse_some hf
      have hex : ∃ x ∈ q1.mQueue, x.mMessage.mMessageId = rq.mMessageId ∧
          x.mMetadata.mMessageInfo.mPeerAddr = i1.mPeerAddr ∧
          x.mMetadata.mMessageInfo.mPeerPort = i1.mPeerPort :=
        ⟨r, hmem, by
          simpa [CachedResponse.Matches, MessageInfo.HasSamePeerAddrAndPort, and_assoc] using hm⟩
      by_cases hc : env1.mClone r.mMessage = true <;> simp [hc] <;> exact hex
  · unfold ResponsesQueue.GetMatchedResponseCopy
    cases hf : q1.FindMatchedResponse rq i1 with
    | none => simp
    | some r =>
      obtain ⟨hmem, hm⟩ := FindMatchedResponse_some hf
      by_cases hc : env1.mClone r.mMessage = true <;> simp [hc, hmem, hm]
  · unfold ResponsesQueue.GetMatchedResponseCopy
    cases hf : q1.FindMatchedResponse rq i1 with
    | none => simp
    | some r =>
      obtain ⟨hmem, hm⟩ := FindMatchedResponse_some hf
      by_cases hc : env1.mClone r.mMessage = true <;> simp [hc, hmem, hm]

theorem GetMatchedResponseCopy_roundtrip_witness :
    (exampleFullQueue.EnqueueResponse Config.openthread (Env.allOk 400 0) (exampleResponse 3)
        examplePeer exampleTx).GetMatchedResponseCopy (Env.allOk 500 0) (exampleArrived 3)
        examplePeerAgain =
        (if (Env.allOk 500 0).mClone (exampleResponse 3) then
          (Error.kErrorNone, some (exampleResponse 3))
         else (Error.kErrorNoBufs, none)) ∧
    ((exampleFullQueue.GetMatchedResponseCopy (Env.allOk 500 0) (exampleArrived 2) examplePeer).1 =
        Error.kErrorNotFound ↔
        ∀ x ∈ exampleFullQueue.mQueue, ¬(x.mMessage.mMessageId = (exampleArrived 2).mMessageId ∧
          x.mMetadata.mMessageInfo.mPeerAddr = examplePeer.mPeerAddr ∧
          x.mMetadata.mMessageInfo.mPeerPort = examplePeer.mPeerPort)) ∧
    ((exampleFullQueue.GetMatchedResponseCopy (Env.allOk 500 0) (exampleArrived 2) examplePeer).1 =
        Error.kErrorNoBufs ↔
        ∃ x, exampleFullQueue.FindMatchedResponse (exampleArrived 2) examplePeer = some x ∧
          x ∈ exampleFullQueue.mQueue ∧ x.Matches (exampleArrived 2) examplePeer = true ∧
          (Env.allOk 500 0).mClone x.mMessage = false) ∧
    ((exampleFullQueue.GetMatchedResponseCopy (Env.allOk 500 0) (exampleArrived 2) examplePeer).1 =
        Error.kErrorNone ↔
        ∃ x, exampleFullQueue.FindMatchedResponse (exampleArrived 2) examplePeer = some x ∧
          x ∈ exampleFullQueue.mQueue ∧ x.Matches (exampleArrived 2) examplePeer = true ∧
          (Env.allOk 500 0).mClone x.mMessage = true ∧
          (exampleFullQueue.GetMatchedResponseCopy (Env.allOk 500 0) (exampleArrived 2)
            examplePeer).2 = some x.mMessage) :=
  GetMatchedResponseCopy_roundtrip Config.openthread (Env.allOk 400 0) (Env.allOk 500 0)
    exampleFullQueue exampleFullQueue (exampleResponse 3) (exampleArrived 3) (exampleArrived 2)
    examplePeer examplePeerAgain examplePeer exampleTx (by decide) rfl rfl rfl rfl rfl

/-! ## Receiving a request -/

theorem emit_emit (s : CoapBase) (a b : List Event) : (s.emit a).emit b = s.emit (a ++ b) := by
  simp [CoapBase.emit, List.append_assoc]

theorem emit_nil (s : CoapBase) : s.emit [] = s := by
  simp [CoapBase.emit]

/-- `SendMessage` for an ACK with no handler and no hook: the response is cached
and handed to the transport. -/
theorem SendMessage_ack_plain (cfg : Config) (env : Env) (s : CoapBase) {m : Message}
    (info : MessageInfo) (tx : TxParameters) (ctx : Nat) (hty : m.mType = CoapType.kTypeAck) :
    CoapBase.SendMessage cfg env s m info tx none ctx none none =
      (env.mSender m info,
        CoapBase.emit
          { s with mResponsesQueue := s.mResponsesQueue.EnqueueResponse cfg env m info tx }
          [Event.send m info]) := by
  unfold CoapBase.SendMessage
  simp [hty, firstBlock, CoapBase.sendAndStore, Message.IsConfirmable, Message.IsNonConfirmable,
    CoapBase.Send, CoapBase.emit]

/-- `SendMessage` for a non-confirmable message with no handler and no hook: the
message gets the next message-ID and is handed to the transport; nothing is
stored. -/
theorem SendMessage_non_plain (cfg : Config) (env : Env) (s : CoapBase) {m : Message}
    (info : MessageInfo) (tx : TxParameters) (ctx : Nat)
    (hty : m.mType = CoapType.kTypeNonConfirmable) :
    CoapBase.SendMessage cfg env s m info tx none ctx none none =
      (env.mSender { m with mMessageId := s.mMessageId } info,
        CoapBase.emit { s with mMessageId := (s.mMessageId + 1) % 65536 }
          [Event.send { m with mMessageId := s.mMessageId } info]) := by
  unfold CoapBase.SendMessage
  simp [hty, firstBlock, CoapBase.sendAndStore, Message.IsConfirmable, Message.IsNonConfirmable,
    CoapBase.Send, CoapBase.emit]

/-- The interceptor step of `ProcessReceivedRequest` when the interceptor, if
set, accepts the request. -/
theorem interceptor_accepts {env : Env} {s : CoapBase} {m : Message} {info : MessageInfo}
    (hint : s.mInterceptor = none ∨ env.mInterceptor m info = Error.kErrorNone) :
    (match s.mInterceptor with
      | some _ => (env.mInterceptor m info, s.emit [Event.interceptor m info])
      | none => (Error.kErrorNone, s)) =
      (Error.kErrorNone, s.emit (interceptorCalls s m info)) := by
  unfold interceptorCalls
  cases hi : s.mInterceptor with
  | none => simp [emit_nil]
  | some i =>
    rcases hint with h | h
    · rw [hi] at h; exact absurd h (by simp)
    · simp [h]

/-- The dispatch of a request for which the responses queue holds a response. -/
theorem dispatchRequest_cached {cfg : Config} {env : Env} {s : CoapBase} {m : Message}
    {info : MessageInfo} {r : CachedResponse}
    (hint : s.mInterceptor = none ∨ env.mInterceptor m info = Error.kErrorNone)
    (hfind : s.mResponsesQueue.FindMatchedResponse m info = some r) :
    s.dispatchRequest cfg env m info =
      (if env.mClone r.mMessage then
        (env.mSender r.mMessage info,
          s.emit (interceptorCalls s m info ++ [Event.send r.mMessage info]))
       else (Error.kErrorNoBufs, s.emit (interceptorCalls s m info))) := by
  unfold CoapBase.dispatchRequest
  rw [interceptor_accepts hint]
  have hq : (s.emit (interceptorCalls s m info)).mResponsesQueue = s.mResponsesQueue := rfl
  simp only [ne_eq, not_true_eq_false, if_false, hq, ResponsesQueue.GetMatchedResponseCopy, hfind]
  by_cases hc : env.mClone r.mMessage = true
  · simp [hc, CoapBase.Send, emit_emit]
  · simp [hc]

/-- The dispatch of a request for which no response is cached, whose URI path can
be read and matches no block-wise resource. -/
theorem dispatchRequest_plain {cfg : Config} {env : Env} {s : CoapBase} {m : Message}
    {info : MessageInfo} {path : List Nat}
    (hint : s.mInterceptor = none ∨ env.mInterceptor m info = Error.kErrorNone)
    (hcache : s.mResponsesQueue.FindMatchedResponse m info = none)
    (hpath : uriPathLoop m.mOptions [] = .ok path)
    (hbw : s.mBlockWiseResources.find? (fun r => r.mUriPath == cString path) = none) :
    s.dispatchRequest cfg env m info =
      (s.emit (interceptorCalls s m info)).plainRequest env (cString path) m info := by
  unfold CoapBase.dispatchRequest
  rw [interceptor_accepts hint]
  have hq : (s.emit (interceptorCalls s m info)).mResponsesQueue = s.mResponsesQueue := rfl
  have hb : (s.emit (interceptorCalls s m info)).mBlockWiseResources = s.mBlockWiseResources := rfl
  simp only [ne_eq, not_true_eq_false, if_false, hq, hb, ResponsesQueue.GetMatchedResponseCopy,
    hcache, hpath, hbw]

/-- C14, counterexample. The engine `exampleServed` holds a cached response with
message-ID 7 for `examplePeer` and has no interceptor.  When the request with
message-ID 7 arrives from that peer while no buffer can be cloned, nothing is
handed to the transport.  When it arrives while the transport answers
`kErrorNotFound`, the transport is handed two messages: the copy of the cached
2.05 response and, because the exit block takes the error of the transport for
that of the dispatch, a 4.04 response. -/
theorem cached_response_needs_buffer :
    exampleServed.mInterceptor = none ∧
      exampleServed.mResponsesQueue.FindMatchedResponse (exampleArrived 7) examplePeer =
        some exampleCached ∧
      (exampleServed.ProcessReceivedRequest Config.openthread (Env.cloneFails 300 0)
        (exampleArrived 7) examplePeer).mTrace = exampleServed.mTrace ∧
      (sentMessages (exampleServed.ProcessReceivedRequest Config.openthread
        (Env.transportNotFound 300 0) (exampleArrived 7) examplePeer).mTrace).drop
          (sentMessages exampleServed.mTrace).length =
        [exampleCached.mMessage, ackResponse kCodeNotFound (exampleArrived 7)] := by
  decide

/-- C14, as amended. A received request for which the interceptor, if set,
returns no error and for which `r` is the first entry of the responses queue
with its message-ID and peer address and port.  If a copy of the cached response
can be allocated and the transport does not answer `kErrorNotFound` to it, the
only calls `ProcessReceivedRequest` makes are the interceptor call, if an
interceptor is set, and one hand-over to the transport, of the cached message
`r.mMessage`; if the copy cannot be allocated the transport gets nothing.  In
both cases no resource handler, block-wise hook or default handler is called and
the rest of the engine, the responses queue and the pending requests included,
is unchanged.  What follows an answer `kErrorNotFound` of the transport is left
open here. -/
theorem cached_response_replayed (cfg : Config) (env : Env) (s : CoapBase) (m : Message)
    (info : MessageInfo) (r : CachedResponse)
    (hint : s.mInterceptor = none ∨ env.mInterceptor m info = Error.kErrorNone)
    (hfind : s.mResponsesQueue.FindMatchedResponse m info = some r) :
    (env.mClone r.mMessage = true → env.mSender r.mMessage info ≠ Error.kErrorNotFound →
      s.ProcessReceivedRequest cfg env m info =
        s.emit (interceptorCalls s m info ++ [Event.send r.mMessage info])) ∧
    (env.mClone r.mMessage = false →
      s.ProcessReceivedRequest cfg env m info = s.emit (interceptorCalls s m info)) ∧
    (s.emit (interceptorCalls s m info ++ [Event.send r.mMessage info])).mResponsesQueue =
      s.mResponsesQueue ∧
    (s.emit (interceptorCalls s m info ++ [Event.send r.mMessage info])).mPendingRequests =
      s.mPendingRequests ∧
    (s.emit (interceptorCalls s m info)).mResponsesQueue = s.mResponsesQueue ∧
    (s.emit (interceptorCalls s m info)).mPendingRequests = s.mPendingRequests := by
  refine ⟨?_, ?_, rfl, rfl, rfl, rfl⟩
  · intro hc hs
    unfold CoapBase.ProcessReceivedRequest
    rw [dispatchRequest_cached hint hfind]
    simp [hc, hs]
  · intro hc
    unfold CoapBase.ProcessReceivedRequest
    rw [dispatchRequest_cached hint hfind]
    simp [hc]

theorem cached_response_replayed_witness :
    ((Env.allOk 300 0).mClone exampleCached.mMessage = true →
      (Env.allOk 300 0).mSender exampleCached.mMessage examplePeer ≠ Error.kErrorNotFound →
      exampleServed.ProcessReceivedRequest Config.openthread (Env.allOk 300 0) (exampleArrived 7)
          examplePeer =
        exampleServed.emit (interceptorCalls exampleServed (exampleArrived 7) examplePeer ++
          [Event.send exampleCached.mMessage examplePeer])) ∧
    ((Env.allOk 300 0).mClone exampleCached.mMessage = false →
      exampleServed.ProcessReceivedRequest Config.openthread (Env.allOk 300 0) (exampleArrived 7)
          examplePeer =
        exampleServed.emit (interceptorCalls exampleServed (exampleArrived 7) examplePeer)) ∧
    (exampleServed.emit (interceptorCalls exampleServed (exampleArrived 7) examplePeer ++
        [Event.send exampleCached.mMessage examplePeer])).mResponsesQueue =
      exampleServed.mResponsesQueue ∧
    (exampleServed.emit (interceptorCalls exampleServed (exampleArrived 7) examplePeer ++
        [Event.send exampleCached.mMessage examplePeer])).mPendingRequests =
      exampleServed.mPendingRequests ∧
    (exampleServed.emit (interceptorCalls exampleServed (exampleArrived 7)
        examplePeer)).mResponsesQueue = exampleServed.mResponsesQueue ∧
    (exampleServed.emit (interceptorCalls exampleServed (exampleArrived 7)
        examplePeer)).mPendingRequests = exampleServed.mPendingRequests :=
  cached_response_replayed Config.openthread (Env.allOk 300 0) exampleServed (exampleArrived 7)
    examplePeer exampleCached (Or.inl (by decide)) (by decide)

theorem catchAllTakes_false {env : Env} {s : CoapBase} {p : String} {m : Message}
    {info : MessageInfo} (h : catchAllTakes env s p m info = false) :
    (match s.mResourceHandler with
      | some _ => (env.mResourceHandler p m info, s.emit [Event.resourceHandler p m info])
      | none => (false, s)) = (false, s.emit (catchAllCalls s p m info)) := by
  unfold catchAllTakes at h
  unfold catchAllCalls
  cases hh : s.mResourceHandler with
  | none => simp [emit_nil]
  | some f =>
    rw [hh] at h
    simp only [Option.isSome_some, Bool.true_and] at h
    simp [h]

theorem catchAllTakes_true {env : Env} {s : CoapBase} {p : String} {m : Message}
    {info : MessageInfo} (h : catchAllTakes env s p m info = true) :
    (match s.mResourceHandler with
      | some _ => (env.mResourceHandler p m info, s.emit [Event.resourceHandler p m info])
      | none => (false, s)) = (true, s.emit [Event.resourceHandler p m info]) := by
  unfold catchAllTakes at h
  cases hh : s.mResourceHandler with
  | none => rw [hh] at h; simp at h
  | some f =>
    rw [hh] at h
    simp only [Option.isSome_some, Bool.true_and] at h
    simp [h]

/-- The outcome of the part of `ProcessReceivedRequest` after the block-wise
resources, case by case. -/
theorem plainRequest_cases (env : Env) (s : CoapBase) (p : String) (m : Message)
    (info : MessageInfo) :
    (catchAllTakes env s p m info = true →
      s.plainRequest env p m info = (Error.kErrorNone, s.emit [Event.resourceHandler p m info])) ∧
    (catchAllTakes env s p m info = false →
      ∀ res, s.mResources.find? (fun r => r.mUriPath == p) = some res →
        s.plainRequest env p m info =
          (Error.kErrorNone, s.emit (catchAllCalls s p m info ++ res.HandleRequest m info))) ∧
    (catchAllTakes env s p m info = false →
      s.mResources.find? (fun r => r.mUriPath == p) = none → s.mDefaultHandler ≠ none →
        s.plainRequest env p m info =
          (Error.kErrorNone, s.emit (catchAllCalls s p m info ++ [Event.defaultHandler m info]))) ∧
    (catchAllTakes env s p m info = false →
      s.mResources.find? (fun r => r.mUriPath == p) = none → s.mDefaultHandler = none →
        s.plainRequest env p m info =
          (Error.kErrorNotFound, s.emit (catchAllCalls s p m info))) := by
  refine ⟨?_, ?_, ?_, ?_⟩
  · intro h
    unfold CoapBase.plainRequest
    rw [catchAllTakes_true h]
    simp
  · intro h res hres
    unfold CoapBase.plainRequest
    rw [catchAllTakes_false h]
    have hr : (s.emit (catchAllCalls s p m info)).mResources = s.mResources := rfl
    simp [hres, emit_emit]
  · intro h hres hdef
    unfold CoapBase.plainRequest
    rw [catchAllTakes_false h]
    cases hd : s.mDefaultHandler with
    | none => exact absurd hd hdef
    | some d => simp [hres, hd, emit_emit]
  · intro h hres hdef
    unfold CoapBase.plainRequest
    rw [catchAllTakes_false h]
    simp [hres, hdef]

/-- The dispatch of a request that nothing claims ends with `kErrorNotFound`,
after the interceptor and the catch-all handler, when set, have been called. -/
theorem dispatch_not_found (cfg : Config) (env : Env) (s : CoapBase) (m : Message)
    (info : MessageInfo) (path : List Nat)
    (hint : s.mInterceptor = none ∨ env.mInterceptor m info = Error.kErrorNone)
    (hcache : s.mResponsesQueue.FindMatchedResponse m info = none)
    (hpath : uriPathLoop m.mOptions [] = .ok path)
    (hbw : s.mBlockWiseResources.find? (fun r => r.mUriPath == cString path) = none) :
    catchAllTakes env s (cString path) m info = false →
      s.mResources.find? (fun r => r.mUriPath == cString path) = none →
      s.mDefaultHandler = none →
        s.dispatchRequest cfg env m info =
          (Error.kErrorNotFound,
            s.emit (interceptorCalls s m info ++ catchAllCalls s (cString path) m info)) := by
  intro h hr hdf
  rw [dispatchRequest_plain hint hcache hpath hbw]
  have h4 := (plainRequest_cases env (s.emit (interceptorCalls s m info)) (cString path) m
    info).2.2.2 h hr hdf
  rw [h4]
  have hcc : catchAllCalls (s.emit (interceptorCalls s m info)) (cString path) m info =
      catchAllCalls s (cString path) m info := rfl
  simp [emit_emit, hcc]

/-- C15. A received request that the interceptor, if set, accepts, for which no
response is cached, whose Uri-Path options give the path `cString path`, and
whose path is that of no block-wise resource.  `ProcessReceivedRequest` asks the
catch-all handler first, when one is set.  If it is set and returns true nothing
else is called.  Otherwise the request goes to the first resource of `mResources`
whose URI path equals the path of the request: its handler is called once, with
its context, and nothing else.  Otherwise, when a default handler is set, it is
called once and nothing else.  Otherwise no resource handler and no default
handler is called and `error` is `kErrorNotFound`.  The calls listed (after the
interceptor call and, when it declined, the call of the catch-all handler) are
the whole effect on the engine in the first three cases. -/
theorem request_dispatch_order (cfg : Config) (env : Env) (s : CoapBase) (m : Message)
    (info : MessageInfo) (path : List Nat)
    (hint : s.mInterceptor = none ∨ env.mInterceptor m info = Error.kErrorNone)
    (hcache : s.mResponsesQueue.FindMatchedResponse m info = none)
    (hpath : uriPathLoop m.mOptions [] = .ok path)
    (hbw : s.mBlockWiseResources.find? (fun r => r.mUriPath == cString path) = none) :
    (catchAllTakes env s (cString path) m info = true →
      s.ProcessReceivedRequest cfg env m info =
        s.emit (interceptorCalls s m info ++ [Event.resourceHandler (cString path) m info])) ∧
    (catchAllTakes env s (cString path) m info = false →
      ∀ res, s.mResources.find? (fun r => r.mUriPath == cString path) = some res →
        s.ProcessReceivedRequest cfg env m info =
          s.emit (interceptorCalls s m info ++ catchAllCalls s (cString path) m info ++
            res.HandleRequest m info) ∧
        ∀ h, res.mHandler = some h →
          res.HandleRequest m info = [Event.requestHandler h res.mContext m info]) ∧
    (catchAllTakes env s (cString path) m info = false →
      s.mResources.find? (fun r => r.mUriPath == cString path) = none →
      s.mDefaultHandler ≠ none →
        s.ProcessReceivedRequest cfg env m info =
          s.emit (interceptorCalls s m info ++ catchAllCalls s (cString path) m info ++
            [Event.defaultHandler m info])) ∧
    (catchAllTakes env s (cString path) m info = false →
      s.mResources.find? (fun r => r.mUriPath == cString path) = none →
      s.mDefaultHandler = none →
        s.dispatchRequest cfg env m info =
          (Error.kErrorNotFound,
            s.emit (interceptorCalls s m info ++ catchAllCalls s (cString path) m info))) := by
  have hd := @dispatchRequest_plain cfg _ _ _ _ _ hint hcache hpath hbw
  have hc := plainRequest_cases env (s.emit (interceptorCalls s m info)) (cString path) m info
  have ht : catchAllTakes env (s.emit (interceptorCalls s m info)) (cString path) m info =
      catchAllTakes env s (cString path) m info := rfl
  have hcc : catchAllCalls (s.emit (interceptorCalls s m info)) (cString path) m info =
      catchAllCalls s (cString path) m info := rfl
  have hres : (s.emit (interceptorCalls s m info)).mResources = s.mResources := rfl
  have hdef : (s.emit (interceptorCalls s m info)).mDefaultHandler = s.mDefaultHandler := rfl
  rw [ht, hcc, hres, hdef] at hc
  obtain ⟨h1, h2, h3, h4⟩ := hc
  refine ⟨?_, ?_, ?_, ?_⟩
  · intro h
    unfold CoapBase.ProcessReceivedRequest
    rw [hd, h1 h]
    simp [emit_emit]
  · intro h res hr
    refine ⟨?_, ?_⟩
    · unfold CoapBase.ProcessReceivedRequest
      rw [hd, h2 h res hr]
      simp [emit_emit, List.append_assoc]
    · intro f hf
      simp [Resource.HandleRequest, hf]
  · intro h hr hdf
    unfold CoapBase.ProcessReceivedRequest
    rw [hd, h3 h hr hdf]
    simp [emit_emit, List.append_assoc]
  · intro h hr hdf
    rw [hd, h4 h hr hdf]
    simp [emit_emit]

theorem request_dispatch_order_witness :
    (catchAllTakes (Env.allOk 300 0) exampleServer (cString [97, 47, 98]) exampleGet examplePeer =
        true →
      exampleServer.ProcessReceivedRequest Config.openthread (Env.allOk 300 0) exampleGet
          examplePeer =
        exampleServer.emit (interceptorCalls exampleServer exampleGet examplePeer ++
          [Event.resourceHandler (cString [97, 47, 98]) exampleGet examplePeer])) ∧
    (catchAllTakes (Env.allOk 300 0) exampleServer (cString [97, 47, 98]) exampleGet examplePeer =
        false →
      ∀ res, exampleServer.mResources.find? (fun r => r.mUriPath == cString [97, 47, 98]) =
          some res →
        exampleServer.ProcessReceivedRequest Config.openthread (Env.allOk 300 0) exampleGet
            examplePeer =
          exampleServer.emit (interceptorCalls exampleServer exampleGet examplePeer ++
            catchAllCalls exampleServer (cString [97, 47, 98]) exampleGet examplePeer ++
            res.HandleRequest exampleGet examplePeer) ∧
        ∀ h, res.mHandler = some h →
          res.HandleRequest exampleGet examplePeer =
            [Event.requestHandler h res.mContext exampleGet examplePeer]) ∧
    (catchAllTakes (Env.allOk 300 0) exampleServer (cString [97, 47, 98]) exampleGet examplePeer =
        false →
      exampleServer.mResources.find? (fun r => r.mUriPath == cString [97, 47, 98]) = none →
      exampleServer.mDefaultHandler ≠ none →
        exampleServer.ProcessReceivedRequest Config.openthread (Env.allOk 300 0) exampleGet
            examplePeer =
          exampleServer.emit (interceptorCalls exampleServer exampleGet examplePeer ++
            catchAllCalls exampleServer (cString [97, 47, 98]) exampleGet examplePeer ++
            [Event.defaultHandler exampleGet examplePeer])) ∧
    (catchAllTakes (Env.allOk 300 0) exampleServer (cString [97, 47, 98]) exampleGet examplePeer =
        false →
      exampleServer.mResources.find? (fun r => r.mUriPath == cString [97, 47, 98]) = none →
      exampleServer.mDefaultHandler = none →
        exampleServer.dispatchRequest Config.openthread (Env.allOk 300 0) exampleGet examplePeer =
          (Error.kErrorNotFound,
            exampleServer.emit (interceptorCalls exampleServer exampleGet examplePeer ++
              catchAllCalls exampleServer (cString [97, 47, 98]) exampleGet examplePeer))) :=
  request_dispatch_order Config.openthread (Env.allOk 300 0) exampleServer exampleGet examplePeer
    [97, 47, 98] (Or.inl rfl) (by decide) rfl (by decide)

/-- The request `exampleGet` reaches the handler of the resource `a/b` of
`exampleServer`, after the catch-all handler has declined it. -/
theorem request_dispatch_example :
    (exampleServer.ProcessReceivedRequest Config.openthread (Env.allOk 300 0) exampleGet
        examplePeer).mTrace =
      [Event.resourceHandler "a/b" exampleGet examplePeer,
       Event.requestHandler 3 30 exampleGet examplePeer] := by
  decide

/-- C16, counterexample. An engine with no handler at all receives, on a unicast
address, a GET for `a/b` that nothing claims.  When the message has type ACK
(its code still makes it a request) nothing is sent; and when it is confirmable
but `NewMessage()` has no buffer, nothing is sent either.  Nothing is sent for
the confirmable GET `exampleLongPath`, whose Uri-Path option of 33 bytes does
not fit `uriPath`: the dispatch ends with `kErrorParse`.  Nothing is sent for
the confirmable GET for `a/b` that the interceptor of `exampleGuarded` refuses
with `kErrorDrop`.  And the engine `exampleServed`, which has no handler either,
answers the confirmable GET with message-ID 7 with the 2.05 response that it
holds in the responses queue for that message-ID and peer, not with a 4.04. -/
theorem not_found_not_sent :
    exampleAckGet.IsRequest = true ∧
      examplePeer.mSockAddr.IsMulticast = false ∧
      (CoapBase.dispatchRequest Config.openthread (Env.allOk 300 0) (CoapBase.init 20)
        exampleAckGet examplePeer).1 = Error.kErrorNotFound ∧
      (CoapBase.ProcessReceivedRequest Config.openthread (Env.allOk 300 0) (CoapBase.init 20)
        exampleAckGet examplePeer).mTrace = [] ∧
      (CoapBase.dispatchRequest Config.openthread (Env.noBuffers 300 0) (CoapBase.init 20)
        exampleGet examplePeer).1 = Error.kErrorNotFound ∧
      (CoapBase.ProcessReceivedRequest Config.openthread (Env.noBuffers 300 0) (CoapBase.init 20)
        exampleGet examplePeer).mTrace = [] ∧
      (exampleLongPath.IsRequest = true ∧ exampleLongPath.mType = CoapType.kTypeConfirmable ∧
        (CoapBase.dispatchRequest Config.openthread (Env.allOk 300 0) (CoapBase.init 20)
          exampleLongPath examplePeer).1 = Error.kErrorParse ∧
        (CoapBase.ProcessReceivedRequest Config.openthread (Env.allOk 300 0) (CoapBase.init 20)
          exampleLongPath examplePeer).mTrace = []) ∧
      ((CoapBase.dispatchRequest Config.openthread (Env.intercepted 300 0) exampleGuarded
          exampleGet examplePeer).1 = Error.kErrorDrop ∧
        sentMessages (CoapBase.ProcessReceivedRequest Config.openthread (Env.intercepted 300 0)
          exampleGuarded exampleGet examplePeer).mTrace = []) ∧
      (exampleServed.mResourceHandler = none ∧ exampleServed.mResources = [] ∧
        exampleServed.mBlockWiseResources = [] ∧ exampleServed.mDefaultHandler = none ∧
        (sentMessages (exampleServed.ProcessReceivedRequest Config.openthread (Env.allOk 300 0)
          (exampleArrived 7) examplePeer).mTrace).drop (sentMessages exampleServed.mTrace).length =
          [examplePiggybacked]) := by
  decide

/-- C16, as amended. A received request that the interceptor, if set, accepts,
for which no response is cached, whose Uri-Path options fit `uriPath` (at most
`kMaxReceivedUriPath` bytes with the separators) and give the path
`cString path`, which is that of no block-wise resource and of no resource,
which the catch-all handler (if set) declines, with no default handler set.  Let `s0` be the engine after the
interceptor and catch-all calls.  If the local socket address is multicast
nothing is sent.  If it is not multicast, `NewMessage()` yields a buffer and the
token fits: for a confirmable request the engine hands the transport exactly one
message, an ACK with code 4.04, the message-ID and the token of the request (and
caches it in the responses queue); for a non-confirmable request exactly one
message, non-confirmable with code 4.04, the token of the request and the next
message-ID of the engine.  For a request of type ACK or Reset, or when
`NewMessage()` has no buffer, nothing is sent. -/
theorem not_found_response (cfg : Config) (env : Env) (s : CoapBase) (m : Message)
    (info : MessageInfo) (path : List Nat)
    (hreq : m.IsRequest = true)
    (hint : s.mInterceptor = none ∨ env.mInterceptor m info = Error.kErrorNone)
    (hcache : s.mResponsesQueue.FindMatchedResponse m info = none)
    (hpath : uriPathLoop m.mOptions [] = .ok path)
    (hbw : s.mBlockWiseResources.find? (fun r => r.mUriPath == cString path) = none)
    (htake : catchAllTakes env s (cString path) m info = false)
    (hres : s.mResources.find? (fun r => r.mUriPath == cString path) = none)
    (hdef : s.mDefaultHandler = none) :
    (info.mSockAddr.IsMulticast = true →
      s.ProcessReceivedRequest cfg env m info =
        s.emit (interceptorCalls s m info ++ catchAllCalls s (cString path) m info)) ∧
    (info.mSockAddr.IsMulticast = false → m.mType = CoapType.kTypeConfirmable →
      env.mNewMessage = true →
      env.mAppend { Message.Init CoapType.kTypeAck kCodeNotFound with
        mMessageId := m.mMessageId } = true →
      s.ProcessReceivedRequest cfg env m info =
        CoapBase.emit
          { s with
            mResponsesQueue :=
              s.mResponsesQueue.EnqueueResponse cfg env (ackResponse kCodeNotFound m) info
                (TxParameters.GetDefault cfg) }
          (interceptorCalls s m info ++ catchAllCalls s (cString path) m info ++
            [Event.send (ackResponse kCodeNotFound m) info])) ∧
    (info.mSockAddr.IsMulticast = false → m.mType = CoapType.kTypeNonConfirmable →
      env.mNewMessage = true →
      env.mAppend (Message.Init CoapType.kTypeNonConfirmable kCodeNotFound) = true →
      s.ProcessReceivedRequest cfg env m info =
        CoapBase.emit { s with mMessageId := (s.mMessageId + 1) % 65536 }
          (interceptorCalls s m info ++ catchAllCalls s (cString path) m info ++
            [Event.send (nonResponse kCodeNotFound m s.mMessageId) info])) ∧
    (info.mSockAddr.IsMulticast = false →
      (m.mType = CoapType.kTypeAck ∨ m.mType = CoapType.kTypeReset ∨ env.mNewMessage = false) →
      s.ProcessReceivedRequest cfg env m info =
        s.emit (interceptorCalls s m info ++ catchAllCalls s (cString path) m info)) := by
  have hd : s.dispatchRequest cfg env m info =
      (Error.kErrorNotFound,
        s.emit (interceptorCalls s m info ++ catchAllCalls s (cString path) m info)) :=
    (dispatch_not_found cfg env s m info path hint hcache hpath hbw) htake hres hdef
  refine ⟨?_, ?_, ?_, ?_⟩
  · intro hm
    unfold CoapBase.ProcessReceivedRequest
    rw [hd]
    simp [hm]
  · intro hm hty hnew happ
    unfold CoapBase.ProcessReceivedRequest
    rw [hd]
    simp only [hm, and_self, if_true]
    unfold CoapBase.SendNotFound CoapBase.SendHeaderResponse
    simp only [hreq, hnew, hty, happ, Bool.not_true, Bool.false_eq_true, if_false]
    rw [SendMessage_ack_plain _ _ _ _ _ _ rfl]
    simp [CoapBase.emit, ackResponse, List.append_assoc]
  · intro hm hty hnew happ
    unfold CoapBase.ProcessReceivedRequest
    rw [hd]
    simp only [hm, and_self, if_true]
    unfold CoapBase.SendNotFound CoapBase.SendHeaderResponse
    simp only [hreq, hnew, hty, happ, Bool.not_true, Bool.false_eq_true, if_false]
    rw [SendMessage_non_plain _ _ _ _ _ _ rfl]
    simp [CoapBase.emit, nonResponse, List.append_assoc]
  · intro hm hcase
    unfold CoapBase.ProcessReceivedRequest
    rw [hd]
    simp only [hm, and_self, if_true]
    unfold CoapBase.SendNotFound CoapBase.SendHeaderResponse
    rcases hcase with hty | hty | hnew
    · simp only [hreq, hty, Bool.not_true, Bool.false_eq_true, if_false]
      split_ifs <;> rfl
    · simp only [hreq, hty, Bool.not_true, Bool.false_eq_true, if_false]
      split_ifs <;> rfl
    · simp [hreq, hnew]

theorem not_found_response_witness :
    (examplePeer.mSockAddr.IsMulticast = true →
      exampleBareServer.ProcessReceivedRequest Config.openthread (Env.allOk 300 0) exampleGet
          examplePeer =
        exampleBareServer.emit (interceptorCalls exampleBareServer exampleGet examplePeer ++
          catchAllCalls exampleBareServer (cString [97, 47, 98]) exampleGet examplePeer)) ∧
    (examplePeer.mSockAddr.IsMulticast = false → exampleGet.mType = CoapType.kTypeConfirmable →
      (Env.allOk 300 0).mNewMessage = true →
      (Env.allOk 300 0).mAppend { Message.Init CoapType.kTypeAck kCodeNotFound with
        mMessageId := exampleGet.mMessageId } = true →
      exampleBareServer.ProcessReceivedRequest Config.openthread (Env.allOk 300 0) exampleGet
          examplePeer =
        CoapBase.emit
          { exampleBareServer with
            mResponsesQueue :=
              exampleBareServer.mResponsesQueue.EnqueueResponse Config.openthread (Env.allOk 300 0)
                (ackResponse kCodeNotFound exampleGet) examplePeer
                (TxParameters.GetDefault Config.openthread) }
          (interceptorCalls exampleBareServer exampleGet examplePeer ++
            catchAllCalls exampleBareServer (cString [97, 47, 98]) exampleGet examplePeer ++
            [Event.send (ackResponse kCodeNotFound exampleGet) examplePeer])) ∧
    (examplePeer.mSockAddr.IsMulticast = false →
      exampleGet.mType = CoapType.kTypeNonConfirmable →
      (Env.allOk 300 0).mNewMessage = true →
      (Env.allOk 300 0).mAppend (Message.Init CoapType.kTypeNonConfirmable kCodeNotFound) = true →
      exampleBareServer.ProcessReceivedRequest Config.openthread (Env.allOk 300 0) exampleGet
          examplePeer =
        CoapBase.emit
          { exampleBareServer with mMessageId := (exampleBareServer.mMessageId + 1) % 65536 }
          (interceptorCalls exampleBareServer exampleGet examplePeer ++
            catchAllCalls exampleBareServer (cString [97, 47, 98]) exampleGet examplePeer ++
            [Event.send (nonResponse kCodeNotFound exampleGet exampleBareServer.mMessageId)
              examplePeer])) ∧
    (examplePeer.mSockAddr.IsMulticast = false →
      (exampleGet.mType = CoapType.kTypeAck ∨ exampleGet.mType = CoapType.kTypeReset ∨
        (Env.allOk 300 0).mNewMessage = false) →
      exampleBareServer.ProcessReceivedRequest Config.openthread (Env.allOk 300 0) exampleGet
          examplePeer =
        exampleBareServer.emit (interceptorCalls exampleBareServer exampleGet examplePeer ++
          catchAllCalls exampleBareServer (cString [97, 47, 98]) exampleGet examplePeer)) :=
  not_found_response Config.openthread (Env.allOk 300 0) exampleBareServer exampleGet examplePeer
    [97, 47, 98] (by decide) (Or.inl rfl) (by decide) rfl (by decide) (by decide) (by decide) rfl

/-- The confirmable GET `exampleGet`, which nothing on `exampleBareServer` claims,
is answered on a unicast address with exactly one message: the 4.04 ACK with
message-ID 50 and token `[1, 2]`, after the catch-all handler was asked. -/
theorem not_found_example :
    (exampleBareServer.ProcessReceivedRequest Config.openthread (Env.allOk 300 0) exampleGet
        examplePeer).mTrace =
      [Event.resourceHandler "a/b" exampleGet examplePeer,
       Event.send
         { Message.Init CoapType.kTypeAck kCodeNotFound with mMessageId := 50, mToken := [1, 2] }
         examplePeer] := by
  decide

/-! ## Block option codec -/

theorem readUint_append (l : List Nat) (b : Nat) : readUint (l ++ [b]) = readUint l * 256 + b := by
  simp [readUint, List.foldl_append]

/-- The minimal big-endian encoding reads back as the number it encodes. -/
theorem readUint_encodeUint : ∀ (fuel v : Nat), v < 256 ^ fuel → readUint (encodeUint fuel v) = v := by
  intro fuel
  induction fuel with
  | zero =>
    intro v hv
    simp at hv
    simp [encodeUint, readUint, hv]
  | succ n ih =>
    intro v hv
    unfold encodeUint
    by_cases h0 : v = 0
    · simp [h0, readUint]
    · rw [if_neg h0, readUint_append, ih (v / 256)]
      · exact Nat.div_add_mod' v 256
      · rw [Nat.div_lt_iff_lt_mul (by norm_num)]
        rw [pow_succ] at hv
        exact hv

/-- The encoding of a number below `256^k` has at most `k` bytes. -/
theorem encodeUint_length : ∀ (fuel v k : Nat), v < 256 ^ k → (encodeUint fuel v).length ≤ k := by
  intro fuel
  induction fuel with
  | zero => intro v k _; simp [encodeUint]
  | succ n ih =>
    intro v k hv
    unfold encodeUint
    by_cases h0 : v = 0
    · simp [h0]
    · rw [if_neg h0]
      cases k with
      | zero => simp at hv; exact absurd hv h0
      | succ k =>
        simp only [List.length_append, List.length_singleton]
        have := ih (v / 256) k (by
          rw [Nat.div_lt_iff_lt_mul (by norm_num)]
          rw [pow_succ] at hv
          exact hv)
        omega

/-- A value of at most `k` bytes is below `256^k`. -/
theorem readUint_lt (l : List Nat) (hb : ∀ b ∈ l, b < 256) : readUint l < 256 ^ l.length := by
  have key : ∀ (l : List Nat) (acc : Nat), (∀ b ∈ l, b < 256) →
      l.foldl (fun a b => a * 256 + b) acc < (acc + 1) * 256 ^ l.length := by
    intro l
    induction l with
    | nil => intro acc _; simp
    | cons x xs ih =>
      intro acc hb
      simp only [List.foldl_cons, List.length_cons]
      have hx : x < 256 := hb x (List.mem_cons_self _ _)
      have h1 := ih (acc * 256 + x) (fun b hb1 => hb b (List.mem_cons_of_mem _ hb1))
      have h2 : (acc * 256 + x + 1) * 256 ^ xs.length ≤ (acc * 256 + 256) * 256 ^ xs.length :=
        Nat.mul_le_mul_right _ (by omega)
      have h3 : (acc * 256 + 256) * 256 ^ xs.length = (acc + 1) * 256 ^ (xs.length + 1) := by
        rw [pow_succ]; ring
      omega
  have := key l 0 hb
  simpa [readUint] using this

/-! ## Building the next block request -/

theorem optionLast_append (m : Message) (l : List CoapOption) (o : CoapOption)
    (h : m.mOptions = l ++ [o]) : m.optionLast = o.mNumber := by
  simp [Message.optionLast, h]

/-- `AppendOption` with room and a number that is not below the last one. -/
theorem AppendOption_ok (m : Message) (o : CoapOption) (h : m.optionLast ≤ o.mNumber) :
    m.AppendOption true o.mNumber o.mValue =
      (Error.kErrorNone, { m with mOptions := m.mOptions ++ [o] }) := by
  unfold Message.AppendOption
  rw [if_neg (by omega)]
  simp

/-- `AppendBlockOption` with room, a size exponent of at most 6, a block number
below `0xFFFFF` and an option number that is not below the last one. -/
theorem AppendBlockOption_ok (m : Message) (ty : BlockType) (num : Nat) (more : Bool) (size : Nat)
    (hsz : size ≤ 6) (hnum : num < 0xFFFFF) (hlast : m.optionLast ≤ blockOptionNumber ty) :
    m.AppendBlockOption true ty num more size =
      (Error.kErrorNone, { m with mOptions := m.mOptions ++ [blockOption ty num more size] }) := by
  have h1 : ¬ 6 < size := by omega
  have h2 : ¬ 0xFFFFF ≤ num := by omega
  have := AppendOption_ok m (blockOption ty num more size) hlast
  simp only [blockOption, blockOptionNumber] at this ⊢
  simp only [Message.AppendBlockOption, h1, h2, if_false, this]

/-- The step "write the block option" when nothing fails. -/
theorem writeBlockOption_ok (env : Env) (happ : ∀ x, env.mAppend x = true) (ty : BlockType)
    (more : Bool) (rq msg : Message) (hsz : msg.mBlockWiseBlockSize ≤ 6)
    (hnum : msg.mBlockWiseBlockNumber + 1 < 0xFFFFF) (hlast : rq.optionLast ≤ blockOptionNumber ty) :
    writeBlockOption env ty more rq msg =
      (Error.kErrorNone,
        { rq with
          mOptions := rq.mOptions ++
            [blockOption ty (msg.mBlockWiseBlockNumber + 1) more msg.mBlockWiseBlockSize]
          mBlockWiseBlockNumber := (msg.mBlockWiseBlockNumber + 1) % 2 ^ 32
          mBlockWiseBlockSize := msg.mBlockWiseBlockSize
          mMoreBlocksFlag := more }) := by
  simp only [writeBlockOption, happ,
    AppendBlockOption_ok rq ty (msg.mBlockWiseBlockNumber + 1) more msg.mBlockWiseBlockSize hsz hnum
      hlast]
  simp

/-- The copy loop of `PrepareNextBlockRequest` once the block option is written:
the remaining options are copied up to the first one of length zero. -/
theorem copyOptions_set (env : Env) (happ : ∀ x, env.mAppend x = true) (ty : BlockType)
    (more : Bool) (msg : Message) :
    ∀ (opts : List CoapOption) (rq : Message), OptionsOrdered opts →
      (∀ o ∈ opts, rq.optionLast ≤ o.mNumber) →
      copyOptions env ty more msg opts rq true =
        (Error.kErrorNone,
          { rq with mOptions := rq.mOptions ++ opts.takeWhile (fun x => x.GetLength != 0) },
          true) := by
  intro opts
  induction opts with
  | nil => intro rq _ _; simp [copyOptions]
  | cons o os ih =>
    intro rq hord hlast
    unfold copyOptions
    by_cases h0 : o.GetLength = 0
    · simp [h0]
    · rw [if_neg h0, if_neg (by simp)]
      rw [happ, AppendOption_ok rq o (hlast o (List.mem_cons_self _ _))]
      simp only [ne_eq, not_true_eq_false, if_false]
      unfold OptionsOrdered at hord
      rw [List.pairwise_cons] at hord
      rw [ih _ hord.2 (by
        intro x hx
        exact le_of_eq_of_le (optionLast_append _ _ _ rfl) (hord.1 x hx))]
      simp [List.takeWhile_cons, h0]

/-- The body of `PrepareNextBlockRequest` from any point of the copy loop at
which the block option is not yet written, when nothing fails. -/
theorem copyOptions_unset (env : Env) (happ : ∀ x, env.mAppend x = true) (ty : BlockType)
    (more : Bool) (msg : Message) (hsz : msg.mBlockWiseBlockSize ≤ 6)
    (hnum : msg.mBlockWiseBlockNumber + 1 < 0xFFFFF) :
    ∀ (opts : List CoapOption) (rq : Message), OptionsOrdered opts →
      (∀ o ∈ opts, rq.optionLast ≤ o.mNumber) → rq.optionLast ≤ blockOptionNumber ty →
      (if (copyOptions env ty more msg opts rq false).1 ≠ Error.kErrorNone then
          ((copyOptions env ty more msg opts rq false).1,
            (copyOptions env ty more msg opts rq false).2.1)
        else if (copyOptions env ty more msg opts rq false).2.2 = false then
          writeBlockOption env ty more (copyOptions env ty more msg opts rq false).2.1 msg
        else (Error.kErrorNone, (copyOptions env ty more msg opts rq false).2.1)) =
        (Error.kErrorNone,
          { rq with
            mOptions := rq.mOptions ++ nextBlockOptions (blockOptionNumber ty)
              (blockOption ty (msg.mBlockWiseBlockNumber + 1) more msg.mBlockWiseBlockSize) opts
            mBlockWiseBlockNumber := (msg.mBlockWiseBlockNumber + 1) % 2 ^ 32
            mBlockWiseBlockSize := msg.mBlockWiseBlockSize
            mMoreBlocksFlag := more }) := by
  intro opts
  induction opts with
  | nil =>
    intro rq _ _ hbo
    simp only [copyOptions, ne_eq, not_true_eq_false, if_false, if_true]
    rw [writeBlockOption_ok env happ ty more rq msg hsz hnum hbo]
    simp [nextBlockOptions]
  | cons o os ih =>
    intro rq hord hlast hbo
    unfold OptionsOrdered at hord
    rw [List.pairwise_cons] at hord
    by_cases h0 : o.GetLength = 0
    · have hc : copyOptions env ty more msg (o :: os) rq false = (Error.kErrorNone, rq, false) := by
        unfold copyOptions
        simp [h0]
      rw [hc]
      simp only [ne_eq, not_true_eq_false, if_false, if_true]
      rw [writeBlockOption_ok env happ ty more rq msg hsz hnum hbo]
      simp [nextBlockOptions, h0]
    · by_cases htrig : blockOptionNumber ty ≤ o.mNumber
      · have hw := writeBlockOption_ok env happ ty more rq msg hsz hnum hbo
        by_cases hblock : o.mNumber = kOptionBlock1 ∨ o.mNumber = kOptionBlock2
        · have hc : copyOptions env ty more msg (o :: os) rq false =
              copyOptions env ty more msg os (writeBlockOption env ty more rq msg).2 true := by
            conv_lhs => unfold copyOptions
            have ht : (if ty = BlockType.kBlockType1 then kOptionBlock1 else kOptionBlock2) ≤
                o.mNumber := htrig
            simp [h0, ht, hw, hblock]
          rw [hc, hw]
          rw [copyOptions_set env happ ty more msg os _ hord.2 (by
            intro x hx
            exact le_of_eq_of_le (optionLast_append _ _ _ rfl) (le_trans htrig (hord.1 x hx)))]
          simp [nextBlockOptions, h0, htrig, hblock]
        · have hc : copyOptions env ty more msg (o :: os) rq false =
              copyOptions env ty more msg os
                { (writeBlockOption env ty more rq msg).2 with
                  mOptions := (writeBlockOption env ty more rq msg).2.mOptions ++ [o] } true := by
            conv_lhs => unfold copyOptions
            have ht : (if ty = BlockType.kBlockType1 then kOptionBlock1 else kOptionBlock2) ≤
                o.mNumber := htrig
            have ha := AppendOption_ok (writeBlockOption env ty more rq msg).2 o (by
              rw [hw]
              exact le_of_eq_of_le (optionLast_append _ _ _ rfl) htrig)
            rw [hw] at ha
            simp only at ha
            simp [-Nat.reducePow, h0, ht, hw, hblock, happ, ha]
          rw [hc, hw]
          rw [copyOptions_set env happ ty more msg os _ hord.2 (by
            intro x hx
            exact le_of_eq_of_le (optionLast_append _ _ _ rfl) (hord.1 x hx))]
          simp [nextBlockOptions, h0, htrig, hblock]
      · have ha := AppendOption_ok rq o (hlast o (List.mem_cons_self _ _))
        have hc : copyOptions env ty more msg (o :: os) rq false =
            copyOptions env ty more msg os { rq with mOptions := rq.mOptions ++ [o] } false := by
          conv_lhs => unfold copyOptions
          have ht : ¬ (if ty = BlockType.kBlockType1 then kOptionBlock1 else kOptionBlock2) ≤
              o.mNumber := htrig
          simp [h0, ht, happ, ha]
        rw [hc]
        rw [ih { rq with mOptions := rq.mOptions ++ [o] } hord.2 (by
          intro x hx
          exact le_of_eq_of_le (optionLast_append _ _ _ rfl) (hord.1 x hx)) (by
          exact le_of_eq_of_le (optionLast_append _ _ _ rfl) (by omega))]
        simp [nextBlockOptions, h0, htrig]

/-- The copy loop of `PrepareNextBlockRequest` does not look behind an option of
length zero. -/
theorem copyOptions_append_stop (env : Env) (ty : BlockType) (more : Bool) (msg : Message)
    (z : CoapOption) (rest : List CoapOption) (hz : z.GetLength = 0) :
    ∀ (opts : List CoapOption) (rq : Message) (b : Bool),
      copyOptions env ty more msg (opts ++ z :: rest) rq b = copyOptions env ty more msg opts rq b := by
  intro opts
  induction opts with
  | nil =>
    intro rq b
    simp [copyOptions, hz]
  | cons o os ih =>
    intro rq b
    rw [List.cons_append]
    unfold copyOptions
    simp only [ih]

theorem loopEnd_append_stop (e : Error) (z : CoapOption) (rest : List CoapOption)
    (hz : z.GetLength = 0) :
    ∀ (opts : List CoapOption), loopEnd e (opts ++ z :: rest) = Error.kErrorNone := by
  intro opts
  induction opts with
  | nil => simp [loopEnd, hz]
  | cons o os ih =>
    rw [List.cons_append]
    unfold loopEnd
    rw [ih]
    simp

theorem loopEnd_none : ∀ (opts : List CoapOption), loopEnd Error.kErrorNone opts = Error.kErrorNone := by
  intro opts
  induction opts with
  | nil => rfl
  | cons o os ih =>
    unfold loopEnd
    rw [ih]
    simp

/-- What the iterator presents for a stored copy at whose trailer it stops: the
options of the request and nothing else, or these followed by an option of
length zero. -/
theorem storedOptions_of_stops {env : Env} {r : PendingRequest} (hstop : IteratorStops env r) :
    storedOptions env r = (r.mMessage.mOptions, Error.kErrorNone) ∨
      ∃ z rest e, z.GetLength = 0 ∧ storedOptions env r = (r.mMessage.mOptions ++ z :: rest, e) := by
  unfold storedOptions
  by_cases hp : r.mMessage.mPayload ≠ []
  · left
    rw [if_pos hp]
  · rw [if_neg hp]
    rcases hstop with h | h
    · exact absurd h hp
    · unfold trailerStops at h
      generalize readOptions (env.mFooter r.mMetadata).length r.mMessage.optionLast
        (env.mFooter r.mMetadata) = t at h ⊢
      obtain ⟨l, e⟩ := t
      cases l with
      | nil =>
        left
        simp only [beq_iff_eq] at h
        simp [h]
      | cons z rest =>
        right
        simp only [beq_iff_eq] at h
        exact ⟨z, rest, e, h, rfl⟩

/-- The iterator stops at a trailer whose first byte has a lower nibble of zero
and an upper nibble below 13: the byte reads as an option of length zero.  The
byte 0 of an unspecified source address is such a byte. -/
theorem IteratorStops_of_first_byte (env : Env) (r : PendingRequest) (b : Nat) (bs : List Nat)
    (hf : env.mFooter r.mMetadata = b :: bs) (hlow : b % 16 = 0) (hhigh : b / 16 < 13) :
    IteratorStops env r := by
  right
  have hb : b ≠ 255 := by
    intro h
    rw [h] at hlow
    exact absurd hlow (by decide)
  unfold trailerStops
  rw [hf]
  simp [readOptions, readExtendedOptionField, hb, hlow, hhigh, CoapOption.GetLength]

/-- When the iterator stops at the trailer of the stored copy,
`PrepareNextBlockRequest` is the copy loop over the options of the request,
followed by the step after the loop. -/
theorem PrepareNextBlockRequest_of_stops (env : Env) (ty : BlockType) (more : Bool)
    (old : PendingRequest) (msg : Message) (hstop : IteratorStops env old) :
    PrepareNextBlockRequest env ty more old msg =
      afterCopy env ty more msg
        (copyOptions env ty more msg old.mMessage.mOptions
          (Message.Init CoapType.kTypeConfirmable old.mMessage.mCode) false) := by
  unfold PrepareNextBlockRequest afterCopy
  rcases storedOptions_of_stops hstop with h | ⟨z, rest, e, hz, h⟩
  · rw [h]
    simp only [ne_eq, not_true_eq_false, and_false, if_false, loopEnd_none]
  · rw [h]
    have hne : ¬ (old.mMessage.mOptions ++ z :: rest = [] ∧ e ≠ Error.kErrorNone) := by
      intro hc
      exact absurd hc.1 (by simp)
    simp only [hne, if_false, copyOptions_append_stop env ty more msg z rest hz,
      loopEnd_append_stop e z rest hz]

/-- The request that `PrepareNextBlockRequest` builds when nothing fails and
the iterator stops at the trailer of the stored copy: a confirmable message with
the code of the old request and no token, whose options are `nextBlockOptions`
of the old ones. -/
theorem PrepareNextBlockRequest_ok (env : Env) (happ : ∀ x, env.mAppend x = true) (ty : BlockType)
    (more : Bool) (old : PendingRequest) (msg : Message) (hsz : msg.mBlockWiseBlockSize ≤ 6)
    (hnum : msg.mBlockWiseBlockNumber + 1 < 0xFFFFF) (hord : OptionsOrdered old.mMessage.mOptions)
    (hstop : IteratorStops env old) :
    PrepareNextBlockRequest env ty more old msg =
      (Error.kErrorNone, nextBlockRequest ty more old.mMessage msg) := by
  rw [PrepareNextBlockRequest_of_stops env ty more old msg hstop]
  unfold afterCopy nextBlockRequest
  have := copyOptions_unset env happ ty more msg hsz hnum old.mMessage.mOptions
    (Message.Init CoapType.kTypeConfirmable old.mMessage.mCode) hord
    (by intro o _; simp [Message.optionLast, Message.Init])
    (by simp [Message.optionLast, Message.Init])
  simp only [] at this ⊢
  rw [this]
  simp [Message.Init]

theorem mem_nextBlockOptions (bo : Nat) (blk : CoapOption) :
    ∀ (opts : List CoapOption) (x : CoapOption), x ∈ nextBlockOptions bo blk opts →
      x = blk ∨ x ∈ opts := by
  intro opts
  induction opts with
  | nil => intro x hx; simpa [nextBlockOptions] using hx
  | cons o os ih =>
    intro x hx
    unfold nextBlockOptions at hx
    split_ifs at hx with h0 ht hb
    · left; simpa using hx
    · rcases List.mem_cons.mp hx with h | h
      · exact Or.inl h
      · right
        simp only [List.nil_append] at h
        exact List.mem_cons_of_mem _ (List.takeWhile_subset _ h)
    · rcases List.mem_cons.mp hx with h | h
      · exact Or.inl h
      · right
        rcases List.mem_append.mp h with h1 | h1
        · simp only [List.mem_singleton] at h1
          rw [h1]; exact List.mem_cons_self _ _
        · exact List.mem_cons_of_mem _ (List.takeWhile_subset _ h1)
    · rcases List.mem_cons.mp hx with h | h
      · right; rw [h]; exact List.mem_cons_self _ _
      · rcases ih x h with h1 | h1
        · exact Or.inl h1
        · exact Or.inr (List.mem_cons_of_mem _ h1)

/-- The first option with the block option number in the next request is the new
block option. -/
theorem find_nextBlockOptions (bo : Nat) (blk : CoapOption) (hb : blk.mNumber = bo) :
    ∀ (opts : List CoapOption),
      (nextBlockOptions bo blk opts).find? (fun o => o.mNumber == bo) = some blk := by
  intro opts
  induction opts with
  | nil => simp [nextBlockOptions, hb]
  | cons o os ih =>
    unfold nextBlockOptions
    split_ifs with h0 ht hblock
    · simp [hb]
    · simp [hb]
    · simp [hb]
    · have hne : (o.mNumber == bo) = false := by
        simp only [beq_eq_false_iff_ne, ne_eq]
        omega
      simp [List.find?_cons, hne, ih]

theorem ReadBlockOptionValues_some {m : Message} {o : CoapOption} {t : Nat}
    (ht : t = kOptionBlock1 ∨ t = kOptionBlock2) (hopt : m.findOption t = some o)
    (hlen : o.GetLength ≤ 3) :
    m.ReadBlockOptionValues t = (Error.kErrorNone, withBlockValues m o) := by
  unfold Message.ReadBlockOptionValues
  have h1 : ¬ (t ≠ kOptionBlock1 ∧ t ≠ kOptionBlock2) := by
    rcases ht with h | h <;> simp [h]
  rw [if_neg h1, hopt]
  simp only [hlen, if_true]
  rfl

/-- `SendMessage` for a confirmable message without Observe option, with no
transmit hook, when every allocation and the send succeed: the message gets the
next message-ID, is stored last in the queue and is handed to the transport. -/
theorem SendMessage_con_plain (cfg : Config) (env : Env) (s : CoapBase) {m : Message}
    (info : MessageInfo) (tx : TxParameters) (hd : Option Nat) (ctx : Nat) (rh : Option Nat)
    (hty : m.mType = CoapType.kTypeConfirmable) (hobs : m.findOption kOptionObserve = none)
    (hclone : ∀ x, env.mClone x = true) (happ : ∀ x, env.mAppend x = true)
    (hsend : ∀ x j, env.mSender x j = Error.kErrorNone) :
    CoapBase.SendMessage cfg env s m info tx hd ctx none rh =
      (Error.kErrorNone,
        (CoapBase.ScheduleRetransmissionTimer env
          { s with
            mMessageId := (s.mMessageId + 1) % 65536
            mPendingRequests := s.mPendingRequests ++
              [{ mMessage := { m with mMessageId := s.mMessageId },
                 mMetadata := newMetadata env { m with mMessageId := s.mMessageId } info tx hd ctx
                   none rh false }] }).emit
          [Event.send { m with mMessageId := s.mMessageId } info]) := by
  have hobs1 : m.mOptions.find? (fun o => o.mNumber == kOptionObserve) = none := hobs
  unfold CoapBase.SendMessage
  simp [hty, firstBlock, CoapBase.sendAndStore, Message.IsConfirmable, observeStep,
    Message.findOption, hobs1, CoapBase.CopyAndEnqueueMessage, hclone, happ, CoapBase.Send, hsend,
    CoapBase.emit, CoapBase.ScheduleRetransmissionTimer]

/-! ## One step of a block-wise download -/

/-- The position of a block does not wrap: a block option value has at most
three bytes. -/
theorem block_position_lt (o : CoapOption) (hlen : o.GetLength ≤ 3) (hbytes : ∀ b ∈ o.mValue, b < 256) :
    blockNumberOf o < 2 ^ 20 ∧ 2 ^ (blockSizeOf o + 4) * blockNumberOf o < 2 ^ 32 := by
  have hv := readUint_lt o.mValue hbytes
  have h3 : 256 ^ o.mValue.length ≤ 256 ^ 3 := Nat.pow_le_pow_right (by norm_num) hlen
  have hv1 : readUint o.mValue < 16777216 := by
    have : (256 : Nat) ^ 3 = 16777216 := by norm_num
    omega
  have hN : blockNumberOf o < 1048576 := by
    unfold blockNumberOf
    omega
  have hs : blockSizeOf o + 4 ≤ 11 := by
    unfold blockSizeOf
    omega
  have hp : 2 ^ (blockSizeOf o + 4) ≤ 2 ^ 11 := Nat.pow_le_pow_right (by norm_num) hs
  refine ⟨by norm_num; exact hN, ?_⟩
  calc 2 ^ (blockSizeOf o + 4) * blockNumberOf o ≤ 2 ^ 11 * blockNumberOf o :=
        Nat.mul_le_mul_right _ hp
    _ < 2 ^ 32 := by
        have : (2 : Nat) ^ 11 = 2048 := by norm_num
        have h32 : (2 : Nat) ^ 32 = 4294967296 := by norm_num
        omega

/-- `SendNextBlock2Request` on a response with the last block (more-flag clear),
whose payload fits and which the receive hook accepts. -/
theorem SendNextBlock2Request_last (cfg : Config) (env : Env) (s : CoapBase) (i : Nat)
    (old : PendingRequest) (m : Message) (info : MessageInfo) (md : Metadata) (hook : Nat)
    (o : CoapOption)
    (hopt : m.findOption kOptionBlock2 = some o) (hlen : o.GetLength ≤ 3)
    (hbytes : ∀ b ∈ o.mValue, b < 256)
    (hL : m.mPayload.length ≤ 2 ^ (blockSizeOf o + 4)) (hL2 : m.mPayload.length ≤ kMaxBlockLength)
    (hrecv : env.mReceiveHook hook md.mResponseContext m.mPayload
      (2 ^ (blockSizeOf o + 4) * blockNumberOf o) (blockMoreOf o) 0 = Error.kErrorNone)
    (hmore : blockMoreOf o = false) :
    s.SendNextBlock2Request cfg env i old m info md hook 0 false =
      (Error.kErrorNone,
        (s.emit [Event.receiveHook hook md.mResponseContext m.mPayload
          (2 ^ (blockSizeOf o + 4) * blockNumberOf o) false 0]).FinalizeCoapTransaction env i md
            (some (withBlockValues m o)) (some info) Error.kErrorNone,
        withBlockValues m o) := by
  have hms := ReadBlockOptionValues_some (Or.inr rfl) hopt hlen
  have hpos : otCoapBlockSizeFromExponent (blockSizeOf o) * blockNumberOf o % 2 ^ 32 =
      2 ^ (blockSizeOf o + 4) * blockNumberOf o :=
    Nat.mod_eq_of_lt (block_position_lt o hlen hbytes).2
  have hfit : ¬ (otCoapBlockSizeFromExponent (blockSizeOf o) < m.mPayload.length ∨
      kMaxBlockLength < m.mPayload.length) := by
    unfold otCoapBlockSizeFromExponent
    omega
  rw [hmore] at hrecv
  unfold CoapBase.SendNextBlock2Request
  simp only [hms, withBlockValues, ne_eq, not_true_eq_false, if_false, hfit, hpos, hrecv, hmore,
    Bool.not_false, if_true]

/-- `SendNextBlock2Request` on a response with the more-flag set, whose payload
fits and which the receive hook accepts, when the next request can be built and
every allocation and the send succeed. -/
theorem SendNextBlock2Request_more (cfg : Config) (env : Env) (s : CoapBase) (i : Nat)
    (old : PendingRequest) (m : Message) (info : MessageInfo) (md : Metadata) (hook : Nat)
    (o : CoapOption)
    (hopt : m.findOption kOptionBlock2 = some o) (hlen : o.GetLength ≤ 3)
    (hbytes : ∀ b ∈ o.mValue, b < 256)
    (hL : m.mPayload.length ≤ 2 ^ (blockSizeOf o + 4)) (hL2 : m.mPayload.length ≤ kMaxBlockLength)
    (hrecv : env.mReceiveHook hook md.mResponseContext m.mPayload
      (2 ^ (blockSizeOf o + 4) * blockNumberOf o) (blockMoreOf o) 0 = Error.kErrorNone)
    (hmore : blockMoreOf o = true) (hsz : blockSizeOf o ≤ 6)
    (hnum : blockNumberOf o + 1 < 0xFFFFF) (hnew : env.mNewMessage = true)
    (hclone : ∀ x, env.mClone x = true) (happ : ∀ x, env.mAppend x = true)
    (hsend : ∀ x j, env.mSender x j = Error.kErrorNone)
    (hord : OptionsOrdered old.mMessage.mOptions)
    (hobs : old.mMessage.findOption kOptionObserve = none) (hstop : IteratorStops env old) :
    s.SendNextBlock2Request cfg env i old m info md hook 0 false =
      (Error.kErrorNone,
        (CoapBase.ScheduleRetransmissionTimer env
          { s with
            mMessageId := (s.mMessageId + 1) % 65536
            mRetransmissionTimer :=
              FireAt (nextRetransmissionTime env.mNow (s.mPendingRequests.eraseIdx i))
            mTrace := s.mTrace ++ [Event.receiveHook hook md.mResponseContext m.mPayload
              (2 ^ (blockSizeOf o + 4) * blockNumberOf o) true 0]
            mPendingRequests := s.mPendingRequests.eraseIdx i ++
              [{ mMessage := nextBlock2Request old.mMessage o s.mMessageId,
                 mMetadata := newMetadata env (nextBlock2Request old.mMessage o s.mMessageId) info
                   (TxParameters.GetDefault cfg) md.mResponseHandler md.mResponseContext none
                   md.mBlockwiseReceiveHook false }] }).emit
          [Event.send (nextBlock2Request old.mMessage o s.mMessageId) info],
        withBlockValues m o) := by
  have hms := ReadBlockOptionValues_some (Or.inr rfl) hopt hlen
  have hpos : otCoapBlockSizeFromExponent (blockSizeOf o) * blockNumberOf o % 2 ^ 32 =
      2 ^ (blockSizeOf o + 4) * blockNumberOf o :=
    Nat.mod_eq_of_lt (block_position_lt o hlen hbytes).2
  have hfit : ¬ (otCoapBlockSizeFromExponent (blockSizeOf o) < m.mPayload.length ∨
      kMaxBlockLength < m.mPayload.length) := by
    unfold otCoapBlockSizeFromExponent
    omega
  rw [hmore] at hrecv
  have hp := PrepareNextBlockRequest_ok env happ BlockType.kBlockType2 true old (withBlockValues m o)
    hsz hnum hord hstop
  have hnoobs : (nextBlockRequest BlockType.kBlockType2 true old.mMessage
      (withBlockValues m o)).findOption kOptionObserve = none := by
    unfold Message.findOption nextBlockRequest
    rw [List.find?_eq_none]
    intro x hx
    rcases mem_nextBlockOptions _ _ _ x hx with h | h
    · rw [h]
      simp [blockOption, blockOptionNumber, kOptionBlock2, kOptionObserve]
    · unfold Message.findOption at hobs
      rw [List.find?_eq_none] at hobs
      exact hobs x h
  have hsm := SendMessage_con_plain cfg env ((s.emit [Event.receiveHook hook md.mResponseContext
      m.mPayload (2 ^ (blockSizeOf o + 4) * blockNumberOf o) true 0]).DequeueMessage env i)
    info (TxParameters.GetDefault cfg) md.mResponseHandler md.mResponseContext
    md.mBlockwiseReceiveHook (m := nextBlockRequest BlockType.kBlockType2 true old.mMessage
      (withBlockValues m o)) rfl hnoobs hclone happ hsend
  have h1 : (withBlockValues m o).mPayload = m.mPayload := rfl
  have h2 : (withBlockValues m o).mBlockWiseBlockSize = blockSizeOf o := rfl
  have h3 : (withBlockValues m o).mBlockWiseBlockNumber = blockNumberOf o := rfl
  have h4 : (withBlockValues m o).mMoreBlocksFlag = blockMoreOf o := rfl
  unfold CoapBase.SendNextBlock2Request
  simp only [hms, h1, h2, h3, h4, ne_eq, not_true_eq_false, if_false, hfit, hpos, hrecv, hmore,
    Bool.not_true, Bool.false_eq_true, hnew, hp, hsm]
  rfl

/-- The block option written for block `n` reads back as block `n`, with the
same more-flag and size exponent, and has at most three bytes. -/
theorem blockOption_decode (ty : BlockType) (n : Nat) (more : Bool) (sz : Nat) (hsz : sz ≤ 6)
    (hn : n < 0xFFFFF) :
    (blockOption ty n more sz).GetLength ≤ 3 ∧ blockNumberOf (blockOption ty n more sz) = n ∧
      blockMoreOf (blockOption ty n more sz) = more ∧ blockSizeOf (blockOption ty n more sz) = sz := by
  have hw : sz + (if more then 8 else 0) + n * 16 < 256 ^ 3 := by
    have : (256 : Nat) ^ 3 = 16777216 := by norm_num
    split_ifs <;> omega
  have hw4 : sz + (if more then 8 else 0) + n * 16 < 256 ^ 4 := by
    have : (256 : Nat) ^ 3 ≤ 256 ^ 4 := Nat.pow_le_pow_right (by norm_num) (by norm_num)
    omega
  have hr := readUint_encodeUint 4 _ hw4
  refine ⟨encodeUint_length 4 _ 3 hw, ?_, ?_, ?_⟩
  · simp only [blockNumberOf, blockOption, hr]
    split_ifs <;> omega
  · simp only [blockMoreOf, blockOption, hr]
    cases more
    · simp only [Bool.false_eq_true, if_false, beq_eq_false_iff_ne, ne_eq]
      omega
    · simp only [if_true, beq_iff_eq]
      omega
  · simp only [blockSizeOf, blockOption, hr]
    split_ifs <;> omega

set_option maxRecDepth 100000 in
/-- C18, counterexample. The engine `exampleDownloading` has a pending request
with a receive hook; the matching piggybacked 2.05 response carries one Block2
option with block number 0, more-flag clear and size exponent 7, and a payload
of 1025 bytes, which is within `2^(7+4) = 2048`.  The receive hook is not
called: the transaction is finalized with `kErrorNoBufs`. -/
theorem block2_oversized_block :
    blockSizeOf { mNumber := kOptionBlock2, mValue := [7] } = 7 ∧
      (exampleBlock 7 [1, 2] [7] (List.replicate 1025 0)).mPayload.length ≤ 2 ^ (7 + 4) ∧
      receiveHookCalls (exampleDownloading.ProcessReceivedResponse Config.openthread
        (Env.allOk 300 0) (exampleBlock 7 [1, 2] [7] (List.replicate 1025 0)) examplePeer).mTrace =
        [] ∧
      handlerResults (exampleDownloading.ProcessReceivedResponse Config.openthread
        (Env.allOk 300 0) (exampleBlock 7 [1, 2] [7] (List.replicate 1025 0)) examplePeer).mTrace =
        [Error.kErrorNoBufs] := by
  decide

/-- A piggybacked response to a stored request with a receive hook, with one
Block2 option and no Block1 option, goes to `SendNextBlock2Request`. -/
theorem ProcessReceivedResponse_block2 (cfg : Config) (env : Env) (s : CoapBase) (m : Message)
    (info : MessageInfo) (i : Nat) (r : PendingRequest) (hook : Nat)
    (hfind : s.FindRelatedRequest m info = some (i, r))
    (hack : m.mType = CoapType.kTypeAck)
    (hcode1 : kCodeResponseMin ≤ m.mCode) (hcode2 : m.mCode < kCodeBadRequest)
    (htoken : m.IsTokenEqual r.mMessage = true)
    (hnotif : (r.mMetadata.mObserve && (m.findOption kOptionObserve).isSome) = false)
    (hhook : r.mMetadata.mBlockwiseReceiveHook = some hook)
    (hbt : blockOptionType m = 2) :
    s.ProcessReceivedResponse cfg env m info =
      (if (s.SendNextBlock2Request cfg env i r m info r.mMetadata hook 0 false).1 ≠
          Error.kErrorNone then
        (s.SendNextBlock2Request cfg env i r m info r.mMetadata hook 0
          false).2.1.FinalizeCoapTransaction env i r.mMetadata
            (some (s.SendNextBlock2Request cfg env i r m info r.mMetadata hook 0
              false).2.2) (some info)
            (s.SendNextBlock2Request cfg env i r m info r.mMetadata hook 0 false).1
       else (s.SendNextBlock2Request cfg env i r m info r.mMetadata hook 0 false).2.1) := by
  have hne : m.IsEmpty = false := by
    simp only [Message.IsEmpty, kCodeEmpty, beq_eq_false_iff_ne, ne_eq]
    unfold kCodeResponseMin at hcode1
    omega
  have hresp : m.IsResponse = true := by simp [Message.IsResponse, hcode1]
  have hn2 : (r.mMetadata.mObserve &&
      (r.mMetadata.mObserve && r.mMessage.IsRequest && (m.findOption kOptionObserve).isSome) &&
      r.mMetadata.mResponseHandler.isSome) = false := by
    cases hob : r.mMetadata.mObserve
    · simp
    · rw [hob] at hnotif
      simp only [Bool.true_and] at hnotif
      simp [hnotif]
  unfold CoapBase.ProcessReceivedResponse
  simp only [hfind, hack, hne, hresp, htoken, hn2, Bool.and_self, Bool.false_eq_true, if_false,
    if_true]
  unfold CoapBase.piggybacked
  simp only [hhook, Option.isSome_some, Bool.or_true, if_true, hbt, hcode2]

/-- C18, as amended. A stored request `r` with the block-wise receive hook `hook`
and a piggybacked response `m` that `FindRelatedRequest` relates to it, with the
token of `r`, a response code below 4.00, not an Observe notification, carrying
one Block2 option `o` (block number `N`, more-flag `M`, size exponent `sz`) and
no Block1 option, whose payload has at most `2^(sz+4)` and at most 1024 bytes,
and which the hook accepts.  The hook is called exactly once, with position
`2^(sz+4) * N`, the payload, and `M`.  If `M` is clear the request is removed
and its handler, if any, gets the response with `kErrorNone`; nothing is sent.
If `M` is set, `sz` is at most 6, `N + 1` is below `0xFFFFF`, the options of `r`
are in order and hold no Observe option, the option iterator stops at the
trailer of the stored copy (`IteratorStops`: the copy has a payload, or its
trailer starts with a payload marker or with an option of length zero, as the
byte 0 of an unspecified source address is), and every allocation and the send
succeed: `r` is removed and one new
request is stored last and handed to the transport: confirmable, with the code
of `r`, no token, the next message-ID, a Block2 option for block `N + 1` with
size exponent `sz`, and in its metadata the handler, context and receive hook of
`r`.  What the engine does when the iterator reads the trailer as options is
left open here. -/
theorem block2_response_step (cfg : Config) (env : Env) (s : CoapBase) (m : Message)
    (info : MessageInfo) (i : Nat) (r : PendingRequest) (hook : Nat) (o : CoapOption)
    (hfind : s.FindRelatedRequest m info = some (i, r))
    (hack : m.mType = CoapType.kTypeAck)
    (hcode1 : kCodeResponseMin ≤ m.mCode) (hcode2 : m.mCode < kCodeBadRequest)
    (htoken : m.IsTokenEqual r.mMessage = true)
    (hnotif : (r.mMetadata.mObserve && (m.findOption kOptionObserve).isSome) = false)
    (hhook : r.mMetadata.mBlockwiseReceiveHook = some hook)
    (hbt : blockOptionType m = 2)
    (hopt : m.findOption kOptionBlock2 = some o) (hlen : o.GetLength ≤ 3)
    (hbytes : ∀ b ∈ o.mValue, b < 256)
    (hL : m.mPayload.length ≤ 2 ^ (blockSizeOf o + 4)) (hL2 : m.mPayload.length ≤ kMaxBlockLength)
    (hrecv : env.mReceiveHook hook r.mMetadata.mResponseContext m.mPayload
      (2 ^ (blockSizeOf o + 4) * blockNumberOf o) (blockMoreOf o) 0 = Error.kErrorNone) :
    (blockMoreOf o = false →
      (s.ProcessReceivedResponse cfg env m info).mTrace =
        s.mTrace ++
          [Event.receiveHook hook r.mMetadata.mResponseContext m.mPayload
            (2 ^ (blockSizeOf o + 4) * blockNumberOf o) false 0] ++
          handlerCall r.mMetadata (some (withBlockValues m o)) (some info) Error.kErrorNone ∧
      (s.ProcessReceivedResponse cfg env m info).mPendingRequests =
        s.mPendingRequests.eraseIdx i) ∧
    (blockMoreOf o = true → blockSizeOf o ≤ 6 → blockNumberOf o + 1 < 0xFFFFF →
      env.mNewMessage = true → (∀ x, env.mClone x = true) → (∀ x, env.mAppend x = true) →
      (∀ x j, env.mSender x j = Error.kErrorNone) → OptionsOrdered r.mMessage.mOptions →
      r.mMessage.findOption kOptionObserve = none → IteratorStops env r →
      (s.ProcessReceivedResponse cfg env m info).mTrace =
        s.mTrace ++
          [Event.receiveHook hook r.mMetadata.mResponseContext m.mPayload
            (2 ^ (blockSizeOf o + 4) * blockNumberOf o) true 0,
           Event.send (nextBlock2Request r.mMessage o s.mMessageId) info] ∧
      (s.ProcessReceivedResponse cfg env m info).mPendingRequests =
        s.mPendingRequests.eraseIdx i ++
          [{ mMessage := nextBlock2Request r.mMessage o s.mMessageId,
             mMetadata := newMetadata env (nextBlock2Request r.mMessage o s.mMessageId) info
               (TxParameters.GetDefault cfg) r.mMetadata.mResponseHandler
               r.mMetadata.mResponseContext none (some hook) false }] ∧
      (nextBlock2Request r.mMessage o s.mMessageId).mType = CoapType.kTypeConfirmable ∧
      (nextBlock2Request r.mMessage o s.mMessageId).findOption kOptionBlock2 =
        some (blockOption BlockType.kBlockType2 (blockNumberOf o + 1) true (blockSizeOf o)) ∧
      blockNumberOf (blockOption BlockType.kBlockType2 (blockNumberOf o + 1) true (blockSizeOf o)) =
        blockNumberOf o + 1 ∧
      blockSizeOf (blockOption BlockType.kBlockType2 (blockNumberOf o + 1) true (blockSizeOf o)) =
        blockSizeOf o) := by
  have hp := ProcessReceivedResponse_block2 cfg env s m info i r hook hfind hack hcode1 hcode2
    htoken hnotif hhook hbt
  constructor
  · intro hmore
    have hl := SendNextBlock2Request_last cfg env s i r m info r.mMetadata hook o hopt hlen
      hbytes hL hL2 hrecv hmore
    rw [hp, hl]
    simp only [ne_eq, not_true_eq_false, if_false]
    rw [FinalizeCoapTransaction_trace, FinalizeCoapTransaction_pending]
    exact ⟨rfl, rfl⟩
  · intro hmore hsz hnum hnew hclone happ hsend hord hobs hstop
    have hl := SendNextBlock2Request_more cfg env s i r m info r.mMetadata hook o hopt hlen
      hbytes hL hL2 hrecv hmore hsz hnum hnew hclone happ hsend hord hobs hstop
    have hd := blockOption_decode BlockType.kBlockType2 (blockNumberOf o + 1) true (blockSizeOf o)
      hsz hnum
    rw [hp, hl]
    simp only [ne_eq, not_true_eq_false, if_false]
    refine ⟨?_, ?_, rfl, ?_, hd.2.1, hd.2.2.2⟩
    · simp [CoapBase.emit, CoapBase.ScheduleRetransmissionTimer]
    · simp [CoapBase.emit, CoapBase.ScheduleRetransmissionTimer, hhook]
    · exact find_nextBlockOptions kOptionBlock2 _ rfl _

/-- The amended C18 at the engine `exampleDownloading` and the response with
block 0, more-flag set and size exponent 0: the stored request was sent from the
unspecified address, so that its trailer starts with the byte 0 and the iterator
stops there; the hook gets the block and the request for block 1 is sent and
stored. -/
theorem block2_response_step_witness :
    blockMoreOf { mNumber := kOptionBlock2, mValue := [8] } = true ∧
      IteratorStops (Env.allOk 300 0)
        (exampleDownload 7 [1, 2] [{ mNumber := kOptionUriPath, mValue := [97] }]) ∧
      (exampleDownloading.ProcessReceivedResponse Config.openthread (Env.allOk 300 0)
          (exampleBlock 7 [1, 2] [8] (List.replicate 16 0)) examplePeer).mTrace =
        exampleDownloading.mTrace ++
          [Event.receiveHook 6
            (exampleDownload 7 [1, 2]
              [{ mNumber := kOptionUriPath, mValue := [97] }]).mMetadata.mResponseContext
            (exampleBlock 7 [1, 2] [8] (List.replicate 16 0)).mPayload
            (2 ^ (blockSizeOf { mNumber := kOptionBlock2, mValue := [8] } + 4) *
              blockNumberOf { mNumber := kOptionBlock2, mValue := [8] }) true 0,
           Event.send
            (nextBlock2Request
              (exampleDownload 7 [1, 2] [{ mNumber := kOptionUriPath, mValue := [97] }]).mMessage
              { mNumber := kOptionBlock2, mValue := [8] } exampleDownloading.mMessageId)
            examplePeer] ∧
      (exampleDownloading.ProcessReceivedResponse Config.openthread (Env.allOk 300 0)
          (exampleBlock 7 [1, 2] [8] (List.replicate 16 0)) examplePeer).mPendingRequests =
        exampleDownloading.mPendingRequests.eraseIdx 0 ++
          [{ mMessage := nextBlock2Request
              (exampleDownload 7 [1, 2] [{ mNumber := kOptionUriPath, mValue := [97] }]).mMessage
              { mNumber := kOptionBlock2, mValue := [8] } exampleDownloading.mMessageId,
             mMetadata := newMetadata (Env.allOk 300 0)
               (nextBlock2Request
                 (exampleDownload 7 [1, 2]
                   [{ mNumber := kOptionUriPath, mValue := [97] }]).mMessage
                 { mNumber := kOptionBlock2, mValue := [8] } exampleDownloading.mMessageId)
               examplePeer (TxParameters.GetDefault Config.openthread)
               (exampleDownload 7 [1, 2]
                 [{ mNumber := kOptionUriPath, mValue := [97] }]).mMetadata.mResponseHandler
               (exampleDownload 7 [1, 2]
                 [{ mNumber := kOptionUriPath, mValue := [97] }]).mMetadata.mResponseContext
               none (some 6) false }] :=
  have h := (block2_response_step Config.openthread (Env.allOk 300 0) exampleDownloading
    (exampleBlock 7 [1, 2] [8] (List.replicate 16 0)) examplePeer 0
    (exampleDownload 7 [1, 2] [{ mNumber := kOptionUriPath, mValue := [97] }]) 6
    { mNumber := kOptionBlock2, mValue := [8] } (by decide) rfl (by decide) (by decide) (by decide)
    rfl rfl (by decide) rfl (by decide) (by decide) (by decide) (by decide) rfl).2
      (by decide) (by decide) (by decide) rfl (fun _ => rfl) (fun _ => rfl) (fun _ _ => rfl)
      (by decide) (by decide) (by decide)
  ⟨by decide, by decide, h.1, h.2.1⟩

set_option maxRecDepth 100000 in
/-- The download of a 3000-byte resource in blocks of 1024 bytes
(`exampleTransfer`): the receive hook is called at positions 0, 1024 and 2048
with 1024, 1024 and 952 bytes, the last call with the more-flag clear; the engine
sends two further requests, for blocks 1 and 2 with size exponent 6, with
message-IDs 8 and 9; the handler is called once, with `kErrorNone`, and no
request is left pending. -/
theorem block2_download_example :
    receiveHookCalls exampleTransfer.mTrace =
        [(0, 1024, true), (1024, 1024, true), (2048, 952, false)] ∧
      (sentMessages exampleTransfer.mTrace).map
          (fun m => (m.mMessageId, m.mType, (m.findOption kOptionBlock2).map blockNumberOf,
            (m.findOption kOptionBlock2).map blockSizeOf)) =
        [(8, CoapType.kTypeConfirmable, some 1, some 6),
         (9, CoapType.kTypeConfirmable, some 2, some 6)] ∧
      handlerResults exampleTransfer.mTrace = [Error.kErrorNone] ∧
      exampleTransfer.mPendingRequests = [] := by
  decide

set_option maxRecDepth 100000 in
/-- The download of `exampleTransfer` when the responses arrive on the local
address `2001:db8::1`: the trailers of the two follow-up requests start with the
byte `0x20`, which the iterator reads as an option of length zero, and the
download runs as in `block2_download_example`. -/
theorem block2_download_global :
    receiveHookCalls (exampleTransferOn exampleGlobalAddress).mTrace =
        [(0, 1024, true), (1024, 1024, true), (2048, 952, false)] ∧
      (sentMessages (exampleTransferOn exampleGlobalAddress).mTrace).map
          (fun m => (m.mMessageId, m.mType, (m.findOption kOptionBlock2).map blockNumberOf,
            (m.findOption kOptionBlock2).map blockSizeOf)) =
        [(8, CoapType.kTypeConfirmable, some 1, some 6),
         (9, CoapType.kTypeConfirmable, some 2, some 6)] ∧
      handlerResults (exampleTransferOn exampleGlobalAddress).mTrace = [Error.kErrorNone] ∧
      (exampleTransferOn exampleGlobalAddress).mPendingRequests = [] := by
  decide

set_option maxRecDepth 100000 in
/-- The download of `exampleTransfer` when the responses arrive on the local
address `fd00::1`: the request for block 1 is stored with that source address,
so that its trailer starts with the byte `0xfd`.  When block 1 arrives the
receive hook gets it, `PrepareNextBlockRequest` fails with `kErrorParse` on the
stored request, no request for block 2 is sent and the handler gets
`kErrorParse`; block 2 never reaches the hook. -/
theorem block2_download_parse_error :
    receiveHookCalls (exampleTransferOn exampleLocalAddress).mTrace =
        [(0, 1024, true), (1024, 1024, true)] ∧
      (sentMessages (exampleTransferOn exampleLocalAddress).mTrace).map
          (fun m => (m.mMessageId, m.mType, (m.findOption kOptionBlock2).map blockNumberOf,
            (m.findOption kOptionBlock2).map blockSizeOf)) =
        [(8, CoapType.kTypeConfirmable, some 1, some 6)] ∧
      handlerResults (exampleTransferOn exampleLocalAddress).mTrace = [Error.kErrorParse] ∧
      (exampleTransferOn exampleLocalAddress).mPendingRequests = [] := by
  decide

/-! ## Pending requests per token and peer -/

/-- C20, counterexample. `SendMessage` called twice with the same confirmable
message (token `[1, 2]`) for the same peer leaves two pending confirmable
requests with that token and that peer address and port. -/
theorem two_sends_same_token :
    ((CoapBase.init 7).calls Config.openthread exampleTwoSends).mPendingRequests.map
        (fun r => (r.mMetadata.mConfirmable, r.mMessage.mToken, r.mMetadata.mDestinationAddress,
          r.mMetadata.mDestinationPort)) =
        [(true, [1, 2], 5, 5683), (true, [1, 2], 5, 5683)] ∧
      ¬ UniqueExchanges ((CoapBase.init 7).calls Config.openthread exampleTwoSends) := by
  decide

/-- A response sent through `SendMessage` with no handler and no hook (an ACK, or
a non-confirmable message) leaves the pending requests as they are. -/
theorem SendMessage_response_pending (cfg : Config) (env : Env) (s : CoapBase) (m : Message)
    (info : MessageInfo) (tx : TxParameters) (ctx : Nat)
    (hty : m.mType = CoapType.kTypeAck ∨ m.mType = CoapType.kTypeNonConfirmable) :
    (CoapBase.SendMessage cfg env s m info tx none ctx none none).2.mPendingRequests =
      s.mPendingRequests := by
  rcases hty with h | h
  · rw [SendMessage_ack_plain cfg env s info tx ctx h]
    rfl
  · rw [SendMessage_non_plain cfg env s info tx ctx h]
    rfl

theorem SendHeaderResponse_pending (cfg : Config) (env : Env) (s : CoapBase) (code : Nat)
    (rq : Message) (info : MessageInfo) :
    (s.SendHeaderResponse cfg env code rq info).2.mPendingRequests = s.mPendingRequests := by
  unfold CoapBase.SendHeaderResponse
  split_ifs
  · rfl
  · rfl
  · cases hty : rq.mType with
    | kTypeConfirmable =>
      simp only []
      split_ifs
      · rfl
      · exact SendMessage_response_pending _ _ _ _ _ _ _ (Or.inl rfl)
    | kTypeNonConfirmable =>
      simp only []
      split_ifs
      · rfl
      · exact SendMessage_response_pending _ _ _ _ _ _ _ (Or.inr rfl)
    | kTypeAck => rfl
    | kTypeReset => rfl

theorem SendEmptyMessage_pending (env : Env) (s : CoapBase) (ty : CoapType) (rq : Message)
    (info : MessageInfo) :
    (s.SendEmptyMessage env ty rq info).2.mPendingRequests = s.mPendingRequests := by
  unfold CoapBase.SendEmptyMessage
  split_ifs <;> rfl

theorem AppendOption_type (m : Message) (room : Bool) (n : Nat) (v : List Nat) :
    (m.AppendOption room n v).2.mType = m.mType := by
  unfold Message.AppendOption
  split_ifs <;> rfl

theorem AppendBlockOption_type (m : Message) (room : Bool) (ty : BlockType) (n : Nat) (more : Bool)
    (sz : Nat) : (m.AppendBlockOption room ty n more sz).2.mType = m.mType := by
  unfold Message.AppendBlockOption
  split_ifs <;> first | rfl | exact AppendOption_type _ _ _ _

theorem CacheLastBlockResponse_pending (env : Env) (s : CoapBase) (m : Message) :
    (s.CacheLastBlockResponse env m).2.mPendingRequests = s.mPendingRequests := by
  unfold CoapBase.CacheLastBlockResponse
  split_ifs <;> rfl

theorem block1Response_type (env : Env) (m : Message) :
    (block1Response env m).mType = CoapType.kTypeAck := by
  unfold block1Response
  dsimp only
  split_ifs <;> rfl

theorem ProcessBlock1Request_pending (cfg : Config) (env : Env) (s : CoapBase) (m : Message)
    (info : MessageInfo) (res : ResourceBlockWise) (hook total : Nat) :
    (s.ProcessBlock1Request cfg env m info res hook total).2.1.mPendingRequests =
      s.mPendingRequests := by
  unfold CoapBase.ProcessBlock1Request
  generalize m.ReadBlockOptionValues kOptionBlock1 = ms
  dsimp only
  split_ifs
  all_goals first
    | rfl
    | exact CacheLastBlockResponse_pending _ _ _
    | (rw [SendMessage_response_pending _ _ _ _ _ _ _
          (Or.inl (by rw [AppendBlockOption_type, block1Response_type]))]
       exact CacheLastBlockResponse_pending _ _ _)

theorem copyBlockOptions_type (env : Env) :
    ∀ (opts : List CoapOption) (rsp : Message),
      (copyBlockOptions env opts rsp).2.mType = rsp.mType := by
  intro opts
  induction opts with
  | nil => intro rsp; rfl
  | cons o os ih =>
    intro rsp
    unfold copyBlockOptions
    dsimp only
    split_ifs
    · exact AppendBlockOption_type _ _ _ _ _ _
    · rw [ih]; exact AppendBlockOption_type _ _ _ _ _ _
    · exact AppendOption_type _ _ _ _
    · rw [ih]; exact AppendOption_type _ _ _ _
    · exact ih rsp

theorem sendBlock2Response_pending (cfg : Config) (env : Env) (s : CoapBase) (info : MessageInfo)
    (rsp last : Message) (payload : List Nat) (hty : rsp.mType = CoapType.kTypeAck) :
    (s.sendBlock2Response cfg env info rsp last payload).2.mPendingRequests =
      s.mPendingRequests := by
  have hfull : ({ (copyBlockOptions env last.mOptions rsp).2 with mPayload := payload } :
      Message).mType = CoapType.kTypeAck := by
    show (copyBlockOptions env last.mOptions rsp).2.mType = _
    rw [copyBlockOptions_type, hty]
  unfold CoapBase.sendBlock2Response
  dsimp only
  split_ifs
  all_goals first
    | rfl
    | exact CacheLastBlockResponse_pending _ _ _
    | (rw [SendMessage_response_pending _ _ _ _ _ _ _ (Or.inl hfull)]
       first | rfl | exact CacheLastBlockResponse_pending _ _ _)

theorem ProcessBlock2Request_pending (cfg : Config) (env : Env) (s : CoapBase) (m : Message)
    (info : MessageInfo) (res : ResourceBlockWise) (hook : Nat) :
    (s.ProcessBlock2Request cfg env m info res hook).2.1.mPendingRequests =
      s.mPendingRequests := by
  unfold CoapBase.ProcessBlock2Request
  generalize m.ReadBlockOptionValues kOptionBlock2 = ms
  dsimp only
  generalize env.mTransmitHook hook res.mContext _ _ = h
  split_ifs
  all_goals try rfl
  cases block2Size ms.2 h.2.1.length h.2.2 with
  | none => rfl
  | some szx =>
    dsimp only
    cases (s.emit [Event.transmitHook hook res.mContext
        (otCoapBlockSizeFromExponent ms.2.mBlockWiseBlockSize * ms.2.mBlockWiseBlockNumber % 2 ^ 32)
        (otCoapBlockSizeFromExponent ms.2.mBlockWiseBlockSize)]).mLastResponse with
    | none => rfl
    | some last =>
      dsimp only
      rw [sendBlock2Response_pending _ _ _ _ _ _ _ rfl]
      rfl

theorem blockWiseRequest_pending (cfg : Config) (env : Env) (s : CoapBase) (m : Message)
    (info : MessageInfo) (res : ResourceBlockWise) :
    (s.blockWiseRequest cfg env m info res).2.mPendingRequests = s.mPendingRequests := by
  unfold CoapBase.blockWiseRequest
  split_ifs
  · split
    · split
      · dsimp only
        split
        all_goals first
          | exact ProcessBlock1Request_pending _ _ _ _ _ _ _ _
          | (rw [SendHeaderResponse_pending]; exact ProcessBlock1Request_pending _ _ _ _ _ _ _ _)
      · rfl
    · split
      · dsimp only
        split_ifs
        · rw [SendHeaderResponse_pending]; exact ProcessBlock2Request_pending _ _ _ _ _ _ _
        · exact ProcessBlock2Request_pending _ _ _ _ _ _ _
      · rfl
    · rfl
  · rfl

theorem plainRequest_pending (env : Env) (s : CoapBase) (p : String) (m : Message)
    (info : MessageInfo) :
    (s.plainRequest env p m info).2.mPendingRequests = s.mPendingRequests := by
  unfold CoapBase.plainRequest
  cases s.mResourceHandler <;> dsimp only <;> split_ifs <;>
    first
      | rfl
      | (split
         · rfl
         · split <;> rfl)

theorem dispatchRequest_pending (cfg : Config) (env : Env) (s : CoapBase) (m : Message)
    (info : MessageInfo) :
    (s.dispatchRequest cfg env m info).2.mPendingRequests = s.mPendingRequests := by
  unfold CoapBase.dispatchRequest
  cases s.mInterceptor <;> dsimp only <;> split_ifs <;>
    first
      | rfl
      | (split
         · rfl
         · rfl
         · split
           · rfl
           · split
             · exact (blockWiseRequest_pending _ _ _ _ _ _).trans rfl
             · exact (plainRequest_pending _ _ _ _ _).trans rfl)

/-- `ProcessReceivedRequest` leaves the pending requests as they are. -/
theorem ProcessReceivedRequest_pending (cfg : Config) (env : Env) (s : CoapBase) (m : Message)
    (info : MessageInfo) :
    (s.ProcessReceivedRequest cfg env m info).mPendingRequests = s.mPendingRequests := by
  unfold CoapBase.ProcessReceivedRequest
  dsimp only
  split_ifs
  · unfold CoapBase.SendNotFound
    rw [SendHeaderResponse_pending, dispatchRequest_pending]
  · exact dispatchRequest_pending _ _ _ _ _

theorem Thinned_refl (l : List PendingRequest) : Thinned l l :=
  ⟨List.Sublist.refl _, fun h => h⟩

theorem Thinned_trans {l3 l2 l1 : List PendingRequest} (h32 : Thinned l3 l2) (h21 : Thinned l2 l1) :
    Thinned l3 l1 :=
  ⟨h32.1.trans h21.1, fun h => h32.2 (h21.2 h)⟩

theorem Thinned_of_sublist {l2 l1 : List PendingRequest} (h : l2.Sublist l1) : Thinned l2 l1 :=
  ⟨h.filterMap _, fun hn r hr => hn r (h.subset hr)⟩

theorem Thinned_eraseIdx (l : List PendingRequest) (i : Nat) : Thinned (l.eraseIdx i) l :=
  Thinned_of_sublist (List.eraseIdx_sublist l i)

theorem filterMap_set_same {α β : Type} (g : α → Option β) :
    ∀ (l : List α) (i : Nat) (r r1 : α), l.get? i = some r → g r1 = g r →
      (l.set i r1).filterMap g = l.filterMap g := by
  intro l
  induction l with
  | nil => intro i r r1 h _; simp at h
  | cons a as ih =>
    intro i r r1 h hg
    cases i with
    | zero =>
      simp only [List.get?_cons_zero, Option.some.injEq] at h
      simp [List.set, List.filterMap_cons, hg, h]
    | succ j =>
      simp only [List.get?_cons_succ] at h
      simp [List.set, List.filterMap_cons, ih j r r1 h hg]

/-- Setting the `mAcknowledged` flag of a stored request changes no exchange. -/
theorem Thinned_acknowledged {l : List PendingRequest} {i : Nat} {r : PendingRequest}
    (h : l.get? i = some r) : Thinned (l.set i r.acknowledged) l := by
  refine ⟨?_, ?_⟩
  · rw [filterMap_set_same exchangeKey l i r r.acknowledged h rfl]
  · intro hn x hx
    rcases List.mem_or_eq_of_mem_set hx with hx1 | hx1
    · exact hn x hx1
    · rw [hx1]
      exact hn r (List.get?_mem h)

/-- The queue after `ProcessReceivedResponse`, when no stored request has a
block-wise hook: unchanged, or with the related request removed, or with its
`mAcknowledged` flag set. -/
theorem ProcessReceivedResponse_shape (cfg : Config) (env : Env) (s : CoapBase) (m : Message)
    (info : MessageInfo) (hH : NoBlockHooks s.mPendingRequests) :
    (s.ProcessReceivedResponse cfg env m info).mPendingRequests = s.mPendingRequests ∨
      ∃ i r, s.mPendingRequests.get? i = some r ∧
        ((s.ProcessReceivedResponse cfg env m info).mPendingRequests =
            s.mPendingRequests.eraseIdx i ∨
          (s.ProcessReceivedResponse cfg env m info).mPendingRequests =
            s.mPendingRequests.set i r.acknowledged ∨
          (s.ProcessReceivedResponse cfg env m info).mPendingRequests =
            (s.mPendingRequests.set i r.acknowledged).eraseIdx i) := by
  unfold CoapBase.ProcessReceivedResponse
  cases hf : s.FindRelatedRequest m info with
  | none =>
    left
    dsimp only
    split_ifs
    · exact SendEmptyMessage_pending _ _ _ _ _
    · rfl
  | some p =>
    obtain ⟨i, r⟩ := p
    have hget := FindRelatedRequest_get hf
    obtain ⟨hr1, hr2⟩ := hH r (List.get?_mem hget)
    have hpig : (s.piggybacked cfg env i r m info).mPendingRequests =
        s.mPendingRequests.eraseIdx i := by
      unfold CoapBase.piggybacked
      simp only [hr1, hr2, Option.isSome_none, Bool.or_self, Bool.false_eq_true, if_false]
      exact FinalizeCoapTransaction_pending _ _ _ _ _ _ _
    have hsep : ∀ (s1 : CoapBase) (b : Bool), s1.mPendingRequests = s.mPendingRequests →
        (CoapBase.separate env s1 i r.mMetadata b m info).mPendingRequests = s.mPendingRequests ∨
        (CoapBase.separate env s1 i r.mMetadata b m info).mPendingRequests =
          s.mPendingRequests.eraseIdx i := by
      intro s1 b hs1
      unfold CoapBase.separate
      split_ifs
      · left; exact hs1
      · right; rw [FinalizeCoapTransaction_pending, hs1]
    dsimp only
    cases hty : m.mType with
    | kTypeReset =>
      dsimp only
      split_ifs
      · right
        exact ⟨i, r, hget, Or.inl (FinalizeCoapTransaction_pending _ _ _ _ _ _ _)⟩
      · left; rfl
    | kTypeAck =>
      dsimp only
      split_ifs
      all_goals first
        | (left; rfl)
        | (right; exact ⟨i, r, hget, Or.inl (FinalizeCoapTransaction_pending _ _ _ _ _ _ _)⟩)
        | (right; exact ⟨i, r, hget, Or.inl hpig⟩)
        | (right; exact ⟨i, r, hget, Or.inl rfl⟩)
        | (right; exact ⟨i, r, hget, Or.inr (Or.inl rfl)⟩)
        | (right; exact ⟨i, r, hget, Or.inr (Or.inr rfl)⟩)
    | kTypeConfirmable =>
      dsimp only
      rcases hsep (s.SendAck env m info).2 _ (SendEmptyMessage_pending _ _ _ _ _) with h | h
      · left; exact h
      · right; exact ⟨i, r, hget, Or.inl h⟩
    | kTypeNonConfirmable =>
      dsimp only
      rcases hsep s _ rfl with h | h
      · left; exact h
      · right; exact ⟨i, r, hget, Or.inl h⟩

theorem retransmit_keeps {env : Env} {r r1 : PendingRequest} (h : (retransmit env r).1 = some r1) :
    exchangeKey r1 = exchangeKey r ∧
      r1.mMetadata.mBlockwiseReceiveHook = r.mMetadata.mBlockwiseReceiveHook ∧
      r1.mMetadata.mBlockwiseTransmitHook = r.mMetadata.mBlockwiseTransmitHook := by
  unfold retransmit at h
  split_ifs at h
  all_goals
    simp only [Option.some.injEq] at h
    rw [← h]
    exact ⟨rfl, rfl, rfl⟩

theorem retransmitLoop_thinned (env : Env) :
    ∀ l : List PendingRequest, Thinned (retransmitLoop env l).1 l := by
  intro l
  induction l with
  | nil => exact Thinned_refl _
  | cons r rs ih =>
    simp only [retransmitLoop]
    cases hr : (retransmit env r).1 with
    | none =>
      simp only [Option.toList, List.nil_append]
      exact Thinned_trans ih (Thinned_of_sublist (List.sublist_cons_self r rs))
    | some r1 =>
      obtain ⟨hk, hh1, hh2⟩ := retransmit_keeps hr
      simp only [Option.toList, List.singleton_append]
      refine ⟨?_, ?_⟩
      · simp only [List.filterMap_cons, hk]
        cases exchangeKey r with
        | none => exact ih.1
        | some k => exact List.Sublist.cons₂ k ih.1
      · intro hn x hx
        rcases List.mem_cons.mp hx with hx1 | hx1
        · rw [hx1, hh1, hh2]
          exact hn r (List.mem_cons_self _ _)
        · exact ih.2 (fun y hy => hn y (List.mem_cons_of_mem _ hy)) x hx1

theorem finalizeSelected_thinned (env : Env) (s : CoapBase) (sel : Metadata → Bool) :
    Thinned (s.finalizeSelected env sel).mPendingRequests s.mPendingRequests := by
  rw [finalizeSelected_pending, abortLoop_pending]
  exact Thinned_of_sublist (List.filter_sublist _)

theorem observeStep_thinned {env : Env} {s : CoapBase} {m : Message} {info : MessageInfo}
    {obs : Bool} {s1 : CoapBase} (h : observeStep env s m info = .ok (obs, s1)) :
    Thinned s1.mPendingRequests s.mPendingRequests := by
  unfold observeStep at h
  split at h
  · simp only [Except.ok.injEq, Prod.mk.injEq] at h
    rw [← h.2]; exact Thinned_refl _
  · split at h
    · split at h
      · simp at h
      · split at h
        · split at h
          · simp only [Except.ok.injEq, Prod.mk.injEq] at h
            rw [← h.2, FinalizeCoapTransaction_pending]
            exact Thinned_eraseIdx _ _
          · simp only [Except.ok.injEq, Prod.mk.injEq] at h
            rw [← h.2]; exact Thinned_refl _
        · simp only [Except.ok.injEq, Prod.mk.injEq] at h
          rw [← h.2]; exact Thinned_refl _
    · simp only [Except.ok.injEq, Prod.mk.injEq] at h
      rw [← h.2]; exact Thinned_refl _

/-- The queue after lines 261 to 350 of `SendMessage`: nothing is added, or one
stored request is added at the end, with the token of the message and the
metadata that `SendMessage` fills in. -/
theorem sendAndStore_shape (env : Env) (s : CoapBase) (m : Message) (info : MessageInfo)
    (tx : TxParameters) (hd : Option Nat) (ctx : Nat) (th rh : Option Nat) :
    Thinned (CoapBase.sendAndStore env s m info tx hd ctx th rh).2.mPendingRequests
        s.mPendingRequests ∨
      ∃ l0 c obs, Thinned l0 s.mPendingRequests ∧ c.mToken = m.mToken ∧
        (CoapBase.sendAndStore env s m info tx hd ctx th rh).2.mPendingRequests =
          l0 ++ [{ mMessage := c, mMetadata := newMetadata env m info tx hd ctx th rh obs }] := by
  have key : ∀ c : Message, c.mToken = m.mToken →
      (Thinned ((match observeStep env s m info with
        | .error e => (e, s)
        | .ok (observe, s1) =>
          match s1.CopyAndEnqueueMessage env c (newMetadata env m info tx hd ctx th rh observe) with
          | none => (Error.kErrorNoBufs, s1)
          | some s2 =>
            if (s2.Send env m info).1 ≠ Error.kErrorNone then
              ((s2.Send env m info).1, (s2.Send env m info).2.DequeueMessage env s1.mPendingRequests.length)
            else s2.Send env m info) : Error × CoapBase).2.mPendingRequests s.mPendingRequests ∨
      ∃ l0 c1 obs, Thinned l0 s.mPendingRequests ∧ c1.mToken = m.mToken ∧
        ((match observeStep env s m info with
        | .error e => (e, s)
        | .ok (observe, s1) =>
          match s1.CopyAndEnqueueMessage env c (newMetadata env m info tx hd ctx th rh observe) with
          | none => (Error.kErrorNoBufs, s1)
          | some s2 =>
            if (s2.Send env m info).1 ≠ Error.kErrorNone then
              ((s2.Send env m info).1, (s2.Send env m info).2.DequeueMessage env s1.mPendingRequests.length)
            else s2.Send env m info) : Error × CoapBase).2.mPendingRequests =
          l0 ++ [{ mMessage := c1, mMetadata := newMetadata env m info tx hd ctx th rh obs }]) := by
    intro c hc
    cases ho : observeStep env s m info with
    | error e => left; exact Thinned_refl _
    | ok p =>
      obtain ⟨obs, s1⟩ := p
      have ht := observeStep_thinned ho
      simp only
      unfold CoapBase.CopyAndEnqueueMessage
      by_cases h1 : env.mClone c = true
      · by_cases h2 : env.mAppend c = true
        · simp only [h1, h2, Bool.not_true, Bool.false_eq_true, if_false]
          by_cases h3 : (env.mSender m info) = Error.kErrorNone
          · right
            refine ⟨s1.mPendingRequests, c, obs, ht, hc, ?_⟩
            simp [CoapBase.Send, h3, CoapBase.ScheduleRetransmissionTimer, CoapBase.emit]
          · left
            simp only [CoapBase.Send, h3, ne_eq, not_false_eq_true, if_true,
              CoapBase.DequeueMessage, CoapBase.ScheduleRetransmissionTimer, CoapBase.emit,
              eraseIdx_length_append]
            exact ht
        · left
          simp only [h1, h2, Bool.not_true, Bool.not_false, Bool.false_eq_true, if_false, if_true]
          exact ht
      · left
        simp only [h1, Bool.not_false, if_true]
        exact ht
  unfold CoapBase.sendAndStore
  by_cases hc : m.IsConfirmable = true
  · simp only [hc, if_true]
    exact key m rfl
  · by_cases hn : (m.IsNonConfirmable && hd.isSome) = true
    · simp only [hc, hn, if_true, if_false]
      exact key m.headerOnly rfl
    · left
      simp only [hc, hn, if_false, CoapBase.Send, CoapBase.emit]
      exact Thinned_refl _

/-- The queue after `SendMessage` without a transmit hook: nothing is added, or
one stored request is added at the end; a request stored for a confirmable
message has the token of the message and the peer of the message info. -/
theorem SendMessage_shape (cfg : Config) (env : Env) (s : CoapBase) (m : Message)
    (info : MessageInfo) (tx : TxParameters) (hd : Option Nat) (ctx : Nat) (rh : Option Nat) :
    Thinned (CoapBase.SendMessage cfg env s m info tx hd ctx none rh).2.mPendingRequests
        s.mPendingRequests ∨
      ∃ l0 e, Thinned l0 s.mPendingRequests ∧
        (CoapBase.SendMessage cfg env s m info tx hd ctx none rh).2.mPendingRequests = l0 ++ [e] ∧
        exchangeKey e =
          (if m.IsConfirmable then some (m.mToken, info.mPeerAddr, info.mPeerPort) else none) ∧
        e.mMetadata.mBlockwiseReceiveHook = rh ∧ e.mMetadata.mBlockwiseTransmitHook = none := by
  rcases SendMessage_cases cfg env s m info tx hd ctx none rh with
    ⟨e, s1, _, heq, hp⟩ | ⟨m1, s1, calls, heq, hp, _, _, _, htok, _, hty⟩
  · left
    rw [heq, hp]
    exact Thinned_refl _
  · have hty1 : m1.mType = m.mType := by
      rcases hty with h | ⟨_, _, h⟩
      · exact h
      · simp at h
    have hconf : m1.IsConfirmable = m.IsConfirmable := by
      simp [Message.IsConfirmable, hty1]
    rw [heq]
    rcases sendAndStore_shape env s1 m1 info tx hd ctx none rh with h | ⟨l0, c, obs, hl0, hc, hq⟩
    · left
      rw [← hp]; exact h
    · right
      refine ⟨l0, _, by rw [← hp]; exact hl0, hq, ?_, rfl, rfl⟩
      simp only [exchangeKey, newMetadata, hconf, hc, htok]

/-- Every call that is `Fresh` keeps the pending confirmable requests apart and
adds no block-wise hook. -/
theorem call_invariant (cfg : Config) (s : CoapBase) (c : CoapBase.Call)
    (hU : UniqueExchanges s) (hH : NoBlockHooks s.mPendingRequests) (hF : c.Fresh s) :
    UniqueExchanges (s.call cfg c) ∧ NoBlockHooks (s.call cfg c).mPendingRequests := by
  have thin : ∀ l : List PendingRequest, Thinned l s.mPendingRequests →
      (l.filterMap exchangeKey).Nodup ∧ NoBlockHooks l :=
    fun l h => ⟨List.Nodup.sublist h.1 hU, h.2 hH⟩
  cases c with
  | sendMessage env m info tx hd ctx th rh =>
    obtain ⟨hth, hrh, hfresh⟩ := hF
    subst hth
    subst hrh
    simp only [CoapBase.call]
    rcases SendMessage_shape cfg env s m info tx hd ctx none with h | ⟨l0, e, hl0, hq, hk, hr1, hr2⟩
    · exact thin _ h
    · unfold UniqueExchanges
      rw [hq]
      obtain ⟨hn0, hh0⟩ := thin l0 hl0
      refine ⟨?_, ?_⟩
      · rw [List.filterMap_append]
        simp only [List.filterMap_cons, List.filterMap_nil, hk]
        by_cases hc : m.IsConfirmable = true
        · simp only [hc, if_true]
          rw [List.nodup_append]
          refine ⟨hn0, List.nodup_singleton _, ?_⟩
          intro a ha hb
          simp only [List.mem_singleton] at hb
          rw [hb] at ha
          exact hfresh hc (hl0.1.subset ha)
        · have hc1 : m.IsConfirmable = false := by simpa using hc
          simp only [hc1, Bool.false_eq_true, if_false, List.append_nil]
          exact hn0
      · intro x hx
        rcases List.mem_append.mp hx with hx1 | hx1
        · exact hh0 x hx1
        · simp only [List.mem_singleton] at hx1
          rw [hx1]
          exact ⟨hr1, hr2⟩
  | receive env ok m info =>
    simp only [CoapBase.call, CoapBase.Receive]
    split_ifs
    · apply thin
      rw [CoapBase.SendReset, SendEmptyMessage_pending]
      exact Thinned_refl _
    · exact thin _ (Thinned_refl _)
    · apply thin
      rw [ProcessReceivedRequest_pending]
      exact Thinned_refl _
    · apply thin
      rcases ProcessReceivedResponse_shape cfg env s m info hH with h | ⟨i, r, hget, h | h | h⟩
      · rw [h]; exact Thinned_refl _
      · rw [h]; exact Thinned_eraseIdx _ _
      · rw [h]; exact Thinned_acknowledged hget
      · rw [h]; exact Thinned_trans (Thinned_eraseIdx _ _) (Thinned_acknowledged hget)
  | handleRetransmissionTimer env =>
    simp only [CoapBase.call]
    apply thin
    rw [HandleRetransmissionTimer_pending]
    exact retransmitLoop_thinned env _
  | abortTransaction env hd ctx =>
    simp only [CoapBase.call, CoapBase.AbortTransaction]
    exact thin _ (finalizeSelected_thinned _ _ _)
  | clearRequests env a =>
    simp only [CoapBase.call, CoapBase.ClearRequests]
    exact thin _ (finalizeSelected_thinned _ _ _)

/-- C20, as amended. Start from an engine with no pending request and make any
sequence of calls of `SendMessage`, `Receive`, `HandleRetransmissionTimer`,
`AbortTransaction` and `ClearRequests`, each in any environment, where every
`SendMessage` is made without block-wise hooks and, when its message is
confirmable, with a (token, peer address, peer port) that no pending confirmable
request has at that moment.  Then there is at most one pending confirmable
request for each (token, peer address, peer port). -/
theorem unique_exchanges_kept (cfg : Config) (s0 : CoapBase) (h0 : s0.mPendingRequests = [])
    (l : List CoapBase.Call) (hfresh : CoapBase.AllFresh cfg s0 l) :
    UniqueExchanges (s0.calls cfg l) := by
  have hgen : ∀ (l : List CoapBase.Call) (s : CoapBase), UniqueExchanges s →
      NoBlockHooks s.mPendingRequests → CoapBase.AllFresh cfg s l →
      UniqueExchanges (s.calls cfg l) := by
    intro l
    induction l with
    | nil => intro s hU _ _; exact hU
    | cons c cs ih =>
      intro s hU hH hF
      obtain ⟨hc, hcs⟩ := hF
      obtain ⟨hU1, hH1⟩ := call_invariant cfg s c hU hH hc
      simp only [CoapBase.calls, List.foldl_cons]
      exact ih _ hU1 hH1 hcs
  refine hgen l s0 ?_ ?_ hfresh
  · unfold UniqueExchanges
    rw [h0]
    exact List.nodup_nil
  · intro r hr
    rw [h0] at hr
    simp at hr

theorem unique_exchanges_kept_witness :
    UniqueExchanges ((CoapBase.init 7).calls Config.openthread exampleSession) :=
  unique_exchanges_kept Config.openthread (CoapBase.init 7) rfl exampleSession
    ⟨⟨rfl, rfl, by decide⟩, trivial, trivial, ⟨rfl, rfl, by decide⟩, trivial, trivial⟩

/-! ## The transmission span -/

/-- Multiplying before dividing exceeds dividing before multiplying by less than
the multiplier. -/
theorem mul_div_lt_div_mul_add (a n d : Nat) (hd : 0 < d) (hn : 0 < n) :
    a * n / d < a / d * n + n := by
  rw [Nat.div_lt_iff_lt_mul hd]
  have h1 : a < (a / d + 1) * d := by
    have := Nat.lt_div_mul_add hd (a := a)
    calc a < a / d * d + d := this
      _ = (a / d + 1) * d := by ring
  calc a * n < (a / d + 1) * d * n := Nat.mul_lt_mul_of_pos_right h1 hn
    _ = (a / d * n + n) * d := by ring

/-- C25 (as stated, refuted). With an acknowledgement timeout of 1001 ms and
random factor 3/2 (valid parameters), `CalculateSpan(1)` is 1500, whereas the
product taken before the division gives `floor(1001 * 1 * 3 / 2) = 1501`. -/
theorem CalculateSpan_divides_first :
    exampleOddTimeout.InRange ∧ exampleOddTimeout.IsValid Config.openthread = true ∧
      1 ≤ exampleOddTimeout.mMaxRetransmit + 1 ∧
      exampleOddTimeout.CalculateSpan 1 = 1500 ∧ spanProductFirst exampleOddTimeout 1 = 1501 := by
  decide

/-- C25 (amended). For valid parameters and `n ≤ mMaxRetransmit + 1`,
`CalculateSpan(n)` is `floor(ackTimeout * (2^n - 1) / denominator) * numerator`
without any wrap: the division is taken before the product by the numerator.
This value does not exceed `floor(ackTimeout * (2^n - 1) * numerator / denominator)`,
falls short of it by less than the numerator, and equals it when the
denominator divides `ackTimeout * (2^n - 1)`. -/
theorem CalculateSpan_quotient_first (cfg : Config) (p : TxParameters) (n : Nat)
    (hcfg : cfg.OT_COAP_MAX_RETRANSMIT < 31) (hv : p.IsValid cfg = true)
    (hn : n ≤ p.mMaxRetransmit + 1) :
    p.CalculateSpan n = spanQuotientFirst p n ∧
      spanQuotientFirst p n ≤ spanProductFirst p n ∧
      spanProductFirst p n < spanQuotientFirst p n + p.mAckRandomFactorNumerator ∧
      (p.mAckRandomFactorDenominator ∣ p.mAckTimeout * (2 ^ n - 1) →
        p.CalculateSpan n = spanProductFirst p n) := by
  obtain ⟨hd, hdn, hm, _, hb⟩ := IsValid_bound hcfg hv
  have hpow : 2 ^ n - 1 ≤ 2 ^ (p.mMaxRetransmit + 1) - 1 := by
    have : 2 ^ n ≤ 2 ^ (p.mMaxRetransmit + 1) := Nat.pow_le_pow_right (by norm_num) hn
    omega
  have hAB : p.mAckTimeout * (2 ^ n - 1) ≤ p.mAckTimeout * (2 ^ (p.mMaxRetransmit + 1) - 1) :=
    Nat.mul_le_mul_left _ hpow
  have hA1 : p.mAckTimeout * (2 ^ (p.mMaxRetransmit + 1) - 1) * 1 ≤
      p.mAckTimeout * (2 ^ (p.mMaxRetransmit + 1) - 1) * p.mAckRandomFactorNumerator :=
    Nat.mul_le_mul_left _ (by omega)
  have hle : spanQuotientFirst p n ≤ spanProductFirst p n := div_mul_le_mul_div _ _ _
  have hprod : spanProductFirst p n < 2 ^ 32 := by
    unfold spanProductFirst
    have h1 : p.mAckTimeout * (2 ^ n - 1) * p.mAckRandomFactorNumerator ≤
        p.mAckTimeout * (2 ^ (p.mMaxRetransmit + 1) - 1) * p.mAckRandomFactorNumerator :=
      Nat.mul_le_mul_right _ hAB
    have h2 := Nat.div_le_self (p.mAckTimeout * (2 ^ n - 1) * p.mAckRandomFactorNumerator)
      p.mAckRandomFactorDenominator
    omega
  have hspan : p.CalculateSpan n = spanQuotientFirst p n := by
    have hq : spanQuotientFirst p n < 2 ^ 32 := lt_of_le_of_lt hle hprod
    unfold spanQuotientFirst at hq
    unfold TxParameters.CalculateSpan spanQuotientFirst
    rw [shiftMask_eq (by omega),
      Nat.mod_eq_of_lt (by omega : p.mAckTimeout * (2 ^ n - 1) < 2 ^ 32)]
    exact Nat.mod_eq_of_lt hq
  refine ⟨hspan, hle, mul_div_lt_div_mul_add _ _ _ hd (by omega), ?_⟩
  intro hdvd
  rw [hspan]
  unfold spanQuotientFirst spanProductFirst
  obtain ⟨k, hk⟩ := hdvd
  rw [hk, Nat.mul_div_cancel_left _ hd, Nat.mul_assoc, Nat.mul_div_cancel_left _ hd]

/-- The amended C25 at `exampleOddTimeout` and `n = 1`. -/
theorem CalculateSpan_quotient_first_witness :
    exampleOddTimeout.CalculateSpan 1 = spanQuotientFirst exampleOddTimeout 1 ∧
      spanQuotientFirst exampleOddTimeout 1 ≤ spanProductFirst exampleOddTimeout 1 ∧
      spanProductFirst exampleOddTimeout 1 <
        spanQuotientFirst exampleOddTimeout 1 + exampleOddTimeout.mAckRandomFactorNumerator ∧
      (exampleOddTimeout.mAckRandomFactorDenominator ∣ exampleOddTimeout.mAckTimeout * (2 ^ 1 - 1) →
        exampleOddTimeout.CalculateSpan 1 = spanProductFirst exampleOddTimeout 1) :=
  CalculateSpan_quotient_first Config.openthread exampleOddTimeout 1 (by decide) (by decide)
    (by decide)

/-! ## The request related to a received message -/

/-- The position that `findRelated` returns is that of the first related request. -/
theorem findRelated_some_iff (m : Message) (info : MessageInfo) :
    ∀ (l : List PendingRequest) (i : Nat),
      findRelated m info l = some i ↔
        (∃ r, l.get? i = some r ∧ r.RelatedTo m info = true) ∧
          ∀ j r1, j < i → l.get? j = some r1 → r1.RelatedTo m info = false := by
  intro l
  induction l with
  | nil => intro i; simp [findRelated]
  | cons a l ih =>
    intro i
    have hcond : (((a.mMetadata.mDestinationAddress == info.mPeerAddr &&
          a.mMetadata.mDestinationPort == info.mPeerPort) ||
        a.mMetadata.mDestinationAddress.IsMulticast ||
        a.mMetadata.mDestinationAddress.IsAnycastLocator) &&
        (match m.mType with
         | CoapType.kTypeReset => m.mMessageId == a.mMessage.mMessageId
         | CoapType.kTypeAck => m.mMessageId == a.mMessage.mMessageId
         | CoapType.kTypeConfirmable => m.IsTokenEqual a.mMessage
         | CoapType.kTypeNonConfirmable => m.IsTokenEqual a.mMessage)) = a.RelatedTo m info := by
      unfold PendingRequest.RelatedTo Message.IsTokenEqual
      generalize ((a.mMetadata.mDestinationAddress == info.mPeerAddr &&
          a.mMetadata.mDestinationPort == info.mPeerPort) ||
        a.mMetadata.mDestinationAddress.IsMulticast ||
        a.mMetadata.mDestinationAddress.IsAnycastLocator) = P
      generalize (m.mMessageId == a.mMessage.mMessageId) = X
      generalize (m.mToken == a.mMessage.mToken) = Y
      cases m.mType <;> cases P <;> cases X <;> cases Y <;> rfl
    unfold findRelated
    rw [hcond]
    by_cases ha : a.RelatedTo m info = true
    · rw [if_pos ha]
      constructor
      · intro h
        have hi : i = 0 := by simpa using h.symm
        subst hi
        exact ⟨⟨a, rfl, ha⟩, fun j r1 hj => absurd hj (Nat.not_lt_zero j)⟩
      · rintro ⟨_, hfirst⟩
        cases i with
        | zero => rfl
        | succ k =>
          have := hfirst 0 a (Nat.succ_pos k) rfl
          rw [ha] at this
          cases this
    · rw [if_neg ha]
      have ha1 : a.RelatedTo m info = false := by simpa using ha
      cases i with
      | zero =>
        constructor
        · intro h
          cases hf : findRelated m info l with
          | none => rw [hf] at h; cases h
          | some k => rw [hf] at h; simp at h
        · rintro ⟨⟨r, hr, hrel⟩, _⟩
          simp only [List.get?_cons_zero, Option.some.injEq] at hr
          subst hr
          rw [ha1] at hrel
          cases hrel
      | succ k =>
        constructor
        · intro h
          have hk : findRelated m info l = some k := by
            cases hf : findRelated m info l with
            | none => rw [hf] at h; cases h
            | some k1 =>
              rw [hf] at h
              simp only [Option.map_some', Option.some.injEq, Nat.add_right_cancel_iff] at h
              rw [h]
          obtain ⟨hex, hfirst⟩ := (ih k).mp hk
          refine ⟨by simpa using hex, ?_⟩
          intro j r1 hj hr1
          cases j with
          | zero =>
            simp only [List.get?_cons_zero, Option.some.injEq] at hr1
            subst hr1
            exact ha1
          | succ j1 => exact hfirst j1 r1 (Nat.lt_of_succ_lt_succ hj) (by simpa using hr1)
        · rintro ⟨hex, hfirst⟩
          have hk : findRelated m info l = some k :=
            (ih k).mpr ⟨by simpa using hex, fun j r1 hj hr1 =>
              hfirst (j + 1) r1 (Nat.succ_lt_succ hj) (by simpa using hr1)⟩
          rw [hk]
          rfl

/-- The search `findRelated` finds nothing exactly when no request is related. -/
theorem findRelated_none_iff (m : Message) (info : MessageInfo) (l : List PendingRequest) :
    findRelated m info l = none ↔ ∀ r ∈ l, r.RelatedTo m info = false := by
  constructor
  · intro h r hr
    by_contra hrel
    have hrel1 : r.RelatedTo m info = true := by simpa using hrel
    obtain ⟨n, hn⟩ := List.get?_of_mem hr
    -- the least position of a related request
    have hex : ∃ i, ∃ r1, l.get? i = some r1 ∧ r1.RelatedTo m info = true := ⟨n, r, hn, hrel1⟩
    classical
    obtain ⟨r1, hr1, hrel2⟩ := Nat.find_spec hex
    have hfound : findRelated m info l = some (Nat.find hex) := by
      refine (findRelated_some_iff m info l _).mpr ⟨⟨r1, hr1, hrel2⟩, ?_⟩
      intro j r2 hj hr2
      by_contra hc
      exact Nat.find_min hex hj ⟨r2, hr2, by simpa using hc⟩
    rw [h] at hfound
    cases hfound
  · intro h
    cases hf : findRelated m info l with
    | none => rfl
    | some i =>
      obtain ⟨⟨r, hr, hrel⟩, _⟩ := (findRelated_some_iff m info l i).mp hf
      rw [h r (List.get?_mem hr)] at hrel
      cases hrel

/-- C22. For every pending-request table, received message and message info,
`FindRelatedRequest` returns the entry at position `i` exactly when that entry
satisfies the peer rule and the identifier rule (`RelatedTo`) and no entry before
it in table order does; it returns none exactly when no entry satisfies both.
The call yields no new table: it only reads. -/
theorem FindRelatedRequest_first_related (s : CoapBase) (m : Message) (info : MessageInfo) :
    (∀ i r, s.FindRelatedRequest m info = some (i, r) ↔
        s.mPendingRequests.get? i = some r ∧ r.RelatedTo m info = true ∧
          ∀ j r1, j < i → s.mPendingRequests.get? j = some r1 → r1.RelatedTo m info = false) ∧
      (s.FindRelatedRequest m info = none ↔
        ∀ r ∈ s.mPendingRequests, r.RelatedTo m info = false) := by
  constructor
  · intro i r
    unfold CoapBase.FindRelatedRequest
    constructor
    · intro h
      cases hf : findRelated m info s.mPendingRequests with
      | none => rw [hf] at h; cases h
      | some k =>
        rw [hf] at h
        obtain ⟨⟨r1, hr1, hrel⟩, hfirst⟩ := (findRelated_some_iff m info _ k).mp hf
        simp only [hr1, Option.some.injEq, Prod.mk.injEq] at h
        obtain ⟨hk, hr⟩ := h
        subst hk; subst hr
        exact ⟨hr1, hrel, hfirst⟩
    · rintro ⟨hr, hrel, hfirst⟩
      rw [(findRelated_some_iff m info _ i).mpr ⟨⟨r, hr, hrel⟩, hfirst⟩]
      simp only [hr]
  · unfold CoapBase.FindRelatedRequest
    rw [← findRelated_none_iff]
    cases hf : findRelated m info s.mPendingRequests with
    | none => simp
    | some k =>
      obtain ⟨⟨r1, hr1, _⟩, _⟩ := (findRelated_some_iff m info _ k).mp hf
      simp only [hr1]
      simp

/-! ## The earliest deadline -/

theorem foldl_min_le (ts : List TimeMilli) :
    ∀ t : TimeMilli, ts.foldl min t ≤ t ∧ ∀ x ∈ ts, ts.foldl min t ≤ x := by
  induction ts with
  | nil => intro t; simp
  | cons a ts ih =>
    intro t
    obtain ⟨h1, h2⟩ := ih (min t a)
    simp only [List.foldl_cons, List.mem_cons]
    refine ⟨le_trans h1 (min_le_left t a), ?_⟩
    rintro x (hx | hx)
    · rw [hx]; exact le_trans h1 (min_le_right t a)
    · exact h2 x hx

theorem lt_foldl_min (now : TimeMilli) (ts : List TimeMilli) :
    ∀ t : TimeMilli, now < t → (∀ x ∈ ts, now < x) → now < ts.foldl min t := by
  induction ts with
  | nil => intro t ht _; simpa using ht
  | cons a ts ih =>
    intro t ht hts
    simp only [List.foldl_cons]
    exact ih (min t a) (lt_min ht (hts a (List.mem_cons_self a ts)))
      (fun x hx => hts x (List.mem_cons_of_mem a hx))

/-- What a run of `UpdateIfEarlier` over a list collects, once one time has
been collected. -/
theorem foldl_UpdateIfEarlier {α : Type} (f : α → TimeMilli) (now : TimeMilli) (l : List α) :
    ∀ a : TimeMilli,
      l.foldl (fun n x => n.UpdateIfEarlier (f x))
          ({ mNow := now, mNextTime := some (max now a) } : NextFireTime) =
        { mNow := now, mNextTime := some (max now ((l.map f).foldl min a)) } := by
  induction l with
  | nil => intro a; rfl
  | cons x l ih =>
    intro a
    simp only [List.foldl_cons, List.map_cons]
    rw [← ih (min a (f x))]
    congr 1
    simp only [NextFireTime.UpdateIfEarlier, max_min_distrib_left]

/-- What a run of `UpdateIfEarlier` over a list collects from the unset state. -/
theorem foldl_UpdateIfEarlier_unset {α : Type} (f : α → TimeMilli) (now : TimeMilli) (l : List α) :
    (l.foldl (fun n x => n.UpdateIfEarlier (f x))
        ({ mNow := now, mNextTime := none } : NextFireTime)).mNextTime =
      (earliestTime (l.map f)).map (max now) := by
  cases l with
  | nil => rfl
  | cons x l =>
    simp only [List.foldl_cons, List.map_cons, earliestTime, Option.map_some']
    have h0 : ({ mNow := now, mNextTime := none } : NextFireTime).UpdateIfEarlier (f x) =
        { mNow := now, mNextTime := some (max now (f x)) } := rfl
    rw [h0, foldl_UpdateIfEarlier]

/-- The loop of `ScheduleRetransmissionTimer` collects the earliest deadline. -/
theorem nextRetransmissionTime_earliest (aNow : TimeMilli) (l : List PendingRequest) :
    FireAt (nextRetransmissionTime aNow l) = earliestDeadline aNow l := by
  unfold FireAt nextRetransmissionTime earliestDeadline
  rw [← foldl_UpdateIfEarlier_unset]
  congr 1
  generalize ({ mNow := aNow, mNextTime := none } : NextFireTime) = n
  induction l generalizing n with
  | nil => rfl
  | cons r l ih =>
    by_cases hr : r.isAckedSubscription = true
    · simp only [List.foldl_cons, hr, if_true, List.filter_cons, Bool.not_true, Bool.false_eq_true,
        if_false]
      exact ih n
    · have hr1 : r.isAckedSubscription = false := by simpa using hr
      simp only [List.foldl_cons, hr1, Bool.false_eq_true, if_false, List.filter_cons,
        Bool.not_false, if_true]
      exact ih _

/-- The timer that `ScheduleRetransmissionTimer` leaves. -/
theorem ScheduleRetransmissionTimer_scheduled (env : Env) (s : CoapBase) :
    TimerScheduled env.mNow (s.ScheduleRetransmissionTimer env) :=
  nextRetransmissionTime_earliest env.mNow s.mPendingRequests

/-- C24. For every responses queue and every time at which
`ResponsesQueue::HandleTimer` runs: afterwards the queue holds exactly the
entries whose dequeue deadline is strictly later than that time, unchanged and
in their original order, and the expiry timer is armed at the minimum deadline
of the entries left, stopped (`none`) when none is left. -/
theorem HandleTimer_sweeps_expired (env : Env) (q : ResponsesQueue) :
    (q.HandleTimer env).mQueue =
        q.mQueue.filter (fun r => decide (env.mNow < r.mMetadata.mDequeueTime)) ∧
      (q.HandleTimer env).mTimer = earliestDequeueTime (q.HandleTimer env).mQueue ∧
      ((q.HandleTimer env).mQueue = [] → (q.HandleTimer env).mTimer = none) ∧
      (∀ r ∈ (q.HandleTimer env).mQueue,
        ∃ t, (q.HandleTimer env).mTimer = some t ∧ env.mNow < t ∧ t ≤ r.mMetadata.mDequeueTime) := by
  have hq : (q.HandleTimer env).mQueue =
      q.mQueue.filter (fun r => decide (env.mNow < r.mMetadata.mDequeueTime)) := by
    unfold ResponsesQueue.HandleTimer
    simp only
    congr 1
    funext r
    by_cases h : r.mMetadata.mDequeueTime ≤ env.mNow
    · simp [h, not_lt.mpr h]
    · simp [h, not_le.mp h]
  have hlate : ∀ r ∈ (q.HandleTimer env).mQueue, env.mNow < r.mMetadata.mDequeueTime := by
    intro r hr
    rw [hq] at hr
    simpa using (List.mem_filter.mp hr).2
  have ht : (q.HandleTimer env).mTimer =
      (earliestDequeueTime (q.HandleTimer env).mQueue).map (max env.mNow) := by
    unfold earliestDequeueTime
    rw [← foldl_UpdateIfEarlier_unset]
    rfl
  generalize (q.HandleTimer env).mQueue = kept at hq hlate ht ⊢
  cases kept with
  | nil =>
    refine ⟨hq, ?_, fun _ => ?_, fun r hr => absurd hr (List.not_mem_nil r)⟩
    · rw [ht]; rfl
    · rw [ht]; rfl
  | cons a kept =>
    have hmin : env.mNow < (kept.map (fun r => r.mMetadata.mDequeueTime)).foldl min
        a.mMetadata.mDequeueTime :=
      lt_foldl_min env.mNow _ _ (hlate a (List.mem_cons_self a kept))
        (fun x hx => by
          obtain ⟨r, hr, hrx⟩ := List.mem_map.mp hx
          rw [← hrx]
          exact hlate r (List.mem_cons_of_mem a hr))
    have ht1 : (q.HandleTimer env).mTimer =
        some ((kept.map (fun r => r.mMetadata.mDequeueTime)).foldl min a.mMetadata.mDequeueTime) := by
      rw [ht]
      simp only [earliestDequeueTime, List.map_cons, earliestTime, Option.map_some',
        Option.some.injEq]
      exact max_eq_right (le_of_lt hmin)
    refine ⟨hq, ?_, (fun h => by cases h), ?_⟩
    · rw [ht1]; rfl
    · intro r hr
      refine ⟨_, ht1, hmin, ?_⟩
      obtain ⟨h1, h2⟩ := foldl_min_le (kept.map (fun r => r.mMetadata.mDequeueTime))
        a.mMetadata.mDequeueTime
      rcases List.mem_cons.mp hr with hra | hrk
      · rw [hra]; exact h1
      · exact h2 _ (List.mem_map.mpr ⟨r, hrk, rfl⟩)

/-- The sweep of `exampleExpiring` at time 400 removes the entry due at 400 and
arms the timer at 700. -/
theorem HandleTimer_example :
    ((exampleExpiring.HandleTimer (Env.allOk 400 0)).mQueue.map
        (fun r => r.mMessage.mMessageId) = [1, 3]) ∧
      (exampleExpiring.HandleTimer (Env.allOk 400 0)).mTimer = some 700 ∧
      (exampleExpiring.HandleTimer (Env.allOk 1000 0)) = { mQueue := [], mTimer := none } := by
  decide

/-! ## The retransmission timer after a rescheduling operation -/

/-- Up to line 261 `SendMessage` leaves the pending requests and the
retransmission timer alone, and changes the type of the message only from
non-confirmable to confirmable. -/
theorem SendMessage_reaches (cfg : Config) (env : Env) (s : CoapBase) (m : Message)
    (info : MessageInfo) (tx : TxParameters) (hd : Option Nat) (ctx : Nat) (th rh : Option Nat) :
    (∃ e s1, e ≠ Error.kErrorNone ∧
        CoapBase.SendMessage cfg env s m info tx hd ctx th rh = (e, s1) ∧
        s1.mPendingRequests = s.mPendingRequests ∧
        s1.mRetransmissionTimer = s.mRetransmissionTimer) ∨
      (∃ m1 s1,
        CoapBase.SendMessage cfg env s m info tx hd ctx th rh =
          CoapBase.sendAndStore env s1 m1 info tx hd ctx th rh ∧
        s1.mPendingRequests = s.mPendingRequests ∧
        s1.mRetransmissionTimer = s.mRetransmissionTimer ∧
        (m1.mType = m.mType ∨
          (m.mType = CoapType.kTypeNonConfirmable ∧ m1.mType = CoapType.kTypeConfirmable))) := by
  unfold CoapBase.SendMessage
  split
  · -- kTypeAck
    obtain ⟨⟨h1, _⟩, _⟩ := firstBlock_header env m ctx th kOptionBlock2
    by_cases hb : (firstBlock env m ctx th kOptionBlock2).1 = Error.kErrorNone
    · simp only [hb, ne_eq, not_true_eq_false, if_false]
      by_cases hcache : (firstBlock env m ctx th kOptionBlock2).2.2.2 = true
      · simp only [hcache, if_true]
        unfold CoapBase.CacheLastBlockResponse
        by_cases hcl : env.mClone (firstBlock env m ctx th kOptionBlock2).2.1 = true
        · simp only [hcl, if_true, not_true_eq_false, if_false]
          right
          exact ⟨_, _, rfl, rfl, rfl, Or.inl h1⟩
        · simp only [hcl, Bool.false_eq_true, if_false]
          left
          exact ⟨Error.kErrorNoBufs,
            (s.emit (firstBlock env m ctx th kOptionBlock2).2.2.1).FreeLastBlockResponse,
            by decide, by simp, rfl, rfl⟩
      · simp only [hcache, Bool.false_eq_true, if_false, not_true_eq_false]
        right
        exact ⟨_, _, rfl, rfl, rfl, Or.inl h1⟩
    · simp only [hb, ne_eq, not_false_eq_true, if_true]
      left
      exact ⟨_, _, hb, rfl, rfl, rfl⟩
  · right
    exact ⟨m, s, rfl, rfl, rfl, Or.inl rfl⟩
  · obtain ⟨⟨h1, _⟩, _⟩ := firstBlock_header env m ctx th kOptionBlock1
    by_cases hb : (firstBlock env m ctx th kOptionBlock1).1 = Error.kErrorNone
    · simp only [hb, ne_eq, not_true_eq_false, if_false]
      right
      refine ⟨_, _, rfl, rfl, rfl, ?_⟩
      split
      · rename_i hp
        simp only [Bool.and_eq_true] at hp
        right
        refine ⟨?_, rfl⟩
        have := hp.2
        simp only [Message.IsNonConfirmable, beq_iff_eq] at this
        rw [← h1]; exact this
      · left
        simpa using h1
    · simp only [hb, ne_eq, not_false_eq_true, if_true]
      left
      exact ⟨_, _, hb, rfl, rfl, rfl⟩

/-- The calls of a trace do not bear on the timer. -/
theorem TimerScheduled_emit {aNow : TimeMilli} {s : CoapBase} (l : List Event)
    (h : TimerScheduled aNow s) : TimerScheduled aNow (s.emit l) := h

/-- The "Observe" step leaves the table and the timer alone or reschedules. -/
theorem observeStep_timer {env : Env} {s : CoapBase} {m : Message} {info : MessageInfo}
    {obs : Bool} {s1 : CoapBase} (h : observeStep env s m info = .ok (obs, s1)) :
    (s1.mPendingRequests = s.mPendingRequests ∧ s1.mRetransmissionTimer = s.mRetransmissionTimer) ∨
      TimerScheduled env.mNow s1 := by
  unfold observeStep at h
  split at h
  · simp only [Except.ok.injEq, Prod.mk.injEq] at h
    rw [← h.2]; exact Or.inl ⟨rfl, rfl⟩
  · split at h
    · split at h
      · simp at h
      · split at h
        · split at h
          · simp only [Except.ok.injEq, Prod.mk.injEq] at h
            rw [← h.2]
            right
            exact TimerScheduled_emit _ (ScheduleRetransmissionTimer_scheduled env _)
          · simp only [Except.ok.injEq, Prod.mk.injEq] at h
            rw [← h.2]; exact Or.inl ⟨rfl, rfl⟩
        · simp only [Except.ok.injEq, Prod.mk.injEq] at h
          rw [← h.2]; exact Or.inl ⟨rfl, rfl⟩
    · simp only [Except.ok.injEq, Prod.mk.injEq] at h
      rw [← h.2]; exact Or.inl ⟨rfl, rfl⟩

/-- The retransmission timer after lines 261 to 350 of `SendMessage`: table and
timer are as before, or the timer has been rescheduled; it has been rescheduled
when a copy was due and the call succeeded. -/
theorem sendAndStore_timer (env : Env) (s : CoapBase) (m : Message) (info : MessageInfo)
    (tx : TxParameters) (hd : Option Nat) (ctx : Nat) (th rh : Option Nat) :
    (((CoapBase.sendAndStore env s m info tx hd ctx th rh).2.mPendingRequests = s.mPendingRequests ∧
        (CoapBase.sendAndStore env s m info tx hd ctx th rh).2.mRetransmissionTimer =
          s.mRetransmissionTimer) ∨
      TimerScheduled env.mNow (CoapBase.sendAndStore env s m info tx hd ctx th rh).2) ∧
    ((m.IsConfirmable = true ∨ (m.IsNonConfirmable = true ∧ hd.isSome = true)) →
      (CoapBase.sendAndStore env s m info tx hd ctx th rh).1 = Error.kErrorNone →
      TimerScheduled env.mNow (CoapBase.sendAndStore env s m info tx hd ctx th rh).2) := by
  have key : ∀ c : Message,
      let r : Error × CoapBase :=
        match observeStep env s m info with
        | .error e => (e, s)
        | .ok (observe, s1) =>
          match s1.CopyAndEnqueueMessage env c (newMetadata env m info tx hd ctx th rh observe) with
          | none => (Error.kErrorNoBufs, s1)
          | some s2 =>
            if (s2.Send env m info).1 ≠ Error.kErrorNone then
              ((s2.Send env m info).1, (s2.Send env m info).2.DequeueMessage env s1.mPendingRequests.length)
            else s2.Send env m info
      ((r.2.mPendingRequests = s.mPendingRequests ∧ r.2.mRetransmissionTimer = s.mRetransmissionTimer) ∨
        TimerScheduled env.mNow r.2) ∧
      (r.1 = Error.kErrorNone → TimerScheduled env.mNow r.2) := by
    intro c
    cases ho : observeStep env s m info with
    | error e =>
      have he : e ≠ Error.kErrorNone := by
        intro h0
        rw [h0] at ho
        unfold observeStep at ho
        split at ho
        · cases ho
        · split at ho
          · split at ho
            · rename_i e1 hread
              simp only [Except.error.injEq] at ho
              rw [ho] at hread
              unfold ReadOptionValueUint at hread
              split at hread <;> cases hread
            · split at ho
              · split at ho <;> cases ho
              · cases ho
          · cases ho
      exact ⟨Or.inl ⟨rfl, rfl⟩, fun h => absurd h he⟩
    | ok p =>
      obtain ⟨obs, s1⟩ := p
      have ht := observeStep_timer ho
      simp only
      unfold CoapBase.CopyAndEnqueueMessage
      by_cases h1 : env.mClone c = true
      · by_cases h2 : env.mAppend c = true
        · simp only [h1, h2, Bool.not_true, Bool.false_eq_true, if_false]
          by_cases h3 : (env.mSender m info) = Error.kErrorNone
          · simp only [CoapBase.Send, h3, ne_eq, not_true_eq_false, if_false]
            have hs := TimerScheduled_emit [Event.send m info]
              (ScheduleRetransmissionTimer_scheduled env
                { s1 with mPendingRequests := s1.mPendingRequests ++
                    [{ mMessage := c, mMetadata := newMetadata env m info tx hd ctx th rh obs }] })
            exact ⟨Or.inr hs, fun _ => hs⟩
          · simp only [CoapBase.Send, h3, ne_eq, not_false_eq_true, if_true]
            exact ⟨Or.inr (ScheduleRetransmissionTimer_scheduled env _), fun h => h.elim⟩
        · simp only [h1, h2, Bool.not_true, Bool.not_false, Bool.false_eq_true, if_false, if_true]
          exact ⟨ht, fun h => by cases h⟩
      · simp only [h1, Bool.not_false, if_true]
        exact ⟨ht, fun h => by cases h⟩
  unfold CoapBase.sendAndStore
  by_cases hc : m.IsConfirmable = true
  · simp only [hc, if_true]
    exact ⟨(key m).1, fun _ => (key m).2⟩
  · by_cases hn : (m.IsNonConfirmable && hd.isSome) = true
    · simp only [hc, hn, if_true, if_false]
      exact ⟨(key m.headerOnly).1, fun _ => (key m.headerOnly).2⟩
    · simp only [hc, hn, if_false, CoapBase.Send, CoapBase.emit]
      refine ⟨Or.inl ⟨rfl, rfl⟩, ?_⟩
      rintro (h | ⟨h1, h2⟩)
      · simp at h
      · simp [h1, h2] at hn

/-- The retransmission timer after `SendMessage`: table and timer are as before,
or the timer has been rescheduled; it has been rescheduled when the message is
confirmable, or non-confirmable with a handler, and the call succeeded. -/
theorem SendMessage_timer (cfg : Config) (env : Env) (s : CoapBase) (m : Message)
    (info : MessageInfo) (tx : TxParameters) (hd : Option Nat) (ctx : Nat) (th rh : Option Nat) :
    (((CoapBase.SendMessage cfg env s m info tx hd ctx th rh).2.mPendingRequests =
          s.mPendingRequests ∧
        (CoapBase.SendMessage cfg env s m info tx hd ctx th rh).2.mRetransmissionTimer =
          s.mRetransmissionTimer) ∨
      TimerScheduled env.mNow (CoapBase.SendMessage cfg env s m info tx hd ctx th rh).2) ∧
    ((m.IsConfirmable = true ∨ (m.IsNonConfirmable = true ∧ hd.isSome = true)) →
      (CoapBase.SendMessage cfg env s m info tx hd ctx th rh).1 = Error.kErrorNone →
      TimerScheduled env.mNow (CoapBase.SendMessage cfg env s m info tx hd ctx th rh).2) := by
  rcases SendMessage_reaches cfg env s m info tx hd ctx th rh with
    ⟨e, s1, he, heq, hp, ht⟩ | ⟨m1, s1, heq, hp, ht, hty⟩
  · rw [heq]
    exact ⟨Or.inl ⟨hp, ht⟩, fun _ h => absurd h he⟩
  · rw [heq]
    obtain ⟨h1, h2⟩ := sendAndStore_timer env s1 m1 info tx hd ctx th rh
    refine ⟨?_, ?_⟩
    · rcases h1 with ⟨ha, hb⟩ | hs
      · exact Or.inl ⟨ha.trans hp, hb.trans ht⟩
      · exact Or.inr hs
    · intro hdue
      apply h2
      rcases hdue with hc | ⟨hn, hh⟩
      · left
        simp only [Message.IsConfirmable, beq_iff_eq] at hc ⊢
        rcases hty with h | ⟨h, _⟩
        · rw [h]; exact hc
        · rw [hc] at h; cases h
      · simp only [Message.IsNonConfirmable, beq_iff_eq] at hn
        rcases hty with h | ⟨_, h⟩
        · right
          exact ⟨by simp [Message.IsNonConfirmable, h, hn], hh⟩
        · left
          simp [Message.IsConfirmable, h]

theorem foldl_min_mem (ts : List TimeMilli) : ∀ t : TimeMilli, ts.foldl min t ∈ t :: ts := by
  induction ts with
  | nil => intro t; simp
  | cons a ts ih =>
    intro t
    simp only [List.foldl_cons]
    rcases List.mem_cons.mp (ih (min t a)) with h | h
    · rw [h]
      rcases min_choice t a with h1 | h1
      · rw [h1]; exact List.mem_cons_self _ _
      · rw [h1]; exact List.mem_cons_of_mem _ (List.mem_cons_self _ _)
    · exact List.mem_cons_of_mem _ (List.mem_cons_of_mem _ h)

/-- What `TimerScheduled` says of the timer: it is stopped when every stored
request is an acknowledged Observe subscription; otherwise it is armed, not
before the current time, at the deadline of a stored request that is not such a
subscription (or at the current time when that deadline has passed), and no
such request has an earlier deadline unless that deadline is in the past. -/
theorem TimerScheduled_bounds {aNow : TimeMilli} {s : CoapBase} (h : TimerScheduled aNow s) :
    ((∀ r ∈ s.mPendingRequests, r.isAckedSubscription = true) → s.mRetransmissionTimer = none) ∧
      ((∃ r ∈ s.mPendingRequests, r.isAckedSubscription = false) →
        ∃ t, s.mRetransmissionTimer = some t ∧ aNow ≤ t ∧
          (∃ r0 ∈ s.mPendingRequests, r0.isAckedSubscription = false ∧
            t = max aNow r0.mMetadata.mNextTimerShot) ∧
          ∀ r ∈ s.mPendingRequests, r.isAckedSubscription = false →
            t ≤ r.mMetadata.mNextTimerShot ∨ r.mMetadata.mNextTimerShot < aNow) := by
  unfold TimerScheduled earliestDeadline at h
  constructor
  · intro hall
    have hnil : s.mPendingRequests.filter (fun r => !r.isAckedSubscription) = [] := by
      rw [List.filter_eq_nil_iff]
      intro r hr
      simp [hall r hr]
    rw [h, hnil]
    rfl
  · rintro ⟨r1, hr1, hacked1⟩
    have hmem : ∀ r ∈ s.mPendingRequests, r.isAckedSubscription = false →
        r.mMetadata.mNextTimerShot ∈
          (s.mPendingRequests.filter (fun r => !r.isAckedSubscription)).map
            (fun r => r.mMetadata.mNextTimerShot) := by
      intro r hr ha
      exact List.mem_map.mpr ⟨r, List.mem_filter.mpr ⟨hr, by simp [ha]⟩, rfl⟩
    have hback : ∀ x ∈ (s.mPendingRequests.filter (fun r => !r.isAckedSubscription)).map
        (fun r => r.mMetadata.mNextTimerShot),
        ∃ r0 ∈ s.mPendingRequests, r0.isAckedSubscription = false ∧
          x = r0.mMetadata.mNextTimerShot := by
      intro x hx
      obtain ⟨r0, hr0, hx0⟩ := List.mem_map.mp hx
      obtain ⟨h1, h2⟩ := List.mem_filter.mp hr0
      exact ⟨r0, h1, by simpa using h2, hx0.symm⟩
    generalize (s.mPendingRequests.filter (fun r => !r.isAckedSubscription)).map
      (fun r => r.mMetadata.mNextTimerShot) = L at h hmem hback
    cases L with
    | nil => exact absurd (hmem r1 hr1 hacked1) (List.not_mem_nil _)
    | cons t0 ts =>
      obtain ⟨hle0, hle⟩ := foldl_min_le ts t0
      refine ⟨max aNow (ts.foldl min t0), by rw [h]; rfl, le_max_left _ _, ?_, ?_⟩
      · obtain ⟨r0, hr0, ha0, hx0⟩ := hback _ (foldl_min_mem ts t0)
        exact ⟨r0, hr0, ha0, by rw [hx0]⟩
      · intro r hr ha
        have hmn : ts.foldl min t0 ≤ r.mMetadata.mNextTimerShot := by
          rcases List.mem_cons.mp (hmem r hr ha) with hx | hx
          · rw [hx]; exact hle0
          · exact hle _ hx
        by_cases hnow : aNow ≤ r.mMetadata.mNextTimerShot
        · exact Or.inl (max_le hnow hmn)
        · exact Or.inr (not_le.mp hnow)

/-- C23. After every operation that reschedules, in an engine call made at time
`env.mNow`, the retransmission timer is `TimerScheduled`: a `SendMessage` that
stores a copy (the message is confirmable, or non-confirmable with a handler,
and the call succeeds), `DequeueMessage`, `FinalizeCoapTransaction` and
`HandleRetransmissionTimer`; every other `SendMessage` leaves table and timer as
they were or reschedules as well.  `TimerScheduled` is: the timer is stopped when
the table has no entry other than acknowledged Observe subscriptions, and
otherwise armed at the minimum `mNextTimerShot` over the other entries, not
earlier than the current time; so none of them has a deadline earlier than the
fire time unless that deadline is already in the past. -/
theorem retransmission_timer_rescheduled (cfg : Config) (env : Env) (s : CoapBase) :
    (∀ (m : Message) (info : MessageInfo) (tx : TxParameters) (hd : Option Nat) (ctx : Nat)
        (th rh : Option Nat),
        (((s.SendMessage cfg env m info tx hd ctx th rh).2.mPendingRequests = s.mPendingRequests ∧
            (s.SendMessage cfg env m info tx hd ctx th rh).2.mRetransmissionTimer =
              s.mRetransmissionTimer) ∨
          TimerScheduled env.mNow (s.SendMessage cfg env m info tx hd ctx th rh).2) ∧
        ((m.IsConfirmable = true ∨ (m.IsNonConfirmable = true ∧ hd.isSome = true)) →
          (s.SendMessage cfg env m info tx hd ctx th rh).1 = Error.kErrorNone →
          TimerScheduled env.mNow (s.SendMessage cfg env m info tx hd ctx th rh).2)) ∧
      (∀ i, TimerScheduled env.mNow (s.DequeueMessage env i)) ∧
      (∀ i md resp info res,
        TimerScheduled env.mNow (s.FinalizeCoapTransaction env i md resp info res)) ∧
      TimerScheduled env.mNow (s.HandleRetransmissionTimer env) ∧
      (∀ s1 : CoapBase, TimerScheduled env.mNow s1 →
        ((∀ r ∈ s1.mPendingRequests, r.isAckedSubscription = true) →
          s1.mRetransmissionTimer = none) ∧
        ((∃ r ∈ s1.mPendingRequests, r.isAckedSubscription = false) →
          ∃ t, s1.mRetransmissionTimer = some t ∧ env.mNow ≤ t ∧
            (∃ r0 ∈ s1.mPendingRequests, r0.isAckedSubscription = false ∧
              t = max env.mNow r0.mMetadata.mNextTimerShot) ∧
            ∀ r ∈ s1.mPendingRequests, r.isAckedSubscription = false →
              t ≤ r.mMetadata.mNextTimerShot ∨ r.mMetadata.mNextTimerShot < env.mNow)) := by
  refine ⟨fun m info tx hd ctx th rh => SendMessage_timer cfg env s m info tx hd ctx th rh,
    fun i => ScheduleRetransmissionTimer_scheduled env _,
    fun i md resp info res =>
      TimerScheduled_emit _ (ScheduleRetransmissionTimer_scheduled env _),
    ScheduleRetransmissionTimer_scheduled env _,
    fun s1 h => TimerScheduled_bounds h⟩

/-- Rescheduling `exampleThree` at time 2000 arms the timer at 2100, the deadline
of its third request; at time 2300 it arms it at 2300; once the two requests
that are not acknowledged subscriptions are dequeued the timer is stopped. -/
theorem retransmission_timer_example :
    (exampleThree.ScheduleRetransmissionTimer (Env.allOk 2000 0)).mRetransmissionTimer = some 2100 ∧
      (exampleThree.ScheduleRetransmissionTimer (Env.allOk 2300 0)).mRetransmissionTimer =
        some 2300 ∧
      ((exampleThree.DequeueMessage (Env.allOk 2000 0) 2).DequeueMessage
        (Env.allOk 2000 0) 0).mRetransmissionTimer = none ∧
      ((exampleThree.DequeueMessage (Env.allOk 2000 0) 2).DequeueMessage
        (Env.allOk 2000 0) 0).mPendingRequests = [exampleSubscription] := by
  decide

/-! ## An ACK that the transport refuses -/

/-- C21 (as stated, refuted). The ACK `examplePiggybacked` is sent to
`examplePeer` at time 200 from an engine with an empty responses queue, and the
transport refuses it with `kErrorNoBufs`: `SendMessage` returns that error, and
the responses queue then holds the response that could not be sent. -/
theorem ack_send_failure_leaves_response :
    (CoapBase.init 7).mResponsesQueue.mQueue = [] ∧
      (CoapBase.SendMessage Config.openthread (Env.sendFails 200 0) (CoapBase.init 7)
        examplePiggybacked examplePeer exampleTx none 0 none none).1 = Error.kErrorNoBufs ∧
      (CoapBase.SendMessage Config.openthread (Env.sendFails 200 0) (CoapBase.init 7)
        examplePiggybacked examplePeer exampleTx none 0 none none).2.mResponsesQueue.mQueue =
        [exampleCached] ∧
      (CoapBase.SendMessage Config.openthread (Env.sendFails 200 0) (CoapBase.init 7)
        examplePiggybacked examplePeer exampleTx none 0 none none).2.mTrace =
        [Event.send examplePiggybacked examplePeer] := by
  decide

/-- `SendMessage` for an ACK that gets as far as the transport. -/
theorem SendMessage_ack_sent (cfg : Config) (env : Env) (s : CoapBase) (m : Message)
    (info : MessageInfo) (tx : TxParameters) (hd : Option Nat) (ctx : Nat) (th rh : Option Nat)
    (hty : m.mType = CoapType.kTypeAck) (hreach : ackReachesTransport env m ctx th = true) :
    ∃ s1 : CoapBase,
      s1.mPendingRequests = s.mPendingRequests ∧
      s1.mRetransmissionTimer = s.mRetransmissionTimer ∧
      s1.mResponsesQueue = s.mResponsesQueue ∧
      CoapBase.SendMessage cfg env s m info tx hd ctx th rh =
        (env.mSender (ackAsSent env m ctx th) info,
          CoapBase.emit
            { s1 with mResponsesQueue :=
                s.mResponsesQueue.EnqueueResponse cfg env (ackAsSent env m ctx th) info tx }
            [Event.send (ackAsSent env m ctx th) info]) := by
  obtain ⟨⟨h1, _⟩, _⟩ := firstBlock_header env m ctx th kOptionBlock2
  unfold ackReachesTransport ackAsSent at hreach
  simp only [Bool.and_eq_true, beq_iff_eq, Bool.or_eq_true, Bool.not_eq_true'] at hreach
  obtain ⟨hb, hcache⟩ := hreach
  have hc1 : (firstBlock env m ctx th kOptionBlock2).2.1.IsConfirmable = false := by
    simp [Message.IsConfirmable, h1, hty]
  have hn1 : (firstBlock env m ctx th kOptionBlock2).2.1.IsNonConfirmable = false := by
    simp [Message.IsNonConfirmable, h1, hty]
  unfold CoapBase.SendMessage ackAsSent
  simp only [hty, hb, ne_eq, not_true_eq_false, if_false]
  by_cases hflag : (firstBlock env m ctx th kOptionBlock2).2.2.2 = true
  · have hcl : env.mClone (firstBlock env m ctx th kOptionBlock2).2.1 = true := by
      rcases hcache with h | h
      · rw [hflag] at h; cases h
      · exact h
    refine ⟨{ (s.emit (firstBlock env m ctx th kOptionBlock2).2.2.1).FreeLastBlockResponse with
      mLastResponse := some (firstBlock env m ctx th kOptionBlock2).2.1 }, rfl, rfl, rfl, ?_⟩
    simp only [hflag, if_true, CoapBase.CacheLastBlockResponse, hcl, not_true_eq_false, if_false,
      CoapBase.sendAndStore, hc1, hn1, Bool.false_eq_true, Bool.false_and, CoapBase.Send]
    rfl
  · refine ⟨s.emit (firstBlock env m ctx th kOptionBlock2).2.2.1, rfl, rfl, rfl, ?_⟩
    simp only [hflag, Bool.false_eq_true, if_false, not_true_eq_false,
      CoapBase.sendAndStore, hc1, hn1, Bool.false_and, CoapBase.Send]
    rfl

/-- C21 (amended). For every call of `SendMessage` with a message of type ACK in
which the transport is reached, whatever the transport answers and so also when
it refuses the message: the call returns the result of the transport; the
pending-request table and the retransmission timer are as before; the responses
queue is the one that `EnqueueResponse` leaves for the response.  So the queue
is as before when an entry with the message-ID and peer of the response was
cached already, and otherwise, when a copy can be allocated, the response is its
last entry, behind the entries that `UpdateQueue` keeps, also when it could not
be sent. -/
theorem ack_send_failure_keeps_response (cfg : Config) (env : Env) (s : CoapBase) (m : Message)
    (info : MessageInfo) (tx : TxParameters) (hd : Option Nat) (ctx : Nat) (th rh : Option Nat)
    (hty : m.mType = CoapType.kTypeAck) (hreach : ackReachesTransport env m ctx th = true) :
    (s.SendMessage cfg env m info tx hd ctx th rh).1 = env.mSender (ackAsSent env m ctx th) info ∧
      (s.SendMessage cfg env m info tx hd ctx th rh).2.mPendingRequests = s.mPendingRequests ∧
      (s.SendMessage cfg env m info tx hd ctx th rh).2.mRetransmissionTimer =
        s.mRetransmissionTimer ∧
      (s.SendMessage cfg env m info tx hd ctx th rh).2.mResponsesQueue =
        s.mResponsesQueue.EnqueueResponse cfg env (ackAsSent env m ctx th) info tx ∧
      ((s.mResponsesQueue.FindMatchedResponse (ackAsSent env m ctx th) info).isSome = true →
        (s.SendMessage cfg env m info tx hd ctx th rh).2.mResponsesQueue = s.mResponsesQueue) ∧
      (s.mResponsesQueue.FindMatchedResponse (ackAsSent env m ctx th) info = none →
        env.mClone (ackAsSent env m ctx th) = true → env.mAppend (ackAsSent env m ctx th) = true →
        (s.SendMessage cfg env m info tx hd ctx th rh).2.mResponsesQueue.mQueue =
          (s.mResponsesQueue.UpdateQueue cfg).mQueue ++
            [cachedEntry cfg env (ackAsSent env m ctx th) info tx]) := by
  obtain ⟨s1, hp, ht, _, heq⟩ := SendMessage_ack_sent cfg env s m info tx hd ctx th rh hty hreach
  rw [heq]
  refine ⟨rfl, hp, ht, rfl, ?_, ?_⟩
  · intro hsome
    show s.mResponsesQueue.EnqueueResponse cfg env (ackAsSent env m ctx th) info tx = s.mResponsesQueue
    unfold ResponsesQueue.EnqueueResponse
    simp only [hsome, if_true]
  · intro hnone hcl happ
    show (s.mResponsesQueue.EnqueueResponse cfg env (ackAsSent env m ctx th) info tx).mQueue = _
    rw [EnqueueResponse_queue hnone]
    simp only [hcl, happ, and_self, if_true, cachedEntry]

/-- The amended C21 at the refused ACK `examplePiggybacked`. -/
theorem ack_send_failure_keeps_response_witness :
    (CoapBase.SendMessage Config.openthread (Env.sendFails 200 0) exampleSent examplePiggybacked
        examplePeer exampleTx none 0 none none).1 = Error.kErrorNoBufs ∧
      (CoapBase.SendMessage Config.openthread (Env.sendFails 200 0) exampleSent examplePiggybacked
        examplePeer exampleTx none 0 none none).2.mPendingRequests = exampleSent.mPendingRequests ∧
      (CoapBase.SendMessage Config.openthread (Env.sendFails 200 0) exampleSent examplePiggybacked
        examplePeer exampleTx none 0 none none).2.mResponsesQueue.mQueue = [exampleCached] := by
  have h := ack_send_failure_keeps_response Config.openthread (Env.sendFails 200 0) exampleSent
    examplePiggybacked examplePeer exampleTx none 0 none none rfl (by decide)
  exact ⟨h.1, h.2.1, (h.2.2.2.2.2 (by decide) rfl rfl).trans (by decide)⟩

/-! ## The options of the next block request -/

theorem AppendOption_of_ok {m : Message} {room : Bool} {n : Nat} {v : List Nat}
    (h : (m.AppendOption room n v).1 = Error.kErrorNone) :
    (m.AppendOption room n v).2 =
      { m with mOptions := m.mOptions ++ [{ mNumber := n, mValue := v }] } := by
  by_cases h1 : n < m.optionLast
  · simp [Message.AppendOption, h1] at h
  · by_cases h2 : room = true
    · simp [Message.AppendOption, h1, h2]
    · simp [Message.AppendOption, h1, h2] at h

theorem AppendBlockOption_of_ok {m : Message} {room : Bool} {ty : BlockType} {num : Nat}
    {more : Bool} {size : Nat}
    (h : (m.AppendBlockOption room ty num more size).1 = Error.kErrorNone) :
    (m.AppendBlockOption room ty num more size).2 =
      { m with mOptions := m.mOptions ++ [blockOption ty num more size] } := by
  by_cases h1 : 6 < size
  · simp [Message.AppendBlockOption, h1] at h
  · by_cases h2 : 0xFFFFF ≤ num
    · simp [Message.AppendBlockOption, h1, h2] at h
    · unfold Message.AppendBlockOption at h ⊢
      rw [if_neg h1, if_neg h2] at h ⊢
      rw [AppendOption_of_ok h]
      rfl

theorem writeBlockOption_of_ok {env : Env} {ty : BlockType} {more : Bool} {rq msg : Message}
    (h : (writeBlockOption env ty more rq msg).1 = Error.kErrorNone) :
    (writeBlockOption env ty more rq msg).2 =
      { rq with
        mOptions := rq.mOptions ++
          [blockOption ty (msg.mBlockWiseBlockNumber + 1) more msg.mBlockWiseBlockSize]
        mBlockWiseBlockNumber := (msg.mBlockWiseBlockNumber + 1) % 2 ^ 32
        mBlockWiseBlockSize := msg.mBlockWiseBlockSize
        mMoreBlocksFlag := more } := by
  unfold writeBlockOption at h ⊢
  simp only at h ⊢
  split_ifs at h ⊢ with ha
  · exact absurd h ha
  · have ha1 : (rq.AppendBlockOption (env.mAppend rq) ty (msg.mBlockWiseBlockNumber + 1) more
        msg.mBlockWiseBlockSize).1 = Error.kErrorNone := by
      by_contra hc; exact ha hc
    simp only [AppendBlockOption_of_ok ha1]

/-- The copy loop once the block option is written, when it reports no error. -/
theorem copyOptions_set_of_ok (env : Env) (ty : BlockType) (more : Bool) (msg : Message) :
    ∀ (opts : List CoapOption) (rq : Message),
      (copyOptions env ty more msg opts rq true).1 = Error.kErrorNone →
      (copyOptions env ty more msg opts rq true).2 =
        ({ rq with mOptions := rq.mOptions ++ opts.takeWhile (fun x => x.GetLength != 0) },
          true) := by
  intro opts
  induction opts with
  | nil => intro rq _; simp [copyOptions]
  | cons o os ih =>
    intro rq hok
    by_cases h0 : o.GetLength = 0
    · have hc : copyOptions env ty more msg (o :: os) rq true = (Error.kErrorNone, rq, true) := by
        unfold copyOptions; simp [h0]
      rw [hc]
      simp [List.takeWhile_cons, h0]
    · by_cases ha : (rq.AppendOption (env.mAppend rq) o.mNumber o.mValue).1 = Error.kErrorNone
      · have hc : copyOptions env ty more msg (o :: os) rq true =
            copyOptions env ty more msg os
              (rq.AppendOption (env.mAppend rq) o.mNumber o.mValue).2 true := by
          conv_lhs => unfold copyOptions
          simp [h0, ha]
        rw [hc] at hok ⊢
        rw [ih _ hok, AppendOption_of_ok ha]
        simp [List.takeWhile_cons, h0]
      · have hc : (copyOptions env ty more msg (o :: os) rq true).1 =
            (rq.AppendOption (env.mAppend rq) o.mNumber o.mValue).1 := by
          conv_lhs => unfold copyOptions
          simp [h0, ha]
        rw [hc] at hok
        exact absurd hok ha

theorem afterCopy_error {env : Env} {ty : BlockType} {more : Bool} {msg : Message}
    {l : Error × Message × Bool} (h : (afterCopy env ty more msg l).1 = Error.kErrorNone) :
    l.1 = Error.kErrorNone := by
  by_contra hc
  unfold afterCopy at h
  rw [if_pos hc] at h
  exact hc h

/-- The request after the copy loop, from a point at which the block option is
written already, when no error is reported. -/
theorem afterCopy_set_of_ok (env : Env) (ty : BlockType) (more : Bool) (msg : Message)
    (opts : List CoapOption) (rq : Message)
    (hok : (afterCopy env ty more msg (copyOptions env ty more msg opts rq true)).1 =
      Error.kErrorNone) :
    (afterCopy env ty more msg (copyOptions env ty more msg opts rq true)).2 =
      { rq with mOptions := rq.mOptions ++ opts.takeWhile (fun x => x.GetLength != 0) } := by
  have hr := afterCopy_error hok
  have h2 := copyOptions_set_of_ok env ty more msg opts rq hr
  unfold afterCopy
  rw [if_neg (by simpa using hr), h2]
  simp

/-- The request after the copy loop, from a point at which the block option is
not yet written, when no error is reported. -/
theorem afterCopy_of_ok (env : Env) (ty : BlockType) (more : Bool) (msg : Message) :
    ∀ (opts : List CoapOption) (rq : Message),
      (afterCopy env ty more msg (copyOptions env ty more msg opts rq false)).1 =
        Error.kErrorNone →
      (afterCopy env ty more msg (copyOptions env ty more msg opts rq false)).2 =
        { rq with
          mOptions := rq.mOptions ++ nextBlockOptions (blockOptionNumber ty)
            (blockOption ty (msg.mBlockWiseBlockNumber + 1) more msg.mBlockWiseBlockSize) opts
          mBlockWiseBlockNumber := (msg.mBlockWiseBlockNumber + 1) % 2 ^ 32
          mBlockWiseBlockSize := msg.mBlockWiseBlockSize
          mMoreBlocksFlag := more } := by
  have hstop : ∀ rq : Message,
      (afterCopy env ty more msg (Error.kErrorNone, rq, false)).1 = Error.kErrorNone →
      (afterCopy env ty more msg (Error.kErrorNone, rq, false)).2 =
        { rq with
          mOptions := rq.mOptions ++
            [blockOption ty (msg.mBlockWiseBlockNumber + 1) more msg.mBlockWiseBlockSize]
          mBlockWiseBlockNumber := (msg.mBlockWiseBlockNumber + 1) % 2 ^ 32
          mBlockWiseBlockSize := msg.mBlockWiseBlockSize
          mMoreBlocksFlag := more } := by
    intro rq h
    have hw : afterCopy env ty more msg (Error.kErrorNone, rq, false) =
        writeBlockOption env ty more rq msg := by simp [afterCopy]
    rw [hw] at h ⊢
    exact writeBlockOption_of_ok h
  intro opts
  induction opts with
  | nil =>
    intro rq hok
    have hc : copyOptions env ty more msg [] rq false = (Error.kErrorNone, rq, false) := by
      simp [copyOptions]
    rw [hc] at hok ⊢
    rw [hstop rq hok]
    simp [nextBlockOptions]
  | cons o os ih =>
    intro rq hok
    by_cases h0 : o.GetLength = 0
    · have hc : copyOptions env ty more msg (o :: os) rq false = (Error.kErrorNone, rq, false) := by
        unfold copyOptions; simp [h0]
      rw [hc] at hok ⊢
      rw [hstop rq hok]
      simp [nextBlockOptions, h0]
    · by_cases htrig : blockOptionNumber ty ≤ o.mNumber
      · have ht : (if ty = BlockType.kBlockType1 then kOptionBlock1 else kOptionBlock2) ≤
            o.mNumber := htrig
        by_cases hw1 : (writeBlockOption env ty more rq msg).1 = Error.kErrorNone
        · have hw := writeBlockOption_of_ok hw1
          by_cases hblock : o.mNumber = kOptionBlock1 ∨ o.mNumber = kOptionBlock2
          · have hc : copyOptions env ty more msg (o :: os) rq false =
                copyOptions env ty more msg os (writeBlockOption env ty more rq msg).2 true := by
              conv_lhs => unfold copyOptions
              simp [h0, ht, hw1, hblock]
            rw [hc] at hok ⊢
            rw [afterCopy_set_of_ok env ty more msg os _ hok, hw]
            simp [nextBlockOptions, h0, htrig, hblock]
          · by_cases ha : ((writeBlockOption env ty more rq msg).2.AppendOption
                (env.mAppend (writeBlockOption env ty more rq msg).2) o.mNumber o.mValue).1 =
                Error.kErrorNone
            · have hc : copyOptions env ty more msg (o :: os) rq false =
                  copyOptions env ty more msg os
                    ((writeBlockOption env ty more rq msg).2.AppendOption
                      (env.mAppend (writeBlockOption env ty more rq msg).2) o.mNumber
                      o.mValue).2 true := by
                conv_lhs => unfold copyOptions
                simp [h0, ht, hw1, hblock, ha]
              rw [hc] at hok ⊢
              rw [afterCopy_set_of_ok env ty more msg os _ hok, AppendOption_of_ok ha, hw]
              simp [nextBlockOptions, h0, htrig, hblock]
            · have hc : (copyOptions env ty more msg (o :: os) rq false).1 =
                  ((writeBlockOption env ty more rq msg).2.AppendOption
                    (env.mAppend (writeBlockOption env ty more rq msg).2) o.mNumber
                    o.mValue).1 := by
                conv_lhs => unfold copyOptions
                simp [h0, ht, hw1, hblock, ha]
              exact absurd ((hc.symm.trans (afterCopy_error hok))) ha
        · have hc : (copyOptions env ty more msg (o :: os) rq false).1 =
              (writeBlockOption env ty more rq msg).1 := by
            conv_lhs => unfold copyOptions
            simp [h0, ht, hw1]
          exact absurd ((hc.symm.trans (afterCopy_error hok))) hw1
      · have ht : ¬ (if ty = BlockType.kBlockType1 then kOptionBlock1 else kOptionBlock2) ≤
            o.mNumber := htrig
        by_cases ha : (rq.AppendOption (env.mAppend rq) o.mNumber o.mValue).1 = Error.kErrorNone
        · have hc : copyOptions env ty more msg (o :: os) rq false =
              copyOptions env ty more msg os
                (rq.AppendOption (env.mAppend rq) o.mNumber o.mValue).2 false := by
            conv_lhs => unfold copyOptions
            simp [h0, ht, ha]
          rw [hc] at hok ⊢
          rw [ih _ hok, AppendOption_of_ok ha]
          simp [nextBlockOptions, h0, htrig]
        · have hc : (copyOptions env ty more msg (o :: os) rq false).1 =
              (rq.AppendOption (env.mAppend rq) o.mNumber o.mValue).1 := by
            conv_lhs => unfold copyOptions
            simp [h0, ht, ha]
          exact absurd ((hc.symm.trans (afterCopy_error hok))) ha

/-- Without an option of length zero, the options that `PrepareNextBlockRequest`
builds are those of `insertBlockOption`. -/
theorem nextBlockOptions_eq_insert (bo : Nat) (blk : CoapOption) :
    ∀ opts : List CoapOption, (∀ o ∈ opts, o.GetLength ≠ 0) →
      nextBlockOptions bo blk opts = insertBlockOption bo blk opts := by
  intro opts
  induction opts with
  | nil => intro _; rfl
  | cons o os ih =>
    intro hlen
    have h0 : o.GetLength ≠ 0 := hlen o (List.mem_cons_self _ _)
    have hos : ∀ x ∈ os, x.GetLength ≠ 0 := fun x hx => hlen x (List.mem_cons_of_mem _ hx)
    by_cases htrig : bo ≤ o.mNumber
    · have hlt : ¬ o.mNumber < bo := by omega
      have htake : os.takeWhile (fun x => x.GetLength != 0) = os := by
        rw [List.takeWhile_eq_self_iff]
        intro x hx
        simpa using hos x hx
      simp only [nextBlockOptions, h0, if_false, htrig, if_true, htake, insertBlockOption,
        List.takeWhile_cons, hlt, decide_False, Bool.false_eq_true, List.nil_append,
        List.dropWhile_cons]
      split_ifs <;> simp
    · have hlt : o.mNumber < bo := by omega
      simp only [nextBlockOptions, h0, if_false, htrig, ih hos, insertBlockOption,
        List.takeWhile_cons, hlt, decide_True, if_true, List.cons_append, List.dropWhile_cons]

theorem writeBlockOption_args {env : Env} {ty : BlockType} {more : Bool} {rq msg : Message}
    (h : (writeBlockOption env ty more rq msg).1 = Error.kErrorNone) :
    msg.mBlockWiseBlockSize ≤ 6 ∧ msg.mBlockWiseBlockNumber + 1 < 0xFFFFF := by
  by_cases h1 : 6 < msg.mBlockWiseBlockSize
  · simp [writeBlockOption, Message.AppendBlockOption, h1] at h
  · by_cases h2 : 0xFFFFF ≤ msg.mBlockWiseBlockNumber + 1
    · simp [writeBlockOption, Message.AppendBlockOption, h1, h2] at h
    · omega

/-- When `PrepareNextBlockRequest` reports no error, the block option was
written: the size exponent is at most 6 and the next block number is below
`0xFFFFF`. -/
theorem afterCopy_args (env : Env) (ty : BlockType) (more : Bool) (msg : Message) :
    ∀ (opts : List CoapOption) (rq : Message),
      (afterCopy env ty more msg (copyOptions env ty more msg opts rq false)).1 =
        Error.kErrorNone →
      msg.mBlockWiseBlockSize ≤ 6 ∧ msg.mBlockWiseBlockNumber + 1 < 0xFFFFF := by
  have hstop : ∀ rq : Message,
      (afterCopy env ty more msg (Error.kErrorNone, rq, false)).1 = Error.kErrorNone →
      msg.mBlockWiseBlockSize ≤ 6 ∧ msg.mBlockWiseBlockNumber + 1 < 0xFFFFF := by
    intro rq h
    have hw : afterCopy env ty more msg (Error.kErrorNone, rq, false) =
        writeBlockOption env ty more rq msg := by simp [afterCopy]
    rw [hw] at h
    exact writeBlockOption_args h
  intro opts
  induction opts with
  | nil =>
    intro rq hok
    have hc : copyOptions env ty more msg [] rq false = (Error.kErrorNone, rq, false) := by
      simp [copyOptions]
    rw [hc] at hok
    exact hstop rq hok
  | cons o os ih =>
    intro rq hok
    by_cases h0 : o.GetLength = 0
    · have hc : copyOptions env ty more msg (o :: os) rq false = (Error.kErrorNone, rq, false) := by
        unfold copyOptions; simp [h0]
      rw [hc] at hok
      exact hstop rq hok
    · by_cases htrig : blockOptionNumber ty ≤ o.mNumber
      · have ht : (if ty = BlockType.kBlockType1 then kOptionBlock1 else kOptionBlock2) ≤
            o.mNumber := htrig
        by_cases hw1 : (writeBlockOption env ty more rq msg).1 = Error.kErrorNone
        · exact writeBlockOption_args hw1
        · have hc : (copyOptions env ty more msg (o :: os) rq false).1 =
              (writeBlockOption env ty more rq msg).1 := by
            conv_lhs => unfold copyOptions
            simp [h0, ht, hw1]
          exact absurd ((hc.symm.trans (afterCopy_error hok))) hw1
      · have ht : ¬ (if ty = BlockType.kBlockType1 then kOptionBlock1 else kOptionBlock2) ≤
            o.mNumber := htrig
        by_cases ha : (rq.AppendOption (env.mAppend rq) o.mNumber o.mValue).1 = Error.kErrorNone
        · have hc : copyOptions env ty more msg (o :: os) rq false =
              copyOptions env ty more msg os
                (rq.AppendOption (env.mAppend rq) o.mNumber o.mValue).2 false := by
            conv_lhs => unfold copyOptions
            simp [h0, ht, ha]
          rw [hc] at hok
          exact ih _ hok
        · have hc : (copyOptions env ty more msg (o :: os) rq false).1 =
              (rq.AppendOption (env.mAppend rq) o.mNumber o.mValue).1 := by
            conv_lhs => unfold copyOptions
            simp [h0, ht, ha]
          exact absurd ((hc.symm.trans (afterCopy_error hok))) ha

/-- Every option that is not a block option is among those of `insertBlockOption`. -/
theorem mem_insertBlockOption (bo : Nat) (blk : CoapOption) (opts : List CoapOption)
    (o : CoapOption) (ho : o ∈ opts) (h1 : o.mNumber ≠ kOptionBlock1)
    (h2 : o.mNumber ≠ kOptionBlock2) : o ∈ insertBlockOption bo blk opts := by
  unfold insertBlockOption
  have hsplit := List.takeWhile_append_dropWhile (fun o => decide (o.mNumber < bo)) opts
  rw [← hsplit] at ho
  rcases List.mem_append.mp ho with h | h
  · exact List.mem_append_left _ h
  · apply List.mem_append_right
    apply List.mem_cons_of_mem
    generalize opts.dropWhile (fun o => decide (o.mNumber < bo)) = rest at h
    cases rest with
    | nil => exact absurd h (List.not_mem_nil _)
    | cons a rest =>
      simp only
      split_ifs with hblock
      · rcases List.mem_cons.mp h with ha | ha
        · rw [ha] at h1 h2
          rcases hblock with hb | hb
          · exact absurd hb h1
          · exact absurd hb h2
        · exact ha
      · exact h

/-- C26 (as stated, refuted). In a Block2 transfer the previous request is the
stored copy of `exampleUploadRequest`, sent from `2001:db8::1`: it carries a
Uri-Path option and a Block1 option (in option-number order, none of length
zero), and the iterator stops at its trailer.  `PrepareNextBlockRequest`
succeeds and the new request has the Uri-Path option and the new Block2 option
only: the Block1 option, which is not the block option of the transfer's type,
is dropped. -/
theorem PrepareNextBlockRequest_drops_other_block :
    OptionsOrdered exampleUploadRequest.mOptions ∧
      IteratorStops (Env.allOk 300 0) (exampleStoredFrom exampleGlobalAddress exampleUploadRequest) ∧
      (PrepareNextBlockRequest (Env.allOk 300 0) BlockType.kBlockType2 true
        (exampleStoredFrom exampleGlobalAddress exampleUploadRequest) exampleFirstBlock).1 =
        Error.kErrorNone ∧
      (PrepareNextBlockRequest (Env.allOk 300 0) BlockType.kBlockType2 true
        (exampleStoredFrom exampleGlobalAddress exampleUploadRequest) exampleFirstBlock).2.mOptions =
        [{ mNumber := kOptionUriPath, mValue := [97] }, { mNumber := kOptionBlock2, mValue := [26] }] ∧
      ({ mNumber := kOptionBlock1, mValue := [18] } : CoapOption) ∈ exampleUploadRequest.mOptions ∧
      ({ mNumber := kOptionBlock1, mValue := [18] } : CoapOption) ∉
        (PrepareNextBlockRequest (Env.allOk 300 0) BlockType.kBlockType2 true
          (exampleStoredFrom exampleGlobalAddress exampleUploadRequest) exampleFirstBlock).2.mOptions := by
  decide

/-- The copy loop of `PrepareNextBlockRequest` ends at an option of length zero:
for the stored copy of `exampleObserveGet`, whose first option is an Observe
option of value 0, the new request carries the new Block2 option only, without
the Uri-Path option. -/
theorem PrepareNextBlockRequest_stops_at_empty_option :
    (PrepareNextBlockRequest (Env.allOk 300 0) BlockType.kBlockType2 true
        (exampleStoredFrom 0 exampleObserveGet) exampleFirstBlock).1 = Error.kErrorNone ∧
      (PrepareNextBlockRequest (Env.allOk 300 0) BlockType.kBlockType2 true
        (exampleStoredFrom 0 exampleObserveGet) exampleFirstBlock).2.mOptions =
        [{ mNumber := kOptionBlock2, mValue := [26] }] := by
  decide

/-- The iterator of `PrepareNextBlockRequest` walks into the trailer of a stored
copy without payload.  For the copy of `exampleDownloadRequest` sent from
`fd00::1` the first byte of the trailer is `0xfd`, whose upper nibble is 15: the
call fails with `kErrorParse`.  For the copy of `exampleRequest`, which has no
option, sent from `fd00::1` the call fails in `iterator.Init`.  For the copy of
`exampleGet`, whose Uri-Path options are below the Block2 option, the failed
`Advance` ends the loop and the block option written after the loop replaces
the error: the call succeeds.  For the copy of `exampleGet` sent from the
address `1100::`, the byte `0x11` reads as an option with number 12 and one
byte of value, which is copied into the new request. -/
theorem PrepareNextBlockRequest_reads_trailer :
    (PrepareNextBlockRequest (Env.allOk 300 0) BlockType.kBlockType2 true
        (exampleStoredFrom exampleLocalAddress exampleDownloadRequest) exampleFirstBlock).1 =
        Error.kErrorParse ∧
      (PrepareNextBlockRequest (Env.allOk 300 0) BlockType.kBlockType2 true
        (exampleStoredFrom exampleLocalAddress exampleRequest) exampleFirstBlock) =
        (Error.kErrorParse, Message.Init CoapType.kTypeConfirmable kCodeGet) ∧
      (PrepareNextBlockRequest (Env.allOk 300 0) BlockType.kBlockType2 true
        (exampleStoredFrom exampleLocalAddress exampleGet) exampleFirstBlock).1 = Error.kErrorNone ∧
      ((PrepareNextBlockRequest (Env.allOk 300 0) BlockType.kBlockType2 true
        (exampleStoredFrom (0x11 * 2 ^ 120) exampleGet) exampleFirstBlock).2.mOptions.map
          (fun o => (o.mNumber, o.mValue))).take 3 =
        [(kOptionUriPath, [97]), (kOptionUriPath, [98]), (12, [0])] := by
  decide

/-- When `PrepareNextBlockRequest` succeeds, the request it built is that of the
step after the loop, for the copy loop over the options that the iterator
presents. -/
theorem PrepareNextBlockRequest_presented (env : Env) (ty : BlockType) (more : Bool)
    (old : PendingRequest) (msg : Message)
    (hok : (PrepareNextBlockRequest env ty more old msg).1 = Error.kErrorNone) :
    (afterCopy env ty more msg
        (copyOptions env ty more msg (storedOptions env old).1
          (Message.Init CoapType.kTypeConfirmable old.mMessage.mCode) false)).1 =
        Error.kErrorNone ∧
      (PrepareNextBlockRequest env ty more old msg).2 =
        (afterCopy env ty more msg
          (copyOptions env ty more msg (storedOptions env old).1
            (Message.Init CoapType.kTypeConfirmable old.mMessage.mCode) false)).2 := by
  unfold PrepareNextBlockRequest at hok ⊢
  unfold afterCopy
  simp only at hok ⊢
  by_cases hinit : (storedOptions env old).1 = [] ∧ (storedOptions env old).2 ≠ Error.kErrorNone
  · rw [if_pos hinit] at hok
    exact absurd hok hinit.2
  · rw [if_neg hinit] at hok ⊢
    generalize copyOptions env ty more msg (storedOptions env old).1
      (Message.Init CoapType.kTypeConfirmable old.mMessage.mCode) false = l at hok ⊢
    by_cases h1 : l.1 ≠ Error.kErrorNone
    · rw [if_pos h1] at hok
      exact absurd hok h1
    · rw [if_neg h1] at hok
      simp only [if_neg h1]
      by_cases h2 : l.2.2 = false
      · rw [if_pos h2] at hok
        simp only [if_pos h2]
        exact ⟨hok, trivial⟩
      · simp only [if_neg h2]
        exact ⟨trivial, trivial⟩

/-- C26 (amended). For every stored request whose options all have a value of
at least one byte and at whose trailer the option iterator stops
(`IteratorStops`: the stored copy has a payload, or its trailer starts with a
payload marker or with an option of length zero, as the byte 0 of an
unspecified source address is), and every received message with block number `N` and size exponent `s` in its help data:
when `PrepareNextBlockRequest` succeeds, it produces a confirmable request with
the code of the previous request and no token, whose options are those of the
previous request, in order and copied, with a block option of the transfer's
type for block `N + 1`, size exponent `s` and the given more-flag put before the
first option whose number is at least the number of that block option, the
latter option being left out when it is a Block1 or a Block2 option.  So every
option that is not a Block1 or Block2 option is kept. -/
theorem PrepareNextBlockRequest_options (env : Env) (ty : BlockType) (more : Bool)
    (old : PendingRequest) (msg : Message)
    (hok : (PrepareNextBlockRequest env ty more old msg).1 = Error.kErrorNone)
    (hlen : ∀ o ∈ old.mMessage.mOptions, o.GetLength ≠ 0)
    (hstop : IteratorStops env old) :
    (PrepareNextBlockRequest env ty more old msg).2 =
        { Message.Init CoapType.kTypeConfirmable old.mMessage.mCode with
          mOptions := insertBlockOption (blockOptionNumber ty)
            (blockOption ty (msg.mBlockWiseBlockNumber + 1) more msg.mBlockWiseBlockSize)
            old.mMessage.mOptions
          mBlockWiseBlockNumber := (msg.mBlockWiseBlockNumber + 1) % 2 ^ 32
          mBlockWiseBlockSize := msg.mBlockWiseBlockSize
          mMoreBlocksFlag := more } ∧
      blockNumberOf (blockOption ty (msg.mBlockWiseBlockNumber + 1) more msg.mBlockWiseBlockSize) =
        msg.mBlockWiseBlockNumber + 1 ∧
      blockMoreOf (blockOption ty (msg.mBlockWiseBlockNumber + 1) more msg.mBlockWiseBlockSize) =
        more ∧
      blockSizeOf (blockOption ty (msg.mBlockWiseBlockNumber + 1) more msg.mBlockWiseBlockSize) =
        msg.mBlockWiseBlockSize ∧
      (∀ o ∈ old.mMessage.mOptions, o.mNumber ≠ kOptionBlock1 → o.mNumber ≠ kOptionBlock2 →
        o ∈ (PrepareNextBlockRequest env ty more old msg).2.mOptions) := by
  rw [PrepareNextBlockRequest_of_stops env ty more old msg hstop] at hok ⊢
  obtain ⟨hsz, hnum⟩ := afterCopy_args env ty more msg _ _ hok
  obtain ⟨_, hd1, hd2, hd3⟩ :=
    blockOption_decode ty (msg.mBlockWiseBlockNumber + 1) more msg.mBlockWiseBlockSize hsz hnum
  have hres := afterCopy_of_ok env ty more msg _ _ hok
  rw [nextBlockOptions_eq_insert _ _ _ hlen] at hres
  have hres1 : (afterCopy env ty more msg (copyOptions env ty more msg old.mMessage.mOptions
      (Message.Init CoapType.kTypeConfirmable old.mMessage.mCode) false)).2 =
      { Message.Init CoapType.kTypeConfirmable old.mMessage.mCode with
        mOptions := insertBlockOption (blockOptionNumber ty)
          (blockOption ty (msg.mBlockWiseBlockNumber + 1) more msg.mBlockWiseBlockSize)
          old.mMessage.mOptions
        mBlockWiseBlockNumber := (msg.mBlockWiseBlockNumber + 1) % 2 ^ 32
        mBlockWiseBlockSize := msg.mBlockWiseBlockSize
        mMoreBlocksFlag := more } := by
    rw [hres]
    simp [Message.Init]
  refine ⟨hres1, hd1, hd2, hd3, ?_⟩
  intro o ho h1 h2
  rw [hres1]
  exact mem_insertBlockOption _ _ _ o ho h1 h2

/-- The amended C26 at the stored copy of `exampleDownloadRequest`, sent from
`2001:db8::1` and stored without payload, so that the iterator reads the first
byte `0x20` of its trailer as an option of length zero: the new request asks for
block 1 of size exponent 2 and keeps both Uri-Path options and the Size1 option. -/
theorem PrepareNextBlockRequest_options_witness :
    (PrepareNextBlockRequest (Env.allOk 300 0) BlockType.kBlockType2 true
        (exampleStoredFrom exampleGlobalAddress exampleDownloadRequest) exampleFirstBlock).2.mOptions =
      [{ mNumber := kOptionUriPath, mValue := [97] }, { mNumber := kOptionUriPath, mValue := [98] },
       { mNumber := kOptionBlock2, mValue := [26] }, { mNumber := kOptionSize1, mValue := [1, 0] }] :=
  (congrArg Message.mOptions
    (PrepareNextBlockRequest_options (Env.allOk 300 0) BlockType.kBlockType2 true
      (exampleStoredFrom exampleGlobalAddress exampleDownloadRequest) exampleFirstBlock (by decide)
      (by decide) (by decide)).1).trans (by decide)

/-! ## Answering a request for a later block -/

/-- C27 (as stated, refuted). The request `exampleBlockRequest` asks for block
1 with size exponent 2, that is 64 bytes from offset 64; the transmit hook
returns a chunk of 40 bytes, which is within 64, with the more-flag set.
`ProcessBlock2Request` fails with `kErrorInvalidArgs` and sends no response: 40
is not one of the block sizes. -/
theorem ProcessBlock2Request_rejects_short_chunk :
    blockNumberOf { mNumber := kOptionBlock2, mValue := [18] } = 1 ∧
      blockSizeOf { mNumber := kOptionBlock2, mValue := [18] } = 2 ∧
      (1 ≤ 40 ∧ 40 ≤ 2 ^ (2 + 4)) ∧
      (exampleBlockServer.ProcessBlock2Request Config.openthread
        (Env.chunk 300 (List.replicate 40 0) true) exampleBlockRequest examplePeer
        exampleBlockResource 8).1 = Error.kErrorInvalidArgs ∧
      (exampleBlockServer.ProcessBlock2Request Config.openthread
        (Env.chunk 300 (List.replicate 40 0) true) exampleBlockRequest examplePeer
        exampleBlockResource 8).2.1.mTrace = [Event.transmitHook 8 30 64 64] := by
  decide

/-- The copy loop of `ProcessBlock2Request` when nothing fails. -/
theorem copyBlockOptions_ok (env : Env) (happ : ∀ x, env.mAppend x = true) :
    ∀ (opts : List CoapOption) (rsp : Message), OptionsOrdered opts →
      rsp.mBlockWiseBlockSize ≤ 6 → rsp.mBlockWiseBlockNumber < 0xFFFFF →
      (∀ o ∈ opts, o.mNumber = kOptionBlock2 ∨ o.mNumber = kOptionBlock1 →
        rsp.optionLast ≤ o.mNumber) →
      copyBlockOptions env opts rsp =
        (Error.kErrorNone,
          { rsp with mOptions := rsp.mOptions ++
              blockResponseOptions (blockOption BlockType.kBlockType2 rsp.mBlockWiseBlockNumber
                rsp.mMoreBlocksFlag rsp.mBlockWiseBlockSize) opts }) := by
  intro opts
  induction opts with
  | nil => intro rsp _ _ _ _; simp [copyBlockOptions, blockResponseOptions]
  | cons o os ih =>
    intro rsp hord hsz hnum hlast
    unfold OptionsOrdered at hord
    rw [List.pairwise_cons] at hord
    by_cases h2 : o.mNumber = kOptionBlock2
    · have hl : rsp.optionLast ≤ blockOptionNumber BlockType.kBlockType2 := by
        have := hlast o (List.mem_cons_self _ _) (Or.inl h2)
        rw [h2] at this
        exact this
      have ha := AppendBlockOption_ok rsp BlockType.kBlockType2 rsp.mBlockWiseBlockNumber
        rsp.mMoreBlocksFlag rsp.mBlockWiseBlockSize hsz hnum hl
      unfold copyBlockOptions
      simp only [h2, if_true, happ, ha, ne_eq, not_true_eq_false, if_false]
      have key := ih
        { rsp with mOptions := rsp.mOptions ++
            [blockOption BlockType.kBlockType2 rsp.mBlockWiseBlockNumber rsp.mMoreBlocksFlag
              rsp.mBlockWiseBlockSize] } hord.2 hsz hnum (by
        intro x hx _
        refine le_of_eq_of_le (optionLast_append _ _ _ rfl) ?_
        have := hord.1 x hx
        rw [h2] at this
        exact this)
      rw [key]
      simp [blockResponseOptions, h2]
    · by_cases h1 : o.mNumber = kOptionBlock1
      · have ha := AppendOption_ok rsp o (hlast o (List.mem_cons_self _ _) (Or.inr h1))
        have hstep : copyBlockOptions env (o :: os) rsp =
            copyBlockOptions env os { rsp with mOptions := rsp.mOptions ++ [o] } := by
          conv_lhs => unfold copyBlockOptions
          simp only [h2, if_false, if_pos h1, happ, ha, ne_eq, not_true_eq_false]
        have key := ih { rsp with mOptions := rsp.mOptions ++ [o] } hord.2 hsz hnum (by
          intro x hx _
          exact le_of_eq_of_le (optionLast_append _ _ _ rfl) (hord.1 x hx))
        have hfm : ∀ blk : CoapOption,
            blockResponseOptions blk (o :: os) = o :: blockResponseOptions blk os := by
          intro blk
          unfold blockResponseOptions
          rw [List.filterMap_cons]
          simp only [h2, if_false, if_pos h1]
        rw [hstep, key, hfm]
        simp
      · unfold copyBlockOptions
        simp only [h2, h1, if_false]
        rw [ih rsp hord.2 hsz hnum (fun x hx hb => hlast x (List.mem_cons_of_mem _ hx) hb)]
        simp [blockResponseOptions, h2, h1]

/-- The size exponent of a block size. -/
theorem blockSzxOfLength_pow {e : Nat} (he : e ≤ 6) : blockSzxOfLength (2 ^ (e + 4)) = some e := by
  interval_cases e <;> rfl

/-- A block size that `blockSzxOfLength` knows is `2^(e+4)` with `e ≤ 6`. -/
theorem blockSzxOfLength_some {n e : Nat} (h : blockSzxOfLength n = some e) :
    n = 2 ^ (e + 4) ∧ e ≤ 6 := by
  unfold blockSzxOfLength at h
  split_ifs at h with h1 h2 h3 h4 h5 h6 h7 <;>
    simp only [Option.some.injEq] at h <;> subst h <;> simp_all

/-- `ProcessBlock2Request` up to the choice of the block size, for a request for
a block other than the first, when a response buffer is available and the
transmit hook returns a chunk. -/
theorem ProcessBlock2Request_reaches (cfg : Config) (env : Env) (s : CoapBase) (m : Message)
    (info : MessageInfo) (res : ResourceBlockWise) (hook : Nat) (o : CoapOption)
    (chunk : List Nat) (more : Bool)
    (hopt : m.findOption kOptionBlock2 = some o) (hlen : o.GetLength ≤ 3)
    (hbytes : ∀ b ∈ o.mValue, b < 256)
    (hN : 1 ≤ blockNumberOf o) (hs : blockSizeOf o ≤ 6)
    (hnew : env.mNewMessage = true) (happ : ∀ x, env.mAppend x = true)
    (hhook : env.mTransmitHook hook res.mContext (2 ^ (blockSizeOf o + 4) * blockNumberOf o)
      (2 ^ (blockSizeOf o + 4)) = (Error.kErrorNone, chunk, more)) :
    s.ProcessBlock2Request cfg env m info res hook =
      (match block2Size (withBlockValues m o) chunk.length more with
       | none =>
         (Error.kErrorInvalidArgs,
           s.emit [Event.transmitHook hook res.mContext
             (2 ^ (blockSizeOf o + 4) * blockNumberOf o) (2 ^ (blockSizeOf o + 4))],
           withBlockValues m o)
       | some szx =>
         match s.mLastResponse with
         | none =>
           (Error.kErrorFailed,
             s.emit [Event.transmitHook hook res.mContext
               (2 ^ (blockSizeOf o + 4) * blockNumberOf o) (2 ^ (blockSizeOf o + 4))],
             withBlockValues m o)
         | some last =>
           (((s.emit [Event.transmitHook hook res.mContext
               (2 ^ (blockSizeOf o + 4) * blockNumberOf o)
               (2 ^ (blockSizeOf o + 4))]).sendBlock2Response cfg env info
               (block2Response (withBlockValues m o) more szx
                 (2 ^ (blockSizeOf o + 4) * blockNumberOf o)) last chunk).1,
            ((s.emit [Event.transmitHook hook res.mContext
               (2 ^ (blockSizeOf o + 4) * blockNumberOf o)
               (2 ^ (blockSizeOf o + 4))]).sendBlock2Response cfg env info
               (block2Response (withBlockValues m o) more szx
                 (2 ^ (blockSizeOf o + 4) * blockNumberOf o)) last chunk).2,
            withBlockValues m o)) := by
  have hread := ReadBlockOptionValues_some (Or.inr rfl) hopt hlen
  obtain ⟨_, hpos⟩ := block_position_lt o hlen hbytes
  have hw1 : (withBlockValues m o).mBlockWiseBlockNumber = blockNumberOf o := rfl
  have hw2 : (withBlockValues m o).mBlockWiseBlockSize = blockSizeOf o := rfl
  have hN0 : ¬ blockNumberOf o = 0 := by omega
  have hbl : ¬ kMaxBlockLength < 2 ^ (blockSizeOf o + 4) := by
    have : 2 ^ (blockSizeOf o + 4) ≤ 2 ^ 10 := Nat.pow_le_pow_right (by norm_num) (by omega)
    have h10 : (2 : Nat) ^ 10 = 1024 := by norm_num
    unfold kMaxBlockLength
    omega
  unfold CoapBase.ProcessBlock2Request
  simp only [hread, ne_eq, not_true_eq_false, if_false, hw1, hw2, hN0, hnew, Bool.not_true,
    Bool.false_eq_true, happ, otCoapBlockSizeFromExponent, hbl, Nat.mod_eq_of_lt hpos, hhook]
  cases block2Size (withBlockValues m o) chunk.length more with
  | none => rfl
  | some szx =>
    simp only
    have hlr : (s.emit [Event.transmitHook hook res.mContext
        (2 ^ (blockSizeOf o + 4) * blockNumberOf o) (2 ^ (blockSizeOf o + 4))]).mLastResponse =
        s.mLastResponse := rfl
    rw [hlr]

/-- The last part of `ProcessBlock2Request` when nothing fails before the send:
the answer is cached while more blocks follow, cached as a response, and handed
to the transport. -/
theorem sendBlock2Response_ok (cfg : Config) (env : Env) (s : CoapBase) (info : MessageInfo)
    (rsp last : Message) (chunk : List Nat) (happ : ∀ x, env.mAppend x = true)
    (hclone : ∀ x, env.mClone x = true) (hty : rsp.mType = CoapType.kTypeAck)
    (hopts : rsp.mOptions = []) (hord : OptionsOrdered last.mOptions)
    (hsz : rsp.mBlockWiseBlockSize ≤ 6) (hnum : rsp.mBlockWiseBlockNumber < 0xFFFFF) :
    s.sendBlock2Response cfg env info rsp last chunk =
      (env.mSender
          { rsp with
            mOptions := blockResponseOptions (blockOption BlockType.kBlockType2
              rsp.mBlockWiseBlockNumber rsp.mMoreBlocksFlag rsp.mBlockWiseBlockSize) last.mOptions
            mPayload := chunk } info,
        CoapBase.emit
          { s with
            mLastResponse :=
              if rsp.mMoreBlocksFlag then
                some { rsp with
                  mOptions := blockResponseOptions (blockOption BlockType.kBlockType2
                    rsp.mBlockWiseBlockNumber rsp.mMoreBlocksFlag rsp.mBlockWiseBlockSize)
                    last.mOptions
                  mPayload := chunk }
              else none
            mResponsesQueue := s.mResponsesQueue.EnqueueResponse cfg env
              { rsp with
                mOptions := blockResponseOptions (blockOption BlockType.kBlockType2
                  rsp.mBlockWiseBlockNumber rsp.mMoreBlocksFlag rsp.mBlockWiseBlockSize)
                  last.mOptions
                mPayload := chunk } info (TxParameters.GetDefault cfg) }
          [Event.send
            { rsp with
              mOptions := blockResponseOptions (blockOption BlockType.kBlockType2
                rsp.mBlockWiseBlockNumber rsp.mMoreBlocksFlag rsp.mBlockWiseBlockSize)
                last.mOptions
              mPayload := chunk } info]) := by
  have hc := copyBlockOptions_ok env happ last.mOptions rsp hord hsz hnum (by
    intro x _ _
    simp [Message.optionLast, hopts])
  rw [hopts, List.nil_append] at hc
  unfold CoapBase.sendBlock2Response
  simp only [hc, ne_eq, not_true_eq_false, if_false, happ, Bool.not_true, Bool.false_eq_true]
  cases hm : rsp.mMoreBlocksFlag
  · simp only [Bool.false_eq_true, if_false, not_true_eq_false]
    refine (SendMessage_ack_plain cfg env _ info _ 0 ?_).trans ?_
    · exact hty
    · rfl
  · simp only [if_true, CoapBase.CacheLastBlockResponse, hclone, not_true_eq_false, if_false]
    refine (SendMessage_ack_plain cfg env _ info _ 0 ?_).trans ?_
    · exact hty
    · rfl

/-- C27 (amended). A request with a Block2 option for block `N ≥ 1` with size
exponent `s ≤ 6`, a response buffer, and a transmit hook that returns a chunk of
`L ≤ 2^(s+4)` bytes with more-flag `M`.  If `M` is set and `L` is not one of the
block sizes 16 to 1024, `ProcessBlock2Request` fails with `kErrorInvalidArgs`
after the hook call and sends nothing.  Otherwise let `e` be `s` when `M` is
clear, and the exponent with `2^(e+4) = L` when `M` is set: then `e ≤ s`, the
chunk fits in `2^(e+4)`, and, when a last block response is held whose options
are in order, copies can be allocated and the block number is below `0xFFFFF`,
the call returns what the transport returns for the answer, so it succeeds when
the transport accepts it; the answer has size exponent `e` and block number
`2^(s+4) * N / 2^(e+4)`, which times `2^(e+4)` is the byte offset asked for; it
is handed to the transport after the hook call, cached in the responses queue,
and kept as last block response while more blocks follow. -/
theorem ProcessBlock2Request_block_size (cfg : Config) (env : Env) (s : CoapBase) (m : Message)
    (info : MessageInfo) (res : ResourceBlockWise) (hook : Nat) (o : CoapOption)
    (chunk : List Nat) (more : Bool)
    (hopt : m.findOption kOptionBlock2 = some o) (hlen : o.GetLength ≤ 3)
    (hbytes : ∀ b ∈ o.mValue, b < 256)
    (hN : 1 ≤ blockNumberOf o) (hs : blockSizeOf o ≤ 6)
    (hnew : env.mNewMessage = true) (happ : ∀ x, env.mAppend x = true)
    (hhook : env.mTransmitHook hook res.mContext (2 ^ (blockSizeOf o + 4) * blockNumberOf o)
      (2 ^ (blockSizeOf o + 4)) = (Error.kErrorNone, chunk, more))
    (hL : chunk.length ≤ 2 ^ (blockSizeOf o + 4)) :
    ((more = true ∧ blockSzxOfLength chunk.length = none) →
      s.ProcessBlock2Request cfg env m info res hook =
        (Error.kErrorInvalidArgs,
          s.emit [Event.transmitHook hook res.mContext
            (2 ^ (blockSizeOf o + 4) * blockNumberOf o) (2 ^ (blockSizeOf o + 4))],
          withBlockValues m o)) ∧
    (∀ (e : Nat) (last : Message),
      (if more then chunk.length = 2 ^ (e + 4) ∧ e ≤ 6 else e = blockSizeOf o) →
      (e ≤ blockSizeOf o ∧ chunk.length ≤ 2 ^ (e + 4) ∧
        (block2AnswerFor m last o chunk more e).mBlockWiseBlockSize = e ∧
        (block2AnswerFor m last o chunk more e).mBlockWiseBlockNumber =
          2 ^ (blockSizeOf o + 4) * blockNumberOf o / 2 ^ (e + 4) ∧
        (block2AnswerFor m last o chunk more e).mBlockWiseBlockNumber * 2 ^ (e + 4) =
          2 ^ (blockSizeOf o + 4) * blockNumberOf o) ∧
      (s.mLastResponse = some last → OptionsOrdered last.mOptions →
        (∀ x, env.mClone x = true) →
        2 ^ (blockSizeOf o + 4) * blockNumberOf o / 2 ^ (e + 4) < 0xFFFFF →
        (s.ProcessBlock2Request cfg env m info res hook).1 =
            env.mSender (block2AnswerFor m last o chunk more e) info ∧
          (s.ProcessBlock2Request cfg env m info res hook).2.1.mTrace =
            s.mTrace ++
              [Event.transmitHook hook res.mContext
                (2 ^ (blockSizeOf o + 4) * blockNumberOf o) (2 ^ (blockSizeOf o + 4)),
               Event.send (block2AnswerFor m last o chunk more e) info] ∧
          (s.ProcessBlock2Request cfg env m info res hook).2.1.mLastResponse =
            (if more then some (block2AnswerFor m last o chunk more e) else none) ∧
          (s.ProcessBlock2Request cfg env m info res hook).2.1.mResponsesQueue =
            s.mResponsesQueue.EnqueueResponse cfg env (block2AnswerFor m last o chunk more e) info
              (TxParameters.GetDefault cfg))) := by
  have hreach := ProcessBlock2Request_reaches cfg env s m info res hook o chunk more hopt hlen
    hbytes hN hs hnew happ hhook
  constructor
  · rintro ⟨hm, hnone⟩
    rw [hreach]
    have hb : block2Size (withBlockValues m o) chunk.length more = none := by
      simp [block2Size, hm, hnone]
    rw [hb]
  · intro e last he
    have hsize : block2Size (withBlockValues m o) chunk.length more = some e ∧
        e ≤ blockSizeOf o ∧ chunk.length ≤ 2 ^ (e + 4) ∧ e ≤ 6 := by
      cases more with
      | true =>
        simp only [if_true] at he
        obtain ⟨hLe, he6⟩ := he
        refine ⟨?_, ?_, by omega, he6⟩
        · simp only [block2Size, if_true, hLe]
          exact blockSzxOfLength_pow he6
        · rw [hLe] at hL
          have := (Nat.pow_le_pow_iff_right (by norm_num : 1 < 2)).mp hL
          omega
      | false =>
        simp only [Bool.false_eq_true, if_false] at he
        subst he
        have hw2 : (withBlockValues m o).mBlockWiseBlockSize = blockSizeOf o := rfl
        refine ⟨?_, le_refl _, hL, hs⟩
        simp only [block2Size, Bool.false_eq_true, if_false, hw2, otCoapBlockSizeFromExponent, hL,
          if_true]
    obtain ⟨hb, hes, hfit, he6⟩ := hsize
    have hdvd : 2 ^ (e + 4) ∣ 2 ^ (blockSizeOf o + 4) * blockNumberOf o :=
      Dvd.dvd.mul_right (pow_dvd_pow 2 (by omega)) _
    refine ⟨⟨hes, hfit, rfl, rfl, Nat.div_mul_cancel hdvd⟩, ?_⟩
    intro hlast hord hclone hnum
    rw [hreach, hb]
    simp only [hlast]
    rw [sendBlock2Response_ok cfg env _ info _ last chunk happ hclone rfl rfl hord he6 hnum]
    refine ⟨rfl, ?_, rfl, rfl⟩
    simp only [CoapBase.emit, List.append_assoc, List.singleton_append]
    rfl

/-- The amended C27 at a request for block 1 of 64 bytes that the hook answers
with 32 bytes and more to follow: the answer has size exponent 1 and block
number 2, and the call succeeds. -/
theorem ProcessBlock2Request_block_size_witness :
    (exampleBlockServer.ProcessBlock2Request Config.openthread
        (Env.chunk 300 (List.replicate 32 0) true) exampleBlockRequest examplePeer
        exampleBlockResource 8).1 = Error.kErrorNone ∧
      (block2AnswerFor exampleBlockRequest (exampleBlock 50 [1, 2] [10] (List.replicate 64 0))
        { mNumber := kOptionBlock2, mValue := [18] } (List.replicate 32 0) true
        1).mBlockWiseBlockNumber = 2 ∧
      (block2AnswerFor exampleBlockRequest (exampleBlock 50 [1, 2] [10] (List.replicate 64 0))
        { mNumber := kOptionBlock2, mValue := [18] } (List.replicate 32 0) true
        1).mOptions = [{ mNumber := kOptionBlock2, mValue := [41] }] := by
  have h := ProcessBlock2Request_block_size Config.openthread
    (Env.chunk 300 (List.replicate 32 0) true) exampleBlockServer exampleBlockRequest examplePeer
    exampleBlockResource 8 { mNumber := kOptionBlock2, mValue := [18] } (List.replicate 32 0) true
    rfl (by decide) (by decide) (by decide) (by decide) rfl (fun _ => rfl) rfl (by decide)
  have h2 := h.2 1 (exampleBlock 50 [1, 2] [10] (List.replicate 64 0)) (by decide)
  exact ⟨(h2.2 rfl (by decide) (fun _ => rfl) (by decide)).1, by decide, by decide⟩

/-! ## A request that is acknowledged and waits for its separate response -/

/-- What `HandleRetransmissionTimer` does with one stored request, wherever it
is in the queue. -/
theorem HandleRetransmissionTimer_at (env : Env) (s : CoapBase) (pre post : List PendingRequest)
    (r : PendingRequest) (hp : s.mPendingRequests = pre ++ r :: post) :
    (s.HandleRetransmissionTimer env).mPendingRequests =
        (retransmitLoop env pre).1 ++ (retransmit env r).1.toList ++ (retransmitLoop env post).1 ∧
      (s.HandleRetransmissionTimer env).mTrace =
        s.mTrace ++ (retransmitLoop env pre).2 ++ (retransmit env r).2 ++
          (retransmitLoop env post).2 := by
  rw [HandleRetransmissionTimer_pending, HandleRetransmissionTimer_trace, hp,
    retransmitLoop_append]
  simp [retransmitLoop, List.append_assoc]

/-- One due pass over a confirmable request that is not an acknowledged
subscription and has retransmissions left: the retransmission is counted, and a
copy is sent only when the request is unacknowledged. -/
theorem retransmit_counted {env : Env} {r : PendingRequest}
    (hdue : r.mMetadata.mNextTimerShot ≤ env.mNow) (hsub : r.isAckedSubscription = false)
    (hconf : r.mMetadata.mConfirmable = true) (hrem : r.mMetadata.mRetransmissionsRemaining ≠ 0) :
    retransmit env r =
      (some (r.backedOff env),
        if r.mMetadata.mAcknowledged then []
        else CoapBase.SendCopy env r.mMessage (r.backedOff env).mMetadata.messageInfo) := by
  unfold retransmit
  rw [if_pos hdue]
  cases hack : r.mMetadata.mAcknowledged <;>
    simp [hsub, hconf, hrem, hack, PendingRequest.backedOff]

/-- One due pass over a confirmable request that is not an acknowledged
subscription and has no retransmission left: it is finalized with
`kErrorResponseTimeout`. -/
theorem retransmit_exhausted {env : Env} {r : PendingRequest}
    (hdue : r.mMetadata.mNextTimerShot ≤ env.mNow) (hsub : r.isAckedSubscription = false)
    (hrem : r.mMetadata.mRetransmissionsRemaining = 0) :
    retransmit env r = (none, handlerCall r.mMetadata none none Error.kErrorResponseTimeout) := by
  unfold retransmit
  rw [if_pos hdue]
  simp [hsub, hrem]

theorem doubling_mod (a t i : Nat) (h : a % 2 ^ 32 = t * 2 ^ i % 2 ^ 32) :
    a * 2 % 2 ^ 32 = t * 2 ^ (i + 1) % 2 ^ 32 := by
  have h1 : t * 2 ^ (i + 1) = t * 2 ^ i * 2 := by ring
  rw [h1, Nat.mul_mod a 2, Nat.mul_mod (t * 2 ^ i) 2, h]

/-- The stored request after `i` due passes that each count a retransmission. -/
theorem retransmitN_counted (envAt : Nat → Env) (r : PendingRequest)
    (hconf : r.mMetadata.mConfirmable = true)
    (hobs : r.mMetadata.mAcknowledged = false ∨
      (r.mMessage.IsRequest && r.mMetadata.mObserve) = false) :
    ∀ i, i ≤ r.mMetadata.mRetransmissionsRemaining →
      (∀ k < i, ∀ r1, retransmitN envAt r k = some r1 →
        r1.mMetadata.mNextTimerShot ≤ (envAt k).mNow) →
      ∃ ri, retransmitN envAt r i = some ri ∧ ri.mMessage = r.mMessage ∧
        ri.mMetadata.mAcknowledged = r.mMetadata.mAcknowledged ∧
        ri.mMetadata.mConfirmable = true ∧ ri.mMetadata.mObserve = r.mMetadata.mObserve ∧
        ri.mMetadata.mResponseHandler = r.mMetadata.mResponseHandler ∧
        ri.mMetadata.mResponseContext = r.mMetadata.mResponseContext ∧
        ri.mMetadata.mRetransmissionsRemaining = r.mMetadata.mRetransmissionsRemaining - i ∧
        ri.mMetadata.mRetransmissionTimeout % 2 ^ 32 =
          r.mMetadata.mRetransmissionTimeout * 2 ^ i % 2 ^ 32 := by
  intro i
  induction i with
  | zero =>
    intro _ _
    exact ⟨r, rfl, rfl, rfl, hconf, rfl, rfl, rfl, rfl, by simp⟩
  | succ i ih =>
    intro hi hdue
    obtain ⟨ri, h0, h1, h2, h3, h4, h5, h6, h7, h8⟩ :=
      ih (by omega) (fun k hk => hdue k (by omega))
    have hd := hdue i (by omega) ri h0
    have hsub : ri.isAckedSubscription = false := by
      unfold PendingRequest.isAckedSubscription
      rw [h1, h2, h4]
      rcases hobs with h | h
      · rw [h]; simp
      · rw [h]; simp
    have hstep := retransmit_counted hd hsub h3 (by rw [h7]; omega)
    refine ⟨ri.backedOff (envAt i), ?_, h1, h2, h3, h4, h5, h6, ?_, ?_⟩
    · simp only [retransmitN, h0, Option.some_bind, hstep]
    · show ri.mMetadata.mRetransmissionsRemaining - 1 = _
      rw [h7]; omega
    · show ri.mMetadata.mRetransmissionTimeout * 2 % 2 ^ 32 % 2 ^ 32 = _
      rw [Nat.mod_mod]
      exact doubling_mod _ _ _ h8

/-- C30. (1) `HandleRetransmissionTimer` treats a stored request, wherever it is
in the queue, by what `retransmit` returns for it.  (2) For a stored confirmable
request with `mAcknowledged` set that is not an Observe subscription and whose
deadline has passed: while retransmissions remain, the request stays, with
`mRetransmissionsRemaining` decremented, `mRetransmissionTimeout` doubled (in 32
bits) and the deadline moved, and no call is made, so no copy goes to the
transport; when `mRetransmissionsRemaining` is 0 the request is removed and the
only call is its handler with `kErrorResponseTimeout`.  (3) A request stored
with `n` retransmissions remaining that is acknowledged after `j ≤ n` expiries
stays pending, without any call, for `n - j` more expiries and is finalized with
`kErrorResponseTimeout` by the one after: `n + 1` expiries counted from the
send, none of those after the ACK with a retransmission. -/
theorem acknowledged_request_times_out :
    (∀ (env : Env) (s : CoapBase) (pre post : List PendingRequest) (r : PendingRequest),
      s.mPendingRequests = pre ++ r :: post →
      (s.HandleRetransmissionTimer env).mPendingRequests =
          (retransmitLoop env pre).1 ++ (retransmit env r).1.toList ++
            (retransmitLoop env post).1 ∧
        (s.HandleRetransmissionTimer env).mTrace =
          s.mTrace ++ (retransmitLoop env pre).2 ++ (retransmit env r).2 ++
            (retransmitLoop env post).2) ∧
    (∀ (env : Env) (r : PendingRequest),
      r.mMetadata.mNextTimerShot ≤ env.mNow → r.mMetadata.mAcknowledged = true →
      r.mMetadata.mConfirmable = true → (r.mMessage.IsRequest && r.mMetadata.mObserve) = false →
      (r.mMetadata.mRetransmissionsRemaining ≠ 0 →
          retransmit env r = (some (r.backedOff env), [])) ∧
        (r.mMetadata.mRetransmissionsRemaining = 0 →
          retransmit env r =
            (none, handlerCall r.mMetadata none none Error.kErrorResponseTimeout))) ∧
    (∀ (envA envB : Nat → Env) (r0 : PendingRequest) (h ctx n j : Nat),
      r0.mMetadata.mAcknowledged = false → r0.mMetadata.mConfirmable = true →
      (r0.mMessage.IsRequest && r0.mMetadata.mObserve) = false →
      r0.mMetadata.mRetransmissionsRemaining = n →
      r0.mMetadata.mResponseHandler = some h → r0.mMetadata.mResponseContext = ctx →
      j ≤ n →
      (∀ k < j, ∀ r, retransmitN envA r0 k = some r →
        r.mMetadata.mNextTimerShot ≤ (envA k).mNow) →
      ∃ rj, retransmitN envA r0 j = some rj ∧ rj.mMetadata.mAcknowledged = false ∧
        rj.mMetadata.mRetransmissionsRemaining = n - j ∧
        ((∀ k ≤ n - j, ∀ r, retransmitN envB rj.acknowledged k = some r →
            r.mMetadata.mNextTimerShot ≤ (envB k).mNow) →
          (∀ k < n - j, ∃ rk, retransmitN envB rj.acknowledged k = some rk ∧
            rk.mMetadata.mAcknowledged = true ∧
            rk.mMetadata.mRetransmissionsRemaining = n - j - k ∧
            retransmit (envB k) rk = (some (rk.backedOff (envB k)), [])) ∧
          (∃ rl, retransmitN envB rj.acknowledged (n - j) = some rl ∧
            rl.mMetadata.mRetransmissionsRemaining = 0 ∧
            retransmit (envB (n - j)) rl =
              (none, [Event.responseHandler h ctx none none Error.kErrorResponseTimeout])) ∧
          retransmitN envB rj.acknowledged (n - j + 1) = none)) := by
  have part2 : ∀ (env : Env) (r : PendingRequest),
      r.mMetadata.mNextTimerShot ≤ env.mNow → r.mMetadata.mAcknowledged = true →
      r.mMetadata.mConfirmable = true → (r.mMessage.IsRequest && r.mMetadata.mObserve) = false →
      (r.mMetadata.mRetransmissionsRemaining ≠ 0 →
          retransmit env r = (some (r.backedOff env), [])) ∧
        (r.mMetadata.mRetransmissionsRemaining = 0 →
          retransmit env r =
            (none, handlerCall r.mMetadata none none Error.kErrorResponseTimeout)) := by
    intro env r hdue hack hconf hobs
    have hsub : r.isAckedSubscription = false := by
      unfold PendingRequest.isAckedSubscription
      rw [hobs]; rfl
    constructor
    · intro hrem
      rw [retransmit_counted hdue hsub hconf hrem, hack]
      rfl
    · intro hrem
      exact retransmit_exhausted hdue hsub hrem
  refine ⟨fun env s pre post r hp => HandleRetransmissionTimer_at env s pre post r hp, part2, ?_⟩
  intro envA envB r0 h ctx n j hunack hconf hobs hrem hh hc hj hdueA
  obtain ⟨rj, h0, h1, h2, h3, h4, h5, h6, h7, _⟩ :=
    retransmitN_counted envA r0 hconf (Or.inl hunack) j (by omega) hdueA
  refine ⟨rj, h0, by rw [h2]; exact hunack, by rw [h7, hrem], ?_⟩
  intro hdueB
  have hconfA : rj.acknowledged.mMetadata.mConfirmable = true := h3
  have hobsA : (rj.acknowledged.mMessage.IsRequest && rj.acknowledged.mMetadata.mObserve) =
      false := by
    show (rj.mMessage.IsRequest && rj.mMetadata.mObserve) = false
    rw [h1, h4]; exact hobs
  have hremA : rj.acknowledged.mMetadata.mRetransmissionsRemaining = n - j := by
    show rj.mMetadata.mRetransmissionsRemaining = n - j
    rw [h7, hrem]
  have run : ∀ k ≤ n - j, ∃ rk, retransmitN envB rj.acknowledged k = some rk ∧
      rk.mMetadata.mAcknowledged = true ∧ rk.mMetadata.mConfirmable = true ∧
      (rk.mMessage.IsRequest && rk.mMetadata.mObserve) = false ∧
      rk.mMetadata.mResponseHandler = some h ∧ rk.mMetadata.mResponseContext = ctx ∧
      rk.mMetadata.mRetransmissionsRemaining = n - j - k ∧
      rk.mMetadata.mNextTimerShot ≤ (envB k).mNow := by
    intro k hk
    obtain ⟨rk, g0, g1, g2, g3, g4, g5, g6, g7, _⟩ :=
      retransmitN_counted envB rj.acknowledged hconfA (Or.inr hobsA) k (by rw [hremA]; exact hk)
        (fun i hi => hdueB i (by omega))
    refine ⟨rk, g0, by rw [g2]; rfl, g3, ?_, ?_, ?_, by rw [g7, hremA], hdueB k hk rk g0⟩
    · rw [g1, g4]; exact hobsA
    · rw [g5]; show rj.mMetadata.mResponseHandler = some h
      rw [h5]; exact hh
    · rw [g6]; show rj.mMetadata.mResponseContext = ctx
      rw [h6]; exact hc
  refine ⟨?_, ?_, ?_⟩
  · intro k hk
    obtain ⟨rk, g0, gack, gconf, gobs, _, _, grem, gdue⟩ := run k (by omega)
    exact ⟨rk, g0, gack, grem, (part2 (envB k) rk gdue gack gconf gobs).1 (by rw [grem]; omega)⟩
  · obtain ⟨rl, g0, gack, gconf, gobs, gh, gc, grem, gdue⟩ := run (n - j) le_rfl
    have grem0 : rl.mMetadata.mRetransmissionsRemaining = 0 := by rw [grem]; omega
    refine ⟨rl, g0, grem0, ?_⟩
    rw [(part2 (envB (n - j)) rl gdue gack gconf gobs).2 grem0]
    simp [handlerCall, gh, gc]
  · obtain ⟨rl, g0, gack, gconf, gobs, gh, gc, grem, gdue⟩ := run (n - j) le_rfl
    have grem0 : rl.mMetadata.mRetransmissionsRemaining = 0 := by rw [grem]; omega
    simp only [retransmitN, g0, Option.some_bind,
      (part2 (envB (n - j)) rl gdue gack gconf gobs).2 grem0]

/-- C30 at `exampleStored`, acknowledged before its first expiry: the first
timer run leaves it pending without any call, the second finalizes it. -/
theorem acknowledged_request_times_out_witness :
    retransmitN exampleRuns exampleAcknowledged 2 = none ∧
      (exampleWaiting.HandleRetransmissionTimer (exampleRuns 0)).mTrace =
        [Event.send examplePending.mMessage examplePeer] := by
  obtain ⟨rj, h0, _, _, himp⟩ := acknowledged_request_times_out.2.2 exampleRuns exampleRuns
    exampleStored 1 9 1 0 rfl rfl rfl rfl rfl rfl (by decide)
    (fun k hk => absurd hk (Nat.not_lt_zero k))
  have hrj : rj = exampleStored := by
    simp only [retransmitN, Option.some.injEq] at h0
    exact h0.symm
  subst hrj
  refine ⟨(himp ?_).2.2, ?_⟩
  · intro k hk r hr
    have hk1 : k = 0 ∨ k = 1 := by omega
    rcases hk1 with hk0 | hk0
    · subst hk0
      simp only [retransmitN, Option.some.injEq] at hr
      subst hr
      decide
    · subst hk0
      have hrun : retransmitN exampleRuns exampleStored.acknowledged 1 =
          some (exampleStored.acknowledged.backedOff (exampleRuns 0)) := by decide
      rw [hrun] at hr
      simp only [Option.some.injEq] at hr
      subst hr
      decide
  · have ht := (acknowledged_request_times_out.1 (exampleRuns 0) exampleWaiting [examplePending]
      [] exampleAcknowledged rfl).2
    rw [ht]
    decide

/-! ## A response that carries both block options -/

/-- C29 (refuted on the code). The engine `exampleBusy` holds a download request
with a receive hook and another request; the matching piggybacked 2.05 response
`exampleBothBlocks` carries a Block1 option and a Block2 option with the
more-flag clear.  One call of `ProcessReceivedResponse` calls the receive hook
once and then invokes the response handler of the download (handler 1, context
9) twice, each time with `kErrorNone`: `SendNextBlock2Request` finalizes the
transaction, and line 1240 finalizes it again.  `DequeueMessage` runs twice for
the same request; the second time, where the source passes the freed message,
the position names the request behind, which is removed without a handler call. -/
theorem block_response_finalized_twice :
    blockOptionType exampleBothBlocks = 3 ∧
      exampleBusy.FindRelatedRequest exampleBothBlocks examplePeer =
        some (0, exampleDownload 7 [1, 2] [{ mNumber := kOptionUriPath, mValue := [97] }]) ∧
      receiveHookCalls (exampleBusy.ProcessReceivedResponse Config.openthread (Env.allOk 300 0)
        exampleBothBlocks examplePeer).mTrace = [(0, 10, false)] ∧
      handlerCalls (exampleBusy.ProcessReceivedResponse Config.openthread (Env.allOk 300 0)
        exampleBothBlocks examplePeer).mTrace =
        [(1, 9, Error.kErrorNone), (1, 9, Error.kErrorNone)] ∧
      sentMessages (exampleBusy.ProcessReceivedResponse Config.openthread (Env.allOk 300 0)
        exampleBothBlocks examplePeer).mTrace = [] ∧
      (exampleBusy.ProcessReceivedResponse Config.openthread (Env.allOk 300 0)
        exampleBothBlocks examplePeer).mPendingRequests = [] := by
  decide

/-- A second way to a double `DequeueMessage`: the response `exampleMoreBlocks`
asks for one more block, `SendNextBlock2Request` dequeues the request and the
transport refuses the next request; the transaction is then finalized with the
error of the transport, which dequeues once more.  The handler of the download
is invoked once, and the request behind it is removed without a handler call. -/
theorem block_request_dequeued_twice :
    blockOptionType exampleMoreBlocks = 2 ∧
      handlerCalls (exampleBusy.ProcessReceivedResponse Config.openthread (Env.sendFails 300 0)
        exampleMoreBlocks examplePeer).mTrace = [(1, 9, Error.kErrorNoBufs)] ∧
      (exampleBusy.ProcessReceivedResponse Config.openthread (Env.sendFails 300 0)
        exampleMoreBlocks examplePeer).mPendingRequests = [] := by
  decide

/-- `SendNextBlock2Request` on a response with the last block finalizes the
transaction, whether or not a Block1 transfer begins. -/
theorem SendNextBlock2Request_last_any (cfg : Config) (env : Env) (s : CoapBase) (i : Nat)
    (old : PendingRequest) (m : Message) (info : MessageInfo) (md : Metadata) (hook : Nat)
    (o : CoapOption) (b : Bool)
    (hopt : m.findOption kOptionBlock2 = some o) (hlen : o.GetLength ≤ 3)
    (hbytes : ∀ x ∈ o.mValue, x < 256)
    (hL : m.mPayload.length ≤ 2 ^ (blockSizeOf o + 4)) (hL2 : m.mPayload.length ≤ kMaxBlockLength)
    (hrecv : env.mReceiveHook hook md.mResponseContext m.mPayload
      (2 ^ (blockSizeOf o + 4) * blockNumberOf o) (blockMoreOf o) 0 = Error.kErrorNone)
    (hmore : blockMoreOf o = false) :
    s.SendNextBlock2Request cfg env i old m info md hook 0 b =
      (Error.kErrorNone,
        (s.emit [Event.receiveHook hook md.mResponseContext m.mPayload
          (2 ^ (blockSizeOf o + 4) * blockNumberOf o) false 0]).FinalizeCoapTransaction env i md
            (some (withBlockValues m o)) (some info) Error.kErrorNone,
        withBlockValues m o) := by
  have hms := ReadBlockOptionValues_some (Or.inr rfl) hopt hlen
  have hpos : otCoapBlockSizeFromExponent (blockSizeOf o) * blockNumberOf o % 2 ^ 32 =
      2 ^ (blockSizeOf o + 4) * blockNumberOf o :=
    Nat.mod_eq_of_lt (block_position_lt o hlen hbytes).2
  have hfit : ¬ (otCoapBlockSizeFromExponent (blockSizeOf o) < m.mPayload.length ∨
      kMaxBlockLength < m.mPayload.length) := by
    unfold otCoapBlockSizeFromExponent
    omega
  rw [hmore] at hrecv
  unfold CoapBase.SendNextBlock2Request
  simp only [hms, withBlockValues, ne_eq, not_true_eq_false, if_false, hfit, hpos, hrecv, hmore,
    Bool.not_false, if_true]

/-- Every piggybacked response with a code below 4.00 that carries a Block1
option and a Block2 option with the more-flag clear, for a stored request with a
receive hook that accepts the block: `ProcessReceivedResponse` finalizes the
transaction twice, so the handler of the request, when set, is invoked twice
with `kErrorNone`. -/
theorem both_blocks_finalized_twice (cfg : Config) (env : Env) (s : CoapBase) (m : Message)
    (info : MessageInfo) (i : Nat) (r : PendingRequest) (hook h : Nat) (o : CoapOption)
    (hfind : s.FindRelatedRequest m info = some (i, r))
    (hack : m.mType = CoapType.kTypeAck)
    (hcode1 : kCodeResponseMin ≤ m.mCode) (hcode2 : m.mCode < kCodeBadRequest)
    (htoken : m.IsTokenEqual r.mMessage = true)
    (hnotif : (r.mMetadata.mObserve && (m.findOption kOptionObserve).isSome) = false)
    (hhook : r.mMetadata.mBlockwiseReceiveHook = some hook)
    (hhandler : r.mMetadata.mResponseHandler = some h)
    (hbt : blockOptionType m = 3)
    (hopt : m.findOption kOptionBlock2 = some o) (hlen : o.GetLength ≤ 3)
    (hbytes : ∀ x ∈ o.mValue, x < 256)
    (hL : m.mPayload.length ≤ 2 ^ (blockSizeOf o + 4)) (hL2 : m.mPayload.length ≤ kMaxBlockLength)
    (hrecv : env.mReceiveHook hook r.mMetadata.mResponseContext m.mPayload
      (2 ^ (blockSizeOf o + 4) * blockNumberOf o) (blockMoreOf o) 0 = Error.kErrorNone)
    (hmore : blockMoreOf o = false) :
    s.ProcessReceivedResponse cfg env m info =
        ((s.emit [Event.receiveHook hook r.mMetadata.mResponseContext m.mPayload
          (2 ^ (blockSizeOf o + 4) * blockNumberOf o) false 0]).FinalizeCoapTransaction env i
            r.mMetadata (some (withBlockValues m o)) (some info)
            Error.kErrorNone).FinalizeCoapTransaction env i r.mMetadata
              (some (withBlockValues m o)) (some info) Error.kErrorNone ∧
      (s.ProcessReceivedResponse cfg env m info).mTrace =
        s.mTrace ++
          [Event.receiveHook hook r.mMetadata.mResponseContext m.mPayload
            (2 ^ (blockSizeOf o + 4) * blockNumberOf o) false 0,
           Event.responseHandler h r.mMetadata.mResponseContext (some (withBlockValues m o))
             (some info) Error.kErrorNone,
           Event.responseHandler h r.mMetadata.mResponseContext (some (withBlockValues m o))
             (some info) Error.kErrorNone] ∧
      (s.ProcessReceivedResponse cfg env m info).mPendingRequests =
        (s.mPendingRequests.eraseIdx i).eraseIdx i := by
  have hne : m.IsEmpty = false := by
    simp only [Message.IsEmpty, kCodeEmpty, beq_eq_false_iff_ne, ne_eq]
    unfold kCodeResponseMin at hcode1
    omega
  have hresp : m.IsResponse = true := by simp [Message.IsResponse, hcode1]
  have hn2 : (r.mMetadata.mObserve &&
      (r.mMetadata.mObserve && r.mMessage.IsRequest && (m.findOption kOptionObserve).isSome) &&
      r.mMetadata.mResponseHandler.isSome) = false := by
    cases hob : r.mMetadata.mObserve
    · simp
    · rw [hob] at hnotif
      simp only [Bool.true_and] at hnotif
      simp [hnotif]
  have hlast := SendNextBlock2Request_last_any cfg env s i r m info r.mMetadata hook o
    true hopt hlen hbytes hL hL2 hrecv hmore
  have heq : s.ProcessReceivedResponse cfg env m info =
      ((s.emit [Event.receiveHook hook r.mMetadata.mResponseContext m.mPayload
        (2 ^ (blockSizeOf o + 4) * blockNumberOf o) false 0]).FinalizeCoapTransaction env i
          r.mMetadata (some (withBlockValues m o)) (some info)
          Error.kErrorNone).FinalizeCoapTransaction env i r.mMetadata
            (some (withBlockValues m o)) (some info) Error.kErrorNone := by
    unfold CoapBase.ProcessReceivedResponse
    simp only [hfind, hack, hne, hresp, htoken, hn2, Bool.and_self, Bool.false_eq_true, if_false,
      if_true]
    unfold CoapBase.piggybacked
    simp only [hhook, Option.isSome_some, Bool.or_true, if_true, hbt, hcode2, hlast]
  refine ⟨heq, ?_, ?_⟩
  · rw [heq]
    simp [FinalizeCoapTransaction_trace, handlerCall, hhandler, CoapBase.emit]
  · rw [heq]
    simp [FinalizeCoapTransaction_pending, CoapBase.emit]

/-! ## A handler that calls back into the engine -/

/-- After a handler that calls `AbortTransaction` with its own handler and
context, no buffer is left at the address of its request, so the metadata update
that follows the handler call does not reach a stored request. -/
theorem notifyAndUpdate_after_abort (q : List StoredRequest) (b : StoredRequest)
    (hb : b ∈ q) (hnodup : (q.map (fun x => x.mAddress)).Nodup) :
    notifyAndUpdate q b.mAddress b.mRequest.mMetadata
      (abortStored b.mRequest.mMetadata.mResponseHandler
        b.mRequest.mMetadata.mResponseContext) = none := by
  unfold notifyAndUpdate updateInAt
  rw [if_neg]
  intro hany
  rw [List.any_eq_true] at hany
  obtain ⟨x, hx, hax⟩ := hany
  unfold abortStored at hx
  obtain ⟨hxq, hkeep⟩ := List.mem_filter.mp hx
  have hxb : x = b := by
    have hinj := List.inj_on_of_nodup_map hnodup hxq hb
    exact hinj (by simpa using hax)
  rw [hxb] at hkeep
  simp at hkeep

/-- C28 (refuted on the code). The stored subscription `exampleObserved` gets the
piggybacked notification `exampleNotification`: `ProcessReceivedResponse` takes
the branch of lines 1159 to 1167, calls the handler and then writes the metadata
with `mAcknowledged` set to the request.  With a handler that does not call back
the write reaches the stored request.  With a handler that calls
`AbortTransaction` for its own handler and context, the request (here at address
100) is dequeued and freed during the handler call, and the write that follows
finds no stored request at that address: the update is applied to an entry that
no longer exists. -/
theorem notification_updates_freed_request :
    (exampleObserving.ProcessReceivedResponse Config.openthread (Env.allOk 300 0)
        exampleNotification examplePeer).mTrace =
        [Event.responseHandler 1 9 (some exampleNotification) (some examplePeer)
          Error.kErrorNone] ∧
      (exampleObserving.ProcessReceivedResponse Config.openthread (Env.allOk 300 0)
        exampleNotification examplePeer).mPendingRequests = [exampleObserved.acknowledged] ∧
      notifyAndUpdate [{ mAddress := 100, mRequest := exampleObserved },
          { mAddress := 200, mRequest := exampleOther }] 100 exampleObserved.mMetadata
        (fun q => q) =
        some [{ mAddress := 100, mRequest := exampleObserved.acknowledged },
          { mAddress := 200, mRequest := exampleOther }] ∧
      abortStored (some 1) 9 [{ mAddress := 100, mRequest := exampleObserved },
          { mAddress := 200, mRequest := exampleOther }] =
        [{ mAddress := 200, mRequest := exampleOther }] ∧
      notifyAndUpdate [{ mAddress := 100, mRequest := exampleObserved },
          { mAddress := 200, mRequest := exampleOther }] 100 exampleObserved.mMetadata
        (abortStored (some 1) 9) = none := by
  decide

/-- C23 at the request `exampleRequest` sent from the initial state at time 100,
and at a timer run on the engine `exampleThree` at time 2000. -/
theorem retransmission_timer_rescheduled_witness :
    TimerScheduled 100
        ((CoapBase.init 7).SendMessage Config.openthread (Env.allOk 100 0) exampleRequest
          examplePeer exampleTx (some 1) 9 none none).2 ∧
      TimerScheduled 2000 (exampleThree.HandleRetransmissionTimer (Env.allOk 2000 0)) :=
  ⟨((retransmission_timer_rescheduled Config.openthread (Env.allOk 100 0) (CoapBase.init 7)).1
      exampleRequest examplePeer exampleTx (some 1) 9 none none).2 (Or.inl rfl) rfl,
    (retransmission_timer_rescheduled Config.openthread (Env.allOk 2000 0) exampleThree).2.2.2.1⟩

end Coap
